import Mathlib

/-!
# The query-string parser (`package querystr`)

A shallow embedding of `parser.go` and of the generated `query_string.y.go`,
and theorems about what they compute.

Conventions of the embedding.

* A Go string is a Lean `String`; the byte-level operations the program uses
  (`HasPrefix`, `HasSuffix`, `ContainsAny`, slicing off the first and the last
  byte) are done on its list of characters; they are only ever applied at the
  one-byte characters `/`, `*` and `?`.
* A Go `float64` is a `Float64`: its finite values are kept by their exact
  rational value (so `-0` and `0` are one value, as for Go's `==`).
* A Go pair `(value, error)` is an `Except String value`, the string being the
  text of the error; a run-time panic is an `Except Panic value`.
* Queries of the `bluge` library are immutable values: the program never keeps
  a second reference to a query it mutates.
* What the Go standard library computes outside of the fragment modelled here
  is a field of `GoLib`, and every definition takes the library as an argument.
-/

namespace QueryString

/-! ## Go values -/

/-- A `float64`: a finite value (by its exact rational value), an infinity or a NaN. -/
inductive Float64 where
  | fin (q : ℚ)
  | posInf
  | negInf
  | nan
  deriving DecidableEq

/-- The float64 of a natural number that is exactly representable. -/
def Float64.ofNat (n : Nat) : Float64 := Float64.fin (n : ℚ)

/-- Unary minus on a `float64`. -/
def Float64.neg : Float64 → Float64
  | Float64.fin q => Float64.fin (-q)
  | Float64.posInf => Float64.negInf
  | Float64.negInf => Float64.posInf
  | Float64.nan => Float64.nan

/-- The constant `math.Inf(1)`, which `bluge` exports as `MaxNumeric`. -/
def MaxNumeric : Float64 := Float64.posInf

/-- The constant `math.Inf(-1)`, which `bluge` exports as `MinNumeric`. -/
def MinNumeric : Float64 := Float64.negInf

/-- A `time.Time`, by the three fields of the Go struct. -/
structure Time where
  wall : Nat
  ext : Int
  loc : Option String
  deriving DecidableEq

/-- The zero value `time.Time{}`. -/
def Time.zero : Time := { wall := 0, ext := 0, loc := none }

/-- The value carried by a run-time panic, as `%v` prints it. -/
structure Panic where
  msg : String
  deriving DecidableEq

/-- The two errors of `strconv.ParseFloat`. -/
inductive NumErrKind where
  | ErrSyntax
  | ErrRange
  deriving DecidableEq

/-- A `*strconv.NumError`. -/
structure NumError where
  func : String
  num : String
  err : NumErrKind
  deriving DecidableEq

/-- What the Go standard library does outside of the fragment modelled in this file. -/
structure GoLib where
  /-- `strconv.ParseFloat(s, 64)` on a text that holds an ASCII letter or an underscore
  (an exponent, a hexadecimal float, `inf`, `nan`, digit separators, or none of these). -/
  parseFloatLettered : String → Except NumError Float64
  /-- `strconv.Quote`. -/
  quote : String → String
  /-- `time.Parse(layout, value)`; the error is given by its text. -/
  timeParse : String → String → Except String Time
  /-- `strings.ToLower`. -/
  toLower : String → String
  /-- `int(f)` for an `f` that an `int` cannot hold: the result depends on the platform. -/
  intOutOfRange : Float64 → Int
  /-- `fmt.Sprintf(format)` without arguments, for a format that starts with a `%` followed
  by a flag, an argument index, a width or a precision. -/
  sprintfVerbs : String → String

/-! ### `strconv.ParseFloat` on plain decimal texts -/

/-- A decimal digit. -/
def isDigit (c : Char) : Bool := decide ('0' ≤ c) && decide (c ≤ '9')

/-- An ASCII letter or an underscore. -/
def isLetter (c : Char) : Bool :=
  (decide ('a' ≤ c) && decide (c ≤ 'z')) || (decide ('A' ≤ c) && decide (c ≤ 'Z')) || c == '_'

/-- The number written by a list of decimal digits. -/
def decVal (ds : List Char) : Nat :=
  ds.foldl (fun a c => 10 * a + (c.toNat - 48)) 0

/-- Reads `digits`, `digits.`, `.digits` or `digits.digits`: the digits read as one
number, and how many of them follow the point. -/
def plainDecimal (cs : List Char) : Option (Nat × Nat) :=
  let ip := cs.takeWhile isDigit
  match cs.dropWhile isDigit with
  | [] => if ip = [] then none else some (decVal ip, 0)
  | c :: r =>
    if c = '.' then
      let fp := r.takeWhile isDigit
      if r.dropWhile isDigit = [] ∧ ¬ (ip = [] ∧ fp = []) then
        some (decVal (ip ++ fp), fp.length)
      else none
    else none

/-- Whether `2 ^ e ≤ a / b`. -/
def pow2Le (e : Int) (a b : Nat) : Bool :=
  if 0 ≤ e then decide (2 ^ e.toNat * b ≤ a) else decide (b ≤ a * 2 ^ (-e).toNat)

/-- The binary exponent of `a / b`: the `e` with `2 ^ e ≤ a / b < 2 ^ (e + 1)`, for positive
`a` and `b`. -/
def binExp (a b : Nat) : Int :=
  let e0 : Int := (Nat.log2 a : Int) - (Nat.log2 b : Int)
  if pow2Le e0 a b then e0 else e0 - 1

/-- The integer nearest to `a / b`, ties going to the even one. -/
def roundHalfEven (a b : Nat) : Nat :=
  let q := a / b
  let r := a % b
  if 2 * r < b then q else if b < 2 * r then q + 1 else if q % 2 = 0 then q else q + 1

/-- The float64 nearest to `a / b` (IEEE 754 round to nearest even, with subnormals), or
`none` when that is an infinity. -/
def roundFloat64 (a b : Nat) : Option ℚ :=
  if a = 0 then some 0
  else
    let e : Int := max (binExp a b) (-1022)
    let k : Int := e - 52
    if 0 ≤ k then
      let m := roundHalfEven a (b * 2 ^ k.toNat)
      if 2 ^ 1024 ≤ m * 2 ^ k.toNat then none else some ((m * 2 ^ k.toNat : Nat) : ℚ)
    else
      let m := roundHalfEven (a * 2 ^ (-k).toNat) b
      some ((m : ℚ) / ((2 ^ (-k).toNat : Nat) : ℚ))

/-- The float64 of the decimal `mant / 10 ^ fd`. An integer below `2 ^ 53` is converted
exactly (`atof64exact`); every other value is rounded to the nearest float64. -/
def decimalToFloat64 (mant fd : Nat) : Option ℚ :=
  if fd = 0 ∧ mant < 2 ^ 53 then some (mant : ℚ) else roundFloat64 mant (10 ^ fd)

/-- Strips the optional sign of a number. -/
def splitSign : List Char → Bool × List Char
  | c :: r => if c = '-' then (true, r) else if c = '+' then (false, r) else (false, c :: r)
  | [] => (false, [])

/-- The function `strconv.ParseFloat(s, 64)`. A text without letters and underscores is a
number exactly when it is an optional sign and a plain decimal; the value is then the nearest
float64, and `ErrRange` when that is an infinity. -/
def ParseFloat (lib : GoLib) (s : String) : Except NumError Float64 :=
  if s.data.any isLetter then lib.parseFloatLettered s
  else
    match plainDecimal (splitSign s.data).2 with
    | none => .error { func := "ParseFloat", num := s, err := NumErrKind.ErrSyntax }
    | some (mant, fd) =>
      match decimalToFloat64 mant fd with
      | none => .error { func := "ParseFloat", num := s, err := NumErrKind.ErrRange }
      | some q => .ok (Float64.fin (if (splitSign s.data).1 then -q else q))

/-- The method `(*NumError).Error`. -/
def NumError.Error (lib : GoLib) (e : NumError) : String :=
  "strconv." ++ e.func ++ ": parsing " ++ lib.quote e.num ++ ": " ++
    (match e.err with
     | NumErrKind.ErrSyntax => "invalid syntax"
     | NumErrKind.ErrRange => "value out of range")

/-- The conversion `int(f)` on a 64-bit platform: truncation towards zero. -/
def Float64.toInt (lib : GoLib) (f : Float64) : Int :=
  match f with
  | Float64.fin q =>
    let t := Int.tdiv q.num (q.den : Int)
    if -(2 ^ 63 : Int) ≤ t ∧ t < (2 ^ 63 : Int) then t else lib.intOutOfRange f
  | _ => lib.intOutOfRange f

/-! ## The queries of the `bluge` library -/

/-- The type `bluge.MatchQueryOperator`. -/
inductive MatchQueryOperator where
  | MatchQueryOperatorOr
  | MatchQueryOperatorAnd
  deriving DecidableEq

/-- A value of the interface `bluge.Query`, as far as the parser builds them. The fields a
constructor lists are those of the Go struct that the parser sets; a `boost` is the pointer
field of that name, `none` while unset. The three `nil...` values are the nil pointers the
builders return beside an error, and `nil` is the nil interface. -/
inductive Query where
  | nil
  | nilMatch
  | nilNumericRange
  | nilDateRange
  | MatchNoneQuery
  | MatchQuery (matchText field : String) (boost : Option Float64) (fuzziness : Int)
      (operator : MatchQueryOperator)
  | MatchPhraseQuery (matchPhrase field : String) (boost : Option Float64)
  | TermQuery (term field : String) (boost : Option Float64)
  | RegexpQuery (regexp field : String) (boost : Option Float64)
  | WildcardQuery (wildcard field : String) (boost : Option Float64)
  | NumericRangeQuery (min max : Float64) (inclusiveMin inclusiveMax : Bool) (field : String)
      (boost : Option Float64)
  | DateRangeQuery (start finish : Time) (inclusiveStart inclusiveEnd : Bool) (field : String)
      (boost : Option Float64)
  | BooleanQuery (musts shoulds mustNots : List Query) (boost : Option Float64)
      (minShould : Int)

/-- A `*bluge.BooleanQuery` that is known to be one: the root the parser fills. -/
structure BooleanQuery where
  musts : List Query
  shoulds : List Query
  mustNots : List Query
  boost : Option Float64
  minShould : Int

/-- The root as a `bluge.Query`. -/
def BooleanQuery.toQuery (b : BooleanQuery) : Query :=
  Query.BooleanQuery b.musts b.shoulds b.mustNots b.boost b.minShould

/-- The constructor `bluge.NewBooleanQuery()`. -/
def NewBooleanQuery : BooleanQuery :=
  { musts := [], shoulds := [], mustNots := [], boost := none, minShould := 0 }

/-- The method `AddMust`. -/
def BooleanQuery.AddMust (b : BooleanQuery) (m : List Query) : BooleanQuery :=
  { b with musts := b.musts ++ m }

/-- The method `AddShould`. -/
def BooleanQuery.AddShould (b : BooleanQuery) (m : List Query) : BooleanQuery :=
  { b with shoulds := b.shoulds ++ m }

/-- The method `AddMustNot`. -/
def BooleanQuery.AddMustNot (b : BooleanQuery) (m : List Query) : BooleanQuery :=
  { b with mustNots := b.mustNots ++ m }

/-- The method `SetMinShould`. -/
def BooleanQuery.SetMinShould (b : BooleanQuery) (k : Int) : BooleanQuery :=
  { b with minShould := k }

/-- The constructor `bluge.NewMatchQuery(match)`: operator `Or`, nothing else set. -/
def NewMatchQuery (matchText : String) : Query :=
  Query.MatchQuery matchText "" none 0 MatchQueryOperator.MatchQueryOperatorOr

/-- The constructor `bluge.NewNumericRangeInclusiveQuery`. -/
def NewNumericRangeInclusiveQuery (min max : Float64) (minInclusive maxInclusive : Bool) :
    Query :=
  Query.NumericRangeQuery min max minInclusive maxInclusive "" none

/-- The constructor `bluge.NewDateRangeInclusiveQuery`. -/
def NewDateRangeInclusiveQuery (start finish : Time) (startInclusive endInclusive : Bool) :
    Query :=
  Query.DateRangeQuery start finish startInclusive endInclusive "" none

/-- The methods `SetField` of the query types that have one. -/
def Query.SetField : Query → String → Query
  | Query.MatchQuery m _ b fz op, f => Query.MatchQuery m f b fz op
  | Query.MatchPhraseQuery m _ b, f => Query.MatchPhraseQuery m f b
  | Query.TermQuery t _ b, f => Query.TermQuery t f b
  | Query.RegexpQuery r _ b, f => Query.RegexpQuery r f b
  | Query.WildcardQuery w _ b, f => Query.WildcardQuery w f b
  | Query.NumericRangeQuery lo hi il ih _ b, f => Query.NumericRangeQuery lo hi il ih f b
  | Query.DateRangeQuery s e il ih _ b, f => Query.DateRangeQuery s e il ih f b
  | q, _ => q

/-- The method `(*MatchQuery).SetOperator`. -/
def Query.SetOperator : Query → MatchQueryOperator → Query
  | Query.MatchQuery m f b fz _, op => Query.MatchQuery m f b fz op
  | q, _ => q

/-- The method `(*MatchQuery).SetFuzziness`. -/
def Query.SetFuzziness : Query → Int → Query
  | Query.MatchQuery m f b _ op, fz => Query.MatchQuery m f b fz op
  | q, _ => q

/-- The value of a `*boost`: 1 for the nil pointer. -/
def boostValue : Option Float64 → Float64
  | none => Float64.ofNat 1
  | some b => b

/-! ## Options and the lexer wrapper -/

/-- A `*log.Logger` that is not nil. -/
structure Logger where
  id : Nat
  deriving DecidableEq

/-- The struct `QueryStringOptions`. A `termFields` map is given by its lookup function,
`none` being the nil map. -/
structure QueryStringOptions where
  debugParser : Bool
  debugLexer : Bool
  dateFormat : String
  logger : Option Logger
  termFields : Option (String → Bool)
  lowerFields : Bool

/-- The function `DefaultOptions`; the date format is `time.RFC3339`. -/
def DefaultOptions : QueryStringOptions :=
  { debugParser := false, debugLexer := false, dateFormat := "2006-01-02T15:04:05Z07:00",
    logger := none, termFields := none, lowerFields := false }

/-- The method `WithDebugParser`. -/
def QueryStringOptions.WithDebugParser (o : QueryStringOptions) (debug : Bool) :
    QueryStringOptions := { o with debugParser := debug }

/-- The method `WithDebugLexer`. -/
def QueryStringOptions.WithDebugLexer (o : QueryStringOptions) (debug : Bool) :
    QueryStringOptions := { o with debugLexer := debug }

/-- The method `WithDateFormat`. -/
def QueryStringOptions.WithDateFormat (o : QueryStringOptions) (dateFormat : String) :
    QueryStringOptions := { o with dateFormat := dateFormat }

/-- The method `WithLogger`. -/
def QueryStringOptions.WithLogger (o : QueryStringOptions) (logger : Option Logger) :
    QueryStringOptions := { o with logger := logger }

/-- The method `WithTermFields`. -/
def QueryStringOptions.WithTermFields (o : QueryStringOptions)
    (fields : Option (String → Bool)) : QueryStringOptions := { o with termFields := fields }

/-- The method `WithLowercaseFields`. -/
def QueryStringOptions.WithLowercaseFields (o : QueryStringOptions) : QueryStringOptions :=
  { o with lowerFields := true }

/-- The struct `yySymType`. -/
structure yySymType where
  yys : Int
  s : String
  n : Int
  f : Float64
  q : Query
  pf : Option Float64

/-- The zero value of `yySymType`. -/
def yySymType.zero : yySymType :=
  { yys := 0, s := "", n := 0, f := Float64.ofNat 0, q := Query.nil, pf := none }

/-- The token kinds of `query_string.y.go`, `tSTRING` to `tQUESTION`. -/
inductive TokKind where
  | tSTRING
  | tPHRASE
  | tPLUS
  | tMINUS
  | tCOLON
  | tBOOST
  | tNUMBER
  | tGREATER
  | tLESS
  | tEQUAL
  | tTILDE
  | tQUESTION
  deriving DecidableEq

/-- The constants `tSTRING = 57346` to `tQUESTION = 57357`. -/
def TokKind.code : TokKind → Int
  | TokKind.tSTRING => 57346
  | TokKind.tPHRASE => 57347
  | TokKind.tPLUS => 57348
  | TokKind.tMINUS => 57349
  | TokKind.tCOLON => 57350
  | TokKind.tBOOST => 57351
  | TokKind.tNUMBER => 57352
  | TokKind.tGREATER => 57353
  | TokKind.tLESS => 57354
  | TokKind.tEQUAL => 57355
  | TokKind.tTILDE => 57356
  | TokKind.tQUESTION => 57357

/-- Modelled from the spec: the lexer `queryStringLex` (spec sections 3 and 4.2) is not among
the source files, so it is given by what the calls of its `Lex` do, one item a step: `tok`
delivers a token (`Lex` returns the code of the kind and stores the payload in `lval.s`, the
rest of `lval` zero), and `err` reports a lexical error through the lexer's own `Error`
method, after which the same call goes on to the next item. At the end of the list `Lex`
returns 0 and leaves `lval` alone. -/
inductive LexItem where
  | tok (kind : TokKind) (s : String)
  | err (msg : String)
  deriving DecidableEq

/-- Modelled from the spec: the method `Error` of the lexer `queryStringLex`, which the
semantic actions call and which is not among the source files. The spec has errors
accumulated while parsing goes on (`records`: the message joins the errors of the wrapper);
the wrapper can only learn of such an error when the method raises it (`panics`: the message
is the value of a panic, which `doParse` recovers). -/
inductive LexErrorMode where
  | records
  | panics
  deriving DecidableEq

/-- The struct `lexerWrapper`. Its `lex` is what the inner lexer has yet to deliver. -/
structure lexerWrapper where
  lex : List LexItem
  errs : List String
  query : BooleanQuery
  options : QueryStringOptions
  debugParser : Bool
  dateFormat : String
  logger : Option Logger

/-- The function `newLexerWrapper`. -/
def newLexerWrapper (lex : List LexItem) (options : QueryStringOptions) : lexerWrapper :=
  { lex := lex
    errs := []
    query := NewBooleanQuery.SetMinShould 1
    options := options
    debugParser := options.debugParser
    dateFormat := options.dateFormat
    logger := options.logger }

/-- The method `(*lexerWrapper).Error`. -/
def lexerWrapper.Error (l : lexerWrapper) (s : String) : lexerWrapper :=
  { l with errs := l.errs ++ [s] }

/-- The panic of a method call through a nil pointer. -/
def nilDereference : Panic :=
  { msg := "runtime error: invalid memory address or nil pointer dereference" }

/-- The method `logDebugGrammarf`: what is printed is not kept, but printing through a nil
logger panics. -/
def lexerWrapper.logDebugGrammarf (l : lexerWrapper) : Except Panic Unit :=
  if l.debugParser then
    match l.logger with
    | none => .error nilDereference
    | some _ => .ok ()
  else .ok ()

/-- The method `fieldname`. -/
def lexerWrapper.fieldname (lib : GoLib) (l : lexerWrapper) (s : String) : String :=
  if l.options.lowerFields then lib.toLower s else s

/-- The lookup `termFields != nil && termFields[field]`. -/
def isTermField (termFields : Option (String → Bool)) (field : String) : Bool :=
  match termFields with
  | none => false
  | some m => m field

/-! ## The semantic builders of `parser.go` -/

/-- The function `queryTimeFromString`. -/
def queryTimeFromString (lib : GoLib) (yylex : lexerWrapper) (t : String) :
    Except String Time :=
  match lib.timeParse yylex.dateFormat t with
  | .error err => .error err
  | .ok rv => .ok rv

/-- The slice `str[1 : len(str)-1]` of a string that starts and ends with a one-byte
character: it panics when the string is that one byte. -/
def sliceInner (str : String) : Except Panic String :=
  if str.data.length < 2 then
    .error { msg := "runtime error: slice bounds out of range [1:0]" }
  else .ok (String.mk (str.data.tail.dropLast))

/-- The function `queryStringStringToken`. -/
def queryStringStringToken (yylex : lexerWrapper) (field str : String) : Except Panic Query :=
  if str.data.head? = some '/' ∧ str.data.getLast? = some '/' then
    match sliceInner str with
    | .error p => .error p
    | .ok inner => .ok ((Query.RegexpQuery inner "" none).SetField field)
  else if str.data.any (fun c => c == '*' || c == '?') then
    .ok ((Query.WildcardQuery str "" none).SetField field)
  else if isTermField yylex.options.termFields field then
    .ok ((Query.TermQuery str "" none).SetField field)
  else if str = "true" then
    .ok ((NewNumericRangeInclusiveQuery (Float64.ofNat 1) (Float64.ofNat 1) true true).SetField
      field)
  else if str = "false" then
    .ok ((NewNumericRangeInclusiveQuery (Float64.ofNat 0) (Float64.ofNat 0) true true).SetField
      field)
  else
    .ok (((NewMatchQuery str).SetField field).SetOperator
      MatchQueryOperator.MatchQueryOperatorAnd)

/-- The function `queryStringStringTokenFuzzy`. -/
def queryStringStringTokenFuzzy (lib : GoLib) (field str fuzziness : String) :
    Except String Query :=
  match ParseFloat lib fuzziness with
  | .error err => .error ("invalid fuzziness value: " ++ err.Error lib)
  | .ok fuzzy => .ok (((NewMatchQuery str).SetFuzziness (fuzzy.toInt lib)).SetField field)

/-- The function `queryStringNumberToken`. -/
def queryStringNumberToken (lib : GoLib) (field str : String) : Except String Query :=
  let q1 := (NewMatchQuery str).SetField field
  match ParseFloat lib str with
  | .error err => .error ("error parsing number: " ++ err.Error lib)
  | .ok val =>
    let q2 := (NewNumericRangeInclusiveQuery val val true true).SetField field
    .ok ((NewBooleanQuery.AddShould [q1, q2]).SetMinShould 1).toQuery

/-- The function `queryStringPhraseToken`. -/
def queryStringPhraseToken (yylex : lexerWrapper) (field str : String) : Query :=
  if isTermField yylex.options.termFields field then
    (Query.TermQuery str "" none).SetField field
  else if field = "" then
    ((NewBooleanQuery.AddShould
      [Query.MatchPhraseQuery str "" none, Query.TermQuery str "" none]).SetMinShould 1).toQuery
  else (Query.MatchPhraseQuery str "" none).SetField field

/-- The function `queryStringNumericRangeGreaterThanOrEqual`. -/
def queryStringNumericRangeGreaterThanOrEqual (lib : GoLib) (field str : String)
    (orEqual : Bool) : Except String Query :=
  match ParseFloat lib str with
  | .error err => .error ("error parsing number: " ++ err.Error lib)
  | .ok min => .ok ((NewNumericRangeInclusiveQuery min MaxNumeric orEqual true).SetField field)

/-- The function `queryStringNumericRangeLessThanOrEqual`. -/
def queryStringNumericRangeLessThanOrEqual (lib : GoLib) (field str : String)
    (orEqual : Bool) : Except String Query :=
  match ParseFloat lib str with
  | .error err => .error ("error parsing number: " ++ err.Error lib)
  | .ok max => .ok ((NewNumericRangeInclusiveQuery MinNumeric max true orEqual).SetField field)

/-- The function `queryStringDateRangeGreaterThanOrEqual`. -/
def queryStringDateRangeGreaterThanOrEqual (lib : GoLib) (yylex : lexerWrapper)
    (field phrase : String) (orEqual : Bool) : Except String Query :=
  match queryTimeFromString lib yylex phrase with
  | .error err => .error ("invalid time: " ++ err)
  | .ok minTime =>
    .ok ((NewDateRangeInclusiveQuery minTime Time.zero orEqual true).SetField field)

/-- The function `queryStringDateRangeLessThanOrEqual`. -/
def queryStringDateRangeLessThanOrEqual (lib : GoLib) (yylex : lexerWrapper)
    (field phrase : String) (orEqual : Bool) : Except String Query :=
  match queryTimeFromString lib yylex phrase with
  | .error err => .error ("invalid time: " ++ err)
  | .ok maxTime =>
    .ok ((NewDateRangeInclusiveQuery Time.zero maxTime true orEqual).SetField field)

/-- The constant `noBoost`. -/
def noBoost : Float64 := Float64.ofNat 1

/-- The function `queryStringParseBoost`. -/
def queryStringParseBoost (lib : GoLib) (str : String) : Except String Float64 :=
  match ParseFloat lib str with
  | .error err => .error ("invalid boost value: " ++ err.Error lib)
  | .ok boost => .ok boost

/-- How `%T` prints the dynamic type of a query. -/
def Query.typeName : Query → String
  | Query.nil => "<nil>"
  | Query.nilMatch => "*bluge.MatchQuery"
  | Query.nilNumericRange => "*bluge.NumericRangeQuery"
  | Query.nilDateRange => "*bluge.DateRangeQuery"
  | Query.MatchNoneQuery => "*bluge.MatchNoneQuery"
  | Query.MatchQuery _ _ _ _ _ => "*bluge.MatchQuery"
  | Query.MatchPhraseQuery _ _ _ => "*bluge.MatchPhraseQuery"
  | Query.TermQuery _ _ _ => "*bluge.TermQuery"
  | Query.RegexpQuery _ _ _ => "*bluge.RegexpQuery"
  | Query.WildcardQuery _ _ _ => "*bluge.WildcardQuery"
  | Query.NumericRangeQuery _ _ _ _ _ _ => "*bluge.NumericRangeQuery"
  | Query.DateRangeQuery _ _ _ _ _ _ => "*bluge.DateRangeQuery"
  | Query.BooleanQuery _ _ _ _ _ => "*bluge.BooleanQuery"

/-- The function `queryStringSetBoost`: the type switch has no case for a term query, and
`SetBoost` through a nil pointer panics. -/
def queryStringSetBoost (q : Query) (b : Float64) : Except Panic (Except String Query) :=
  match q with
  | Query.MatchQuery m f _ fz op => .ok (.ok (Query.MatchQuery m f (some b) fz op))
  | Query.RegexpQuery r f _ => .ok (.ok (Query.RegexpQuery r f (some b)))
  | Query.WildcardQuery w f _ => .ok (.ok (Query.WildcardQuery w f (some b)))
  | Query.BooleanQuery ms ss mns _ k => .ok (.ok (Query.BooleanQuery ms ss mns (some b) k))
  | Query.NumericRangeQuery lo hi il ih f _ =>
    .ok (.ok (Query.NumericRangeQuery lo hi il ih f (some b)))
  | Query.MatchPhraseQuery m f _ => .ok (.ok (Query.MatchPhraseQuery m f (some b)))
  | Query.DateRangeQuery s e il ih f _ => .ok (.ok (Query.DateRangeQuery s e il ih f (some b)))
  | Query.nilMatch => .error nilDereference
  | Query.nilNumericRange => .error nilDereference
  | Query.nilDateRange => .error nilDereference
  | q => .ok (.error ("cannot boost " ++ q.typeName))

/-! ## The generated parser `query_string.y.go` -/

/-- The constant `queryShould`. -/
def queryShould : Int := 0

/-- The constant `queryMust`. -/
def queryMust : Int := 1

/-- The constant `queryMustNot`. -/
def queryMustNot : Int := 2

/-- The table `yyToknames`. -/
def yyToknames : List String :=
  ["$end", "error", "$unk", "tSTRING", "tPHRASE", "tPLUS", "tMINUS", "tCOLON", "tBOOST",
   "tNUMBER", "tGREATER", "tLESS", "tEQUAL", "tTILDE", "tQUESTION"]

/-- The constant `yyEofCode`. -/
def yyEofCode : Int := 1

/-- The constant `yyErrCode`. -/
def yyErrCode : Int := 2

/-- The constant `yyInitialStackSize`. -/
def yyInitialStackSize : Nat := 16

/-- The table `yyExca`. -/
def yyExca : List Int := [-1, 1, 1, -1, -2, 0, -1, 3, 1, 3, -2, 5]

/-- The constant `yyPrivate`. -/
def yyPrivate : Int := 57344

/-- The constant `yyLast`. -/
def yyLast : Int := 43

/-- The table `yyAct`. -/
def yyAct : List Int :=
  [18, 17, 19, 24, 23, 6, 7, 22, 20, 21,
   30, 27, 23, 23, 5, 22, 22, 16, 29, 26,
   31, 25, 28, 15, 35, 14, 23, 32, 2, 22,
   34, 33, 8, 23, 10, 12, 22, 3, 1, 4,
   11, 13, 9]

/-- The table `yyPact`. -/
def yyPact : List Int :=
  [-1, -1000, -1000, -1, 30, -1000, -1000, -1000, -1000, 16,
   9, -1000, -1000, -1000, -1000, -1000, -3, -11, -1000, -1000,
   6, 5, -1000, 10, -1000, -1000, 26, -1000, -1000, 19,
   -1000, -1000, -1000, -1000, -1000, -1000]

/-- The table `yyPgo`. -/
def yyPgo : List Int := [0, 0, 42, 41, 39, 38, 28, 37]

/-- The table `yyR1`. -/
def yyR1 : List Int :=
  [0, 5, 6, 6, 7, 4, 4, 4, 4, 2,
   2, 2, 2, 2, 2, 2, 2, 2, 2, 2,
   2, 2, 2, 2, 2, 3, 3, 1, 1]

/-- The table `yyR2`. -/
def yyR2 : List Nat :=
  [0, 1, 2, 1, 3, 0, 1, 1, 1, 1,
   2, 4, 1, 1, 3, 3, 3, 4, 5, 4,
   5, 4, 5, 4, 5, 0, 1, 1, 2]

/-- The table `yyChk`. -/
def yyChk : List Int :=
  [-1000, -5, -6, -7, -4, 15, 6, 7, -6, -2,
   4, 10, 5, -3, 9, 14, 8, 4, -1, 5,
   11, 12, 10, 7, 14, -1, 13, 5, -1, 13,
   5, 10, -1, 5, -1, 5]

/-- The table `yyDef`. -/
def yyDef : List Int :=
  [5, -2, 1, -2, 0, 6, 7, 8, 2, 25,
   9, 12, 13, 4, 26, 10, 0, 14, 15, 16,
   0, 0, 27, 0, 11, 17, 0, 21, 19, 0,
   23, 28, 18, 22, 20, 24]

/-- The table `yyTok1`. -/
def yyTok1 : List Int := [1]

/-- The table `yyTok2`. -/
def yyTok2 : List Int := [2, 3, 4, 5, 6, 7, 8, 9, 10, 11, 12, 13, 14, 15]

/-- The table `yyTok3`. -/
def yyTok3 : List Int := [0]

/-- The constant `yyFlag`. -/
def yyFlag : Int := -1000

/-- The panic of an index that is out of range. -/
def indexPanic (i : Int) (len : Nat) : Panic :=
  { msg := "runtime error: index out of range [" ++ toString i ++ "] with length " ++
      toString len }

/-- The index expression `tbl[i]`. -/
def index {α : Type} (tbl : List α) (i : Int) : Except Panic α :=
  if 0 ≤ i then
    match tbl[i.toNat]? with
    | some v => .ok v
    | none => .error (indexPanic i tbl.length)
  else .error (indexPanic i tbl.length)

/-- The outcome of code that works on the lexer wrapper: the wrapper as the code left it and
a value, or the wrapper as it was when a panic was raised. -/
inductive Act (α : Type) where
  | ok (l : lexerWrapper) (a : α)
  | panic (l : lexerWrapper) (p : Panic)

/-- The call `yylex.(*lexerWrapper).lex.Error(msg)` of the semantic actions. -/
def lexError (mode : LexErrorMode) (l : lexerWrapper) (msg : String) : Act Unit :=
  match mode with
  | LexErrorMode.records => .ok { l with errs := l.errs ++ [msg] } ()
  | LexErrorMode.panics => .panic l { msg := msg }

/-- The inner lexer at work on its items, for `Lex`. -/
def lexItems (mode : LexErrorMode) (l : lexerWrapper) (lval : yySymType) :
    List LexItem → List String → Act (yySymType × Int)
  | [], errs => .ok { l with lex := [], errs := errs } (lval, 0)
  | LexItem.tok k s :: rest, errs =>
    .ok { l with lex := rest, errs := errs } ({ yySymType.zero with s := s }, k.code)
  | LexItem.err msg :: rest, errs =>
    match mode with
    | LexErrorMode.panics => .panic { l with lex := rest, errs := errs } { msg := msg }
    | LexErrorMode.records => lexItems mode l lval rest (errs ++ [msg])

/-- The method `(*lexerWrapper).Lex`: the new `lval` and the code returned. -/
def lexerWrapper.Lex (mode : LexErrorMode) (l : lexerWrapper) (lval : yySymType) :
    Act (yySymType × Int) :=
  lexItems mode l lval l.lex l.errs

/-- The loop of `yylex1` over `yyTok3`, from index `i` on: the token it leaves. -/
def yyTok3Scan (char : Int) : List Int → Int → Int → Except Panic Int
  | [], _, token => .ok token
  | [t], i, _ => if t = char then .error (indexPanic (i + 1) yyTok3.length) else .ok t
  | t :: t1 :: rest, i, _ => if t = char then .ok t1 else yyTok3Scan char rest (i + 2) t

/-- The label `out` of `yylex1`. -/
def yylex1Out (token : Int) : Except Panic Int :=
  if token = 0 then index yyTok2 1 else .ok token

/-- The translation of a character code into a token number in `yylex1`. -/
def yylex1Token (char : Int) : Except Panic Int :=
  if char ≤ 0 then
    match index yyTok1 0 with
    | .error p => .error p
    | .ok token => yylex1Out token
  else if char < (yyTok1.length : Int) then
    match index yyTok1 char with
    | .error p => .error p
    | .ok token => yylex1Out token
  else if yyPrivate ≤ char ∧ char < yyPrivate + (yyTok2.length : Int) then
    match index yyTok2 (char - yyPrivate) with
    | .error p => .error p
    | .ok token => yylex1Out token
  else
    match yyTok3Scan char yyTok3 0 0 with
    | .error p => .error p
    | .ok token => yylex1Out token

/-- The function `yylex1`: the new `lval`, `char` and `token`. -/
def yylex1 (mode : LexErrorMode) (lex : lexerWrapper) (lval : yySymType) :
    Act (yySymType × Int × Int) :=
  match lex.Lex mode lval with
  | .panic l p => .panic l p
  | .ok l (lval1, char) =>
    match yylex1Token char with
    | .error p => .panic l p
    | .ok token => .ok l (lval1, char, token)

/-- The function `yyTokname`. -/
def yyTokname (c : Int) : String :=
  if 1 ≤ c ∧ c - 1 < (yyToknames.length : Int) then
    match yyToknames[(c - 1).toNat]? with
    | some name => if name ≠ "" then name else "tok-" ++ toString c
    | none => "tok-" ++ toString c
  else "tok-" ++ toString c

/-- The first loop of `yyErrorMessage`, over the tokens that can be shifted: the expected
tokens, or `none` when the function returns early with four of them in hand. -/
def expectedShifts (base : Int) : List Int → List Int → Except Panic (Option (List Int))
  | [], expected => .ok (some expected)
  | tok :: rest, expected =>
    let n := base + tok
    if 0 ≤ n ∧ n < yyLast then
      match index yyAct n with
      | .error p => .error p
      | .ok a =>
        match index yyChk a with
        | .error p => .error p
        | .ok c =>
          if c = tok then
            if expected.length = 4 then .ok none
            else expectedShifts base rest (expected ++ [tok])
          else expectedShifts base rest expected
    else expectedShifts base rest expected

/-- The search of `yyExca` for the entry of a state: what follows the pair `-1, state`. -/
def excaFind (yystate : Int) : List Int → Nat → Except Panic (List Int)
  | a :: b :: rest, i =>
    if a = -1 ∧ b = yystate then .ok rest else excaFind yystate rest (i + 2)
  | _, i => .error (indexPanic i yyExca.length)

/-- The second loop of `yyErrorMessage`, over the exception entries of the state. -/
def expectedExca : List Int → List Int → Except Panic (Option (List Int))
  | a :: b :: rest, expected =>
    if 0 ≤ a then
      if a < 4 ∨ b = 0 then expectedExca rest expected
      else if expected.length = 4 then .ok none
      else expectedExca rest (expected ++ [a])
    else if b ≠ 0 then .ok none
    else .ok (some expected)
  | _, _ => .error (indexPanic yyExca.length yyExca.length)

/-- The last loop of `yyErrorMessage`: the list of the expected tokens, in words. -/
def expectingText : List Int → Bool → String
  | [], _ => ""
  | tok :: rest, first =>
    (if first then ", expecting " else " or ") ++ yyTokname tok ++ expectingText rest false

/-- The function `yyErrorMessage` (with `yyErrorVerbose` set and `yyErrorMessages` empty). -/
def yyErrorMessage (state lookAhead : Int) : Except Panic String :=
  let res := "syntax error: unexpected " ++ yyTokname lookAhead
  match index yyPact state with
  | .error p => .error p
  | .ok base =>
    match expectedShifts base
        ((List.range (yyToknames.length + 1 - 4)).map (fun i => (i : Int) + 4)) [] with
    | .error p => .error p
    | .ok none => .ok res
    | .ok (some expected) =>
      match index yyDef state with
      | .error p => .error p
      | .ok d =>
        if d = -2 then
          match excaFind state yyExca 0 with
          | .error p => .error p
          | .ok entries =>
            match expectedExca entries expected with
            | .error p => .error p
            | .ok none => .ok res
            | .ok (some expected1) => .ok (res ++ expectingText expected1 true)
        else .ok (res ++ expectingText expected true)

/-! ### The semantic actions -/

/-- The element `yyDollar[i]`. The slice has one element more than the production has
symbols, and an action only reads the symbols of its production. -/
def dollar (yyDollar : List yySymType) (i : Nat) : yySymType :=
  yyDollar.getD i yySymType.zero

/-- The common end of the actions that call a fallible builder:
`if err != nil { yylex.(*lexerWrapper).lex.Error(err.Error()) }; yyVAL.q = q`, where `q` is
the nil value of the builder's result type when there is an error. -/
def setQuery (mode : LexErrorMode) (l : lexerWrapper) (yyVAL : yySymType)
    (r : Except String Query) (nilValue : Query) : Act yySymType :=
  match r with
  | .ok q => .ok l { yyVAL with q := q }
  | .error err =>
    match lexError mode l err with
    | .panic l1 p => .panic l1 p
    | .ok l1 _ => .ok l1 { yyVAL with q := nilValue }

/-- The end of the actions that call `queryStringStringToken`, `yyVAL.q = q`, which is
not reached when the builder panics. -/
def setQueryOrPanic (l : lexerWrapper) (yyVAL : yySymType) (r : Except Panic Query) :
    Act yySymType :=
  match r with
  | .error p => .panic l p
  | .ok q => .ok l { yyVAL with q := q }

/-- The end of the action of production 26: `yyVAL.pf` stays nil when the boost does not
parse, and the error is reported. -/
def setBoost (mode : LexErrorMode) (l : lexerWrapper) (yyVAL : yySymType)
    (r : Except String Float64) : Act yySymType :=
  match r with
  | .error err =>
    match lexError mode l err with
    | .panic l1 p => .panic l1 p
    | .ok l1 _ => .ok l1 { yyVAL with pf := none }
  | .ok boost => .ok l { yyVAL with pf := some boost }

/-- The `switch yyDollar[1].n` of production 4: the clause is added to the root by its
role. -/
def addRole (root : BooleanQuery) (n : Int) (q : Query) : BooleanQuery :=
  if n = queryShould then root.AddShould [q]
  else if n = queryMust then root.AddMust [q]
  else if n = queryMustNot then root.AddMustNot [q]
  else root

/-- The part of production 4 for a clause with a boost: the clause added is the boosted one,
and the nil query when `queryStringSetBoost` reports an error. -/
def boostedClause (mode : LexErrorMode) (l : lexerWrapper) (n : Int) (yyVAL : yySymType)
    (r : Except Panic (Except String Query)) : Act yySymType :=
  match r with
  | .error p => .panic l p
  | .ok (.ok q) => .ok { l with query := addRole l.query n q } yyVAL
  | .ok (.error err) =>
    match lexError mode l err with
    | .panic l1 p => .panic l1 p
    | .ok l1 _ => .ok { l1 with query := addRole l1.query n Query.nil } yyVAL

/-- The action of production 4, `searchPart: searchPrefix searchBase searchSuffix`: the
clause is boosted when there is a boost, and added to the root by its role. -/
def searchPartAction (mode : LexErrorMode) (l : lexerWrapper) (yyDollar : List yySymType)
    (yyVAL : yySymType) : Act yySymType :=
  match (dollar yyDollar 3).pf with
  | none =>
    .ok { l with query := addRole l.query (dollar yyDollar 1).n (dollar yyDollar 2).q } yyVAL
  | some b =>
    boostedClause mode l (dollar yyDollar 1).n yyVAL
      (queryStringSetBoost (dollar yyDollar 2).q b)

/-- An action that starts by logging: the rest runs unless the logging panics. -/
def logged (l : lexerWrapper) (rest : Act yySymType) : Act yySymType :=
  match l.logDebugGrammarf with
  | .error p => .panic l p
  | .ok _ => rest

/-- The `switch yynt` of `Parse`: the semantic action of production `yynt`, on the wrapper
and on `yyVAL`. -/
def yyAction (mode : LexErrorMode) (lib : GoLib) (l : lexerWrapper) (yynt : Int)
    (yyDollar : List yySymType) (yyVAL : yySymType) : Act yySymType :=
  if yynt = 1 then logged l (.ok l yyVAL)
  else if yynt = 2 then logged l (.ok l yyVAL)
  else if yynt = 3 then logged l (.ok l yyVAL)
  else if yynt = 4 then searchPartAction mode l yyDollar yyVAL
  else if yynt = 5 then .ok l { yyVAL with n := queryMust }
  else if yynt = 6 then logged l (.ok l { yyVAL with n := queryShould })
  else if yynt = 7 then logged l (.ok l { yyVAL with n := queryMust })
  else if yynt = 8 then logged l (.ok l { yyVAL with n := queryMustNot })
  else if yynt = 9 then
    logged l (setQueryOrPanic l yyVAL (queryStringStringToken l "" (dollar yyDollar 1).s))
  else if yynt = 10 then
    logged l
      (setQuery mode l yyVAL (queryStringStringTokenFuzzy lib "" (dollar yyDollar 1).s (dollar yyDollar 2).s) Query.nilMatch)
  else if yynt = 11 then
    logged l
      (setQuery mode l yyVAL
        (queryStringStringTokenFuzzy lib (l.fieldname lib (dollar yyDollar 1).s) (dollar yyDollar 3).s (dollar yyDollar 4).s)
        Query.nilMatch)
  else if yynt = 12 then
    logged l (setQuery mode l yyVAL (queryStringNumberToken lib "" (dollar yyDollar 1).s) Query.nil)
  else if yynt = 13 then
    logged l (.ok l { yyVAL with q := queryStringPhraseToken l "" (dollar yyDollar 1).s })
  else if yynt = 14 then
    logged l
      (setQueryOrPanic l yyVAL (queryStringStringToken l (l.fieldname lib (dollar yyDollar 1).s) (dollar yyDollar 3).s))
  else if yynt = 15 then
    logged l
      (setQuery mode l yyVAL (queryStringNumberToken lib (l.fieldname lib (dollar yyDollar 1).s) (dollar yyDollar 3).s)
        Query.nil)
  else if yynt = 16 then
    logged l
      (.ok l { yyVAL with q := queryStringPhraseToken l (l.fieldname lib (dollar yyDollar 1).s) (dollar yyDollar 3).s })
  else if yynt = 17 then
    logged l
      (setQuery mode l yyVAL
        (queryStringNumericRangeGreaterThanOrEqual lib (l.fieldname lib (dollar yyDollar 1).s) (dollar yyDollar 4).s false)
        Query.nilNumericRange)
  else if yynt = 18 then
    logged l
      (setQuery mode l yyVAL
        (queryStringNumericRangeGreaterThanOrEqual lib (l.fieldname lib (dollar yyDollar 1).s) (dollar yyDollar 5).s true)
        Query.nilNumericRange)
  else if yynt = 19 then
    logged l
      (setQuery mode l yyVAL
        (queryStringNumericRangeLessThanOrEqual lib (l.fieldname lib (dollar yyDollar 1).s) (dollar yyDollar 4).s false)
        Query.nilNumericRange)
  else if yynt = 20 then
    logged l
      (setQuery mode l yyVAL
        (queryStringNumericRangeLessThanOrEqual lib (l.fieldname lib (dollar yyDollar 1).s) (dollar yyDollar 5).s true)
        Query.nilNumericRange)
  else if yynt = 21 then
    logged l
      (setQuery mode l yyVAL
        (queryStringDateRangeGreaterThanOrEqual lib l (l.fieldname lib (dollar yyDollar 1).s) (dollar yyDollar 4).s false)
        Query.nilDateRange)
  else if yynt = 22 then
    logged l
      (setQuery mode l yyVAL
        (queryStringDateRangeGreaterThanOrEqual lib l (l.fieldname lib (dollar yyDollar 1).s) (dollar yyDollar 5).s true)
        Query.nilDateRange)
  else if yynt = 23 then
    logged l
      (setQuery mode l yyVAL
        (queryStringDateRangeLessThanOrEqual lib l (l.fieldname lib (dollar yyDollar 1).s) (dollar yyDollar 4).s false)
        Query.nilDateRange)
  else if yynt = 24 then
    logged l
      (setQuery mode l yyVAL
        (queryStringDateRangeLessThanOrEqual lib l (l.fieldname lib (dollar yyDollar 1).s) (dollar yyDollar 5).s true)
        Query.nilDateRange)
  else if yynt = 25 then .ok l { yyVAL with pf := none }
  else if yynt = 26 then
    logged l (setBoost mode l { yyVAL with pf := none } (queryStringParseBoost lib (dollar yyDollar 1).s))
  else if yynt = 27 then .ok l { yyVAL with s := (dollar yyDollar 1).s }
  else if yynt = 28 then .ok l { yyVAL with s := "-" ++ (dollar yyDollar 2).s }
  else .ok l yyVAL

/-! ### The method `Parse` -/

/-- The places of `Parse` at which a round of its loop starts. -/
inductive Label where
  | yystack
  | yynewstate
  deriving DecidableEq

/-- The variables of `Parse` that live from one round to the next. The stack `yyS` with
its index `yyp` is kept in two parts: `below` is `yyS[0 .. yyp]` with the top `yyS[yyp]`
first, and `above` is `yyS[yyp+1 ..]`, the slots that are free or were popped. -/
structure ParseState where
  yylex : lexerWrapper
  lval : yySymType
  char : Int
  yytoken : Int
  yyVAL : yySymType
  below : List yySymType
  above : List yySymType
  Nerrs : Int
  Errflag : Int
  yystate : Int

/-- The index `yyp`. -/
def ParseState.yyp (st : ParseState) : Int := (st.below.length : Int) - 1

/-- The slice `yyS`. -/
def ParseState.yyS (st : ParseState) : List yySymType := st.below.reverse ++ st.above

/-- What a round of `Parse` ends with: the next round, a return, or a panic. -/
inductive Step where
  | next (lbl : Label) (st : ParseState)
  | ret (l : lexerWrapper) (code : Int)
  | panic (l : lexerWrapper) (p : Panic)

/-- The two places that read `if yyrcvr.char < 0 { yyrcvr.char, yytoken = yylex1(...) }`,
followed by what comes after them. -/
def withLookahead (mode : LexErrorMode) (st : ParseState) (k : ParseState → Step) : Step :=
  if st.char < 0 then
    match yylex1 mode st.yylex st.lval with
    | .panic l p => .panic l p
    | .ok l (lval, char, token) =>
      k { st with yylex := l, lval := lval, char := char, yytoken := token }
  else k st

/-- The second loop over `yyExca` in `yydefault`: the action for the token. -/
def excaScan (yytoken : Int) : List Int → Except Panic Int
  | a :: b :: rest => if a < 0 ∨ a = yytoken then .ok b else excaScan yytoken rest
  | _ => .error (indexPanic yyExca.length yyExca.length)

/-- The two loops over `yyExca` in `yydefault` and the read `yyn = yyExca[xi+1]` after them:
the action that the exception table gives a state for a token. -/
def excaAction (yystate yytoken : Int) : Except Panic Int :=
  match excaFind yystate yyExca 0 with
  | .error p => .error p
  | .ok entries => excaScan yytoken entries

/-- The test for a valid shift in `yynewstate`, from `yyn += yytoken` to
`if yyChk[yyn] == yytoken`, where `yyn` was `yyPact[yystate]`: the state to shift to, or
`none` for `goto yydefault`. -/
def yyShift (pact yytoken : Int) : Except Panic (Option Int) :=
  let yyn := pact + yytoken
  if yyn < 0 ∨ yyLast ≤ yyn then .ok none
  else
    match index yyAct yyn with
    | .error p => .error p
    | .ok ys =>
      match index yyChk ys with
      | .error p => .error p
      | .ok c => if c = yytoken then .ok (some ys) else .ok none

/-- The consultation of the goto table after a reduction to the nonterminal `nt`, from
`yyj := yyg + yyS[yyp].yys + 1` on, where `yyg` is `yyPgo[nt]` and `top` is `yyS[yyp].yys`:
the new state. -/
def yyGoto (nt yyg top : Int) : Except Panic Int :=
  let yyj := yyg + top + 1
  if yyLast ≤ yyj then index yyAct yyg
  else
    match index yyAct yyj with
    | .error p => .error p
    | .ok ys =>
      match index yyChk ys with
      | .error p => .error p
      | .ok c => if c ≠ -nt then index yyAct yyg else .ok ys

/-- One round of the loop `for yyp >= 0` of the error recovery, on the state `yys` of the top
of the stack: the state that the shift of `error` leads to, if there is one. -/
def errShift (yys : Int) : Except Panic (Option Int) :=
  match index yyPact yys with
  | .error p => .error p
  | .ok pact =>
    let yyn := pact + yyErrCode
    if 0 ≤ yyn ∧ yyn < yyLast then
      match index yyAct yyn with
      | .error p => .error p
      | .ok ys =>
        match index yyChk ys with
        | .error p => .error p
        | .ok c => if c = yyErrCode then .ok (some ys) else .ok none
    else .ok none

/-- The loop `for yyp >= 0` of the error recovery: it pops until a state shifts `error`, and
returns 1 when the stack is empty. -/
def errorPop (st : ParseState) : List yySymType → List yySymType → Step
  | [], _ => .ret st.yylex 1
  | top :: rest, above =>
    match errShift top.yys with
    | .error p => .panic st.yylex p
    | .ok (some ys) =>
      .next Label.yystack
        { st with below := top :: rest, above := above, yystate := ys, Errflag := 3 }
    | .ok none => errorPop st rest (top :: above)

/-- The new array `make([]yySymType, len(yyS)*2)` with `yyS` copied into it, as the part
above `yyp` when that part of `yyS` is empty. -/
def grown (below : List yySymType) : List yySymType :=
  List.replicate below.length yySymType.zero

/-- The part of the stack above `yyp` after the tests `if yyp >= len(yyS)` of `yystack` and
`if yyp+1 >= len(yyS)` of the reduction, which double a full stack. -/
def slots (below above : List yySymType) : List yySymType :=
  if above.isEmpty then grown below else above

/-- The end of a reduction: after the semantic action, `goto yystack` with the wrapper and
the `yyVAL` that the action left; a panic of the action ends the round. -/
def actionStep (st : ParseState) (a : Act yySymType) : Step :=
  match a with
  | .panic l p => .panic l p
  | .ok l yyVAL => .next Label.yystack { st with yylex := l, yyVAL := yyVAL }

/-- The reduction by production `yyn`: the part of `Parse` from the comment
`reduction by production yyn` to its last `goto yystack`. -/
def yyreduce (mode : LexErrorMode) (lib : GoLib) (st : ParseState) (yyn : Int) : Step :=
  match index yyR2 yyn with
  | .error p => .panic st.yylex p
  | .ok k =>
    if st.below.length < k then
      .panic st.yylex (indexPanic (st.yyp - k + 1) (st.below.length + st.above.length))
    else
      match slots (st.below.drop k) ((st.below.take k).reverse ++ st.above) with
      | [] => .panic st.yylex (indexPanic 0 0)
      | yyVAL :: above1 =>
        match index yyR1 yyn with
        | .error p => .panic st.yylex p
        | .ok nt =>
          match index yyPgo nt with
          | .error p => .panic st.yylex p
          | .ok yyg =>
            match st.below.drop k with
            | [] => .panic st.yylex (indexPanic (-1) (above1.length + 1))
            | top :: below1 =>
              match yyGoto nt yyg top.yys with
              | .error p => .panic st.yylex p
              | .ok yystate =>
                actionStep
                  { st with below := top :: below1, above := yyVAL :: above1,
                            yystate := yystate }
                  (yyAction mode lib st.yylex yyn ((st.below.take (k + 1)).reverse) yyVAL)

/-- The part of `yydefault` after `yyn` is known: the error recovery when `yyn` is 0, and
the reduction by production `yyn`. -/
def yyact (mode : LexErrorMode) (lib : GoLib) (st : ParseState) (yyn : Int) : Step :=
  if yyn = 0 then
    if st.Errflag = 0 then
      match yyErrorMessage st.yystate st.yytoken with
      | .error p => .panic st.yylex p
      | .ok msg =>
        errorPop { st with yylex := st.yylex.Error msg, Nerrs := st.Nerrs + 1 } st.below
          st.above
    else if st.Errflag = 1 ∨ st.Errflag = 2 then errorPop st st.below st.above
    else if st.Errflag = 3 then
      if st.yytoken = yyEofCode then .ret st.yylex 1
      else .next Label.yynewstate { st with char := -1, yytoken := -1 }
    else yyreduce mode lib st yyn
  else yyreduce mode lib st yyn

/-- The label `yydefault` of `Parse`. -/
def yydefault (mode : LexErrorMode) (lib : GoLib) (st : ParseState) : Step :=
  match index yyDef st.yystate with
  | .error p => .panic st.yylex p
  | .ok yyn =>
    if yyn = -2 then
      withLookahead mode st (fun st1 =>
        match excaAction st1.yystate st1.yytoken with
        | .error p => .panic st1.yylex p
        | .ok yyn1 => if yyn1 < 0 then .ret st1.yylex 0 else yyact mode lib st1 yyn1)
    else yyact mode lib st yyn

/-- The label `yynewstate` of `Parse`. -/
def yynewstate (mode : LexErrorMode) (lib : GoLib) (st : ParseState) : Step :=
  match index yyPact st.yystate with
  | .error p => .panic st.yylex p
  | .ok pact =>
    if pact ≤ yyFlag then yydefault mode lib st
    else
      withLookahead mode st (fun st1 =>
        match yyShift pact st1.yytoken with
        | .error p => .panic st1.yylex p
        | .ok (some ys) =>
          .next Label.yystack
            { st1 with char := -1, yytoken := -1, yyVAL := st1.lval, yystate := ys,
                       Errflag := if 0 < st1.Errflag then st1.Errflag - 1 else st1.Errflag }
        | .ok none => yydefault mode lib st1)

/-- The label `yystack` of `Parse`: the state and the value are put onto the stack, which
is doubled when it is full. -/
def yystack (mode : LexErrorMode) (lib : GoLib) (st : ParseState) : Step :=
  match slots st.below st.above with
  | [] => .panic st.yylex (indexPanic st.below.length 0)
  | _ :: above2 =>
    yynewstate mode lib
      { st with below := { st.yyVAL with yys := st.yystate } :: st.below, above := above2 }

/-- One round of `Parse`, from a label to the next `goto`. -/
def yyStep (mode : LexErrorMode) (lib : GoLib) (lbl : Label) (st : ParseState) : Step :=
  match lbl with
  | Label.yystack => yystack mode lib st
  | Label.yynewstate => yynewstate mode lib st

/-- How a run of `Parse` ends; `outOfFuel` says that the rounds allowed did not suffice. -/
inductive Run where
  | ret (l : lexerWrapper) (code : Int)
  | panic (l : lexerWrapper) (p : Panic)
  | outOfFuel

/-- The loop of `Parse`: at most `fuel` rounds. -/
def parseLoop (mode : LexErrorMode) (lib : GoLib) : Nat → Label → ParseState → Run
  | 0, _, _ => Run.outOfFuel
  | fuel + 1, lbl, st =>
    match yyStep mode lib lbl st with
    | Step.next lbl1 st1 => parseLoop mode lib fuel lbl1 st1
    | Step.ret l code => Run.ret l code
    | Step.panic l p => Run.panic l p

/-- The state in which `Parse` reaches `yystack` for the first time. -/
def ParseState.init (yylex : lexerWrapper) : ParseState :=
  { yylex := yylex
    lval := yySymType.zero
    char := -1
    yytoken := -1
    yyVAL := yySymType.zero
    below := []
    above := List.replicate yyInitialStackSize yySymType.zero
    Nerrs := 0
    Errflag := 0
    yystate := 0 }

/-- The function `yyParse`, which is `yyNewParser().Parse(yylex)`. -/
def yyParse (mode : LexErrorMode) (lib : GoLib) (fuel : Nat) (yylex : lexerWrapper) : Run :=
  parseLoop mode lib fuel Label.yystack (ParseState.init yylex)

/-- The function `doParse`: the wrapper after `yyParse`, a panic being recovered and
recorded as a parse error; `none` when the fuel did not suffice. -/
def doParse (mode : LexErrorMode) (lib : GoLib) (fuel : Nat) (lex : lexerWrapper) :
    Option lexerWrapper :=
  match yyParse mode lib fuel lex with
  | Run.ret l _ => some l
  | Run.panic l p => some { l with errs := l.errs ++ ["parse error: " ++ p.msg] }
  | Run.outOfFuel => none

/-! ## The entry point `ParseQueryString` -/

/-- The test of the coalescing loop,
`sq, ok := s.(*bluge.MatchQuery); ok && sq.Field() == "" && sq.Fuzziness() == 0 &&
sq.Boost() == 1.0`: the text `sq.Match()` when it holds. On a nil `*MatchQuery` the type
assertion holds and `sq.Field()` panics. -/
def plainText (s : Query) : Except Panic (Option String) :=
  match s with
  | Query.MatchQuery m f b fz _ =>
    if f = "" ∧ fz = 0 ∧ boostValue b = Float64.ofNat 1 then .ok (some m) else .ok none
  | Query.nilMatch => .error nilDereference
  | _ => .ok none

/-- The variables of the coalescing loop: the slice `musts`, which is rewritten in place,
and `n`, `last` and `words`. -/
structure Coalescer where
  musts : List Query
  n : Nat
  last : Query
  words : List String

/-- The assignment `musts[n] = q; n++`. -/
def Coalescer.put (c : Coalescer) (q : Query) : Except Panic Coalescer :=
  if c.n < c.musts.length then .ok { c with musts := c.musts.set c.n q, n := c.n + 1 }
  else .error (indexPanic c.n c.musts.length)

/-- The function `strings.Join(words, " ")`. -/
def joinWords (words : List String) : String := " ".intercalate words

/-- The statement that stores a pending run,
`if len(words) == 1 { musts[n] = last; n++ } else if len(words) > 1 { musts[n] = ...; n++ }`. -/
def Coalescer.flush (c : Coalescer) : Except Panic Coalescer :=
  if c.words.length = 1 then c.put c.last
  else if 1 < c.words.length then
    c.put ((NewMatchQuery (joinWords c.words)).SetOperator
      MatchQueryOperator.MatchQueryOperatorAnd)
  else .ok c

/-- The body of `for _, s := range musts`. -/
def Coalescer.body (c : Coalescer) (s : Query) : Except Panic Coalescer :=
  match plainText s with
  | .error p => .error p
  | .ok (some text) => .ok { c with last := s, words := c.words ++ [text] }
  | .ok none =>
    match c.flush with
    | .error p => .error p
    | .ok c1 =>
      match { c1 with last := Query.nilMatch, words := [] }.put s with
      | .error p => .error p
      | .ok c2 => .ok c2

/-- The loop `for _, s := range musts` from index `i` on, with `k` elements to go: each
round reads `musts[i]` from the slice as it then is. -/
def Coalescer.loop : Nat → Nat → Coalescer → Except Panic Coalescer
  | 0, _, c => .ok c
  | k + 1, i, c =>
    match c.musts[i]? with
    | none => .error (indexPanic i c.musts.length)
    | some s =>
      match c.body s with
      | .error p => .error p
      | .ok c1 => Coalescer.loop k (i + 1) c1

/-- The characters that `doPrintf` of package `fmt` does not take as the verb after a `%`:
the flags, and the start of an argument index, a width or a precision. -/
def isVerbModifier (c : Char) : Bool :=
  c == '#' || c == '0' || c == '+' || c == '-' || c == ' ' || c == '[' || c == '*' ||
    c == '.' || isDigit c

/-- The function `doPrintf` of package `fmt` on a format without arguments: text is copied,
`%%` prints a `%`, a `%` at the end prints `%!(NOVERB)`, and a `%` with a verb prints
`%!verb(MISSING)`, as no argument is left for it. -/
def printfNoArgs (lib : GoLib) : List Char → List Char
  | [] => []
  | [c] => if c = '%' then "%!(NOVERB)".data else [c]
  | c :: d :: rest =>
    if c = '%' then
      if d = '%' then '%' :: printfNoArgs lib rest
      else if isVerbModifier d then (lib.sprintfVerbs (String.mk (c :: d :: rest))).data
      else "%!".data ++ d :: "(MISSING)".data ++ printfNoArgs lib rest
    else c :: printfNoArgs lib (d :: rest)

/-- The call `fmt.Errorf(format)` without arguments: the message is what `fmt.Sprintf(format)`
prints. -/
def errorfText (lib : GoLib) (format : String) : String :=
  String.mk (printfNoArgs lib format.data)

/-- How a call ends: it returns, it panics, or the fuel of the model did not suffice. -/
inductive Outcome (α : Type) where
  | returns (a : α)
  | panics (p : Panic)
  | outOfFuel

/-- Modelled from the spec: the function `newQueryStringLex`, which is not among the source
files: the items that the lexer delivers for a query text and options. -/
abbrev QueryStringLex := String → QueryStringOptions → List LexItem

/-- The rounds allowed to `Parse` on a list of items. -/
def parseFuel (items : List LexItem) : Nat := 8 * items.length + 16

/-- The function `ParseQueryString`. -/
def ParseQueryString (mode : LexErrorMode) (lib : GoLib) (newQueryStringLex : QueryStringLex)
    (query : String) (options : QueryStringOptions) : Outcome (Except String Query) :=
  if query = "" then .returns (.ok Query.MatchNoneQuery)
  else
    let items := newQueryStringLex query options
    match doParse mode lib (parseFuel items) (newLexerWrapper items options) with
    | none => .outOfFuel
    | some lex =>
      if 0 < lex.errs.length then
        .returns (.error (errorfText lib ("\n".intercalate lex.errs)))
      else
        let q := lex.query
        let origN := q.musts.length
        match Coalescer.loop origN 0
            { musts := q.musts, n := 0, last := Query.nilMatch, words := [] } with
        | .error p => .panics p
        | .ok c =>
          match c.flush with
          | .error p => .panics p
          | .ok c1 =>
            if origN ≠ c1.n then
              .returns (.ok ((((NewBooleanQuery.AddMust (c1.musts.take c1.n)).AddShould
                q.shoulds).AddMustNot q.mustNots).SetMinShould q.minShould).toQuery)
            else .returns (.ok { q with musts := c1.musts }.toQuery)

/-! ## Runs of the parser -/

/-- A run from a label and a state ends with `r` when some fuel suffices for it. -/
def Halts (mode : LexErrorMode) (lib : GoLib) (lbl : Label) (st : ParseState) (r : Run) :
    Prop :=
  ∃ f, parseLoop mode lib f lbl st = r ∧ r ≠ Run.outOfFuel

/-- A run whose first round ends with the given step ends with `r`. -/
def haltsNext (mode : LexErrorMode) (lib : GoLib) (r : Run) : Step → Prop
  | Step.next lbl st => Halts mode lib lbl st r
  | Step.ret l c => r = Run.ret l c
  | Step.panic l p => r = Run.panic l p

/-- A step after which an error is on record, unless it is a panic. -/
def Step.Poisoned : Step → Prop
  | Step.next _ st => st.yylex.errs ≠ []
  | Step.ret l _ => l.errs ≠ []
  | Step.panic _ _ => True

/-- An action after which an error is on record, unless it is a panic. -/
def Act.Poisoned {α : Type} : Act α → Prop
  | Act.ok l _ => l.errs ≠ []
  | Act.panic _ _ => True

/-- The value that a reduction of an empty production finds in `yyS[yyp+1]`. -/
def slotHead (below above : List yySymType) : yySymType :=
  (slots below above).headD yySymType.zero

/-- The part of the stack above `yyp` after a push. -/
def slotTail (below above : List yySymType) : List yySymType := (slots below above).tail

/-- No state on the stack shifts the token `error`. -/
def StackOK (below : List yySymType) : Prop := ∀ e ∈ below, errShift e.yys = .ok none

/-- The stack between two search parts: state 0 at the bottom, and above it one state 3 for
each search part that has been reduced. -/
def PStack : List yySymType → Prop
  | [] => False
  | [e] => e.yys = 0
  | e :: b => e.yys = 3 ∧ PStack b

/-- The token number that `yylex1` gives the code of a kind. -/
def TokKind.num (k : TokKind) : Int := k.code - 57342

/-- What is still to be parsed, `pend`, when the lookahead of the parser is `lval`, `char` and
`yytoken` and the lexer has `lex` to deliver: no lookahead has been read, or a token has, or the
end of the input has. -/
def LookOK (lval : yySymType) (char yytoken : Int) (lex pend : List LexItem) : Prop :=
  (char = -1 ∧ pend = lex) ∨
    (∃ k t, char = TokKind.code k ∧ yytoken = TokKind.num k ∧
      lval = { yySymType.zero with s := t } ∧ pend = LexItem.tok k t :: lex) ∨
    (char = 0 ∧ yytoken = 1 ∧ lex = [] ∧ pend = [])

/-! ## The grammar of `query_string.y`, with the queries the productions build -/

/-- Productions 27 and 28, `posOrNegNumber: tNUMBER | tMINUS tNUMBER`: the tokens and the
text they stand for. -/
inductive PosOrNegNumber : List LexItem → String → Prop
  | number (s : String) : PosOrNegNumber [LexItem.tok TokKind.tNUMBER s] s
  | negative (m s : String) :
    PosOrNegNumber [LexItem.tok TokKind.tMINUS m, LexItem.tok TokKind.tNUMBER s] ("-" ++ s)

/-- Productions 9 to 24, `searchBase`: the tokens of a clause and the query that its action
builds without an error. The wrapper of the builders is that of the options `o`. -/
inductive SearchBase (lib : GoLib) (o : QueryStringOptions) : List LexItem → Query → Prop
  | string (s : String) (q : Query)
      (h : queryStringStringToken (newLexerWrapper [] o) "" s = .ok q) :
    SearchBase lib o [LexItem.tok TokKind.tSTRING s] q
  | fuzzy (s n : String) (q : Query) (h : queryStringStringTokenFuzzy lib "" s n = .ok q) :
    SearchBase lib o [LexItem.tok TokKind.tSTRING s, LexItem.tok TokKind.tTILDE n] q
  | fieldFuzzy (f c s n : String) (q : Query)
      (h : queryStringStringTokenFuzzy lib ((newLexerWrapper [] o).fieldname lib f) s n =
        .ok q) :
    SearchBase lib o
      [LexItem.tok TokKind.tSTRING f, LexItem.tok TokKind.tCOLON c,
       LexItem.tok TokKind.tSTRING s, LexItem.tok TokKind.tTILDE n] q
  | number (s : String) (q : Query) (h : queryStringNumberToken lib "" s = .ok q) :
    SearchBase lib o [LexItem.tok TokKind.tNUMBER s] q
  | phrase (s : String) :
    SearchBase lib o [LexItem.tok TokKind.tPHRASE s]
      (queryStringPhraseToken (newLexerWrapper [] o) "" s)
  | fieldString (f c s : String) (q : Query)
      (h : queryStringStringToken (newLexerWrapper [] o)
        ((newLexerWrapper [] o).fieldname lib f) s = .ok q) :
    SearchBase lib o
      [LexItem.tok TokKind.tSTRING f, LexItem.tok TokKind.tCOLON c,
       LexItem.tok TokKind.tSTRING s] q
  | fieldNumber (f c : String) (ts : List LexItem) (s : String) (q : Query)
      (hn : PosOrNegNumber ts s)
      (h : queryStringNumberToken lib ((newLexerWrapper [] o).fieldname lib f) s = .ok q) :
    SearchBase lib o (LexItem.tok TokKind.tSTRING f :: LexItem.tok TokKind.tCOLON c :: ts) q
  | fieldPhrase (f c s : String) :
    SearchBase lib o
      [LexItem.tok TokKind.tSTRING f, LexItem.tok TokKind.tCOLON c,
       LexItem.tok TokKind.tPHRASE s]
      (queryStringPhraseToken (newLexerWrapper [] o)
        ((newLexerWrapper [] o).fieldname lib f) s)
  | greater (f c g : String) (ts : List LexItem) (s : String) (q : Query)
      (hn : PosOrNegNumber ts s)
      (h : queryStringNumericRangeGreaterThanOrEqual lib
        ((newLexerWrapper [] o).fieldname lib f) s false = .ok q) :
    SearchBase lib o
      (LexItem.tok TokKind.tSTRING f :: LexItem.tok TokKind.tCOLON c ::
        LexItem.tok TokKind.tGREATER g :: ts) q
  | greaterEqual (f c g e : String) (ts : List LexItem) (s : String) (q : Query)
      (hn : PosOrNegNumber ts s)
      (h : queryStringNumericRangeGreaterThanOrEqual lib
        ((newLexerWrapper [] o).fieldname lib f) s true = .ok q) :
    SearchBase lib o
      (LexItem.tok TokKind.tSTRING f :: LexItem.tok TokKind.tCOLON c ::
        LexItem.tok TokKind.tGREATER g :: LexItem.tok TokKind.tEQUAL e :: ts) q
  | less (f c g : String) (ts : List LexItem) (s : String) (q : Query)
      (hn : PosOrNegNumber ts s)
      (h : queryStringNumericRangeLessThanOrEqual lib
        ((newLexerWrapper [] o).fieldname lib f) s false = .ok q) :
    SearchBase lib o
      (LexItem.tok TokKind.tSTRING f :: LexItem.tok TokKind.tCOLON c ::
        LexItem.tok TokKind.tLESS g :: ts) q
  | lessEqual (f c g e : String) (ts : List LexItem) (s : String) (q : Query)
      (hn : PosOrNegNumber ts s)
      (h : queryStringNumericRangeLessThanOrEqual lib
        ((newLexerWrapper [] o).fieldname lib f) s true = .ok q) :
    SearchBase lib o
      (LexItem.tok TokKind.tSTRING f :: LexItem.tok TokKind.tCOLON c ::
        LexItem.tok TokKind.tLESS g :: LexItem.tok TokKind.tEQUAL e :: ts) q
  | greaterDate (f c g p : String) (q : Query)
      (h : queryStringDateRangeGreaterThanOrEqual lib (newLexerWrapper [] o)
        ((newLexerWrapper [] o).fieldname lib f) p false = .ok q) :
    SearchBase lib o
      [LexItem.tok TokKind.tSTRING f, LexItem.tok TokKind.tCOLON c,
       LexItem.tok TokKind.tGREATER g, LexItem.tok TokKind.tPHRASE p] q
  | greaterEqualDate (f c g e p : String) (q : Query)
      (h : queryStringDateRangeGreaterThanOrEqual lib (newLexerWrapper [] o)
        ((newLexerWrapper [] o).fieldname lib f) p true = .ok q) :
    SearchBase lib o
      [LexItem.tok TokKind.tSTRING f, LexItem.tok TokKind.tCOLON c,
       LexItem.tok TokKind.tGREATER g, LexItem.tok TokKind.tEQUAL e,
       LexItem.tok TokKind.tPHRASE p] q
  | lessDate (f c g p : String) (q : Query)
      (h : queryStringDateRangeLessThanOrEqual lib (newLexerWrapper [] o)
        ((newLexerWrapper [] o).fieldname lib f) p false = .ok q) :
    SearchBase lib o
      [LexItem.tok TokKind.tSTRING f, LexItem.tok TokKind.tCOLON c,
       LexItem.tok TokKind.tLESS g, LexItem.tok TokKind.tPHRASE p] q
  | lessEqualDate (f c g e p : String) (q : Query)
      (h : queryStringDateRangeLessThanOrEqual lib (newLexerWrapper [] o)
        ((newLexerWrapper [] o).fieldname lib f) p true = .ok q) :
    SearchBase lib o
      [LexItem.tok TokKind.tSTRING f, LexItem.tok TokKind.tCOLON c,
       LexItem.tok TokKind.tLESS g, LexItem.tok TokKind.tEQUAL e,
       LexItem.tok TokKind.tPHRASE p] q

/-- Productions 25 and 26, `searchSuffix`: no token, or a BOOST whose payload parses; the
value is `yyVAL.pf`. -/
inductive SearchSuffix (lib : GoLib) : List LexItem → Option Float64 → Prop
  | absent : SearchSuffix lib [] none
  | boost (s : String) (b : Float64) (h : queryStringParseBoost lib s = .ok b) :
    SearchSuffix lib [LexItem.tok TokKind.tBOOST s] (some b)

/-- Productions 5 to 8, `searchPrefix`: the token before a clause, if any, and the role it
gives the clause (`queryShould`, `queryMust` or `queryMustNot`). -/
inductive SearchLead : List LexItem → Int → Prop
  | absent : SearchLead [] queryMust
  | question (s : String) : SearchLead [LexItem.tok TokKind.tQUESTION s] queryShould
  | plus (s : String) : SearchLead [LexItem.tok TokKind.tPLUS s] queryMust
  | minus (s : String) : SearchLead [LexItem.tok TokKind.tMINUS s] queryMustNot

/-- The query of a clause after the boost of production 4, when that reports no error. -/
def Boosted (q : Query) (pf : Option Float64) (q1 : Query) : Prop :=
  match pf with
  | none => q1 = q
  | some b => queryStringSetBoost q b = .ok (.ok q1)

/-- Production 4, `searchPart: searchPrefix searchBase searchSuffix`: the tokens of a search
part, its role, and the clause it adds to the root. -/
inductive SearchPart (lib : GoLib) (o : QueryStringOptions) : List LexItem → Int → Query → Prop
  | mk (ts1 ts2 ts3 : List LexItem) (n : Int) (q : Query) (pf : Option Float64) (q1 : Query)
      (h1 : SearchLead ts1 n) (h2 : SearchBase lib o ts2 q) (h3 : SearchSuffix lib ts3 pf)
      (h4 : Boosted q pf q1) :
    SearchPart lib o (ts1 ++ (ts2 ++ ts3)) n q1

/-- Productions 2 and 3, `searchParts: searchPart searchParts | searchPart`: the tokens of
one or more search parts, and their roles and clauses in the order of the input. -/
inductive SearchParts (lib : GoLib) (o : QueryStringOptions) :
    List LexItem → List (Int × Query) → Prop
  | one (ts : List LexItem) (n : Int) (q : Query) (h : SearchPart lib o ts n q) :
    SearchParts lib o ts [(n, q)]
  | cons (ts rest : List LexItem) (n : Int) (q : Query) (cs : List (Int × Query))
      (h : SearchPart lib o ts n q) (hrest : SearchParts lib o rest cs) :
    SearchParts lib o (ts ++ rest) ((n, q) :: cs)

/-- The clauses of a role, in order. -/
def clausesOf (role : Int) (cs : List (Int × Query)) : List Query :=
  (cs.filter (fun c => c.1 == role)).map (fun c => c.2)

/-- The parser is at the label `yynewstate` in state `s`, on the stack `below`, with `pend`
still to parse and the root query `q`, and its run ends with `r`. -/
def Machine (mode : LexErrorMode) (lib : GoLib) (r : Run) (o : QueryStringOptions)
    (q : BooleanQuery) (s : Int) (below : List yySymType) (pend : List LexItem) : Prop :=
  ∃ lex lval ch tk v above ne, LookOK lval ch tk lex pend ∧
    haltsNext mode lib r (yynewstate mode lib
      ⟨⟨lex, [], q, o, o.debugParser, o.dateFormat, o.logger⟩, lval, ch, tk, v, below, above,
        ne, 0, s⟩)


/-! ## The reference coalescing of the spec -/

/-- The method `(*BooleanQuery).Musts` on the query returned. -/
def Query.Musts : Query → List Query
  | Query.BooleanQuery musts _ _ _ _ => musts
  | _ => []

/-- In the words of the spec: a clause is a plain term iff it is a `MatchQuery` with empty
field, fuzziness 0 and boost 1.0. -/
def isPlainTerm : Query → Bool
  | Query.MatchQuery _ f b fz _ => decide (f = "" ∧ fz = 0 ∧ boostValue b = Float64.ofNat 1)
  | _ => false

/-- The text of a match query. -/
def termText : Query → String
  | Query.MatchQuery m _ _ _ _ => m
  | _ => ""

/-- In the words of the spec: the single `MatchQuery` that replaces a run of plain terms, with
empty field, operator AND and the texts of the run joined by single spaces in order. -/
def mergedTerm (run : List Query) : Query :=
  Query.MatchQuery (" ".intercalate (run.map termText)) "" none 0
    MatchQueryOperator.MatchQueryOperatorAnd

/-- In the words of the spec: a run of two or more plain terms is replaced by its merged
term, and a run of length one is kept. -/
def coalesceRun (run : List Query) : List Query :=
  if 2 ≤ run.length then [mergedTerm run] else run

/-- In the words of the spec: the reference coalescing of a Must list. Each maximal run of
consecutive plain terms is coalesced, and every other clause is kept, in order. -/
def coalesceRef : List Query → List Query
  | [] => []
  | q :: rest =>
    if isPlainTerm q then
      coalesceRun (q :: rest.takeWhile isPlainTerm) ++
        coalesceRef (rest.dropWhile isPlainTerm)
    else q :: coalesceRef rest
termination_by l => l.length
decreasing_by
  · have h := (List.dropWhile_sublist isPlainTerm (l := rest)).length_le
    simp only [List.length_cons]
    omega
  · simp

/-- The state of the coalescing loop over `orig` when `rest` is still to be read: the slice
holds the clauses stored so far, `out`, then the elements that have been read and may be
overwritten, `free`, then `rest`; the pending run of plain terms is `run`. -/
def Coalescer.Inv (orig : List Query) (c : Coalescer) (out free run rest : List Query) :
    Prop :=
  c.musts = out ++ (free ++ rest) ∧ c.n = out.length ∧ c.musts.length = orig.length ∧
    run.length ≤ free.length ∧ (∀ x ∈ run, isPlainTerm x = true) ∧
    c.words = run.map termText ∧ (∀ x, run = [x] → c.last = x) ∧
    coalesceRef orig = out ++ coalesceRef (run ++ rest)

/-! ## The rounds of a run -/

/-- A rank for the states of the parser: a reduction leads to a state whose rank is lower, up
to the symbols that it pops. -/
def yyRank : List Nat :=
  [2, 0, 1, 2, 0, 1, 1, 1, 1, 3, 4, 4, 4, 1, 2, 4, 0, 4, 4, 4, 0, 0, 5, 0, 4, 4, 0, 4, 4, 0, 4,
   5, 4, 4, 4, 4]

/-- The rank of a state. -/
def rank (s : Int) : Nat := yyRank.getD s.toNat 0

/-- The tokens that a run has still to shift: what the lexer has to deliver, and the
lookahead when it is a token. -/
def tokensLeft (st : ParseState) : Nat :=
  st.yylex.lex.length + (if 0 ≤ st.char ∧ st.yytoken ≠ yyEofCode then 1 else 0)

/-- A bound on the rounds that a run has still to make from `yystack`. -/
def potential (st : ParseState) : Nat :=
  8 * tokensLeft st + rank st.yystate + st.below.length

/-- A round that goes on does so at `yystack`, outside the error recovery, with a potential
below `P`. -/
def Step.Decr (P : Nat) : Step → Prop
  | Step.next lbl st => lbl = Label.yystack ∧ st.Errflag = 0 ∧ potential st < P
  | _ => True

/-- An action that leaves the items of the lexer as they are. -/
def Act.KeepsLex {α : Type} (l : lexerWrapper) : Act α → Prop
  | Act.ok l1 _ => l1.lex = l.lex
  | Act.panic _ _ => True

/-- The highest rank among the states that a reduction to a nonterminal leads to. -/
def yyGotoRank : List Nat := [5, 4, 3, 1, 0, 0, 1, 2]

/-- The bound of `yyGotoRank` for a nonterminal. -/
def gotoRank (nt : Int) : Nat := yyGotoRank.getD nt.toNat 0

/-! ## The payloads of a parse without an error -/

/-- What a parse without an error needs of an item: the payload of a TILDE and of a BOOST
parses as a number, and so does the payload of a NUMBER, as it is or behind a minus sign. -/
def LexItem.Parses (lib : GoLib) : LexItem → Prop
  | LexItem.tok TokKind.tTILDE s => ∃ v, ParseFloat lib s = .ok v
  | LexItem.tok TokKind.tBOOST s => ∃ v, ParseFloat lib s = .ok v
  | LexItem.tok TokKind.tNUMBER s =>
    (∃ v, ParseFloat lib s = .ok v) ∨ ∃ v, ParseFloat lib ("-" ++ s) = .ok v
  | _ => True

/-- The field `boost` of a query: `none` while it is unset, and for a value without it. -/
def Query.boostField : Query → Option Float64
  | Query.MatchQuery _ _ b _ _ => b
  | Query.MatchPhraseQuery _ _ b => b
  | Query.TermQuery _ _ b => b
  | Query.RegexpQuery _ _ b => b
  | Query.WildcardQuery _ _ b => b
  | Query.NumericRangeQuery _ _ _ _ _ b => b
  | Query.DateRangeQuery _ _ _ _ _ b => b
  | Query.BooleanQuery _ _ _ b _ => b
  | _ => none

/-! ## The order of the tokens -/

/-- Where a reader of a sequence of search parts stands between two tokens: at the `start`,
after the prefix of a clause (`lead`), after a STRING that starts a clause (`term`), after a
field, its COLON and a STRING (`fieldTerm`), after a clause that only a BOOST can go on
(`clause`), after a BOOST (`boosted`), after a field and its COLON (`colon`), after a MINUS
that stands for a sign (`sign`), after GREATER or LESS (`compare`), and after the EQUAL that
follows one of these (`compareEqual`). -/
inductive Place where
  | start
  | lead
  | term
  | fieldTerm
  | clause
  | boosted
  | colon
  | sign
  | compare
  | compareEqual
  deriving DecidableEq

/-- The place after the first token of a search part. -/
def Place.opening : TokKind → Option Place
  | TokKind.tPLUS => some Place.lead
  | TokKind.tMINUS => some Place.lead
  | TokKind.tQUESTION => some Place.lead
  | TokKind.tSTRING => some Place.term
  | TokKind.tNUMBER => some Place.clause
  | TokKind.tPHRASE => some Place.clause
  | _ => none

/-- The place after the token that opens an operand: a PHRASE, a NUMBER, or the MINUS of a
negative number. -/
def Place.operand : TokKind → Option Place
  | TokKind.tPHRASE => some Place.clause
  | TokKind.tNUMBER => some Place.clause
  | TokKind.tMINUS => some Place.sign
  | _ => none

/-- The place after one more token, if the grammar of `query_string.y` has a sentence that
goes on with it. -/
def Place.step : Place → TokKind → Option Place
  | Place.start, k => Place.opening k
  | Place.boosted, k => Place.opening k
  | Place.lead, TokKind.tSTRING => some Place.term
  | Place.lead, TokKind.tNUMBER => some Place.clause
  | Place.lead, TokKind.tPHRASE => some Place.clause
  | Place.lead, _ => none
  | Place.term, TokKind.tCOLON => some Place.colon
  | Place.term, TokKind.tTILDE => some Place.clause
  | Place.term, TokKind.tBOOST => some Place.boosted
  | Place.term, k => Place.opening k
  | Place.fieldTerm, TokKind.tTILDE => some Place.clause
  | Place.fieldTerm, TokKind.tBOOST => some Place.boosted
  | Place.fieldTerm, k => Place.opening k
  | Place.clause, TokKind.tBOOST => some Place.boosted
  | Place.clause, k => Place.opening k
  | Place.colon, TokKind.tSTRING => some Place.fieldTerm
  | Place.colon, TokKind.tGREATER => some Place.compare
  | Place.colon, TokKind.tLESS => some Place.compare
  | Place.colon, k => Place.operand k
  | Place.sign, TokKind.tNUMBER => some Place.clause
  | Place.sign, _ => none
  | Place.compare, TokKind.tEQUAL => some Place.compareEqual
  | Place.compare, k => Place.operand k
  | Place.compareEqual, k => Place.operand k

/-- The place after a list of items; `none` when no sentence starts that way. -/
def Place.read : Option Place → List LexItem → Option Place
  | p, [] => p
  | p, LexItem.tok k _ :: rest => Place.read (p.bind (fun x => x.step k)) rest
  | _, LexItem.err _ :: _ => none

/-- The places between two search parts. -/
def Place.between : Place → Bool
  | Place.start => true
  | Place.term => true
  | Place.fieldTerm => true
  | Place.clause => true
  | Place.boosted => true
  | _ => false

/-- The places after a clause, before its suffix. -/
def Place.afterBase : Place → Bool
  | Place.term => true
  | Place.fieldTerm => true
  | Place.clause => true
  | _ => false

/-- The places after a search part. -/
def Place.afterPart : Place → Bool
  | Place.term => true
  | Place.fieldTerm => true
  | Place.clause => true
  | Place.boosted => true
  | _ => false

/-- In the words of the spec: a token sequence that begins a clause with BOOST (at the
start, after a prefix, or after the BOOST that ends the clause before), or in which a COLON is
directly followed by PLUS, TILDE, BOOST or COLON, or in which the MINUS after a COLON is
followed by a token other than NUMBER, or in which GREATER or LESS, with or without an EQUAL
behind it, is followed by a STRING. -/
inductive Misplaced : List LexItem → Prop
  | boostFirst (b : String) (rest : List LexItem) :
    Misplaced (LexItem.tok TokKind.tBOOST b :: rest)
  | boostAfter (pre : List LexItem) (k : TokKind) (a b : String) (post : List LexItem)
      (hk : k = TokKind.tPLUS ∨ k = TokKind.tMINUS ∨ k = TokKind.tQUESTION ∨
        k = TokKind.tBOOST) :
    Misplaced (pre ++ LexItem.tok k a :: LexItem.tok TokKind.tBOOST b :: post)
  | afterColon (pre : List LexItem) (c : String) (k : TokKind) (a : String)
      (post : List LexItem)
      (hk : k = TokKind.tPLUS ∨ k = TokKind.tTILDE ∨ k = TokKind.tBOOST ∨
        k = TokKind.tCOLON) :
    Misplaced (pre ++ LexItem.tok TokKind.tCOLON c :: LexItem.tok k a :: post)
  | afterSign (pre : List LexItem) (c m : String) (k : TokKind) (a : String)
      (post : List LexItem) (hk : k ≠ TokKind.tNUMBER) :
    Misplaced (pre ++ LexItem.tok TokKind.tCOLON c :: LexItem.tok TokKind.tMINUS m ::
      LexItem.tok k a :: post)
  | compared (pre : List LexItem) (op : TokKind) (g s : String) (post : List LexItem)
      (hop : op = TokKind.tGREATER ∨ op = TokKind.tLESS) :
    Misplaced (pre ++ LexItem.tok op g :: LexItem.tok TokKind.tSTRING s :: post)
  | comparedEqual (pre : List LexItem) (op : TokKind) (g e s : String)
      (post : List LexItem) (hop : op = TokKind.tGREATER ∨ op = TokKind.tLESS) :
    Misplaced (pre ++ LexItem.tok op g :: LexItem.tok TokKind.tEQUAL e ::
      LexItem.tok TokKind.tSTRING s :: post)

/-- Whether two clauses that stand side by side in a list are both plain terms. -/
def adjacentPlain : List Query → Bool
  | x :: y :: rest => (isPlainTerm x && isPlainTerm y) || adjacentPlain (y :: rest)
  | _ => false

/-- A match query with the empty field and fuzziness 0, whatever its boost. -/
def isBareMatch : Query → Bool
  | Query.MatchQuery _ f _ fz _ => decide (f = "" ∧ fz = 0)
  | _ => false

/-- The clauses that give a match query with the empty field and fuzziness 0, by their tokens
and that query: a STRING alone, which gives the text with the operator AND; a STRING with a
TILDE whose payload gives the fuzziness 0, which gives the text with the operator OR; and the
same two behind a field and its COLON, when the name of the field resolves to the empty
name. -/
inductive TermClause (lib : GoLib) (o : QueryStringOptions) : List LexItem → Query → Prop
  | bare (s : String) :
    TermClause lib o [LexItem.tok TokKind.tSTRING s]
      (Query.MatchQuery s "" none 0 MatchQueryOperator.MatchQueryOperatorAnd)
  | fuzzyZero (s z : String) (v : Float64) (hv : ParseFloat lib z = .ok v)
      (h0 : v.toInt lib = 0) :
    TermClause lib o [LexItem.tok TokKind.tSTRING s, LexItem.tok TokKind.tTILDE z]
      (Query.MatchQuery s "" none 0 MatchQueryOperator.MatchQueryOperatorOr)
  | emptyField (f c s : String) (hf : (newLexerWrapper [] o).fieldname lib f = "") :
    TermClause lib o
      [LexItem.tok TokKind.tSTRING f, LexItem.tok TokKind.tCOLON c,
       LexItem.tok TokKind.tSTRING s]
      (Query.MatchQuery s "" none 0 MatchQueryOperator.MatchQueryOperatorAnd)
  | emptyFieldFuzzyZero (f c s z : String) (v : Float64)
      (hf : (newLexerWrapper [] o).fieldname lib f = "") (hv : ParseFloat lib z = .ok v)
      (h0 : v.toInt lib = 0) :
    TermClause lib o
      [LexItem.tok TokKind.tSTRING f, LexItem.tok TokKind.tCOLON c,
       LexItem.tok TokKind.tSTRING s, LexItem.tok TokKind.tTILDE z]
      (Query.MatchQuery s "" none 0 MatchQueryOperator.MatchQueryOperatorOr)

/-- The tokens `ts` of a search part of the Must list whose clause `q` passes the plain-term
test: no prefix or the prefix PLUS; then a clause of `TermClause`, which the builder of its
production returns as the match query of a text with the empty field, fuzziness 0 and no
boost; then no BOOST, or a BOOST whose payload parses to 1.0. The clause `q` is that match
query, with the boost 1.0 stored in it when there is a BOOST. -/
def PlainOrigin (lib : GoLib) (o : QueryStringOptions) (ts : List LexItem) (q : Query) : Prop :=
  ∃ (ts1 ts2 ts3 : List LexItem) (text : String) (op : MatchQueryOperator)
      (pf : Option Float64),
    ts = ts1 ++ (ts2 ++ ts3) ∧
    (ts1 = [] ∨ ∃ s, ts1 = [LexItem.tok TokKind.tPLUS s]) ∧
    SearchBase lib o ts2 (Query.MatchQuery text "" none 0 op) ∧
    TermClause lib o ts2 (Query.MatchQuery text "" none 0 op) ∧
    ((ts3 = [] ∧ pf = none) ∨
      ∃ s, ts3 = [LexItem.tok TokKind.tBOOST s] ∧
        queryStringParseBoost lib s = .ok (Float64.ofNat 1) ∧ pf = some (Float64.ofNat 1)) ∧
    q = Query.MatchQuery text "" pf 0 op

/-! ## Runs on a sequence of search parts -/

/-- The parser is at the label `yynewstate` in state `s`, on the stack `below`, with `pend`
still to parse and the root query `q`: however much of `pend` it has read as its lookahead,
its run ends with `r`. -/
def Ready (mode : LexErrorMode) (lib : GoLib) (r : Run) (o : QueryStringOptions)
    (q : BooleanQuery) (s : Int) (below : List yySymType) (pend : List LexItem) : Prop :=
  ∀ lex lval ch tk v above ne, LookOK lval ch tk lex pend →
    haltsNext mode lib r (yynewstate mode lib
      ⟨⟨lex, [], q, o, o.debugParser, o.dateFormat, o.logger⟩, lval, ch, tk, v, below, above,
        ne, 0, s⟩)

/-- What follows a clause or a search part: the end of the input, or a token that is not of
one of the given kinds. -/
def Follows (kinds : List TokKind) (rest : List LexItem) : Prop :=
  rest = [] ∨ ∃ k t r, rest = LexItem.tok k t :: r ∧ k ∉ kinds

/-- The wrapper that `Parse` leaves when it accepts with the root `q`. -/
def acceptedWrapper (o : QueryStringOptions) (q : BooleanQuery) : lexerWrapper :=
  ⟨[], [], q, o, o.debugParser, o.dateFormat, o.logger⟩

/-! ## The grammar of the spec -/

/-- In the words of the spec: `num_or_neg := NUMBER | MINUS NUMBER`. -/
inductive SpecNumOrNeg : List LexItem → Prop
  | number (s : String) : SpecNumOrNeg [LexItem.tok TokKind.tNUMBER s]
  | negative (m s : String) :
    SpecNumOrNeg [LexItem.tok TokKind.tMINUS m, LexItem.tok TokKind.tNUMBER s]

/-- In the words of the spec: the sixteen forms of `clause`, in the order of the spec; field +
number is `STRING COLON NUMBER`, and only the operand of a comparison is a `num_or_neg`. -/
inductive SpecClause : List LexItem → Prop
  | string (s : String) : SpecClause [LexItem.tok TokKind.tSTRING s]
  | fuzzy (s n : String) :
    SpecClause [LexItem.tok TokKind.tSTRING s, LexItem.tok TokKind.tTILDE n]
  | fieldFuzzy (f c s n : String) :
    SpecClause [LexItem.tok TokKind.tSTRING f, LexItem.tok TokKind.tCOLON c,
      LexItem.tok TokKind.tSTRING s, LexItem.tok TokKind.tTILDE n]
  | number (s : String) : SpecClause [LexItem.tok TokKind.tNUMBER s]
  | phrase (s : String) : SpecClause [LexItem.tok TokKind.tPHRASE s]
  | fieldString (f c s : String) :
    SpecClause [LexItem.tok TokKind.tSTRING f, LexItem.tok TokKind.tCOLON c,
      LexItem.tok TokKind.tSTRING s]
  | fieldNumber (f c s : String) :
    SpecClause [LexItem.tok TokKind.tSTRING f, LexItem.tok TokKind.tCOLON c,
      LexItem.tok TokKind.tNUMBER s]
  | fieldPhrase (f c s : String) :
    SpecClause [LexItem.tok TokKind.tSTRING f, LexItem.tok TokKind.tCOLON c,
      LexItem.tok TokKind.tPHRASE s]
  | greater (f c g : String) (ts : List LexItem) (h : SpecNumOrNeg ts) :
    SpecClause (LexItem.tok TokKind.tSTRING f :: LexItem.tok TokKind.tCOLON c ::
      LexItem.tok TokKind.tGREATER g :: ts)
  | greaterEqual (f c g e : String) (ts : List LexItem) (h : SpecNumOrNeg ts) :
    SpecClause (LexItem.tok TokKind.tSTRING f :: LexItem.tok TokKind.tCOLON c ::
      LexItem.tok TokKind.tGREATER g :: LexItem.tok TokKind.tEQUAL e :: ts)
  | less (f c g : String) (ts : List LexItem) (h : SpecNumOrNeg ts) :
    SpecClause (LexItem.tok TokKind.tSTRING f :: LexItem.tok TokKind.tCOLON c ::
      LexItem.tok TokKind.tLESS g :: ts)
  | lessEqual (f c g e : String) (ts : List LexItem) (h : SpecNumOrNeg ts) :
    SpecClause (LexItem.tok TokKind.tSTRING f :: LexItem.tok TokKind.tCOLON c ::
      LexItem.tok TokKind.tLESS g :: LexItem.tok TokKind.tEQUAL e :: ts)
  | greaterDate (f c g p : String) :
    SpecClause [LexItem.tok TokKind.tSTRING f, LexItem.tok TokKind.tCOLON c,
      LexItem.tok TokKind.tGREATER g, LexItem.tok TokKind.tPHRASE p]
  | greaterEqualDate (f c g e p : String) :
    SpecClause [LexItem.tok TokKind.tSTRING f, LexItem.tok TokKind.tCOLON c,
      LexItem.tok TokKind.tGREATER g, LexItem.tok TokKind.tEQUAL e,
      LexItem.tok TokKind.tPHRASE p]
  | lessDate (f c g p : String) :
    SpecClause [LexItem.tok TokKind.tSTRING f, LexItem.tok TokKind.tCOLON c,
      LexItem.tok TokKind.tLESS g, LexItem.tok TokKind.tPHRASE p]
  | lessEqualDate (f c g e p : String) :
    SpecClause [LexItem.tok TokKind.tSTRING f, LexItem.tok TokKind.tCOLON c,
      LexItem.tok TokKind.tLESS g, LexItem.tok TokKind.tEQUAL e,
      LexItem.tok TokKind.tPHRASE p]

/-- In the words of the spec: `prefix := ε | QUESTION | PLUS | MINUS`. -/
inductive SpecPrefix : List LexItem → Prop
  | absent : SpecPrefix []
  | question (s : String) : SpecPrefix [LexItem.tok TokKind.tQUESTION s]
  | plus (s : String) : SpecPrefix [LexItem.tok TokKind.tPLUS s]
  | minus (s : String) : SpecPrefix [LexItem.tok TokKind.tMINUS s]

/-- In the words of the spec: `boost := ε | BOOST`. -/
inductive SpecBoost : List LexItem → Prop
  | absent : SpecBoost []
  | boost (s : String) : SpecBoost [LexItem.tok TokKind.tBOOST s]

/-- In the words of the spec: `search_part := prefix clause boost`, over the given forms of
`clause`. -/
inductive SpecPart (clause : List LexItem → Prop) : List LexItem → Prop
  | mk (p c b : List LexItem) (hp : SpecPrefix p) (hc : clause c) (hb : SpecBoost b) :
    SpecPart clause (p ++ c ++ b)

/-- In the words of the spec: `search_parts := search_parts search_part | search_part`, over
the given forms of `clause`. -/
inductive SpecParts (clause : List LexItem → Prop) : List LexItem → Prop
  | more (ps p : List LexItem) (h : SpecParts clause ps) (hp : SpecPart clause p) :
    SpecParts clause (ps ++ p)
  | one (p : List LexItem) (hp : SpecPart clause p) : SpecParts clause p

/-- In the words of the spec: `input := search_parts`, with the sixteen forms of `clause`. -/
def SpecInput (items : List LexItem) : Prop := SpecParts SpecClause items

/-- The forms of `clause` of the parser: those of the spec, and a field with a negative
number, `STRING COLON MINUS NUMBER`. -/
def AmendedClause (ts : List LexItem) : Prop :=
  SpecClause ts ∨ ∃ f c m s, ts =
    [LexItem.tok TokKind.tSTRING f, LexItem.tok TokKind.tCOLON c,
     LexItem.tok TokKind.tMINUS m, LexItem.tok TokKind.tNUMBER s]

/-- The grammar of the spec with the forms of `clause` of the parser. -/
def AmendedInput (items : List LexItem) : Prop := SpecParts AmendedClause items

/-- A COLON. -/
def isColon : LexItem → Bool
  | LexItem.tok TokKind.tCOLON _ => true
  | _ => false

/-- A MINUS. -/
def isMinus : LexItem → Bool
  | LexItem.tok TokKind.tMINUS _ => true
  | _ => false

/-- No COLON stands before a MINUS or at the end. -/
def noColonMinus : List LexItem → Bool
  | [] => true
  | [x] => !isColon x
  | x :: y :: rest => !(isColon x && isMinus y) && noColonMinus (y :: rest)

/-- Payloads with which no builder reports an error: no STRING is `/`, the payloads of TILDE,
BOOST and NUMBER parse as numbers, a NUMBER also behind a minus sign, a PHRASE after a
comparison parses as a date, and where there is a BOOST no field is a term field. -/
def Benign (lib : GoLib) (o : QueryStringOptions) (items : List LexItem) : Prop :=
  (∀ s, LexItem.tok TokKind.tSTRING s ∈ items → s ≠ "/") ∧
  (∀ s, LexItem.tok TokKind.tTILDE s ∈ items → ∃ v, ParseFloat lib s = .ok v) ∧
  (∀ s, LexItem.tok TokKind.tNUMBER s ∈ items →
    (∃ v, ParseFloat lib s = .ok v) ∧ ∃ v, ParseFloat lib ("-" ++ s) = .ok v) ∧
  (∀ k g s pre post, items = pre ++ LexItem.tok k g :: LexItem.tok TokKind.tPHRASE s :: post →
    k = TokKind.tGREATER ∨ k = TokKind.tLESS ∨ k = TokKind.tEQUAL →
    ∃ t, lib.timeParse o.dateFormat s = .ok t) ∧
  (∀ s, LexItem.tok TokKind.tBOOST s ∈ items →
    (∃ v, ParseFloat lib s = .ok v) ∧ ∀ f, isTermField o.termFields f = false)

/-! ## The stack of the parser -/

/-- The states that follow a state on the stack: entry `p` lists the states that a shift in
state `p` leads to, and those that the goto of a reduction leads to when `p` is the top of the
stack after the symbols of the production are popped. -/
def yySucc : List (List Int) :=
  [[1, 2, 3, 4, 5, 6, 7], [], [], [3, 4, 5, 6, 7, 8], [9, 10, 11, 12], [], [], [], [], [13, 14],
   [15, 16], [], [], [], [], [], [17, 18, 19, 20, 21, 22, 23], [24], [], [],
   [22, 23, 25, 26, 27], [22, 23, 28, 29, 30], [], [31], [], [], [22, 23, 32, 33], [], [],
   [22, 23, 34, 35], [], [], [], [], [], []]

/-- State `s` can lie on the stack directly above state `p`. -/
def yyEdge (p s : Int) : Bool := decide (0 ≤ p) && (yySucc.getD p.toNat []).contains s

/-- The states of a stack, the top first, are a path of the automaton from state 0. -/
def viable : List Int → Bool
  | [] => false
  | [s] => s == 0
  | s :: p :: rest => yyEdge p s && viable (p :: rest)

/-- The states below which a state can lie on the stack. -/
def yyPreds (s : Int) : List Int :=
  ((List.range 36).map Int.ofNat).filter (fun p => yyEdge p s)

/-- On every stack with the top `s`, the states of `r` symbols can be popped, and the goto of
the nonterminal `nt` from the state then on top leads to a state that follows it. -/
def canReduce (nt : Int) : Nat → Int → Bool
  | 0, p =>
    match index yyPgo nt with
    | .error _ => false
    | .ok yyg =>
      match yyGoto nt yyg p with
      | .error _ => false
      | .ok g => yyEdge p g
  | r + 1, s => s != 0 && (yyPreds s).all (canReduce nt r)

/-- What holds of the variables of `Parse` at the label `yystack`: there is no error to
recover from, the states on the stack with the state to be pushed are a path of the automaton
from state 0, and the length of `yyS` is `yyInitialStackSize` doubled some number of times. -/
def ParseState.Inv (st : ParseState) : Prop :=
  st.Errflag = 0 ∧ viable (st.yystate :: st.below.map (fun e => e.yys)) = true ∧
    ∃ j, st.below.length + st.above.length = yyInitialStackSize * 2 ^ j

/-- A round that goes on does so at `yystack`, in a state of which `Inv` holds, with the slice
`yyS` as long as it was at the start of the round, `len`, or twice as long. -/
def Step.Keeps (len : Nat) : Step → Prop
  | Step.next lbl st =>
    lbl = Label.yystack ∧ st.Inv ∧ (st.yyS.length = len ∨ st.yyS.length = 2 * len)
  | _ => True

/-- A round in which no index into a table or into the stack is out of range: if it ends with
a panic, the panic is that of its call of the lexer, made with `lx0` and `lval0` when there
is no lookahead, or that of the semantic action of its reduction, which is given as `yyDollar`
the top of the stack `stack` down to `$0`, one element more than the production has symbols. -/
def Step.InRange (mode : LexErrorMode) (lib : GoLib) (lx0 : lexerWrapper) (lval0 : yySymType)
    (ch0 : Int) (stack : List yySymType) : Step → Prop
  | Step.panic l p =>
    (ch0 < 0 ∧ lx0.Lex mode lval0 = Act.panic l p) ∨
      ∃ lx yyn k yyVAL, index yyR2 yyn = .ok k ∧ k < stack.length ∧
        yyAction mode lib lx yyn ((stack.take (k + 1)).reverse) yyVAL = Act.panic l p
  | _ => True

/-- The label and the variables of `Parse` after `n` rounds, when the run has not ended
before. -/
def roundsFrom (mode : LexErrorMode) (lib : GoLib) : Nat → Label → ParseState →
    Option (Label × ParseState)
  | 0, lbl, st => some (lbl, st)
  | n + 1, lbl, st =>
    match yyStep mode lib lbl st with
    | Step.next lbl1 st1 => roundsFrom mode lib n lbl1 st1
    | _ => none

/-! ## A library and wrappers for the examples -/

/-- A library for the examples: it rejects what `GoLib` leaves open, and knows one date. -/
def plainLib : GoLib :=
  { parseFloatLettered := fun s =>
      .error { func := "ParseFloat", num := s, err := NumErrKind.ErrSyntax }
    quote := fun s => "\"" ++ s ++ "\""
    timeParse := fun _ value =>
      if value = "2006-01-02T15:04:05Z" then .ok { wall := 0, ext := 63271811045, loc := none }
      else .error ("parsing time \"" ++ value ++ "\": cannot parse")
    toLower := fun s => String.mk (s.data.map Char.toLower)
    intOutOfRange := fun _ => -9223372036854775808
    sprintfVerbs := fun s => s }

/-- The wrapper of a parse with the default options, before the first token is read. -/
def plainWrapper (items : List LexItem) : lexerWrapper := newLexerWrapper items DefaultOptions

/-- The wrapper of a parse whose options list the empty field name as a term field. -/
def emptyTermFieldWrapper : lexerWrapper :=
  newLexerWrapper [] (DefaultOptions.WithTermFields (some (fun f => f == "")))

/-- The items of `a +b ?c -d^2`. -/
def roleItems : List LexItem :=
  [LexItem.tok TokKind.tSTRING "a", LexItem.tok TokKind.tPLUS "+",
   LexItem.tok TokKind.tSTRING "b", LexItem.tok TokKind.tQUESTION "?",
   LexItem.tok TokKind.tSTRING "c", LexItem.tok TokKind.tMINUS "-",
   LexItem.tok TokKind.tSTRING "d", LexItem.tok TokKind.tBOOST "2"]

/-- The wrapper after the parse of `roleItems` with the default options. -/
def roleResult : lexerWrapper :=
  { plainWrapper [] with
    query :=
      { musts := [Query.MatchQuery "a" "" none 0 MatchQueryOperator.MatchQueryOperatorAnd,
                  Query.MatchQuery "b" "" none 0 MatchQueryOperator.MatchQueryOperatorAnd]
        shoulds := [Query.MatchQuery "c" "" none 0 MatchQueryOperator.MatchQueryOperatorAnd]
        mustNots := [Query.MatchQuery "d" "" (some (Float64.ofNat 2)) 0
          MatchQueryOperator.MatchQueryOperatorAnd]
        boost := none
        minShould := 1 } }


/-- The items of `a b c:d e f g`. -/
def runItems : List LexItem :=
  [LexItem.tok TokKind.tSTRING "a", LexItem.tok TokKind.tSTRING "b",
   LexItem.tok TokKind.tSTRING "c", LexItem.tok TokKind.tCOLON ":",
   LexItem.tok TokKind.tSTRING "d", LexItem.tok TokKind.tSTRING "e",
   LexItem.tok TokKind.tSTRING "f", LexItem.tok TokKind.tSTRING "g"]

/-- A lexer for the example: it delivers `runItems`. -/
def runLex : QueryStringLex := fun _ _ => runItems

/-- The wrapper after the parse of `runItems` with the default options. -/
def runResult : lexerWrapper :=
  { plainWrapper [] with
    query :=
      { musts := [Query.MatchQuery "a" "" none 0 MatchQueryOperator.MatchQueryOperatorAnd,
                  Query.MatchQuery "b" "" none 0 MatchQueryOperator.MatchQueryOperatorAnd,
                  Query.MatchQuery "d" "c" none 0 MatchQueryOperator.MatchQueryOperatorAnd,
                  Query.MatchQuery "e" "" none 0 MatchQueryOperator.MatchQueryOperatorAnd,
                  Query.MatchQuery "f" "" none 0 MatchQueryOperator.MatchQueryOperatorAnd,
                  Query.MatchQuery "g" "" none 0 MatchQueryOperator.MatchQueryOperatorAnd]
        shoulds := []
        mustNots := []
        boost := none
        minShould := 1 } }

/-- A lexer for the examples: it delivers the given items, whatever the text. -/
def itemsLex (items : List LexItem) : QueryStringLex := fun _ _ => items

/-- The items of `field:>"%d"`. -/
def percentItems : List LexItem :=
  [LexItem.tok TokKind.tSTRING "field", LexItem.tok TokKind.tCOLON ":",
   LexItem.tok TokKind.tGREATER ">", LexItem.tok TokKind.tPHRASE "%d"]

/-- The text of 369 nines. -/
def nines : String := String.mk (List.replicate 369 '9')

/-- The text `field:>` followed by 369 nines. -/
def ninesQuery : String := "field:>" ++ nines

/-- The items of `field:>` followed by 369 nines. -/
def ninesItems : List LexItem :=
  [LexItem.tok TokKind.tSTRING "field", LexItem.tok TokKind.tCOLON ":",
   LexItem.tok TokKind.tGREATER ">", LexItem.tok TokKind.tNUMBER nines]

/-- The items of `Field:term^2`. -/
def termBoostItems : List LexItem :=
  [LexItem.tok TokKind.tSTRING "Field", LexItem.tok TokKind.tCOLON ":",
   LexItem.tok TokKind.tSTRING "term", LexItem.tok TokKind.tBOOST "2"]

/-- The options of `TestQueryOptionTermFields`: `Field` is a term field. -/
def termFieldOptions : QueryStringOptions :=
  DefaultOptions.WithTermFields (some (fun f => f == "Field"))

/-- The items of `test^3 other^6`. -/
def boostItems : List LexItem :=
  [LexItem.tok TokKind.tSTRING "test", LexItem.tok TokKind.tBOOST "3",
   LexItem.tok TokKind.tSTRING "other", LexItem.tok TokKind.tBOOST "6"]

/-- The items of `+Field:term`. -/
def lowerItems : List LexItem :=
  [LexItem.tok TokKind.tPLUS "+", LexItem.tok TokKind.tSTRING "Field",
   LexItem.tok TokKind.tCOLON ":", LexItem.tok TokKind.tSTRING "term"]

/-- The items of `field:~text`. -/
def colonTildeItems : List LexItem :=
  [LexItem.tok TokKind.tSTRING "field", LexItem.tok TokKind.tCOLON ":",
   LexItem.tok TokKind.tTILDE "1", LexItem.tok TokKind.tSTRING "text"]

/-- The items of `a ?x b`. -/
def shouldBetweenItems : List LexItem :=
  [LexItem.tok TokKind.tSTRING "a", LexItem.tok TokKind.tQUESTION "?",
   LexItem.tok TokKind.tSTRING "x", LexItem.tok TokKind.tSTRING "b"]

/-- The items of `/`. -/
def slashItems : List LexItem := [LexItem.tok TokKind.tSTRING "/"]

/-- A Must list with a run of two plain terms and a run of one. -/
def runMusts : List Query :=
  [Query.MatchQuery "a" "" none 0 MatchQueryOperator.MatchQueryOperatorAnd,
   Query.MatchQuery "b" "" none 0 MatchQueryOperator.MatchQueryOperatorAnd,
   Query.MatchQuery "d" "c" none 0 MatchQueryOperator.MatchQueryOperatorAnd,
   Query.MatchQuery "e" "" none 0 MatchQueryOperator.MatchQueryOperatorAnd]

/-- The items of `field::text`. -/
def colonColonItems : List LexItem :=
  [LexItem.tok TokKind.tSTRING "field", LexItem.tok TokKind.tCOLON ":",
   LexItem.tok TokKind.tCOLON ":", LexItem.tok TokKind.tSTRING "text"]

/-- The items of `^5` followed by 369 nines. -/
def drainItems : List LexItem :=
  [LexItem.tok TokKind.tBOOST "5", LexItem.tok TokKind.tNUMBER nines]

/-- The items of `a~x b~y`. -/
def twoErrorItems : List LexItem :=
  [LexItem.tok TokKind.tSTRING "a", LexItem.tok TokKind.tTILDE "x",
   LexItem.tok TokKind.tSTRING "b", LexItem.tok TokKind.tTILDE "y"]

/-- The items of `a~0 b`. -/
def fuzzyZeroItems : List LexItem :=
  [LexItem.tok TokKind.tSTRING "a", LexItem.tok TokKind.tTILDE "0",
   LexItem.tok TokKind.tSTRING "b"]

/-- The items of `a ?x`. -/
def leftItems : List LexItem :=
  [LexItem.tok TokKind.tSTRING "a", LexItem.tok TokKind.tQUESTION "?",
   LexItem.tok TokKind.tSTRING "x"]

/-- The items of `b -y`. -/
def rightItems : List LexItem :=
  [LexItem.tok TokKind.tSTRING "b", LexItem.tok TokKind.tMINUS "-",
   LexItem.tok TokKind.tSTRING "y"]

/-- The wrapper after the parse of `leftItems` with the default options. -/
def leftResult : lexerWrapper :=
  { plainWrapper [] with
    query :=
      { musts := [Query.MatchQuery "a" "" none 0 MatchQueryOperator.MatchQueryOperatorAnd]
        shoulds := [Query.MatchQuery "x" "" none 0 MatchQueryOperator.MatchQueryOperatorAnd]
        mustNots := []
        boost := none
        minShould := 1 } }

/-- The wrapper after the parse of `rightItems` with the default options. -/
def rightResult : lexerWrapper :=
  { plainWrapper [] with
    query :=
      { musts := [Query.MatchQuery "b" "" none 0 MatchQueryOperator.MatchQueryOperatorAnd]
        shoulds := []
        mustNots := [Query.MatchQuery "y" "" none 0 MatchQueryOperator.MatchQueryOperatorAnd]
        boost := none
        minShould := 1 } }
/-- The items of `a:b -c ?d e:f`. -/
def orderItems : List LexItem :=
  [LexItem.tok TokKind.tSTRING "a", LexItem.tok TokKind.tCOLON ":",
   LexItem.tok TokKind.tSTRING "b", LexItem.tok TokKind.tMINUS "-",
   LexItem.tok TokKind.tSTRING "c", LexItem.tok TokKind.tQUESTION "?",
   LexItem.tok TokKind.tSTRING "d", LexItem.tok TokKind.tSTRING "e",
   LexItem.tok TokKind.tCOLON ":", LexItem.tok TokKind.tSTRING "f"]

/-- The wrapper after the parse of `orderItems` with the default options. -/
def orderResult : lexerWrapper :=
  { plainWrapper [] with
    query :=
      { musts := [Query.MatchQuery "b" "a" none 0 MatchQueryOperator.MatchQueryOperatorAnd,
                  Query.MatchQuery "f" "e" none 0 MatchQueryOperator.MatchQueryOperatorAnd]
        shoulds := [Query.MatchQuery "d" "" none 0 MatchQueryOperator.MatchQueryOperatorAnd]
        mustNots := [Query.MatchQuery "c" "" none 0 MatchQueryOperator.MatchQueryOperatorAnd]
        boost := none
        minShould := 1 } }
/-- The items of `field:-5`. -/
def negativeItems : List LexItem :=
  [LexItem.tok TokKind.tSTRING "field", LexItem.tok TokKind.tCOLON ":",
   LexItem.tok TokKind.tMINUS "-", LexItem.tok TokKind.tNUMBER "5"]

/-- The clause of `field:-5`. -/
def negativeClause : Query :=
  Query.BooleanQuery []
    [Query.MatchQuery "-5" "field" none 0 MatchQueryOperator.MatchQueryOperatorOr,
     Query.NumericRangeQuery (Float64.ofNat 5).neg (Float64.ofNat 5).neg true true "field"
       none] [] none 1

/-- The wrapper after the parse of `negativeItems` with the default options. -/
def negativeResult : lexerWrapper :=
  { plainWrapper [] with
    query :=
      { musts := [negativeClause]
        shoulds := []
        mustNots := []
        boost := none
        minShould := 1 } }

/-- The items of seventeen search parts, `a a a a a a a a a a a a a a a a a`. -/
def manyItems : List LexItem := List.replicate 17 (LexItem.tok TokKind.tSTRING "a")

/-- The wrapper after the parse of `fuzzyZeroItems` with the default options. -/
def fuzzyZeroResult : lexerWrapper :=
  { plainWrapper [] with
    query :=
      { musts := [Query.MatchQuery "a" "" none 0 MatchQueryOperator.MatchQueryOperatorOr,
                  Query.MatchQuery "b" "" none 0 MatchQueryOperator.MatchQueryOperatorAnd]
        shoulds := []
        mustNots := []
        boost := none
        minShould := 1 } }

/-! # Theorems -/

/-! ## Numbers -/

theorem isDigit_toNat {c : Char} (h : isDigit c = true) : 48 ≤ c.toNat ∧ c.toNat ≤ 57 := by
  simp only [isDigit, Bool.and_eq_true, decide_eq_true_eq] at h
  obtain ⟨h1, h2⟩ := h
  rw [Char.le_def] at h1 h2
  exact ⟨h1, h2⟩

theorem isDigit_not_letter {c : Char} (h : isDigit c = true) : isLetter c = false := by
  have := isDigit_toNat h
  simp only [isLetter, Bool.or_eq_false_iff, Bool.and_eq_false_iff, decide_eq_false_iff_not,
    Char.le_def, beq_eq_false_iff_ne]
  refine ⟨⟨?_, ?_⟩, ?_⟩
  · left
    show ¬ (97 ≤ c.toNat)
    omega
  · left
    show ¬ (65 ≤ c.toNat)
    omega
  · rintro rfl
    simp at this

theorem isDigit_not_sign {c : Char} (h : isDigit c = true) : c ≠ '-' ∧ c ≠ '+' := by
  have := isDigit_toNat h
  constructor <;> rintro rfl <;> simp at this

theorem decVal_foldl_lt (ds : List Char) (h : ∀ c ∈ ds, isDigit c = true) (a : Nat) :
    ds.foldl (fun a c => 10 * a + (c.toNat - 48)) a + 1 ≤ (a + 1) * 10 ^ ds.length := by
  induction ds generalizing a with
  | nil => simp
  | cons c r ih =>
    have hc := isDigit_toNat (h c (List.mem_cons_self _ _))
    have := ih (fun x hx => h x (List.mem_cons_of_mem _ hx)) (10 * a + (c.toNat - 48))
    simp only [List.foldl_cons, List.length_cons]
    calc _ ≤ (10 * a + (c.toNat - 48) + 1) * 10 ^ r.length := this
      _ ≤ (10 * (a + 1)) * 10 ^ r.length := by
        apply Nat.mul_le_mul_right
        omega
      _ = (a + 1) * 10 ^ (r.length + 1) := by ring

theorem decVal_lt (ds : List Char) (h : ∀ c ∈ ds, isDigit c = true) :
    decVal ds < 10 ^ ds.length := by
  have := decVal_foldl_lt ds h 0
  simp only [decVal]
  omega

theorem decVal_lt_of_length (ds : List Char) (h : ∀ c ∈ ds, isDigit c = true)
    (hlen : ds.length ≤ 15) : decVal ds < 1000000000000000 :=
  lt_of_lt_of_le (decVal_lt ds h)
    (le_trans (Nat.pow_le_pow_right (by norm_num) hlen) (by norm_num))

theorem splitSign_of_not_sign (c : Char) (r : List Char) (h1 : c ≠ '-') (h2 : c ≠ '+') :
    splitSign (c :: r) = (false, c :: r) := by
  simp [splitSign, h1, h2]

theorem plainDecimal_digits (ds : List Char) (hne : ds ≠ [])
    (h : ∀ c ∈ ds, isDigit c = true) : plainDecimal ds = some (decVal ds, 0) := by
  have h1 : ds.takeWhile isDigit = ds := List.takeWhile_eq_self_iff.mpr h
  have h2 : ds.dropWhile isDigit = [] := List.dropWhile_eq_nil_iff.mpr h
  simp [plainDecimal, h1, h2, hne]

/-- A string of one to fifteen decimal digits parses to the number it writes. -/
theorem ParseFloat_digits (lib : GoLib) (N : String) (hne : N.data ≠ [])
    (hd : ∀ c ∈ N.data, isDigit c = true) (hlen : N.data.length ≤ 15) :
    ParseFloat lib N = .ok (Float64.ofNat (decVal N.data)) := by
  have hany : N.data.any isLetter = false := by
    rw [List.any_eq_false]
    intro c hc
    simp [isDigit_not_letter (hd c hc)]
  obtain ⟨c, r, hcr⟩ := List.exists_cons_of_ne_nil hne
  have hc := isDigit_not_sign (hd c (by rw [hcr]; exact List.mem_cons_self _ _))
  have hs : splitSign N.data = (false, N.data) := by
    rw [hcr]; exact splitSign_of_not_sign c r hc.1 hc.2
  have hlt : decVal N.data < 9007199254740992 :=
    lt_trans (decVal_lt_of_length N.data hd hlen) (by norm_num)
  simp [ParseFloat, hany, hs, plainDecimal_digits N.data hne hd, decimalToFloat64, hlt,
    Float64.ofNat]

theorem Float64.toInt_ofNat (lib : GoLib) (n : Nat) (h : n < 9223372036854775808) :
    (Float64.ofNat n).toInt lib = (n : Int) := by
  have h1 : (-9223372036854775808 : Int) ≤ (n : Int) := by omega
  simp [Float64.toInt, Float64.ofNat, h1, h]

theorem ParseFloat_neg (lib : GoLib) (d : String) (v : Float64)
    (hd : ∀ c ∈ d.data, isDigit c = true ∨ c = '.') (h : ParseFloat lib d = .ok v) :
    ParseFloat lib ("-" ++ d) = .ok v.neg := by
  have hany : d.data.any isLetter = false := by
    rw [List.any_eq_false]
    intro c hc
    rcases hd c hc with h1 | h1
    · simp [isDigit_not_letter h1]
    · subst h1; decide
  have hdata : ("-" ++ d).data = '-' :: d.data := by
    simp [String.data_append]
  have hany2 : ("-" ++ d).data.any isLetter = false := by
    rw [hdata, List.any_cons, hany]; decide
  have hs2 : splitSign ("-" ++ d).data = (true, d.data) := by
    rw [hdata]; simp [splitSign]
  have hs : splitSign d.data = (false, d.data) := by
    cases hcr : d.data with
    | nil => rfl
    | cons c r =>
      have hc : c ≠ '-' ∧ c ≠ '+' := by
        rcases hd c (by rw [hcr]; exact List.mem_cons_self _ _) with h1 | h1
        · exact isDigit_not_sign h1
        · subst h1; decide
      exact splitSign_of_not_sign c r hc.1 hc.2
  simp only [ParseFloat, hany, hany2, hs, hs2] at h ⊢
  cases hp : plainDecimal d.data with
  | none => simp [hp] at h
  | some md =>
    obtain ⟨mant, fd⟩ := md
    simp only [hp] at h ⊢
    cases hq : decimalToFloat64 mant fd with
    | none => simp [hq] at h
    | some q =>
      simp only [hq] at h ⊢
      simp only [Bool.false_eq_true, if_false, if_true] at h ⊢
      cases h
      rfl

/-! ## The semantic builders -/

/-- Claim C3. On a text that is not slash-delimited `queryStringStringToken` never faults and
classifies in this order: a text with `*` or `?` is a wildcard query; else a field listed in a
non-nil `termFields` gives a term query; else `true` is the numeric range `[1, 1]` and `false`
the numeric range `[0, 0]`, both ends inclusive; else the text is a match query with operator
AND and fuzziness 0. Each result carries the field and no boost. -/
theorem queryStringStringToken_classifies (yylex : lexerWrapper) (field str : String)
    (h : ¬ (str.data.head? = some '/' ∧ str.data.getLast? = some '/')) :
    queryStringStringToken yylex field str = .ok
      (if str.data.any (fun c => c == '*' || c == '?') then Query.WildcardQuery str field none
       else if isTermField yylex.options.termFields field then Query.TermQuery str field none
       else if str = "true" then
         Query.NumericRangeQuery (Float64.ofNat 1) (Float64.ofNat 1) true true field none
       else if str = "false" then
         Query.NumericRangeQuery (Float64.ofNat 0) (Float64.ofNat 0) true true field none
       else Query.MatchQuery str field none 0 MatchQueryOperator.MatchQueryOperatorAnd) := by
  unfold queryStringStringToken
  rw [if_neg h]
  split_ifs <;> rfl

/-- The classification of claim C3 at work on `name:mart*`, on a term field, on `field:true`,
on `field:false` and on `field:test`. -/
theorem queryStringStringToken_classifies_witness :
    queryStringStringToken (plainWrapper []) "name" "mart*" =
        .ok (Query.WildcardQuery "mart*" "name" none) ∧
      queryStringStringToken emptyTermFieldWrapper "" "test" =
        .ok (Query.TermQuery "test" "" none) ∧
      queryStringStringToken (plainWrapper []) "field" "true" =
        .ok (Query.NumericRangeQuery (Float64.ofNat 1) (Float64.ofNat 1) true true "field"
          none) ∧
      queryStringStringToken (plainWrapper []) "field" "false" =
        .ok (Query.NumericRangeQuery (Float64.ofNat 0) (Float64.ofNat 0) true true "field"
          none) ∧
      queryStringStringToken (plainWrapper []) "field" "test" =
        .ok (Query.MatchQuery "test" "field" none 0
          MatchQueryOperator.MatchQueryOperatorAnd) :=
  ⟨(queryStringStringToken_classifies (plainWrapper []) "name" "mart*" (by decide)).trans
      rfl,
   (queryStringStringToken_classifies emptyTermFieldWrapper "" "test" (by decide)).trans
      rfl,
   (queryStringStringToken_classifies (plainWrapper []) "field" "true" (by decide)).trans
      rfl,
   (queryStringStringToken_classifies (plainWrapper []) "field" "false" (by decide)).trans
      rfl,
   (queryStringStringToken_classifies (plainWrapper []) "field" "test" (by decide)).trans
      rfl⟩

/-- Claim C4, at the input on which the code departs from it. A text of two or more characters
that starts and ends with `/` gives a regexp query whose pattern is the text without its first
and last character; on the one-character text `/` the slice `str[1:len(str)-1]` is out of
range and `queryStringStringToken` panics instead of going on to the other rules; and a parse
of the one token `STRING "/"` ends with that panic as its only error and an empty root. -/
theorem queryStringStringToken_slash_faults :
    (∀ (yylex : lexerWrapper) (field str : String), str.data.head? = some '/' →
        str.data.getLast? = some '/' → 2 ≤ str.data.length →
        queryStringStringToken yylex field str =
          .ok (Query.RegexpQuery (String.mk str.data.tail.dropLast) field none)) ∧
      (∀ (yylex : lexerWrapper) (field : String),
        queryStringStringToken yylex field "/" =
          .error { msg := "runtime error: slice bounds out of range [1:0]" }) ∧
      (∀ mode : LexErrorMode,
        (doParse mode plainLib 24 (plainWrapper [LexItem.tok TokKind.tSTRING "/"])).map
            (fun l => (l.errs, l.query.musts.length)) =
          some (["parse error: runtime error: slice bounds out of range [1:0]"], 0)) := by
  refine ⟨?_, ?_, ?_⟩
  · intro yylex field str h1 h2 h3
    have h4 : ¬ (str.length < 2) := by
      show ¬ (str.data.length < 2)
      omega
    simp [queryStringStringToken, h1, h2, sliceInner, h4, Query.SetField]
  · intro yylex field
    rfl
  · intro mode
    cases mode <;> rfl

/-- Claim C5. When the text of a number parses to `v`, `queryStringNumberToken` gives a boolean
query with `minShould` 1, no musts, no must-nots and the two shoulds, in this order,
`MatchQuery` over the text (operator OR, fuzziness 0) and `NumericRangeQuery(v, v, true, true)`,
both with the field; production 12 (a bare NUMBER) builds it with the empty field, production
15 (`field:number`) with the field name, and its operand is the text of the NUMBER (production
27) or `-` followed by that text (production 28). -/
theorem queryStringNumberToken_builds (mode : LexErrorMode) (lib : GoLib) (l : lexerWrapper)
    (text : String) (v : Float64) (d0 d1 d2 d3 yyVAL : yySymType)
    (hv : ParseFloat lib text = .ok v) (hlog : l.logDebugGrammarf = .ok ()) :
    (∀ field : String, queryStringNumberToken lib field text = .ok
        (Query.BooleanQuery []
          [Query.MatchQuery text field none 0 MatchQueryOperator.MatchQueryOperatorOr,
           Query.NumericRangeQuery v v true true field none] [] none 1)) ∧
      yyAction mode lib l 12 [d0, { d1 with s := text }] yyVAL = Act.ok l
        { yyVAL with q := (Query.BooleanQuery []
          [Query.MatchQuery text "" none 0 MatchQueryOperator.MatchQueryOperatorOr,
           Query.NumericRangeQuery v v true true "" none] [] none 1) } ∧
      yyAction mode lib l 15 [d0, d1, d2, { d3 with s := text }] yyVAL = Act.ok l
        { yyVAL with q := (Query.BooleanQuery []
          [Query.MatchQuery text (l.fieldname lib d1.s) none 0
             MatchQueryOperator.MatchQueryOperatorOr,
           Query.NumericRangeQuery v v true true (l.fieldname lib d1.s) none] [] none 1) } ∧
      yyAction mode lib l 27 [d0, d1] yyVAL = Act.ok l { yyVAL with s := d1.s } ∧
      yyAction mode lib l 28 [d0, d1, d2] yyVAL = Act.ok l { yyVAL with s := "-" ++ d2.s } := by
  have hb : ∀ field : String, queryStringNumberToken lib field text = .ok
      (Query.BooleanQuery []
        [Query.MatchQuery text field none 0 MatchQueryOperator.MatchQueryOperatorOr,
         Query.NumericRangeQuery v v true true field none] [] none 1) := by
    intro field
    simp [queryStringNumberToken, hv, NewMatchQuery, NewNumericRangeInclusiveQuery,
      Query.SetField, NewBooleanQuery, BooleanQuery.AddShould, BooleanQuery.SetMinShould,
      BooleanQuery.toQuery]
  refine ⟨hb, ?_, ?_, ?_, ?_⟩
  · simp [yyAction, logged, hlog, setQuery, dollar, hb]
  · simp [yyAction, logged, hlog, setQuery, dollar, hb]
  · simp [yyAction, dollar]
  · simp [yyAction, dollar]

/-- Claim C5 on `33`, on `field:33` and on `field:-5`. -/
theorem queryStringNumberToken_builds_witness :
    queryStringNumberToken plainLib "" "33" = .ok
        (Query.BooleanQuery []
          [Query.MatchQuery "33" "" none 0 MatchQueryOperator.MatchQueryOperatorOr,
           Query.NumericRangeQuery (Float64.ofNat 33) (Float64.ofNat 33) true true "" none]
          [] none 1) ∧
      queryStringNumberToken plainLib "field" "-5" = .ok
        (Query.BooleanQuery []
          [Query.MatchQuery "-5" "field" none 0 MatchQueryOperator.MatchQueryOperatorOr,
           Query.NumericRangeQuery (Float64.ofNat 5).neg (Float64.ofNat 5).neg true true
             "field" none] [] none 1) :=
  ⟨(queryStringNumberToken_builds LexErrorMode.panics plainLib (plainWrapper []) "33"
      (Float64.ofNat 33) yySymType.zero yySymType.zero yySymType.zero yySymType.zero
      yySymType.zero rfl rfl).1 "",
   (queryStringNumberToken_builds LexErrorMode.panics plainLib (plainWrapper []) "-5"
      (Float64.ofNat 5).neg yySymType.zero yySymType.zero yySymType.zero yySymType.zero
      yySymType.zero (ParseFloat_neg plainLib "5" (Float64.ofNat 5) (by decide) rfl) rfl).1
      "field"⟩

/-- Claim C6. When the text of a NUMBER (digits and points) parses to `v`, the four
comparisons with that number are the numeric ranges `(v, MaxNumeric, false, true)` for `>`,
`(v, MaxNumeric, true, true)` for `>=`, `(MinNumeric, v, true, false)` for `<` and
`(MinNumeric, v, true, true)` for `<=`, each with the field; with a MINUS before the NUMBER
the operand is `-` followed by the text and the ranges are those of `-v`. -/
theorem numericRange_builds (lib : GoLib) (field text : String) (v : Float64)
    (hd : ∀ c ∈ text.data, isDigit c = true ∨ c = '.') (hv : ParseFloat lib text = .ok v) :
    (queryStringNumericRangeGreaterThanOrEqual lib field text false =
        .ok (Query.NumericRangeQuery v MaxNumeric false true field none) ∧
      queryStringNumericRangeGreaterThanOrEqual lib field text true =
        .ok (Query.NumericRangeQuery v MaxNumeric true true field none) ∧
      queryStringNumericRangeLessThanOrEqual lib field text false =
        .ok (Query.NumericRangeQuery MinNumeric v true false field none) ∧
      queryStringNumericRangeLessThanOrEqual lib field text true =
        .ok (Query.NumericRangeQuery MinNumeric v true true field none)) ∧
    (queryStringNumericRangeGreaterThanOrEqual lib field ("-" ++ text) false =
        .ok (Query.NumericRangeQuery v.neg MaxNumeric false true field none) ∧
      queryStringNumericRangeGreaterThanOrEqual lib field ("-" ++ text) true =
        .ok (Query.NumericRangeQuery v.neg MaxNumeric true true field none) ∧
      queryStringNumericRangeLessThanOrEqual lib field ("-" ++ text) false =
        .ok (Query.NumericRangeQuery MinNumeric v.neg true false field none) ∧
      queryStringNumericRangeLessThanOrEqual lib field ("-" ++ text) true =
        .ok (Query.NumericRangeQuery MinNumeric v.neg true true field none)) := by
  have hn := ParseFloat_neg lib text v hd hv
  simp [queryStringNumericRangeGreaterThanOrEqual, queryStringNumericRangeLessThanOrEqual, hv,
    hn, NewNumericRangeInclusiveQuery, Query.SetField]

/-- Claim C6 on `field:>5`, `field:>=5`, `field:<5`, `field:<=5` and the same with `-5`. -/
theorem numericRange_builds_witness :
    (∀ c ∈ "5".data, isDigit c = true ∨ c = '.') ∧ ParseFloat plainLib "5" = .ok (Float64.ofNat 5) ∧
    (queryStringNumericRangeGreaterThanOrEqual plainLib "field" "5" false =
        .ok (Query.NumericRangeQuery (Float64.ofNat 5) MaxNumeric false true "field" none) ∧
      queryStringNumericRangeGreaterThanOrEqual plainLib "field" "5" true =
        .ok (Query.NumericRangeQuery (Float64.ofNat 5) MaxNumeric true true "field" none) ∧
      queryStringNumericRangeLessThanOrEqual plainLib "field" "5" false =
        .ok (Query.NumericRangeQuery MinNumeric (Float64.ofNat 5) true false "field" none) ∧
      queryStringNumericRangeLessThanOrEqual plainLib "field" "5" true =
        .ok (Query.NumericRangeQuery MinNumeric (Float64.ofNat 5) true true "field" none)) ∧
    (queryStringNumericRangeGreaterThanOrEqual plainLib "field" ("-" ++ "5") false =
        .ok (Query.NumericRangeQuery (Float64.ofNat 5).neg MaxNumeric false true "field"
          none) ∧
      queryStringNumericRangeGreaterThanOrEqual plainLib "field" ("-" ++ "5") true =
        .ok (Query.NumericRangeQuery (Float64.ofNat 5).neg MaxNumeric true true "field"
          none) ∧
      queryStringNumericRangeLessThanOrEqual plainLib "field" ("-" ++ "5") false =
        .ok (Query.NumericRangeQuery MinNumeric (Float64.ofNat 5).neg true false "field"
          none) ∧
      queryStringNumericRangeLessThanOrEqual plainLib "field" ("-" ++ "5") true =
        .ok (Query.NumericRangeQuery MinNumeric (Float64.ofNat 5).neg true true "field"
          none)) :=
  ⟨by decide, rfl, numericRange_builds plainLib "field" "5" (Float64.ofNat 5) (by decide) rfl⟩

/-- Claim C7. A date comparison fails exactly when `time.Parse` fails on the phrase under the
date format of the parse; when the phrase parses to `t`, the comparisons are the date ranges
`(t, zero time, false, true)` for `>`, `(t, zero time, true, true)` for `>=`,
`(zero time, t, true, false)` for `<` and `(zero time, t, true, true)` for `<=`, each with the
field. -/
theorem dateRange_builds (lib : GoLib) (yylex : lexerWrapper) (field phrase : String) :
    (∀ orEqual : Bool,
      ((∃ e, queryStringDateRangeGreaterThanOrEqual lib yylex field phrase orEqual = .error e) ↔
        ∃ e, lib.timeParse yylex.dateFormat phrase = .error e) ∧
      ((∃ e, queryStringDateRangeLessThanOrEqual lib yylex field phrase orEqual = .error e) ↔
        ∃ e, lib.timeParse yylex.dateFormat phrase = .error e)) ∧
    (∀ t : Time, lib.timeParse yylex.dateFormat phrase = .ok t →
      queryStringDateRangeGreaterThanOrEqual lib yylex field phrase false =
        .ok (Query.DateRangeQuery t Time.zero false true field none) ∧
      queryStringDateRangeGreaterThanOrEqual lib yylex field phrase true =
        .ok (Query.DateRangeQuery t Time.zero true true field none) ∧
      queryStringDateRangeLessThanOrEqual lib yylex field phrase false =
        .ok (Query.DateRangeQuery Time.zero t true false field none) ∧
      queryStringDateRangeLessThanOrEqual lib yylex field phrase true =
        .ok (Query.DateRangeQuery Time.zero t true true field none)) := by
  constructor
  · intro orEqual
    cases h : lib.timeParse yylex.dateFormat phrase <;>
      simp [queryStringDateRangeGreaterThanOrEqual, queryStringDateRangeLessThanOrEqual,
        queryTimeFromString, h]
  · intro t h
    simp [queryStringDateRangeGreaterThanOrEqual, queryStringDateRangeLessThanOrEqual,
      queryTimeFromString, h, NewDateRangeInclusiveQuery, Query.SetField]

/-- Claim C7 on a phrase that parses and on one that does not. -/
theorem dateRange_builds_witness :
    queryStringDateRangeGreaterThanOrEqual plainLib (plainWrapper []) "field"
        "2006-01-02T15:04:05Z" true =
      .ok (Query.DateRangeQuery { wall := 0, ext := 63271811045, loc := none } Time.zero true
        true "field" none) ∧
    ∃ e, queryStringDateRangeLessThanOrEqual plainLib (plainWrapper []) "field" "soon" false =
      .error e :=
  ⟨((dateRange_builds plainLib (plainWrapper []) "field" "2006-01-02T15:04:05Z").2
      { wall := 0, ext := 63271811045, loc := none } rfl).2.1,
   ((dateRange_builds plainLib (plainWrapper []) "field" "soon").1 false).2.mpr ⟨_, rfl⟩⟩

/-- Claim C8. A phrase with a non-empty field is a term query with that field when the field is
listed in `termFields`, and a match-phrase query with that field otherwise; production 16
builds it with the field name as `fieldname` resolves it. -/
theorem queryStringPhraseToken_field (mode : LexErrorMode) (lib : GoLib) (yylex : lexerWrapper)
    (field str : String) (d0 d1 d2 d3 yyVAL : yySymType) (hf : field ≠ "")
    (hres : yylex.fieldname lib d1.s = field) (hlog : yylex.logDebugGrammarf = .ok ()) :
    queryStringPhraseToken yylex field str =
        (if isTermField yylex.options.termFields field then Query.TermQuery str field none
         else Query.MatchPhraseQuery str field none) ∧
      yyAction mode lib yylex 16 [d0, d1, d2, { d3 with s := str }] yyVAL = Act.ok yylex
        { yyVAL with q :=
            (if isTermField yylex.options.termFields field then Query.TermQuery str field none
             else Query.MatchPhraseQuery str field none) } := by
  have hb : queryStringPhraseToken yylex field str =
      (if isTermField yylex.options.termFields field then Query.TermQuery str field none
       else Query.MatchPhraseQuery str field none) := by
    unfold queryStringPhraseToken
    split_ifs <;> simp_all [Query.SetField]
  refine ⟨hb, ?_⟩
  simp [yyAction, logged, hlog, dollar, hres, hb]

/-- Claim C8 on `field3:"test phrase 2"`, without and with `field3` as a term field. -/
theorem queryStringPhraseToken_field_witness :
    queryStringPhraseToken (plainWrapper []) "field3" "test phrase 2" =
        Query.MatchPhraseQuery "test phrase 2" "field3" none ∧
      queryStringPhraseToken
          (newLexerWrapper [] (DefaultOptions.WithTermFields (some (fun f => f == "field3"))))
          "field3" "test phrase 2" =
        Query.TermQuery "test phrase 2" "field3" none :=
  ⟨(queryStringPhraseToken_field LexErrorMode.panics plainLib (plainWrapper []) "field3"
      "test phrase 2" yySymType.zero { yySymType.zero with s := "field3" } yySymType.zero
      yySymType.zero yySymType.zero (by decide) rfl rfl).1.trans rfl,
   (queryStringPhraseToken_field LexErrorMode.panics plainLib
      (newLexerWrapper [] (DefaultOptions.WithTermFields (some (fun f => f == "field3"))))
      "field3" "test phrase 2" yySymType.zero { yySymType.zero with s := "field3" }
      yySymType.zero yySymType.zero yySymType.zero (by decide) rfl rfl).1.trans rfl⟩

/-- Claim C9 as stated fails: with options whose `termFields` lists the empty field name, a
phrase without a field is a term query, not a boolean query of two alternatives. -/
theorem queryStringPhraseToken_bare_counterexample :
    queryStringPhraseToken emptyTermFieldWrapper "" "test phrase 1" =
        Query.TermQuery "test phrase 1" "" none ∧
      queryStringPhraseToken emptyTermFieldWrapper "" "test phrase 1" ≠
        Query.BooleanQuery []
          [Query.MatchPhraseQuery "test phrase 1" "" none,
           Query.TermQuery "test phrase 1" "" none] [] none 1 := by
  have h : queryStringPhraseToken emptyTermFieldWrapper "" "test phrase 1" =
      Query.TermQuery "test phrase 1" "" none := rfl
  refine ⟨h, ?_⟩
  rw [h]
  intro hne
  cases hne

/-- Claim C9, amended. For options whose `termFields` does not list the empty field name (a nil
map, or a map without it), a phrase without a field is a boolean query with `minShould` 1, no
musts and no must-nots, whose shoulds are `MatchPhraseQuery(text)` followed by
`TermQuery(text)`, both with the empty field; production 13 builds it. -/
theorem queryStringPhraseToken_bare (mode : LexErrorMode) (lib : GoLib) (yylex : lexerWrapper)
    (str : String) (d0 d1 yyVAL : yySymType)
    (ht : isTermField yylex.options.termFields "" = false)
    (hlog : yylex.logDebugGrammarf = .ok ()) :
    queryStringPhraseToken yylex "" str =
        Query.BooleanQuery []
          [Query.MatchPhraseQuery str "" none, Query.TermQuery str "" none] [] none 1 ∧
      yyAction mode lib yylex 13 [d0, { d1 with s := str }] yyVAL = Act.ok yylex
        { yyVAL with q := (Query.BooleanQuery []
            [Query.MatchPhraseQuery str "" none, Query.TermQuery str "" none] [] none 1) } := by
  have hb : queryStringPhraseToken yylex "" str =
      Query.BooleanQuery []
        [Query.MatchPhraseQuery str "" none, Query.TermQuery str "" none] [] none 1 := by
    simp [queryStringPhraseToken, ht, NewBooleanQuery, BooleanQuery.AddShould,
      BooleanQuery.SetMinShould, BooleanQuery.toQuery]
  refine ⟨hb, ?_⟩
  simp [yyAction, logged, hlog, dollar, hb]

/-- Claim C9, amended, on the phrase `"test phrase 1"` under the default options. -/
theorem queryStringPhraseToken_bare_witness :
    queryStringPhraseToken (plainWrapper []) "" "test phrase 1" =
      Query.BooleanQuery []
        [Query.MatchPhraseQuery "test phrase 1" "" none,
         Query.TermQuery "test phrase 1" "" none] [] none 1 :=
  (queryStringPhraseToken_bare LexErrorMode.panics plainLib (plainWrapper []) "test phrase 1"
    yySymType.zero yySymType.zero yySymType.zero rfl rfl).1

/-- Claim C10. When the payload of the TILDE is a string of one to fifteen decimal digits,
`queryStringStringTokenFuzzy` reports no error and gives, whatever the text is, a match query
over the text with the field, the number the digits write as fuzziness, operator OR and no
boost; production 10 (`text~N`) builds it with the empty field and production 11
(`field:text~N`) with the field name. -/
theorem queryStringStringTokenFuzzy_digits (mode : LexErrorMode) (lib : GoLib)
    (l : lexerWrapper) (str N : String) (d0 d1 d2 d3 d4 yyVAL : yySymType)
    (hne : N.data ≠ []) (hd : ∀ c ∈ N.data, isDigit c = true) (hlen : N.data.length ≤ 15)
    (hlog : l.logDebugGrammarf = .ok ()) :
    (∀ field : String, queryStringStringTokenFuzzy lib field str N =
        .ok (Query.MatchQuery str field none (decVal N.data : Int)
          MatchQueryOperator.MatchQueryOperatorOr)) ∧
      yyAction mode lib l 10 [d0, { d1 with s := str }, { d2 with s := N }] yyVAL = Act.ok l
        { yyVAL with q := (Query.MatchQuery str "" none (decVal N.data : Int)
            MatchQueryOperator.MatchQueryOperatorOr) } ∧
      yyAction mode lib l 11 [d0, d1, d2, { d3 with s := str }, { d4 with s := N }] yyVAL =
        Act.ok l
          { yyVAL with q := (Query.MatchQuery str (l.fieldname lib d1.s) none
              (decVal N.data : Int) MatchQueryOperator.MatchQueryOperatorOr) } := by
  have hlt : decVal N.data < 9223372036854775808 :=
    lt_trans (decVal_lt_of_length N.data hd hlen) (by norm_num)
  have hb : ∀ field : String, queryStringStringTokenFuzzy lib field str N =
      .ok (Query.MatchQuery str field none (decVal N.data : Int)
        MatchQueryOperator.MatchQueryOperatorOr) := by
    intro field
    simp [queryStringStringTokenFuzzy, ParseFloat_digits lib N hne hd hlen,
      Float64.toInt_ofNat lib _ hlt, NewMatchQuery, Query.SetFuzziness, Query.SetField]
  refine ⟨hb, ?_, ?_⟩
  · simp [yyAction, logged, hlog, setQuery, dollar, hb]
  · simp [yyAction, logged, hlog, setQuery, dollar, hb]

/-- Claim C10 on `watex~2`, and on `field:/t*/~15`, whose text is not classified. -/
theorem queryStringStringTokenFuzzy_digits_witness :
    queryStringStringTokenFuzzy plainLib "" "watex" "2" =
        .ok (Query.MatchQuery "watex" "" none 2 MatchQueryOperator.MatchQueryOperatorOr) ∧
      queryStringStringTokenFuzzy plainLib "field" "/t*/" "15" =
        .ok (Query.MatchQuery "/t*/" "field" none 15
          MatchQueryOperator.MatchQueryOperatorOr) :=
  ⟨((queryStringStringTokenFuzzy_digits LexErrorMode.panics plainLib (plainWrapper [])
      "watex" "2" yySymType.zero yySymType.zero yySymType.zero yySymType.zero yySymType.zero
      yySymType.zero (by decide) (by decide) (by decide) rfl).1 "").trans rfl,
   ((queryStringStringTokenFuzzy_digits LexErrorMode.panics plainLib (plainWrapper [])
      "/t*/" "15" yySymType.zero yySymType.zero yySymType.zero yySymType.zero yySymType.zero
      yySymType.zero (by decide) (by decide) (by decide) rfl).1 "field").trans rfl⟩


/-! ## Errors stay on record -/

theorem lexError_poisoned (mode : LexErrorMode) (l : lexerWrapper) (msg : String) :
    (lexError mode l msg).Poisoned := by
  cases mode <;> simp [lexError, Act.Poisoned]

theorem lexItems_poisoned (mode : LexErrorMode) (l : lexerWrapper) (lval : yySymType)
    (items : List LexItem) (errs : List String) (h : errs ≠ []) :
    (lexItems mode l lval items errs).Poisoned := by
  induction items generalizing errs with
  | nil => simpa [lexItems, Act.Poisoned] using h
  | cons item rest ih =>
    cases item with
    | tok k s => simp [lexItems, Act.Poisoned, h]
    | err msg =>
      cases mode
      · simp only [lexItems]
        exact ih _ (by simp)
      · simp [lexItems, Act.Poisoned]

theorem yylex1_poisoned (mode : LexErrorMode) (l : lexerWrapper) (lval : yySymType)
    (h : l.errs ≠ []) : (yylex1 mode l lval).Poisoned := by
  have h1 := lexItems_poisoned mode l lval l.lex l.errs h
  unfold yylex1 lexerWrapper.Lex
  cases hr : lexItems mode l lval l.lex l.errs with
  | panic l1 p => simp [Act.Poisoned]
  | ok l1 a =>
    rw [hr] at h1
    obtain ⟨lval1, char⟩ := a
    simp only
    cases yylex1Token char
    · simp [Act.Poisoned]
    · simpa [Act.Poisoned] using h1

theorem logged_poisoned (l : lexerWrapper) (a : Act yySymType) (h : a.Poisoned) :
    (logged l a).Poisoned := by
  unfold logged
  cases l.logDebugGrammarf with
  | error p => trivial
  | ok u => exact h

theorem setQuery_poisoned (mode : LexErrorMode) (l : lexerWrapper) (v : yySymType)
    (r : Except String Query) (nilValue : Query) (h : l.errs ≠ []) :
    (setQuery mode l v r nilValue).Poisoned := by
  cases r with
  | ok q => simpa [setQuery, Act.Poisoned] using h
  | error e => cases mode <;> simp [setQuery, lexError, Act.Poisoned]

theorem setQueryOrPanic_poisoned (l : lexerWrapper) (v : yySymType) (r : Except Panic Query)
    (h : l.errs ≠ []) : (setQueryOrPanic l v r).Poisoned := by
  cases r <;> simp [setQueryOrPanic, Act.Poisoned, h]

theorem setBoost_poisoned (mode : LexErrorMode) (l : lexerWrapper) (v : yySymType)
    (r : Except String Float64) (h : l.errs ≠ []) : (setBoost mode l v r).Poisoned := by
  cases r with
  | ok q => simpa [setBoost, Act.Poisoned] using h
  | error e => cases mode <;> simp [setBoost, lexError, Act.Poisoned]

theorem boostedClause_poisoned (mode : LexErrorMode) (l : lexerWrapper) (n : Int)
    (v : yySymType) (r : Except Panic (Except String Query)) (h : l.errs ≠ []) :
    (boostedClause mode l n v r).Poisoned := by
  cases r with
  | error p => trivial
  | ok r1 =>
    cases r1 with
    | ok q => exact h
    | error e => cases mode <;> simp [boostedClause, lexError, Act.Poisoned]

theorem searchPartAction_poisoned (mode : LexErrorMode) (l : lexerWrapper)
    (D : List yySymType) (v : yySymType) (h : l.errs ≠ []) :
    (searchPartAction mode l D v).Poisoned := by
  unfold searchPartAction
  cases (dollar D 3).pf with
  | none => exact h
  | some b => exact boostedClause_poisoned mode l _ v _ h

theorem Act.poisoned_ite {α : Type} {c : Prop} [Decidable c] {a b : Act α}
    (ha : a.Poisoned) (hb : b.Poisoned) : (if c then a else b).Poisoned := by
  split <;> assumption

theorem yyAction_poisoned (mode : LexErrorMode) (lib : GoLib) (l : lexerWrapper) (n : Int)
    (D : List yySymType) (v : yySymType) (h : l.errs ≠ []) :
    (yyAction mode lib l n D v).Poisoned := by
  have hok : ∀ v1 : yySymType, (Act.ok l v1 : Act yySymType).Poisoned := fun v1 => h
  unfold yyAction
  repeat' first
    | exact hok _
    | exact searchPartAction_poisoned mode l D v h
    | exact logged_poisoned l _ (hok _)
    | exact logged_poisoned l _ (setQuery_poisoned mode l _ _ _ h)
    | exact logged_poisoned l _ (setQueryOrPanic_poisoned l _ _ h)
    | exact logged_poisoned l _ (setBoost_poisoned mode l _ _ h)
    | apply Act.poisoned_ite

theorem actionStep_poisoned (st : ParseState) (a : Act yySymType) (h : a.Poisoned) :
    (actionStep st a).Poisoned := by
  cases a with
  | ok l v => simpa [actionStep, Step.Poisoned, Act.Poisoned] using h
  | panic l p => simp [actionStep, Step.Poisoned]

theorem errorPop_poisoned (st : ParseState) (b a : List yySymType)
    (h : st.yylex.errs ≠ []) : (errorPop st b a).Poisoned := by
  induction b generalizing a with
  | nil => simpa [errorPop, Step.Poisoned] using h
  | cons top rest ih =>
    simp only [errorPop]
    cases errShift top.yys with
    | error p => simp [Step.Poisoned]
    | ok r =>
      cases r with
      | none => exact ih _
      | some ys => simp [Step.Poisoned, h]

theorem yyreduce_poisoned (mode : LexErrorMode) (lib : GoLib) (st : ParseState) (n : Int)
    (h : st.yylex.errs ≠ []) : (yyreduce mode lib st n).Poisoned := by
  unfold yyreduce
  repeat' first
    | exact trivial
    | exact actionStep_poisoned _ _ (yyAction_poisoned mode lib _ _ _ _ h)
    | split

theorem yyact_poisoned (mode : LexErrorMode) (lib : GoLib) (st : ParseState) (n : Int)
    (h : st.yylex.errs ≠ []) : (yyact mode lib st n).Poisoned := by
  unfold yyact
  repeat' split
  all_goals first
    | exact trivial
    | exact yyreduce_poisoned mode lib st n h
    | exact errorPop_poisoned _ _ _ h
    | exact errorPop_poisoned _ _ _ (by simp [lexerWrapper.Error])
    | simpa [Step.Poisoned] using h

theorem withLookahead_poisoned (mode : LexErrorMode) (st : ParseState)
    (k : ParseState → Step) (hk : ∀ st1, st1.yylex.errs ≠ [] → (k st1).Poisoned)
    (h : st.yylex.errs ≠ []) : (withLookahead mode st k).Poisoned := by
  unfold withLookahead
  split
  · have h1 := yylex1_poisoned mode st.yylex st.lval h
    cases hr : yylex1 mode st.yylex st.lval with
    | panic l p => simp [Step.Poisoned]
    | ok l a =>
      rw [hr] at h1
      obtain ⟨lval, char, token⟩ := a
      exact hk _ h1
  · exact hk _ h

theorem yydefault_poisoned (mode : LexErrorMode) (lib : GoLib) (st : ParseState)
    (h : st.yylex.errs ≠ []) : (yydefault mode lib st).Poisoned := by
  unfold yydefault
  cases index yyDef st.yystate with
  | error p => simp [Step.Poisoned]
  | ok yyn =>
    simp only
    split
    · apply withLookahead_poisoned mode st _ _ h
      intro st1 h1
      cases excaAction st1.yystate st1.yytoken with
      | error p => simp [Step.Poisoned]
      | ok yyn1 =>
        simp only
        split
        · simpa [Step.Poisoned] using h1
        · exact yyact_poisoned mode lib st1 yyn1 h1
    · exact yyact_poisoned mode lib st yyn h

theorem yynewstate_poisoned (mode : LexErrorMode) (lib : GoLib) (st : ParseState)
    (h : st.yylex.errs ≠ []) : (yynewstate mode lib st).Poisoned := by
  unfold yynewstate
  cases index yyPact st.yystate with
  | error p => simp [Step.Poisoned]
  | ok pact =>
    simp only
    split
    · exact yydefault_poisoned mode lib st h
    · apply withLookahead_poisoned mode st _ _ h
      intro st1 h1
      cases yyShift pact st1.yytoken with
      | error p => simp [Step.Poisoned]
      | ok r =>
        cases r with
        | none => exact yydefault_poisoned mode lib st1 h1
        | some ys => simpa [Step.Poisoned] using h1

theorem yystack_poisoned (mode : LexErrorMode) (lib : GoLib) (st : ParseState)
    (h : st.yylex.errs ≠ []) : (yystack mode lib st).Poisoned := by
  unfold yystack
  split
  · simp [Step.Poisoned]
  · exact yynewstate_poisoned mode lib _ h

theorem yyStep_poisoned (mode : LexErrorMode) (lib : GoLib) (lbl : Label) (st : ParseState)
    (h : st.yylex.errs ≠ []) : (yyStep mode lib lbl st).Poisoned := by
  cases lbl
  · exact yystack_poisoned mode lib st h
  · exact yynewstate_poisoned mode lib st h

/-- Once an error is on record, a run that returns returns with an error on record. -/
theorem parseLoop_poisoned (mode : LexErrorMode) (lib : GoLib) (f : Nat) (lbl : Label)
    (st : ParseState) (l : lexerWrapper) (c : Int)
    (hrun : parseLoop mode lib f lbl st = Run.ret l c) (h : st.yylex.errs ≠ []) :
    l.errs ≠ [] := by
  induction f generalizing lbl st with
  | zero => simp [parseLoop] at hrun
  | succ f ih =>
    have hp := yyStep_poisoned mode lib lbl st h
    simp only [parseLoop] at hrun
    cases hs : yyStep mode lib lbl st with
    | next lbl1 st1 =>
      rw [hs] at hrun hp
      exact ih lbl1 st1 hrun hp
    | ret l1 c1 =>
      rw [hs] at hrun hp
      cases hrun
      exact hp
    | panic l1 p =>
      rw [hs] at hrun
      cases hrun


/-! ## The parse tables, entry by entry -/

theorem yyPact_facts :
    index yyPact 0 = .ok (-1) ∧
    index yyPact 1 = .ok (-1000) ∧
    index yyPact 2 = .ok (-1000) ∧
    index yyPact 3 = .ok (-1) ∧
    index yyPact 4 = .ok 30 ∧
    index yyPact 5 = .ok (-1000) ∧
    index yyPact 6 = .ok (-1000) ∧
    index yyPact 7 = .ok (-1000) ∧
    index yyPact 8 = .ok (-1000) ∧
    index yyPact 9 = .ok 16 ∧
    index yyPact 10 = .ok 9 ∧
    index yyPact 11 = .ok (-1000) ∧
    index yyPact 12 = .ok (-1000) ∧
    index yyPact 13 = .ok (-1000) ∧
    index yyPact 14 = .ok (-1000) ∧
    index yyPact 15 = .ok (-1000) ∧
    index yyPact 16 = .ok (-3) ∧
    index yyPact 17 = .ok (-11) ∧
    index yyPact 18 = .ok (-1000) ∧
    index yyPact 19 = .ok (-1000) ∧
    index yyPact 20 = .ok 6 ∧
    index yyPact 21 = .ok 5 ∧
    index yyPact 22 = .ok (-1000) ∧
    index yyPact 23 = .ok 10 ∧
    index yyPact 24 = .ok (-1000) ∧
    index yyPact 25 = .ok (-1000) ∧
    index yyPact 26 = .ok 26 ∧
    index yyPact 27 = .ok (-1000) ∧
    index yyPact 28 = .ok (-1000) ∧
    index yyPact 29 = .ok 19 ∧
    index yyPact 30 = .ok (-1000) ∧
    index yyPact 31 = .ok (-1000) ∧
    index yyPact 32 = .ok (-1000) ∧
    index yyPact 33 = .ok (-1000) ∧
    index yyPact 34 = .ok (-1000) ∧
    index yyPact 35 = .ok (-1000) := by
  refine ⟨?_, ?_, ?_, ?_, ?_, ?_, ?_, ?_, ?_, ?_, ?_, ?_, ?_, ?_, ?_, ?_, ?_, ?_, ?_, ?_, ?_, ?_, ?_, ?_, ?_, ?_, ?_, ?_, ?_, ?_, ?_, ?_, ?_, ?_, ?_, ?_⟩ <;> rfl

theorem yyDef_facts :
    index yyDef 0 = .ok 5 ∧
    index yyDef 1 = .ok (-2) ∧
    index yyDef 2 = .ok 1 ∧
    index yyDef 3 = .ok (-2) ∧
    index yyDef 4 = .ok 0 ∧
    index yyDef 5 = .ok 6 ∧
    index yyDef 6 = .ok 7 ∧
    index yyDef 7 = .ok 8 ∧
    index yyDef 8 = .ok 2 ∧
    index yyDef 9 = .ok 25 ∧
    index yyDef 10 = .ok 9 ∧
    index yyDef 11 = .ok 12 ∧
    index yyDef 12 = .ok 13 ∧
    index yyDef 13 = .ok 4 ∧
    index yyDef 14 = .ok 26 ∧
    index yyDef 15 = .ok 10 ∧
    index yyDef 16 = .ok 0 ∧
    index yyDef 17 = .ok 14 ∧
    index yyDef 18 = .ok 15 ∧
    index yyDef 19 = .ok 16 ∧
    index yyDef 20 = .ok 0 ∧
    index yyDef 21 = .ok 0 ∧
    index yyDef 22 = .ok 27 ∧
    index yyDef 23 = .ok 0 ∧
    index yyDef 24 = .ok 11 ∧
    index yyDef 25 = .ok 17 ∧
    index yyDef 26 = .ok 0 ∧
    index yyDef 27 = .ok 21 ∧
    index yyDef 28 = .ok 19 ∧
    index yyDef 29 = .ok 0 ∧
    index yyDef 30 = .ok 23 ∧
    index yyDef 31 = .ok 28 ∧
    index yyDef 32 = .ok 18 ∧
    index yyDef 33 = .ok 22 ∧
    index yyDef 34 = .ok 20 ∧
    index yyDef 35 = .ok 24 := by
  refine ⟨?_, ?_, ?_, ?_, ?_, ?_, ?_, ?_, ?_, ?_, ?_, ?_, ?_, ?_, ?_, ?_, ?_, ?_, ?_, ?_, ?_, ?_, ?_, ?_, ?_, ?_, ?_, ?_, ?_, ?_, ?_, ?_, ?_, ?_, ?_, ?_⟩ <;> rfl

theorem yyR1_facts :
    index yyR1 1 = .ok 5 ∧
    index yyR1 2 = .ok 6 ∧
    index yyR1 3 = .ok 6 ∧
    index yyR1 4 = .ok 7 ∧
    index yyR1 5 = .ok 4 ∧
    index yyR1 6 = .ok 4 ∧
    index yyR1 7 = .ok 4 ∧
    index yyR1 8 = .ok 4 ∧
    index yyR1 9 = .ok 2 ∧
    index yyR1 10 = .ok 2 ∧
    index yyR1 11 = .ok 2 ∧
    index yyR1 12 = .ok 2 ∧
    index yyR1 13 = .ok 2 ∧
    index yyR1 14 = .ok 2 ∧
    index yyR1 15 = .ok 2 ∧
    index yyR1 16 = .ok 2 ∧
    index yyR1 17 = .ok 2 ∧
    index yyR1 18 = .ok 2 ∧
    index yyR1 19 = .ok 2 ∧
    index yyR1 20 = .ok 2 ∧
    index yyR1 21 = .ok 2 ∧
    index yyR1 22 = .ok 2 ∧
    index yyR1 23 = .ok 2 ∧
    index yyR1 24 = .ok 2 ∧
    index yyR1 25 = .ok 3 ∧
    index yyR1 26 = .ok 3 ∧
    index yyR1 27 = .ok 1 ∧
    index yyR1 28 = .ok 1 := by
  refine ⟨?_, ?_, ?_, ?_, ?_, ?_, ?_, ?_, ?_, ?_, ?_, ?_, ?_, ?_, ?_, ?_, ?_, ?_, ?_, ?_, ?_, ?_, ?_, ?_, ?_, ?_, ?_, ?_⟩ <;> rfl

theorem yyR2_facts :
    index yyR2 1 = .ok 1 ∧
    index yyR2 2 = .ok 2 ∧
    index yyR2 3 = .ok 1 ∧
    index yyR2 4 = .ok 3 ∧
    index yyR2 5 = .ok 0 ∧
    index yyR2 6 = .ok 1 ∧
    index yyR2 7 = .ok 1 ∧
    index yyR2 8 = .ok 1 ∧
    index yyR2 9 = .ok 1 ∧
    index yyR2 10 = .ok 2 ∧
    index yyR2 11 = .ok 4 ∧
    index yyR2 12 = .ok 1 ∧
    index yyR2 13 = .ok 1 ∧
    index yyR2 14 = .ok 3 ∧
    index yyR2 15 = .ok 3 ∧
    index yyR2 16 = .ok 3 ∧
    index yyR2 17 = .ok 4 ∧
    index yyR2 18 = .ok 5 ∧
    index yyR2 19 = .ok 4 ∧
    index yyR2 20 = .ok 5 ∧
    index yyR2 21 = .ok 4 ∧
    index yyR2 22 = .ok 5 ∧
    index yyR2 23 = .ok 4 ∧
    index yyR2 24 = .ok 5 ∧
    index yyR2 25 = .ok 0 ∧
    index yyR2 26 = .ok 1 ∧
    index yyR2 27 = .ok 1 ∧
    index yyR2 28 = .ok 2 := by
  refine ⟨?_, ?_, ?_, ?_, ?_, ?_, ?_, ?_, ?_, ?_, ?_, ?_, ?_, ?_, ?_, ?_, ?_, ?_, ?_, ?_, ?_, ?_, ?_, ?_, ?_, ?_, ?_, ?_⟩ <;> rfl

theorem yyPgo_facts :
    index yyPgo 1 = .ok 0 ∧
    index yyPgo 2 = .ok 42 ∧
    index yyPgo 3 = .ok 41 ∧
    index yyPgo 4 = .ok 39 ∧
    index yyPgo 5 = .ok 38 ∧
    index yyPgo 6 = .ok 28 ∧
    index yyPgo 7 = .ok 37 := by
  refine ⟨?_, ?_, ?_, ?_, ?_, ?_, ?_⟩ <;> rfl

theorem yyShift_facts_m11 :
    yyShift (-11) 1 = .ok none ∧
    yyShift (-11) 4 = .ok none ∧
    yyShift (-11) 5 = .ok none ∧
    yyShift (-11) 6 = .ok none ∧
    yyShift (-11) 7 = .ok none ∧
    yyShift (-11) 8 = .ok none ∧
    yyShift (-11) 9 = .ok none ∧
    yyShift (-11) 10 = .ok none ∧
    yyShift (-11) 11 = .ok none ∧
    yyShift (-11) 12 = .ok none ∧
    yyShift (-11) 13 = .ok none ∧
    yyShift (-11) 14 = .ok (some 24) ∧
    yyShift (-11) 15 = .ok none := by
  refine ⟨?_, ?_, ?_, ?_, ?_, ?_, ?_, ?_, ?_, ?_, ?_, ?_, ?_⟩ <;> rfl

theorem yyShift_facts_m3 :
    yyShift (-3) 1 = .ok none ∧
    yyShift (-3) 4 = .ok (some 17) ∧
    yyShift (-3) 5 = .ok (some 19) ∧
    yyShift (-3) 6 = .ok none ∧
    yyShift (-3) 7 = .ok (some 23) ∧
    yyShift (-3) 8 = .ok none ∧
    yyShift (-3) 9 = .ok none ∧
    yyShift (-3) 10 = .ok (some 22) ∧
    yyShift (-3) 11 = .ok (some 20) ∧
    yyShift (-3) 12 = .ok (some 21) ∧
    yyShift (-3) 13 = .ok none ∧
    yyShift (-3) 14 = .ok none ∧
    yyShift (-3) 15 = .ok none := by
  refine ⟨?_, ?_, ?_, ?_, ?_, ?_, ?_, ?_, ?_, ?_, ?_, ?_, ?_⟩ <;> rfl

theorem yyShift_facts_m1 :
    yyShift (-1) 1 = .ok none ∧
    yyShift (-1) 4 = .ok none ∧
    yyShift (-1) 5 = .ok none ∧
    yyShift (-1) 6 = .ok (some 6) ∧
    yyShift (-1) 7 = .ok (some 7) ∧
    yyShift (-1) 8 = .ok none ∧
    yyShift (-1) 9 = .ok none ∧
    yyShift (-1) 10 = .ok none ∧
    yyShift (-1) 11 = .ok none ∧
    yyShift (-1) 12 = .ok none ∧
    yyShift (-1) 13 = .ok none ∧
    yyShift (-1) 14 = .ok none ∧
    yyShift (-1) 15 = .ok (some 5) := by
  refine ⟨?_, ?_, ?_, ?_, ?_, ?_, ?_, ?_, ?_, ?_, ?_, ?_, ?_⟩ <;> rfl

theorem yyShift_facts_5 :
    yyShift 5 1 = .ok none ∧
    yyShift 5 4 = .ok none ∧
    yyShift 5 5 = .ok (some 30) ∧
    yyShift 5 6 = .ok none ∧
    yyShift 5 7 = .ok (some 23) ∧
    yyShift 5 8 = .ok none ∧
    yyShift 5 9 = .ok none ∧
    yyShift 5 10 = .ok (some 22) ∧
    yyShift 5 11 = .ok none ∧
    yyShift 5 12 = .ok none ∧
    yyShift 5 13 = .ok (some 29) ∧
    yyShift 5 14 = .ok none ∧
    yyShift 5 15 = .ok none := by
  refine ⟨?_, ?_, ?_, ?_, ?_, ?_, ?_, ?_, ?_, ?_, ?_, ?_, ?_⟩ <;> rfl

theorem yyShift_facts_6 :
    yyShift 6 1 = .ok none ∧
    yyShift 6 4 = .ok none ∧
    yyShift 6 5 = .ok (some 27) ∧
    yyShift 6 6 = .ok none ∧
    yyShift 6 7 = .ok (some 23) ∧
    yyShift 6 8 = .ok none ∧
    yyShift 6 9 = .ok none ∧
    yyShift 6 10 = .ok (some 22) ∧
    yyShift 6 11 = .ok none ∧
    yyShift 6 12 = .ok none ∧
    yyShift 6 13 = .ok (some 26) ∧
    yyShift 6 14 = .ok none ∧
    yyShift 6 15 = .ok none := by
  refine ⟨?_, ?_, ?_, ?_, ?_, ?_, ?_, ?_, ?_, ?_, ?_, ?_, ?_⟩ <;> rfl

theorem yyShift_facts_9 :
    yyShift 9 1 = .ok none ∧
    yyShift 9 4 = .ok none ∧
    yyShift 9 5 = .ok none ∧
    yyShift 9 6 = .ok none ∧
    yyShift 9 7 = .ok none ∧
    yyShift 9 8 = .ok (some 16) ∧
    yyShift 9 9 = .ok none ∧
    yyShift 9 10 = .ok none ∧
    yyShift 9 11 = .ok none ∧
    yyShift 9 12 = .ok none ∧
    yyShift 9 13 = .ok none ∧
    yyShift 9 14 = .ok (some 15) ∧
    yyShift 9 15 = .ok none := by
  refine ⟨?_, ?_, ?_, ?_, ?_, ?_, ?_, ?_, ?_, ?_, ?_, ?_, ?_⟩ <;> rfl

theorem yyShift_facts_10 :
    yyShift 10 1 = .ok none ∧
    yyShift 10 4 = .ok none ∧
    yyShift 10 5 = .ok none ∧
    yyShift 10 6 = .ok none ∧
    yyShift 10 7 = .ok none ∧
    yyShift 10 8 = .ok none ∧
    yyShift 10 9 = .ok none ∧
    yyShift 10 10 = .ok (some 31) ∧
    yyShift 10 11 = .ok none ∧
    yyShift 10 12 = .ok none ∧
    yyShift 10 13 = .ok none ∧
    yyShift 10 14 = .ok none ∧
    yyShift 10 15 = .ok none := by
  refine ⟨?_, ?_, ?_, ?_, ?_, ?_, ?_, ?_, ?_, ?_, ?_, ?_, ?_⟩ <;> rfl

theorem yyShift_facts_16 :
    yyShift 16 1 = .ok none ∧
    yyShift 16 4 = .ok none ∧
    yyShift 16 5 = .ok none ∧
    yyShift 16 6 = .ok none ∧
    yyShift 16 7 = .ok none ∧
    yyShift 16 8 = .ok none ∧
    yyShift 16 9 = .ok (some 14) ∧
    yyShift 16 10 = .ok none ∧
    yyShift 16 11 = .ok none ∧
    yyShift 16 12 = .ok none ∧
    yyShift 16 13 = .ok none ∧
    yyShift 16 14 = .ok none ∧
    yyShift 16 15 = .ok none := by
  refine ⟨?_, ?_, ?_, ?_, ?_, ?_, ?_, ?_, ?_, ?_, ?_, ?_, ?_⟩ <;> rfl

theorem yyShift_facts_19 :
    yyShift 19 1 = .ok none ∧
    yyShift 19 4 = .ok none ∧
    yyShift 19 5 = .ok (some 35) ∧
    yyShift 19 6 = .ok none ∧
    yyShift 19 7 = .ok (some 23) ∧
    yyShift 19 8 = .ok none ∧
    yyShift 19 9 = .ok none ∧
    yyShift 19 10 = .ok (some 22) ∧
    yyShift 19 11 = .ok none ∧
    yyShift 19 12 = .ok none ∧
    yyShift 19 13 = .ok none ∧
    yyShift 19 14 = .ok none ∧
    yyShift 19 15 = .ok none := by
  refine ⟨?_, ?_, ?_, ?_, ?_, ?_, ?_, ?_, ?_, ?_, ?_, ?_, ?_⟩ <;> rfl

theorem yyShift_facts_26 :
    yyShift 26 1 = .ok none ∧
    yyShift 26 4 = .ok none ∧
    yyShift 26 5 = .ok (some 33) ∧
    yyShift 26 6 = .ok none ∧
    yyShift 26 7 = .ok (some 23) ∧
    yyShift 26 8 = .ok none ∧
    yyShift 26 9 = .ok none ∧
    yyShift 26 10 = .ok (some 22) ∧
    yyShift 26 11 = .ok none ∧
    yyShift 26 12 = .ok none ∧
    yyShift 26 13 = .ok none ∧
    yyShift 26 14 = .ok none ∧
    yyShift 26 15 = .ok none := by
  refine ⟨?_, ?_, ?_, ?_, ?_, ?_, ?_, ?_, ?_, ?_, ?_, ?_, ?_⟩ <;> rfl

theorem yyShift_facts_30 :
    yyShift 30 1 = .ok none ∧
    yyShift 30 4 = .ok (some 10) ∧
    yyShift 30 5 = .ok (some 12) ∧
    yyShift 30 6 = .ok none ∧
    yyShift 30 7 = .ok none ∧
    yyShift 30 8 = .ok none ∧
    yyShift 30 9 = .ok none ∧
    yyShift 30 10 = .ok (some 11) ∧
    yyShift 30 11 = .ok none ∧
    yyShift 30 12 = .ok none ∧
    yyShift 30 13 = .ok none ∧
    yyShift 30 14 = .ok none ∧
    yyShift 30 15 = .ok none := by
  refine ⟨?_, ?_, ?_, ?_, ?_, ?_, ?_, ?_, ?_, ?_, ?_, ?_, ?_⟩ <;> rfl

theorem excaAction_facts :
    excaAction 3 1 = .ok 3 ∧
    excaAction 3 4 = .ok 5 ∧
    excaAction 3 5 = .ok 5 ∧
    excaAction 3 6 = .ok 5 ∧
    excaAction 3 7 = .ok 5 ∧
    excaAction 3 8 = .ok 5 ∧
    excaAction 3 9 = .ok 5 ∧
    excaAction 3 10 = .ok 5 ∧
    excaAction 3 11 = .ok 5 ∧
    excaAction 3 12 = .ok 5 ∧
    excaAction 3 13 = .ok 5 ∧
    excaAction 3 14 = .ok 5 ∧
    excaAction 3 15 = .ok 5 ∧
    excaAction 1 1 = .ok (-1) ∧
    excaAction 1 4 = .ok 0 ∧
    excaAction 1 5 = .ok 0 ∧
    excaAction 1 6 = .ok 0 ∧
    excaAction 1 7 = .ok 0 ∧
    excaAction 1 8 = .ok 0 ∧
    excaAction 1 9 = .ok 0 ∧
    excaAction 1 10 = .ok 0 ∧
    excaAction 1 11 = .ok 0 ∧
    excaAction 1 12 = .ok 0 ∧
    excaAction 1 13 = .ok 0 ∧
    excaAction 1 14 = .ok 0 ∧
    excaAction 1 15 = .ok 0 := by
  refine ⟨?_, ?_, ?_, ?_, ?_, ?_, ?_, ?_, ?_, ?_, ?_, ?_, ?_, ?_, ?_, ?_, ?_, ?_, ?_, ?_, ?_, ?_, ?_, ?_, ?_, ?_⟩ <;> rfl

theorem errShift_facts :
    errShift 0 = .ok none ∧
    errShift 1 = .ok none ∧
    errShift 2 = .ok none ∧
    errShift 3 = .ok none ∧
    errShift 4 = .ok none ∧
    errShift 5 = .ok none ∧
    errShift 6 = .ok none ∧
    errShift 7 = .ok none ∧
    errShift 8 = .ok none ∧
    errShift 9 = .ok none ∧
    errShift 10 = .ok none ∧
    errShift 11 = .ok none ∧
    errShift 12 = .ok none ∧
    errShift 13 = .ok none ∧
    errShift 14 = .ok none ∧
    errShift 15 = .ok none ∧
    errShift 16 = .ok none ∧
    errShift 17 = .ok none ∧
    errShift 18 = .ok none ∧
    errShift 19 = .ok none ∧
    errShift 20 = .ok none ∧
    errShift 21 = .ok none ∧
    errShift 22 = .ok none ∧
    errShift 23 = .ok none ∧
    errShift 24 = .ok none ∧
    errShift 25 = .ok none ∧
    errShift 26 = .ok none ∧
    errShift 27 = .ok none ∧
    errShift 28 = .ok none ∧
    errShift 29 = .ok none ∧
    errShift 30 = .ok none ∧
    errShift 31 = .ok none ∧
    errShift 32 = .ok none ∧
    errShift 33 = .ok none ∧
    errShift 34 = .ok none ∧
    errShift 35 = .ok none := by
  refine ⟨?_, ?_, ?_, ?_, ?_, ?_, ?_, ?_, ?_, ?_, ?_, ?_, ?_, ?_, ?_, ?_, ?_, ?_, ?_, ?_, ?_, ?_, ?_, ?_, ?_, ?_, ?_, ?_, ?_, ?_, ?_, ?_, ?_, ?_, ?_, ?_⟩ <;> rfl

theorem yyGoto_facts :
    yyGoto 1 0 16 = .ok 18 ∧
    yyGoto 1 0 20 = .ok 25 ∧
    yyGoto 1 0 21 = .ok 28 ∧
    yyGoto 1 0 26 = .ok 32 ∧
    yyGoto 1 0 29 = .ok 34 ∧
    yyGoto 2 42 4 = .ok 9 ∧
    yyGoto 3 41 9 = .ok 13 ∧
    yyGoto 4 39 0 = .ok 4 ∧
    yyGoto 4 39 3 = .ok 4 ∧
    yyGoto 5 38 0 = .ok 1 ∧
    yyGoto 6 28 0 = .ok 2 ∧
    yyGoto 6 28 3 = .ok 8 ∧
    yyGoto 7 37 0 = .ok 3 ∧
    yyGoto 7 37 3 = .ok 3 := by
  refine ⟨?_, ?_, ?_, ?_, ?_, ?_, ?_, ?_, ?_, ?_, ?_, ?_, ?_, ?_⟩ <;> rfl

/-! ## Runs, round by round -/

theorem halts_iff (mode : LexErrorMode) (lib : GoLib) (lbl : Label) (st : ParseState)
    (r : Run) : Halts mode lib lbl st r ↔ haltsNext mode lib r (yyStep mode lib lbl st) := by
  constructor
  · rintro ⟨f, hf, hr⟩
    cases f with
    | zero => exact absurd hf.symm hr
    | succ f =>
      simp only [parseLoop] at hf
      cases hs : yyStep mode lib lbl st with
      | next lbl1 st1 => rw [hs] at hf; exact ⟨f, hf, hr⟩
      | ret l c => rw [hs] at hf; exact hf.symm
      | panic l p => rw [hs] at hf; exact hf.symm
  · intro h
    cases hs : yyStep mode lib lbl st with
    | next lbl1 st1 =>
      rw [hs] at h
      obtain ⟨f, hf, hr⟩ := h
      exact ⟨f + 1, by simp only [parseLoop, hs, hf], hr⟩
    | ret l c =>
      rw [hs] at h
      have h1 : r = Run.ret l c := h
      exact ⟨1, by simp only [parseLoop, hs, h1], by rw [h1]; exact Run.noConfusion⟩
    | panic l p =>
      rw [hs] at h
      have h1 : r = Run.panic l p := h
      exact ⟨1, by simp only [parseLoop, hs, h1], by rw [h1]; exact Run.noConfusion⟩

/-- A run that starts with an error on record does not return without one. -/
theorem halts_poisoned (mode : LexErrorMode) (lib : GoLib) (lbl : Label) (st : ParseState)
    (l : lexerWrapper) (c : Int) (h : Halts mode lib lbl st (Run.ret l c))
    (he : st.yylex.errs ≠ []) : l.errs ≠ [] := by
  obtain ⟨f, hf, _⟩ := h
  exact parseLoop_poisoned mode lib f lbl st l c hf he

theorem haltsNext_poisoned (mode : LexErrorMode) (lib : GoLib) (s : Step)
    (l : lexerWrapper) (c : Int) (h : haltsNext mode lib (Run.ret l c) s) (hp : s.Poisoned) :
    l.errs ≠ [] := by
  cases s with
  | next lbl st => exact halts_poisoned mode lib lbl st l c h hp
  | ret l1 c1 =>
    have h1 : Run.ret l c = Run.ret l1 c1 := h
    cases h1
    exact hp
  | panic l1 p =>
    have h1 : Run.ret l c = Run.panic l1 p := h
    cases h1

theorem slots_above_cons (b : List yySymType) (x : yySymType) (xs : List yySymType) :
    slots b (x :: xs) = x :: xs := rfl

theorem slotHead_cons (b : List yySymType) (x : yySymType) (xs : List yySymType) :
    slotHead b (x :: xs) = x := rfl

theorem slotTail_cons (b : List yySymType) (x : yySymType) (xs : List yySymType) :
    slotTail b (x :: xs) = xs := rfl

theorem slots_below_cons (e : yySymType) (b a : List yySymType) :
    slots (e :: b) a = slotHead (e :: b) a :: slotTail (e :: b) a := by
  unfold slotHead slotTail slots
  cases a with
  | nil => simp [grown, List.replicate_succ]
  | cons x xs => simp

theorem yystack_cons (mode : LexErrorMode) (lib : GoLib) (l : lexerWrapper)
    (lval : yySymType) (ch tk : Int) (v e : yySymType) (b a : List yySymType)
    (ne ef s : Int) :
    yystack mode lib ⟨l, lval, ch, tk, v, e :: b, a, ne, ef, s⟩ =
      yynewstate mode lib
        ⟨l, lval, ch, tk, v, { v with yys := s } :: e :: b, slotTail (e :: b) a, ne, ef, s⟩ := by
  simp only [yystack, slots_below_cons]

theorem halts_boundary (mode : LexErrorMode) (lib : GoLib) (l : lexerWrapper)
    (lval : yySymType) (ch tk : Int) (v e : yySymType) (b a : List yySymType)
    (ne ef s : Int) (r : Run) :
    Halts mode lib Label.yystack ⟨l, lval, ch, tk, v, e :: b, a, ne, ef, s⟩ r ↔
      haltsNext mode lib r (yynewstate mode lib
        ⟨l, lval, ch, tk, v, { v with yys := s } :: e :: b, slotTail (e :: b) a, ne, ef, s⟩) := by
  rw [halts_iff, yyStep, yystack_cons]

theorem withLookahead_present (mode : LexErrorMode) (l : lexerWrapper) (lval : yySymType)
    (ch tk : Int) (v : yySymType) (b a : List yySymType) (ne ef s : Int)
    (k : ParseState → Step) (hch : 0 ≤ ch) :
    withLookahead mode ⟨l, lval, ch, tk, v, b, a, ne, ef, s⟩ k =
      k ⟨l, lval, ch, tk, v, b, a, ne, ef, s⟩ := by
  have : ¬ ch < 0 := by omega
  simp [withLookahead, this]

theorem yynewstate_simple (mode : LexErrorMode) (lib : GoLib) (l : lexerWrapper)
    (lval : yySymType) (ch tk : Int) (v : yySymType) (b a : List yySymType) (ne ef s : Int)
    (h : index yyPact s = .ok (-1000)) :
    yynewstate mode lib ⟨l, lval, ch, tk, v, b, a, ne, ef, s⟩ =
      yydefault mode lib ⟨l, lval, ch, tk, v, b, a, ne, ef, s⟩ := by
  simp [yynewstate, h, yyFlag]

theorem yynewstate_look (mode : LexErrorMode) (lib : GoLib) (l : lexerWrapper)
    (lval : yySymType) (ch tk : Int) (v : yySymType) (b a : List yySymType) (ne ef s : Int)
    (hch : 0 ≤ ch) :
    yynewstate mode lib ⟨l, lval, ch, tk, v, b, a, ne, ef, s⟩ =
      match index yyPact s with
      | .error p => .panic l p
      | .ok pact =>
        if pact ≤ yyFlag then yydefault mode lib ⟨l, lval, ch, tk, v, b, a, ne, ef, s⟩
        else
          match yyShift pact tk with
          | .error p => .panic l p
          | .ok (some ys) =>
            .next Label.yystack
              ⟨l, lval, -1, -1, lval, b, a, ne, if 0 < ef then ef - 1 else ef, ys⟩
          | .ok none => yydefault mode lib ⟨l, lval, ch, tk, v, b, a, ne, ef, s⟩ := by
  unfold yynewstate
  cases index yyPact s with
  | error p => rfl
  | ok pact =>
    simp only
    split
    · rfl
    · rw [withLookahead_present mode l lval ch tk v b a ne ef s _ hch]

theorem yydefault_look (mode : LexErrorMode) (lib : GoLib) (l : lexerWrapper)
    (lval : yySymType) (ch tk : Int) (v : yySymType) (b a : List yySymType) (ne ef s : Int)
    (hch : 0 ≤ ch) :
    yydefault mode lib ⟨l, lval, ch, tk, v, b, a, ne, ef, s⟩ =
      match index yyDef s with
      | .error p => .panic l p
      | .ok yyn =>
        if yyn = -2 then
          match excaAction s tk with
          | .error p => .panic l p
          | .ok yyn1 =>
            if yyn1 < 0 then .ret l 0
            else yyact mode lib ⟨l, lval, ch, tk, v, b, a, ne, ef, s⟩ yyn1
        else yyact mode lib ⟨l, lval, ch, tk, v, b, a, ne, ef, s⟩ yyn := by
  unfold yydefault
  cases index yyDef s with
  | error p => rfl
  | ok yyn =>
    simp only
    split
    · rw [withLookahead_present mode l lval ch tk v b a ne ef s _ hch]
    · rfl

theorem yydefault_simple (mode : LexErrorMode) (lib : GoLib) (l : lexerWrapper)
    (lval : yySymType) (tk : Int) (v : yySymType) (b a : List yySymType) (ne ef s : Int) :
    yydefault mode lib ⟨l, lval, -1, tk, v, b, a, ne, ef, s⟩ =
      match index yyDef s with
      | .error p => .panic l p
      | .ok yyn =>
        if yyn = -2 then
          withLookahead mode ⟨l, lval, -1, tk, v, b, a, ne, ef, s⟩ (fun st1 =>
            match excaAction st1.yystate st1.yytoken with
            | .error p => .panic st1.yylex p
            | .ok yyn1 => if yyn1 < 0 then .ret st1.yylex 0 else yyact mode lib st1 yyn1)
        else yyact mode lib ⟨l, lval, -1, tk, v, b, a, ne, ef, s⟩ yyn := rfl

theorem yyact_reduce (mode : LexErrorMode) (lib : GoLib) (st : ParseState) (n : Int)
    (hn : n ≠ 0) : yyact mode lib st n = yyreduce mode lib st n := by
  simp [yyact, hn]

theorem yyreduce_mk (mode : LexErrorMode) (lib : GoLib) (l : lexerWrapper)
    (lval : yySymType) (ch tk : Int) (v : yySymType) (b a : List yySymType) (ne ef s : Int)
    (yyn : Int) :
    yyreduce mode lib ⟨l, lval, ch, tk, v, b, a, ne, ef, s⟩ yyn =
      match index yyR2 yyn with
      | .error p => .panic l p
      | .ok k =>
        if b.length < k then
          .panic l (indexPanic ((b.length : Int) - 1 - k + 1) (b.length + a.length))
        else
          match slots (b.drop k) ((b.take k).reverse ++ a) with
          | [] => .panic l (indexPanic 0 0)
          | yyVAL :: above1 =>
            match index yyR1 yyn with
            | .error p => .panic l p
            | .ok nt =>
              match index yyPgo nt with
              | .error p => .panic l p
              | .ok yyg =>
                match b.drop k with
                | [] => .panic l (indexPanic (-1) (above1.length + 1))
                | top :: below1 =>
                  match yyGoto nt yyg top.yys with
                  | .error p => .panic l p
                  | .ok yystate =>
                    actionStep
                      ⟨l, lval, ch, tk, v, top :: below1, yyVAL :: above1, ne, ef, yystate⟩
                      (yyAction mode lib l yyn ((b.take (k + 1)).reverse) yyVAL) := rfl

/-! ### The actions, for a run that returns without an error on record -/

theorem haltsNext_ok (mode : LexErrorMode) (lib : GoLib) (r : Run) (l0 : lexerWrapper)
    (lval : yySymType) (ch tk : Int) (v0 : yySymType) (b a : List yySymType) (ne ef s : Int)
    (l : lexerWrapper) (v : yySymType) :
    haltsNext mode lib r (actionStep ⟨l0, lval, ch, tk, v0, b, a, ne, ef, s⟩ (Act.ok l v)) ↔
      Halts mode lib Label.yystack ⟨l, lval, ch, tk, v, b, a, ne, ef, s⟩ r := Iff.rfl

theorem haltsNext_logged (mode : LexErrorMode) (lib : GoLib) (lf : lexerWrapper) (cf : Int)
    (st : ParseState) (l : lexerWrapper) (x : Act yySymType) :
    haltsNext mode lib (Run.ret lf cf) (actionStep st (logged l x)) ↔
      (l.logDebugGrammarf = .ok () ∧ haltsNext mode lib (Run.ret lf cf) (actionStep st x)) := by
  unfold logged
  cases l.logDebugGrammarf with
  | error p => simp [actionStep, haltsNext]
  | ok u => simp

theorem haltsNext_setQuery (mode : LexErrorMode) (lib : GoLib) (lf : lexerWrapper) (cf : Int)
    (hl : lf.errs = []) (st : ParseState) (l : lexerWrapper) (v : yySymType)
    (r : Except String Query) (nilValue : Query) :
    haltsNext mode lib (Run.ret lf cf) (actionStep st (setQuery mode l v r nilValue)) ↔
      ∃ q, r = .ok q ∧
        haltsNext mode lib (Run.ret lf cf) (actionStep st (Act.ok l { v with q := q })) := by
  cases r with
  | ok q => simp [setQuery]
  | error e =>
    constructor
    · intro h
      exact absurd hl (haltsNext_poisoned mode lib _ lf cf h
        (actionStep_poisoned _ _ (by cases mode <;> simp [setQuery, lexError, Act.Poisoned])))
    · rintro ⟨q, hq, _⟩
      cases hq

theorem haltsNext_setQueryOrPanic (mode : LexErrorMode) (lib : GoLib) (lf : lexerWrapper)
    (cf : Int) (st : ParseState) (l : lexerWrapper) (v : yySymType) (r : Except Panic Query) :
    haltsNext mode lib (Run.ret lf cf) (actionStep st (setQueryOrPanic l v r)) ↔
      ∃ q, r = .ok q ∧
        haltsNext mode lib (Run.ret lf cf) (actionStep st (Act.ok l { v with q := q })) := by
  cases r with
  | ok q => simp [setQueryOrPanic]
  | error e => simp [setQueryOrPanic, actionStep, haltsNext]

theorem haltsNext_setBoost (mode : LexErrorMode) (lib : GoLib) (lf : lexerWrapper) (cf : Int)
    (hl : lf.errs = []) (st : ParseState) (l : lexerWrapper) (v : yySymType)
    (r : Except String Float64) :
    haltsNext mode lib (Run.ret lf cf) (actionStep st (setBoost mode l v r)) ↔
      ∃ b, r = .ok b ∧
        haltsNext mode lib (Run.ret lf cf)
          (actionStep st (Act.ok l { v with pf := some b })) := by
  cases r with
  | ok q => simp [setBoost]
  | error e =>
    constructor
    · intro h
      exact absurd hl (haltsNext_poisoned mode lib _ lf cf h
        (actionStep_poisoned _ _ (by cases mode <;> simp [setBoost, lexError, Act.Poisoned])))
    · rintro ⟨q, hq, _⟩
      cases hq

theorem haltsNext_boostedClause (mode : LexErrorMode) (lib : GoLib) (lf : lexerWrapper)
    (cf : Int) (hl : lf.errs = []) (st : ParseState) (l : lexerWrapper) (n : Int)
    (v : yySymType) (r : Except Panic (Except String Query)) :
    haltsNext mode lib (Run.ret lf cf) (actionStep st (boostedClause mode l n v r)) ↔
      ∃ q, r = .ok (.ok q) ∧
        haltsNext mode lib (Run.ret lf cf)
          (actionStep st (Act.ok { l with query := addRole l.query n q } v)) := by
  cases r with
  | error p => simp [boostedClause, actionStep, haltsNext]
  | ok r1 =>
    cases r1 with
    | ok q => simp [boostedClause]
    | error e =>
      constructor
      · intro h
        exact absurd hl (haltsNext_poisoned mode lib _ lf cf h
          (actionStep_poisoned _ _
            (by cases mode <;> simp [boostedClause, lexError, Act.Poisoned])))
      · rintro ⟨q, hq, _⟩
        cases hq


/-! ### The wrapper of the builders -/

theorem queryStringStringToken_wrapper (lex : List LexItem) (errs : List String)
    (q : BooleanQuery) (o : QueryStringOptions) (dp : Bool) (df : String) (lg : Option Logger)
    (field str : String) :
    queryStringStringToken ⟨lex, errs, q, o, dp, df, lg⟩ field str =
      queryStringStringToken (newLexerWrapper [] o) field str := rfl

theorem queryStringPhraseToken_wrapper (lex : List LexItem) (errs : List String)
    (q : BooleanQuery) (o : QueryStringOptions) (dp : Bool) (df : String) (lg : Option Logger)
    (field str : String) :
    queryStringPhraseToken ⟨lex, errs, q, o, dp, df, lg⟩ field str =
      queryStringPhraseToken (newLexerWrapper [] o) field str := rfl

theorem fieldname_wrapper (lib : GoLib) (lex : List LexItem) (errs : List String)
    (q : BooleanQuery) (o : QueryStringOptions) (dp : Bool) (df : String) (lg : Option Logger)
    (s : String) :
    lexerWrapper.fieldname lib ⟨lex, errs, q, o, dp, df, lg⟩ s =
      lexerWrapper.fieldname lib (newLexerWrapper [] o) s := rfl

theorem dateRangeGreater_wrapper (lib : GoLib) (lex : List LexItem) (errs : List String)
    (q : BooleanQuery) (o : QueryStringOptions) (dp : Bool) (lg : Option Logger)
    (field phrase : String) (orEqual : Bool) :
    queryStringDateRangeGreaterThanOrEqual lib ⟨lex, errs, q, o, dp, o.dateFormat, lg⟩ field
        phrase orEqual =
      queryStringDateRangeGreaterThanOrEqual lib (newLexerWrapper [] o) field phrase orEqual :=
  rfl

theorem dateRangeLess_wrapper (lib : GoLib) (lex : List LexItem) (errs : List String)
    (q : BooleanQuery) (o : QueryStringOptions) (dp : Bool) (lg : Option Logger)
    (field phrase : String) (orEqual : Bool) :
    queryStringDateRangeLessThanOrEqual lib ⟨lex, errs, q, o, dp, o.dateFormat, lg⟩ field
        phrase orEqual =
      queryStringDateRangeLessThanOrEqual lib (newLexerWrapper [] o) field phrase orEqual :=
  rfl

theorem logDebugGrammarf_wrapper (lex : List LexItem) (errs : List String)
    (q : BooleanQuery) (o : QueryStringOptions) :
    lexerWrapper.logDebugGrammarf ⟨lex, errs, q, o, o.debugParser, o.dateFormat, o.logger⟩ =
      (newLexerWrapper [] o).logDebugGrammarf := rfl

/-! ### The actions, production by production -/

theorem yyAction_facts (mode : LexErrorMode) (lib : GoLib) (l : lexerWrapper)
    (D : List yySymType) (v : yySymType) :
    yyAction mode lib l 1 D v = logged l (.ok l v) ∧
    yyAction mode lib l 2 D v = logged l (.ok l v) ∧
    yyAction mode lib l 3 D v = logged l (.ok l v) ∧
    yyAction mode lib l 4 D v = searchPartAction mode l D v ∧
    yyAction mode lib l 5 D v = .ok l { v with n := queryMust } ∧
    yyAction mode lib l 6 D v = logged l (.ok l { v with n := queryShould }) ∧
    yyAction mode lib l 7 D v = logged l (.ok l { v with n := queryMust }) ∧
    yyAction mode lib l 8 D v = logged l (.ok l { v with n := queryMustNot }) ∧
    yyAction mode lib l 9 D v =
      logged l (setQueryOrPanic l v (queryStringStringToken l "" (dollar D 1).s)) ∧
    yyAction mode lib l 10 D v =
      logged l (setQuery mode l v
        (queryStringStringTokenFuzzy lib "" (dollar D 1).s (dollar D 2).s) Query.nilMatch) ∧
    yyAction mode lib l 11 D v =
      logged l (setQuery mode l v
        (queryStringStringTokenFuzzy lib (l.fieldname lib (dollar D 1).s) (dollar D 3).s
          (dollar D 4).s) Query.nilMatch) ∧
    yyAction mode lib l 12 D v =
      logged l (setQuery mode l v (queryStringNumberToken lib "" (dollar D 1).s) Query.nil) ∧
    yyAction mode lib l 13 D v =
      logged l (.ok l { v with q := (queryStringPhraseToken l "" (dollar D 1).s) }) ∧
    yyAction mode lib l 14 D v =
      logged l (setQueryOrPanic l v
        (queryStringStringToken l (l.fieldname lib (dollar D 1).s) (dollar D 3).s)) ∧
    yyAction mode lib l 15 D v =
      logged l (setQuery mode l v
        (queryStringNumberToken lib (l.fieldname lib (dollar D 1).s) (dollar D 3).s)
        Query.nil) ∧
    yyAction mode lib l 16 D v =
      logged l (.ok l { v with
        q := (queryStringPhraseToken l (l.fieldname lib (dollar D 1).s) (dollar D 3).s) }) ∧
    yyAction mode lib l 17 D v =
      logged l (setQuery mode l v
        (queryStringNumericRangeGreaterThanOrEqual lib (l.fieldname lib (dollar D 1).s)
          (dollar D 4).s false) Query.nilNumericRange) ∧
    yyAction mode lib l 18 D v =
      logged l (setQuery mode l v
        (queryStringNumericRangeGreaterThanOrEqual lib (l.fieldname lib (dollar D 1).s)
          (dollar D 5).s true) Query.nilNumericRange) ∧
    yyAction mode lib l 19 D v =
      logged l (setQuery mode l v
        (queryStringNumericRangeLessThanOrEqual lib (l.fieldname lib (dollar D 1).s)
          (dollar D 4).s false) Query.nilNumericRange) ∧
    yyAction mode lib l 20 D v =
      logged l (setQuery mode l v
        (queryStringNumericRangeLessThanOrEqual lib (l.fieldname lib (dollar D 1).s)
          (dollar D 5).s true) Query.nilNumericRange) ∧
    yyAction mode lib l 21 D v =
      logged l (setQuery mode l v
        (queryStringDateRangeGreaterThanOrEqual lib l (l.fieldname lib (dollar D 1).s)
          (dollar D 4).s false) Query.nilDateRange) ∧
    yyAction mode lib l 22 D v =
      logged l (setQuery mode l v
        (queryStringDateRangeGreaterThanOrEqual lib l (l.fieldname lib (dollar D 1).s)
          (dollar D 5).s true) Query.nilDateRange) ∧
    yyAction mode lib l 23 D v =
      logged l (setQuery mode l v
        (queryStringDateRangeLessThanOrEqual lib l (l.fieldname lib (dollar D 1).s)
          (dollar D 4).s false) Query.nilDateRange) ∧
    yyAction mode lib l 24 D v =
      logged l (setQuery mode l v
        (queryStringDateRangeLessThanOrEqual lib l (l.fieldname lib (dollar D 1).s)
          (dollar D 5).s true) Query.nilDateRange) ∧
    yyAction mode lib l 25 D v = .ok l { v with pf := none } ∧
    yyAction mode lib l 26 D v =
      logged l (setBoost mode l { v with pf := none }
        (queryStringParseBoost lib (dollar D 1).s)) ∧
    yyAction mode lib l 27 D v = .ok l { v with s := (dollar D 1).s } ∧
    yyAction mode lib l 28 D v = .ok l { v with s := "-" ++ (dollar D 2).s } := by
  refine ⟨?_, ?_, ?_, ?_, ?_, ?_, ?_, ?_, ?_, ?_, ?_, ?_, ?_, ?_, ?_, ?_, ?_, ?_, ?_, ?_, ?_,
    ?_, ?_, ?_, ?_, ?_, ?_, ?_⟩ <;> rfl

/-! ### Syntax errors end the run -/

theorem errorPop_ok (st : ParseState) (b a : List yySymType) (hb : StackOK b) :
    errorPop st b a = Step.ret st.yylex 1 := by
  induction b generalizing a with
  | nil => rfl
  | cons e rest ih =>
    have he : errShift e.yys = .ok none := hb e (List.mem_cons_self _ _)
    simp only [errorPop, he]
    exact ih _ (fun x hx => hb x (List.mem_cons_of_mem _ hx))

/-- A syntax error with nothing on record yet ends the run with an error on record. -/
theorem yyact_zero (mode : LexErrorMode) (lib : GoLib) (lf : lexerWrapper) (cf : Int)
    (hl : lf.errs = []) (l : lexerWrapper) (lval : yySymType) (ch tk : Int) (v : yySymType)
    (b a : List yySymType) (ne s : Int) (hb : StackOK b) :
    haltsNext mode lib (Run.ret lf cf)
      (yyact mode lib ⟨l, lval, ch, tk, v, b, a, ne, 0, s⟩ 0) ↔ False := by
  simp only [iff_false]
  intro h
  simp only [yyact, if_true] at h
  cases hm : yyErrorMessage s tk with
  | error p =>
    rw [hm] at h
    cases h
  | ok msg =>
    rw [hm] at h
    simp only [errorPop_ok _ b a hb] at h
    have h1 : Run.ret lf cf = Run.ret (l.Error msg) 1 := h
    cases h1
    simp [lexerWrapper.Error] at hl

theorem StackOK_cons (e : yySymType) (b : List yySymType) :
    StackOK (e :: b) ↔ errShift e.yys = .ok none ∧ StackOK b := by
  simp [StackOK]

theorem StackOK_of_PStack (b : List yySymType) (h : PStack b) : StackOK b := by
  induction b with
  | nil => exact absurd h (by simp [PStack])
  | cons e rest ih =>
    cases rest with
    | nil =>
      have he : e.yys = 0 := h
      intro x hx
      simp only [List.mem_singleton] at hx
      subst hx
      rw [he]
      exact errShift_facts.1
    | cons e2 rest2 =>
      have he : e.yys = 3 ∧ PStack (e2 :: rest2) := h
      rw [StackOK_cons]
      refine ⟨?_, ih he.2⟩
      rw [he.1]
      exact errShift_facts.2.2.2.1


/-! ### Reading the lookahead -/

theorem yylex1Token_code (k : TokKind) : yylex1Token k.code = .ok k.num := by
  cases k <;> rfl

theorem TokKind.code_not_neg (k : TokKind) : ¬ TokKind.code k < 0 := by
  cases k <;> decide

theorem lexItems_wrapper (mode : LexErrorMode) (l : lexerWrapper) (x : List LexItem)
    (y : List String) (lval : yySymType) (items : List LexItem) (errs : List String) :
    lexItems mode ⟨x, y, l.query, l.options, l.debugParser, l.dateFormat, l.logger⟩ lval items
        errs = lexItems mode l lval items errs := by
  induction items generalizing errs with
  | nil => rfl
  | cons item rest ih =>
    cases item with
    | tok k t => rfl
    | err msg =>
      cases mode with
      | panics => rfl
      | records => simpa [lexItems] using ih (errs ++ [msg])

theorem yynewstate_err_records (lib : GoLib) (msg : String) (rest : List LexItem)
    (errs : List String) (q : BooleanQuery) (o : QueryStringOptions) (dp : Bool) (df : String)
    (lg : Option Logger) (lval : yySymType) (tk : Int) (v : yySymType)
    (b a : List yySymType) (ne ef s pact : Int)
    (hp : index yyPact s = .ok pact) (hf : ¬ pact ≤ yyFlag) :
    yynewstate LexErrorMode.records lib
        ⟨⟨LexItem.err msg :: rest, errs, q, o, dp, df, lg⟩, lval, -1, tk, v, b, a, ne, ef, s⟩ =
      yynewstate LexErrorMode.records lib
        ⟨⟨rest, errs ++ [msg], q, o, dp, df, lg⟩, lval, -1, tk, v, b, a, ne, ef, s⟩ := by
  have e := lexItems_wrapper LexErrorMode.records
    ⟨LexItem.err msg :: rest, errs, q, o, dp, df, lg⟩ rest (errs ++ [msg]) lval rest
    (errs ++ [msg])
  simp only [yynewstate, hp, hf, withLookahead, yylex1, lexerWrapper.Lex, lexItems] at e ⊢
  simp [e]

/-- In a state that needs the lookahead, a run that returns without an error on record reads
the end of the input or a token. -/
theorem yynewstate_fetch (mode : LexErrorMode) (lib : GoLib) (lf : lexerWrapper) (cf : Int)
    (hl : lf.errs = []) (lex : List LexItem) (q : BooleanQuery) (o : QueryStringOptions)
    (dp : Bool) (df : String) (lg : Option Logger) (lval : yySymType) (tk : Int)
    (v : yySymType) (b a : List yySymType) (ne ef s pact : Int)
    (hp : index yyPact s = .ok pact) (hf : ¬ pact ≤ yyFlag) :
    haltsNext mode lib (Run.ret lf cf) (yynewstate mode lib
        ⟨⟨lex, [], q, o, dp, df, lg⟩, lval, -1, tk, v, b, a, ne, ef, s⟩) ↔
      (lex = [] ∧ haltsNext mode lib (Run.ret lf cf) (yynewstate mode lib
        ⟨⟨[], [], q, o, dp, df, lg⟩, lval, 0, 1, v, b, a, ne, ef, s⟩)) ∨
      (∃ k t rest, lex = LexItem.tok k t :: rest ∧
        haltsNext mode lib (Run.ret lf cf) (yynewstate mode lib
          ⟨⟨rest, [], q, o, dp, df, lg⟩, { yySymType.zero with s := t }, TokKind.code k,
            TokKind.num k, v, b, a, ne, ef, s⟩)) := by
  cases lex with
  | nil =>
    have h0 : yylex1Token 0 = .ok 1 := rfl
    simp [yynewstate, hp, hf, withLookahead, yylex1, lexerWrapper.Lex, lexItems, h0]
  | cons item rest =>
    cases item with
    | tok k t =>
      simp [yynewstate, hp, hf, withLookahead, yylex1, lexerWrapper.Lex, lexItems,
        yylex1Token_code, TokKind.code_not_neg]
      constructor
      · intro h
        exact ⟨k, t, rest, ⟨⟨rfl, rfl⟩, rfl⟩, h⟩
      · rintro ⟨k1, t1, r1, ⟨⟨rfl, rfl⟩, rfl⟩, h⟩
        exact h
    | err msg =>
      simp only [reduceCtorEq, false_and, List.cons.injEq, exists_false, or_self, iff_false]
      intro h
      cases mode with
      | panics =>
        simp [yynewstate, hp, hf, withLookahead, yylex1, lexerWrapper.Lex, lexItems,
          haltsNext] at h
      | records =>
        rw [yynewstate_err_records lib msg rest [] q o dp df lg lval tk v b a ne ef s pact hp hf] at h
        exact haltsNext_poisoned _ lib _ lf cf h (yynewstate_poisoned _ lib _ (by simp)) hl


/-! ### From one reading of the lookahead to the next -/

theorem machine_fetch (mode : LexErrorMode) (lib : GoLib) (lf : lexerWrapper) (cf : Int)
    (hl : lf.errs = []) (o : QueryStringOptions) (q : BooleanQuery) (s pact : Int)
    (below : List yySymType) (pend : List LexItem)
    (hp : index yyPact s = .ok pact) (hf : ¬ pact ≤ yyFlag)
    (h : Machine mode lib (Run.ret lf cf) o q s below pend) :
    (pend = [] ∧ ∃ lval v above ne, haltsNext mode lib (Run.ret lf cf) (yynewstate mode lib
        ⟨⟨[], [], q, o, o.debugParser, o.dateFormat, o.logger⟩, lval, 0, 1, v, below, above,
          ne, 0, s⟩)) ∨
      (∃ k t rest, pend = LexItem.tok k t :: rest ∧ ∃ v above ne,
        haltsNext mode lib (Run.ret lf cf) (yynewstate mode lib
          ⟨⟨rest, [], q, o, o.debugParser, o.dateFormat, o.logger⟩,
            { yySymType.zero with s := t }, TokKind.code k, TokKind.num k, v, below, above,
            ne, 0, s⟩)) := by
  obtain ⟨lex, lval, ch, tk, v, above, ne, hlook, h⟩ := h
  rcases hlook with ⟨rfl, rfl⟩ | ⟨k, t, rfl, rfl, rfl, rfl⟩ | ⟨rfl, rfl, rfl, rfl⟩
  · rw [yynewstate_fetch mode lib lf cf hl _ _ _ _ _ _ _ _ _ _ _ _ _ _ pact hp hf] at h
    rcases h with ⟨rfl, h⟩ | ⟨k, t, rest, rfl, h⟩
    · exact Or.inl ⟨rfl, _, _, _, _, h⟩
    · exact Or.inr ⟨k, t, rest, rfl, _, _, _, h⟩
  · exact Or.inr ⟨k, t, lex, rfl, _, _, _, h⟩
  · exact Or.inl ⟨rfl, _, _, _, _, h⟩

theorem machine_unread (mode : LexErrorMode) (lib : GoLib) (r : Run) (o : QueryStringOptions)
    (q : BooleanQuery) (s : Int) (below : List yySymType) (lex : List LexItem)
    (lval : yySymType) (tk : Int) (v : yySymType) (above : List yySymType) (ne : Int)
    (h : haltsNext mode lib r (yynewstate mode lib
      ⟨⟨lex, [], q, o, o.debugParser, o.dateFormat, o.logger⟩, lval, -1, tk, v, below, above,
        ne, 0, s⟩)) : Machine mode lib r o q s below lex :=
  ⟨lex, lval, -1, tk, v, above, ne, Or.inl ⟨rfl, rfl⟩, h⟩

theorem machine_ahead (mode : LexErrorMode) (lib : GoLib) (r : Run) (o : QueryStringOptions)
    (q : BooleanQuery) (s : Int) (below : List yySymType) (lex : List LexItem)
    (k : TokKind) (t : String) (v : yySymType) (above : List yySymType) (ne : Int)
    (h : haltsNext mode lib r (yynewstate mode lib
      ⟨⟨lex, [], q, o, o.debugParser, o.dateFormat, o.logger⟩, { yySymType.zero with s := t },
        TokKind.code k, TokKind.num k, v, below, above, ne, 0, s⟩)) :
    Machine mode lib r o q s below (LexItem.tok k t :: lex) :=
  ⟨lex, _, _, _, v, above, ne, Or.inr (Or.inl ⟨k, t, rfl, rfl, rfl, rfl⟩), h⟩

theorem machine_end (mode : LexErrorMode) (lib : GoLib) (r : Run) (o : QueryStringOptions)
    (q : BooleanQuery) (s : Int) (below : List yySymType) (lval v : yySymType)
    (above : List yySymType) (ne : Int)
    (h : haltsNext mode lib r (yynewstate mode lib
      ⟨⟨[], [], q, o, o.debugParser, o.dateFormat, o.logger⟩, lval, 0, 1, v, below, above,
        ne, 0, s⟩)) : Machine mode lib r o q s below [] :=
  ⟨[], lval, 0, 1, v, above, ne, Or.inr (Or.inr ⟨rfl, rfl, rfl, rfl⟩), h⟩

theorem haltsNext_next (mode : LexErrorMode) (lib : GoLib) (r : Run) (lbl : Label)
    (st : ParseState) : haltsNext mode lib r (Step.next lbl st) ↔ Halts mode lib lbl st r :=
  Iff.rfl

theorem haltsNext_ret (mode : LexErrorMode) (lib : GoLib) (lf l : lexerWrapper) (cf c : Int) :
    haltsNext mode lib (Run.ret lf cf) (Step.ret l c) ↔ (lf = l ∧ cf = c) := by
  simp [haltsNext]

theorem haltsNext_panic (mode : LexErrorMode) (lib : GoLib) (lf l : lexerWrapper) (cf : Int)
    (p : Panic) : haltsNext mode lib (Run.ret lf cf) (Step.panic l p) ↔ False := by
  simp [haltsNext]

theorem succ_lt_one (n : Nat) : n + 1 < 1 ↔ False := by simp
theorem succ_lt_two (n : Nat) : n + 1 < 2 ↔ n < 1 := by omega
theorem succ_lt_three (n : Nat) : n + 1 < 3 ↔ n < 2 := by omega
theorem succ_lt_four (n : Nat) : n + 1 < 4 ↔ n < 3 := by omega
theorem succ_lt_five (n : Nat) : n + 1 < 5 ↔ n < 4 := by omega

/-- A push of a state inside a search part. -/
theorem halts_mid (mode : LexErrorMode) (lib : GoLib) (l : lexerWrapper)
    (lval : yySymType) (ch tk : Int) (v e : yySymType) (b a : List yySymType)
    (ne ef s : Int) (r : Run) (_h3 : s ≠ 3) (_h4 : s ≠ 4) (_h9 : s ≠ 9) :
    Halts mode lib Label.yystack ⟨l, lval, ch, tk, v, e :: b, a, ne, ef, s⟩ r ↔
      haltsNext mode lib r (yynewstate mode lib
        ⟨l, lval, ch, tk, v, { v with yys := s } :: e :: b, slotTail (e :: b) a, ne, ef, s⟩) :=
  halts_boundary mode lib l lval ch tk v e b a ne ef s r

theorem TokKind.code_nonneg (k : TokKind) : 0 ≤ TokKind.code k := by
  cases k <;> decide


theorem yyShift_16_rest (k : TokKind) (h : k ≠ TokKind.tBOOST) :
    yyShift 16 (TokKind.num k) = .ok none := by
  cases k <;> first | rfl | contradiction

theorem yyGoto_part (e : yySymType) (h : e.yys = 0 ∨ e.yys = 3) :
    yyGoto 7 37 e.yys = .ok 3 := by
  rcases h with h | h <;> rw [h] <;> rfl

/-- The suffix of a search part, and the action of production 4. -/
theorem suffix_phase (mode : LexErrorMode) (lib : GoLib) (lf : lexerWrapper) (cf : Int)
    (hl : lf.errs = []) (o : QueryStringOptions) (q : BooleanQuery)
    (e9 e4 eb : yySymType) (b : List yySymType) (h9 : e9.yys = 9)
    (hb : eb.yys = 0 ∨ eb.yys = 3) (pend : List LexItem)
    (h : Machine mode lib (Run.ret lf cf) o q 9 (e9 :: e4 :: eb :: b) pend) :
    ∃ ts pf rest q1 e3, pend = ts ++ rest ∧ SearchSuffix lib ts pf ∧ Boosted e9.q pf q1 ∧
      e3.yys = 3 ∧
      Machine mode lib (Run.ret lf cf) o (addRole q e4.n q1) 3 (e3 :: eb :: b) rest := by
  have hg := yyGoto_part eb hb
  rcases machine_fetch mode lib lf cf hl o q 9 16 _ pend rfl (by decide) h with
    ⟨rfl, lval, v, above, ne, h⟩ | ⟨k, t, rest, rfl, v, above, ne, h⟩
  · simp [yynewstate_look, yydefault_look, yynewstate_simple, yydefault_simple, yyact_reduce,
      yyreduce_mk, yyact_zero, halts_mid, haltsNext_next, haltsNext_ret, haltsNext_panic,
      haltsNext_ok, haltsNext_logged, haltsNext_setQuery, haltsNext_setQueryOrPanic,
      haltsNext_setBoost, haltsNext_boostedClause, yyPact_facts, yyDef_facts, yyR1_facts,
      yyR2_facts, yyPgo_facts, excaAction_facts, errShift_facts, yyGoto_facts, yyAction_facts,
      StackOK_cons, succ_lt_one, succ_lt_two, succ_lt_three, succ_lt_four, succ_lt_five,
      queryStringStringToken_wrapper, queryStringPhraseToken_wrapper, fieldname_wrapper,
      dateRangeGreater_wrapper, dateRangeLess_wrapper, logDebugGrammarf_wrapper,
      TokKind.code_nonneg, yyFlag, slots_above_cons, slots_below_cons, slotHead_cons,
      slotTail_cons, dollar, searchPartAction, yyShift_facts_m11, yyShift_facts_m3,
      yyShift_facts_m1, yyShift_facts_5, yyShift_facts_6, yyShift_facts_9, yyShift_facts_10,
      yyShift_facts_16, yyShift_facts_19, yyShift_facts_26, yyShift_facts_30, TokKind.code,
      TokKind.num, hl, h9, hg] at h
    rw [halts_boundary] at h
    exact ⟨[], none, [], e9.q, _, rfl, SearchSuffix.absent, rfl, rfl,
      machine_end _ _ _ _ _ _ _ _ _ _ _ h⟩
  · by_cases hk : k = TokKind.tBOOST
    · subst hk
      simp [yynewstate_look, yydefault_look, yynewstate_simple, yydefault_simple, yyact_reduce,
        yyreduce_mk, yyact_zero, halts_mid, haltsNext_next, haltsNext_ret, haltsNext_panic,
        haltsNext_ok, haltsNext_logged, haltsNext_setQuery, haltsNext_setQueryOrPanic,
        haltsNext_setBoost, haltsNext_boostedClause, yyPact_facts, yyDef_facts, yyR1_facts,
        yyR2_facts, yyPgo_facts, excaAction_facts, errShift_facts, yyGoto_facts, yyAction_facts,
        StackOK_cons, succ_lt_one, succ_lt_two, succ_lt_three, succ_lt_four, succ_lt_five,
        queryStringStringToken_wrapper, queryStringPhraseToken_wrapper, fieldname_wrapper,
        dateRangeGreater_wrapper, dateRangeLess_wrapper, logDebugGrammarf_wrapper,
        TokKind.code_nonneg, yyFlag, slots_above_cons, slots_below_cons, slotHead_cons,
        slotTail_cons, dollar, searchPartAction, yyShift_facts_m11, yyShift_facts_m3,
        yyShift_facts_m1, yyShift_facts_5, yyShift_facts_6, yyShift_facts_9, yyShift_facts_10,
        yyShift_facts_16, yyShift_facts_19, yyShift_facts_26, yyShift_facts_30, TokKind.code,
        TokKind.num, hl, h9, hg] at h
      obtain ⟨_, bst, hb1, q1, hq1, h⟩ := h
      rw [halts_boundary] at h
      exact ⟨[LexItem.tok TokKind.tBOOST t], some bst, rest, q1, _, rfl,
        SearchSuffix.boost t bst hb1, hq1, rfl, machine_unread _ _ _ _ _ _ _ _ _ _ _ _ _ h⟩
    · have hk1 := yyShift_16_rest k hk
      simp [yynewstate_look, yydefault_look, yynewstate_simple, yydefault_simple, yyact_reduce,
        yyreduce_mk, yyact_zero, halts_mid, haltsNext_next, haltsNext_ret, haltsNext_panic,
        haltsNext_ok, haltsNext_logged, haltsNext_setQuery, haltsNext_setQueryOrPanic,
        haltsNext_setBoost, haltsNext_boostedClause, yyPact_facts, yyDef_facts, yyR1_facts,
        yyR2_facts, yyPgo_facts, excaAction_facts, errShift_facts, yyGoto_facts, yyAction_facts,
        StackOK_cons, succ_lt_one, succ_lt_two, succ_lt_three, succ_lt_four, succ_lt_five,
        queryStringStringToken_wrapper, queryStringPhraseToken_wrapper, fieldname_wrapper,
        dateRangeGreater_wrapper, dateRangeLess_wrapper, logDebugGrammarf_wrapper,
        TokKind.code_nonneg, yyFlag, slots_above_cons, slots_below_cons, slotHead_cons,
        slotTail_cons, dollar, searchPartAction, hl, h9, hg, hk1] at h
      rw [halts_boundary] at h
      exact ⟨[], none, LexItem.tok k t :: rest, e9.q, _, rfl, SearchSuffix.absent, rfl, rfl,
        machine_ahead _ _ _ _ _ _ _ _ _ _ _ _ _ h⟩

theorem yyShift_m1_rest (k : TokKind) (h1 : k ≠ TokKind.tPLUS) (h2 : k ≠ TokKind.tMINUS)
    (h3 : k ≠ TokKind.tQUESTION) : yyShift (-1) (TokKind.num k) = .ok none := by
  cases k <;> first | rfl | contradiction

theorem excaAction_3_tok (k : TokKind) : excaAction 3 (TokKind.num k) = .ok 5 := by
  cases k <;> rfl

theorem yyGoto_lead (e : yySymType) (h : e.yys = 0 ∨ e.yys = 3) :
    yyGoto 4 39 e.yys = .ok 4 := by
  rcases h with h | h <;> rw [h] <;> rfl

theorem yyPact_lead (e : yySymType) (h : e.yys = 0 ∨ e.yys = 3) :
    index yyPact e.yys = .ok (-1) := by
  rcases h with h | h <;> rw [h] <;> rfl

/-- The start of a search part: its prefix, if there is one. At the end of the input the
parser stays in state 3. -/
theorem lead_phase (mode : LexErrorMode) (lib : GoLib) (lf : lexerWrapper) (cf : Int)
    (hl : lf.errs = []) (o : QueryStringOptions) (q : BooleanQuery)
    (eb : yySymType) (b : List yySymType) (hb : eb.yys = 0 ∨ eb.yys = 3)
    (pend : List LexItem) (h : Machine mode lib (Run.ret lf cf) o q eb.yys (eb :: b) pend) :
    (pend = [] ∧ eb.yys = 3 ∧ ∃ lval v above ne,
        haltsNext mode lib (Run.ret lf cf) (yynewstate mode lib
          ⟨⟨[], [], q, o, o.debugParser, o.dateFormat, o.logger⟩, lval, 0, 1, v, eb :: b,
            above, ne, 0, 3⟩)) ∨
      ∃ ts n rest e4, pend = ts ++ rest ∧ SearchLead ts n ∧ e4.yys = 4 ∧ e4.n = n ∧
        Machine mode lib (Run.ret lf cf) o q 4 (e4 :: eb :: b) rest := by
  have hg := yyGoto_lead eb hb
  rcases machine_fetch mode lib lf cf hl o q eb.yys (-1) _ pend (yyPact_lead eb hb)
      (by decide) h with
    ⟨rfl, lval, v, above, ne, h⟩ | ⟨k, t, rest, rfl, v, above, ne, h⟩
  · rcases hb with hb | hb
    · rw [hb] at h
      simp [yynewstate_look, yydefault_look, yynewstate_simple, yydefault_simple, yyact_reduce,
        yyreduce_mk, yyact_zero, halts_mid, haltsNext_next, haltsNext_ret, haltsNext_panic,
        haltsNext_ok, haltsNext_logged, haltsNext_setQuery, haltsNext_setQueryOrPanic,
        haltsNext_setBoost, haltsNext_boostedClause, yyPact_facts, yyDef_facts, yyR1_facts,
        yyR2_facts, yyPgo_facts, excaAction_facts, errShift_facts, yyGoto_facts, yyAction_facts,
        StackOK_cons, succ_lt_one, succ_lt_two, succ_lt_three, succ_lt_four, succ_lt_five,
        queryStringStringToken_wrapper, queryStringPhraseToken_wrapper, fieldname_wrapper,
        dateRangeGreater_wrapper, dateRangeLess_wrapper, logDebugGrammarf_wrapper,
        TokKind.code_nonneg, yyFlag, slots_above_cons, slots_below_cons, slotHead_cons,
        slotTail_cons, dollar, searchPartAction, yyShift_facts_m11, yyShift_facts_m3,
        yyShift_facts_m1, yyShift_facts_5, yyShift_facts_6, yyShift_facts_9, yyShift_facts_10,
        yyShift_facts_16, yyShift_facts_19, yyShift_facts_26, yyShift_facts_30, TokKind.code,
        TokKind.num, hl, hb, hg] at h
      rw [halts_boundary] at h
      exact Or.inr ⟨[], queryMust, [], _, rfl, SearchLead.absent, rfl, rfl,
        machine_end _ _ _ _ _ _ _ _ _ _ _ h⟩
    · rw [hb] at h
      exact Or.inl ⟨rfl, hb, lval, v, above, ne, h⟩
  · right
    have hp := yyPact_lead eb hb
    by_cases h1 : k = TokKind.tPLUS
    · subst h1
      simp [yynewstate_look, yydefault_look, yynewstate_simple, yydefault_simple, yyact_reduce,
        yyreduce_mk, yyact_zero, halts_mid, haltsNext_next, haltsNext_ret, haltsNext_panic,
        haltsNext_ok, haltsNext_logged, haltsNext_setQuery, haltsNext_setQueryOrPanic,
        haltsNext_setBoost, haltsNext_boostedClause, yyPact_facts, yyDef_facts, yyR1_facts,
        yyR2_facts, yyPgo_facts, excaAction_facts, errShift_facts, yyGoto_facts, yyAction_facts,
        StackOK_cons, succ_lt_one, succ_lt_two, succ_lt_three, succ_lt_four, succ_lt_five,
        queryStringStringToken_wrapper, queryStringPhraseToken_wrapper, fieldname_wrapper,
        dateRangeGreater_wrapper, dateRangeLess_wrapper, logDebugGrammarf_wrapper,
        TokKind.code_nonneg, yyFlag, slots_above_cons, slots_below_cons, slotHead_cons,
        slotTail_cons, dollar, searchPartAction, yyShift_facts_m11, yyShift_facts_m3,
        yyShift_facts_m1, yyShift_facts_5, yyShift_facts_6, yyShift_facts_9, yyShift_facts_10,
        yyShift_facts_16, yyShift_facts_19, yyShift_facts_26, yyShift_facts_30, TokKind.code,
        TokKind.num, hl, hp, hg] at h
      obtain ⟨_, h⟩ := h
      rw [halts_boundary] at h
      exact ⟨[LexItem.tok TokKind.tPLUS t], queryMust, rest, _, rfl, SearchLead.plus t, rfl,
        rfl, machine_unread _ _ _ _ _ _ _ _ _ _ _ _ _ h⟩
    by_cases h2 : k = TokKind.tMINUS
    · subst h2
      simp [yynewstate_look, yydefault_look, yynewstate_simple, yydefault_simple, yyact_reduce,
        yyreduce_mk, yyact_zero, halts_mid, haltsNext_next, haltsNext_ret, haltsNext_panic,
        haltsNext_ok, haltsNext_logged, haltsNext_setQuery, haltsNext_setQueryOrPanic,
        haltsNext_setBoost, haltsNext_boostedClause, yyPact_facts, yyDef_facts, yyR1_facts,
        yyR2_facts, yyPgo_facts, excaAction_facts, errShift_facts, yyGoto_facts, yyAction_facts,
        StackOK_cons, succ_lt_one, succ_lt_two, succ_lt_three, succ_lt_four, succ_lt_five,
        queryStringStringToken_wrapper, queryStringPhraseToken_wrapper, fieldname_wrapper,
        dateRangeGreater_wrapper, dateRangeLess_wrapper, logDebugGrammarf_wrapper,
        TokKind.code_nonneg, yyFlag, slots_above_cons, slots_below_cons, slotHead_cons,
        slotTail_cons, dollar, searchPartAction, yyShift_facts_m11, yyShift_facts_m3,
        yyShift_facts_m1, yyShift_facts_5, yyShift_facts_6, yyShift_facts_9, yyShift_facts_10,
        yyShift_facts_16, yyShift_facts_19, yyShift_facts_26, yyShift_facts_30, TokKind.code,
        TokKind.num, hl, hp, hg] at h
      obtain ⟨_, h⟩ := h
      rw [halts_boundary] at h
      exact ⟨[LexItem.tok TokKind.tMINUS t], queryMustNot, rest, _, rfl, SearchLead.minus t,
        rfl, rfl, machine_unread _ _ _ _ _ _ _ _ _ _ _ _ _ h⟩
    by_cases h3 : k = TokKind.tQUESTION
    · subst h3
      simp [yynewstate_look, yydefault_look, yynewstate_simple, yydefault_simple, yyact_reduce,
        yyreduce_mk, yyact_zero, halts_mid, haltsNext_next, haltsNext_ret, haltsNext_panic,
        haltsNext_ok, haltsNext_logged, haltsNext_setQuery, haltsNext_setQueryOrPanic,
        haltsNext_setBoost, haltsNext_boostedClause, yyPact_facts, yyDef_facts, yyR1_facts,
        yyR2_facts, yyPgo_facts, excaAction_facts, errShift_facts, yyGoto_facts, yyAction_facts,
        StackOK_cons, succ_lt_one, succ_lt_two, succ_lt_three, succ_lt_four, succ_lt_five,
        queryStringStringToken_wrapper, queryStringPhraseToken_wrapper, fieldname_wrapper,
        dateRangeGreater_wrapper, dateRangeLess_wrapper, logDebugGrammarf_wrapper,
        TokKind.code_nonneg, yyFlag, slots_above_cons, slots_below_cons, slotHead_cons,
        slotTail_cons, dollar, searchPartAction, yyShift_facts_m11, yyShift_facts_m3,
        yyShift_facts_m1, yyShift_facts_5, yyShift_facts_6, yyShift_facts_9, yyShift_facts_10,
        yyShift_facts_16, yyShift_facts_19, yyShift_facts_26, yyShift_facts_30, TokKind.code,
        TokKind.num, hl, hp, hg] at h
      obtain ⟨_, h⟩ := h
      rw [halts_boundary] at h
      exact ⟨[LexItem.tok TokKind.tQUESTION t], queryShould, rest, _, rfl,
        SearchLead.question t, rfl, rfl, machine_unread _ _ _ _ _ _ _ _ _ _ _ _ _ h⟩
    have hk := yyShift_m1_rest k h1 h2 h3
    have hx := excaAction_3_tok k
    rcases hb with hb | hb <;> rw [hb] at h
    · simp [yynewstate_look, yydefault_look, yynewstate_simple, yydefault_simple, yyact_reduce,
        yyreduce_mk, yyact_zero, halts_mid, haltsNext_next, haltsNext_ret, haltsNext_panic,
        haltsNext_ok, haltsNext_logged, haltsNext_setQuery, haltsNext_setQueryOrPanic,
        haltsNext_setBoost, haltsNext_boostedClause, yyPact_facts, yyDef_facts, yyR1_facts,
        yyR2_facts, yyPgo_facts, excaAction_facts, errShift_facts, yyGoto_facts, yyAction_facts,
        StackOK_cons, succ_lt_one, succ_lt_two, succ_lt_three, succ_lt_four, succ_lt_five,
        queryStringStringToken_wrapper, queryStringPhraseToken_wrapper, fieldname_wrapper,
        dateRangeGreater_wrapper, dateRangeLess_wrapper, logDebugGrammarf_wrapper,
        TokKind.code_nonneg, yyFlag, slots_above_cons, slots_below_cons, slotHead_cons,
        slotTail_cons, dollar, searchPartAction, hl, hb, hg, hk] at h
      rw [halts_boundary] at h
      exact ⟨[], queryMust, LexItem.tok k t :: rest, _, rfl, SearchLead.absent, rfl, rfl,
        machine_ahead _ _ _ _ _ _ _ _ _ _ _ _ _ h⟩
    · simp [yynewstate_look, yydefault_look, yynewstate_simple, yydefault_simple, yyact_reduce,
        yyreduce_mk, yyact_zero, halts_mid, haltsNext_next, haltsNext_ret, haltsNext_panic,
        haltsNext_ok, haltsNext_logged, haltsNext_setQuery, haltsNext_setQueryOrPanic,
        haltsNext_setBoost, haltsNext_boostedClause, yyPact_facts, yyDef_facts, yyR1_facts,
        yyR2_facts, yyPgo_facts, excaAction_facts, errShift_facts, yyGoto_facts, yyAction_facts,
        StackOK_cons, succ_lt_one, succ_lt_two, succ_lt_three, succ_lt_four, succ_lt_five,
        queryStringStringToken_wrapper, queryStringPhraseToken_wrapper, fieldname_wrapper,
        dateRangeGreater_wrapper, dateRangeLess_wrapper, logDebugGrammarf_wrapper,
        TokKind.code_nonneg, yyFlag, slots_above_cons, slots_below_cons, slotHead_cons,
        slotTail_cons, dollar, searchPartAction, hl, hb, hg, hk, hx] at h
      rw [halts_boundary] at h
      exact ⟨[], queryMust, LexItem.tok k t :: rest, _, rfl, SearchLead.absent, rfl, rfl,
        machine_ahead _ _ _ _ _ _ _ _ _ _ _ _ _ h⟩

theorem yyShift_10_rest (k : TokKind) (h : k ≠ TokKind.tNUMBER) :
    yyShift 10 (TokKind.num k) = .ok none := by
  cases k <;> first | rfl | contradiction

/-- A number after a field: `tNUMBER`, or `tMINUS tNUMBER`, in a state that shifts both. -/
theorem number_phase (mode : LexErrorMode) (lib : GoLib) (lf : lexerWrapper) (cf : Int)
    (hl : lf.errs = []) (o : QueryStringOptions) (q : BooleanQuery) (s pact g : Int)
    (es : yySymType) (b : List yySymType) (hes : es.yys = s)
    (hp : index yyPact s = .ok pact) (hf : ¬ pact ≤ -1000)
    (hnum : yyShift pact 10 = .ok (some 22)) (hmin : yyShift pact 7 = .ok (some 23))
    (hg : yyGoto 1 0 s = .ok g) (hs : StackOK (es :: b))
    (k : TokKind) (hk : k = TokKind.tNUMBER ∨ k = TokKind.tMINUS) (t : String)
    (rest : List LexItem) (v : yySymType) (above : List yySymType) (ne : Int)
    (h : haltsNext mode lib (Run.ret lf cf) (yynewstate mode lib
          ⟨⟨rest, [], q, o, o.debugParser, o.dateFormat, o.logger⟩,
            { yySymType.zero with s := t }, TokKind.code k, TokKind.num k, v, es :: b, above,
            ne, 0, s⟩)) :
    ∃ ts n rest1 lval1 v1 above1 ne1, LexItem.tok k t :: rest = ts ++ rest1 ∧
      PosOrNegNumber ts n ∧ v1.s = n ∧
      Halts mode lib Label.yystack
        ⟨⟨rest1, [], q, o, o.debugParser, o.dateFormat, o.logger⟩, lval1, -1, -1, v1, es :: b,
          above1, ne1, 0, g⟩ (Run.ret lf cf) := by
  rcases hk with rfl | rfl
  · simp [yynewstate_look, yydefault_look, yynewstate_simple, yydefault_simple, yyact_reduce,
      yyreduce_mk, yyact_zero, halts_mid, haltsNext_next, haltsNext_ret, haltsNext_panic,
      haltsNext_ok, haltsNext_logged, haltsNext_setQuery, haltsNext_setQueryOrPanic,
      haltsNext_setBoost, haltsNext_boostedClause, yyPact_facts, yyDef_facts, yyR1_facts,
      yyR2_facts, yyPgo_facts, excaAction_facts, errShift_facts, yyGoto_facts, yyAction_facts,
      StackOK_cons, succ_lt_one, succ_lt_two, succ_lt_three, succ_lt_four, succ_lt_five,
      queryStringStringToken_wrapper, queryStringPhraseToken_wrapper, fieldname_wrapper,
      dateRangeGreater_wrapper, dateRangeLess_wrapper, logDebugGrammarf_wrapper,
      TokKind.code_nonneg, yyFlag, slots_above_cons, slots_below_cons, slotHead_cons,
      slotTail_cons, dollar, searchPartAction, yyShift_facts_m11, yyShift_facts_m3,
      yyShift_facts_m1, yyShift_facts_5, yyShift_facts_6, yyShift_facts_9, yyShift_facts_10,
      yyShift_facts_16, yyShift_facts_19, yyShift_facts_26, yyShift_facts_30, TokKind.code,
      TokKind.num, hl, hes, hp, hf, hnum, hg, hs] at h
    exact ⟨[LexItem.tok TokKind.tNUMBER t], t, rest, _, _, _, _, rfl, PosOrNegNumber.number t,
      rfl, h⟩
  · simp [yynewstate_look, yydefault_look, yynewstate_simple, yydefault_simple, yyact_reduce,
      yyreduce_mk, yyact_zero, halts_mid, haltsNext_next, haltsNext_ret, haltsNext_panic,
      haltsNext_ok, haltsNext_logged, haltsNext_setQuery, haltsNext_setQueryOrPanic,
      haltsNext_setBoost, haltsNext_boostedClause, yyPact_facts, yyDef_facts, yyR1_facts,
      yyR2_facts, yyPgo_facts, excaAction_facts, errShift_facts, yyGoto_facts, yyAction_facts,
      StackOK_cons, succ_lt_one, succ_lt_two, succ_lt_three, succ_lt_four, succ_lt_five,
      queryStringStringToken_wrapper, queryStringPhraseToken_wrapper, fieldname_wrapper,
      dateRangeGreater_wrapper, dateRangeLess_wrapper, logDebugGrammarf_wrapper,
      TokKind.code_nonneg, yyFlag, slots_above_cons, slots_below_cons, slotHead_cons,
      slotTail_cons, dollar, searchPartAction, yyShift_facts_m11, yyShift_facts_m3,
      yyShift_facts_m1, yyShift_facts_5, yyShift_facts_6, yyShift_facts_9, yyShift_facts_10,
      yyShift_facts_16, yyShift_facts_19, yyShift_facts_26, yyShift_facts_30, TokKind.code,
      TokKind.num, hl, hes, hp, hf, hmin, hg, hs] at h
    rw [yynewstate_fetch mode lib lf cf hl _ _ _ _ _ _ _ _ _ _ _ _ _ 23 10 rfl (by decide)] at h
    rcases h with ⟨rfl, h⟩ | ⟨k, t2, rest2, rfl, h⟩
    · simp [yynewstate_look, yydefault_look, yynewstate_simple, yydefault_simple, yyact_reduce,
        yyreduce_mk, yyact_zero, halts_mid, haltsNext_next, haltsNext_ret, haltsNext_panic,
        haltsNext_ok, haltsNext_logged, haltsNext_setQuery, haltsNext_setQueryOrPanic,
        haltsNext_setBoost, haltsNext_boostedClause, yyPact_facts, yyDef_facts, yyR1_facts,
        yyR2_facts, yyPgo_facts, excaAction_facts, errShift_facts, yyGoto_facts, yyAction_facts,
        StackOK_cons, succ_lt_one, succ_lt_two, succ_lt_three, succ_lt_four, succ_lt_five,
        queryStringStringToken_wrapper, queryStringPhraseToken_wrapper, fieldname_wrapper,
        dateRangeGreater_wrapper, dateRangeLess_wrapper, logDebugGrammarf_wrapper,
        TokKind.code_nonneg, yyFlag, slots_above_cons, slots_below_cons, slotHead_cons,
        slotTail_cons, dollar, searchPartAction, yyShift_facts_m11, yyShift_facts_m3,
        yyShift_facts_m1, yyShift_facts_5, yyShift_facts_6, yyShift_facts_9, yyShift_facts_10,
        yyShift_facts_16, yyShift_facts_19, yyShift_facts_26, yyShift_facts_30, TokKind.code,
        TokKind.num, hl, hes, hs] at h
    · by_cases hk : k = TokKind.tNUMBER
      · subst hk
        simp [yynewstate_look, yydefault_look, yynewstate_simple, yydefault_simple, yyact_reduce,
          yyreduce_mk, yyact_zero, halts_mid, haltsNext_next, haltsNext_ret, haltsNext_panic,
          haltsNext_ok, haltsNext_logged, haltsNext_setQuery, haltsNext_setQueryOrPanic,
          haltsNext_setBoost, haltsNext_boostedClause, yyPact_facts, yyDef_facts, yyR1_facts,
          yyR2_facts, yyPgo_facts, excaAction_facts, errShift_facts, yyGoto_facts,
          yyAction_facts, StackOK_cons, succ_lt_one, succ_lt_two, succ_lt_three, succ_lt_four,
          succ_lt_five, queryStringStringToken_wrapper, queryStringPhraseToken_wrapper,
          fieldname_wrapper, dateRangeGreater_wrapper, dateRangeLess_wrapper,
          logDebugGrammarf_wrapper, TokKind.code_nonneg, yyFlag, slots_above_cons,
          slots_below_cons, slotHead_cons, slotTail_cons, dollar, searchPartAction,
          yyShift_facts_m11, yyShift_facts_m3, yyShift_facts_m1, yyShift_facts_5,
          yyShift_facts_6, yyShift_facts_9, yyShift_facts_10, yyShift_facts_16, yyShift_facts_19,
          yyShift_facts_26, yyShift_facts_30, TokKind.code, TokKind.num, hl, hes, hg, hs] at h
        exact ⟨[LexItem.tok TokKind.tMINUS t, LexItem.tok TokKind.tNUMBER t2], "-" ++ t2, rest2,
          _, _, _, _, rfl, PosOrNegNumber.negative t t2, rfl, h⟩
      · have hk1 := yyShift_10_rest k hk
        simp [yynewstate_look, yydefault_look, yynewstate_simple, yydefault_simple, yyact_reduce,
          yyreduce_mk, yyact_zero, halts_mid, haltsNext_next, haltsNext_ret, haltsNext_panic,
          haltsNext_ok, haltsNext_logged, haltsNext_setQuery, haltsNext_setQueryOrPanic,
          haltsNext_setBoost, haltsNext_boostedClause, yyPact_facts, yyDef_facts, yyR1_facts,
          yyR2_facts, yyPgo_facts, excaAction_facts, errShift_facts, yyGoto_facts,
          yyAction_facts, StackOK_cons, succ_lt_one, succ_lt_two, succ_lt_three, succ_lt_four,
          succ_lt_five, queryStringStringToken_wrapper, queryStringPhraseToken_wrapper,
          fieldname_wrapper, dateRangeGreater_wrapper, dateRangeLess_wrapper,
          logDebugGrammarf_wrapper, TokKind.code_nonneg, yyFlag, slots_above_cons,
          slots_below_cons, slotHead_cons, slotTail_cons, dollar, searchPartAction, hl, hes, hs,
          hk1] at h

theorem yyShift_26_rest (k : TokKind) (h1 : k ≠ TokKind.tPHRASE) (h2 : k ≠ TokKind.tMINUS) (h3 : k ≠ TokKind.tNUMBER) :
    yyShift 26 (TokKind.num k) = .ok none := by
  cases k <;> first | rfl | contradiction

/-- After `tSTRING tCOLON tGREATER tEQUAL`: productions 18 and 22. -/
theorem greaterEqual_phase (mode : LexErrorMode) (lib : GoLib) (lf : lexerWrapper) (cf : Int)
    (hl : lf.errs = []) (o : QueryStringOptions) (q : BooleanQuery)
    (e26 e20 e16 e10 e4 : yySymType) (b : List yySymType)
    (h26 : e26.yys = 26) (h20 : e20.yys = 20) (h16 : e16.yys = 16) (h10 : e10.yys = 10) (h4 : e4.yys = 4)
    (hs : StackOK b) (pend : List LexItem)
    (h : Machine mode lib (Run.ret lf cf) o q 26
      (e26 :: e20 :: e16 :: e10 :: e4 :: b) pend) :
    ∃ ts qb rest e9, pend = ts ++ rest ∧
      SearchBase lib o
        (LexItem.tok TokKind.tSTRING e10.s :: LexItem.tok TokKind.tCOLON e16.s :: LexItem.tok TokKind.tGREATER e20.s :: LexItem.tok TokKind.tEQUAL e26.s :: ts) qb ∧
      e9.yys = 9 ∧ e9.q = qb ∧ Machine mode lib (Run.ret lf cf) o q 9 (e9 :: e4 :: b) rest := by
  rcases machine_fetch mode lib lf cf hl o q 26 26 _ pend rfl (by decide) h with
    ⟨rfl, lval, v, above, ne, h⟩ | ⟨k, t, rest, rfl, v, above, ne, h⟩
  · simp [yynewstate_look, yydefault_look, yynewstate_simple, yydefault_simple, yyact_reduce,
      yyreduce_mk, yyact_zero, halts_mid, haltsNext_next, haltsNext_ret, haltsNext_panic,
      haltsNext_ok, haltsNext_logged, haltsNext_setQuery, haltsNext_setQueryOrPanic,
      haltsNext_setBoost, haltsNext_boostedClause, yyPact_facts, yyDef_facts, yyR1_facts,
      yyR2_facts, yyPgo_facts, excaAction_facts, errShift_facts, yyGoto_facts, yyAction_facts,
      StackOK_cons, succ_lt_one, succ_lt_two, succ_lt_three, succ_lt_four, succ_lt_five,
      queryStringStringToken_wrapper, queryStringPhraseToken_wrapper, fieldname_wrapper,
      dateRangeGreater_wrapper, dateRangeLess_wrapper, logDebugGrammarf_wrapper,
      TokKind.code_nonneg, yyFlag, slots_above_cons, slots_below_cons, slotHead_cons,
      slotTail_cons, dollar, searchPartAction, yyShift_facts_m11, yyShift_facts_m3,
      yyShift_facts_m1, yyShift_facts_5, yyShift_facts_6, yyShift_facts_9, yyShift_facts_10,
      yyShift_facts_16, yyShift_facts_19, yyShift_facts_26, yyShift_facts_30, TokKind.code,
      TokKind.num, hl, h26, h20, h16, h10, h4, hs] at h
  by_cases h1 : k = TokKind.tPHRASE
  · subst h1
    simp [yynewstate_look, yydefault_look, yynewstate_simple, yydefault_simple, yyact_reduce,
      yyreduce_mk, yyact_zero, halts_mid, haltsNext_next, haltsNext_ret, haltsNext_panic,
      haltsNext_ok, haltsNext_logged, haltsNext_setQuery, haltsNext_setQueryOrPanic,
      haltsNext_setBoost, haltsNext_boostedClause, yyPact_facts, yyDef_facts, yyR1_facts,
      yyR2_facts, yyPgo_facts, excaAction_facts, errShift_facts, yyGoto_facts, yyAction_facts,
      StackOK_cons, succ_lt_one, succ_lt_two, succ_lt_three, succ_lt_four, succ_lt_five,
      queryStringStringToken_wrapper, queryStringPhraseToken_wrapper, fieldname_wrapper,
      dateRangeGreater_wrapper, dateRangeLess_wrapper, logDebugGrammarf_wrapper,
      TokKind.code_nonneg, yyFlag, slots_above_cons, slots_below_cons, slotHead_cons,
      slotTail_cons, dollar, searchPartAction, yyShift_facts_m11, yyShift_facts_m3,
      yyShift_facts_m1, yyShift_facts_5, yyShift_facts_6, yyShift_facts_9, yyShift_facts_10,
      yyShift_facts_16, yyShift_facts_19, yyShift_facts_26, yyShift_facts_30, TokKind.code,
      TokKind.num, hl, h26, h20, h16, h10, h4, hs] at h
    obtain ⟨_, qb, hq, h⟩ := h
    rw [halts_boundary] at h
    exact ⟨[LexItem.tok TokKind.tPHRASE t], qb, rest, _, rfl,
      SearchBase.greaterEqualDate _ _ _ _ t qb hq, rfl, rfl,
      machine_unread _ _ _ _ _ _ _ _ _ _ _ _ _ h⟩
  by_cases hn : k = TokKind.tNUMBER ∨ k = TokKind.tMINUS
  · obtain ⟨ts, n, rest1, lval1, v1, above1, ne1, e, hpn, hv, h⟩ :=
      number_phase mode lib lf cf hl o q 26 26 32 e26 _ h26 rfl (by decide) rfl rfl
        rfl (by simp [StackOK_cons, errShift_facts, h26, h20, h16, h10, h4, hs]) k hn t rest v above ne h
    simp [yynewstate_look, yydefault_look, yynewstate_simple, yydefault_simple, yyact_reduce,
      yyreduce_mk, yyact_zero, halts_mid, haltsNext_next, haltsNext_ret, haltsNext_panic,
      haltsNext_ok, haltsNext_logged, haltsNext_setQuery, haltsNext_setQueryOrPanic,
      haltsNext_setBoost, haltsNext_boostedClause, yyPact_facts, yyDef_facts, yyR1_facts,
      yyR2_facts, yyPgo_facts, excaAction_facts, errShift_facts, yyGoto_facts, yyAction_facts,
      StackOK_cons, succ_lt_one, succ_lt_two, succ_lt_three, succ_lt_four, succ_lt_five,
      queryStringStringToken_wrapper, queryStringPhraseToken_wrapper, fieldname_wrapper,
      dateRangeGreater_wrapper, dateRangeLess_wrapper, logDebugGrammarf_wrapper,
      TokKind.code_nonneg, yyFlag, slots_above_cons, slots_below_cons, slotHead_cons,
      slotTail_cons, dollar, searchPartAction, yyShift_facts_m11, yyShift_facts_m3,
      yyShift_facts_m1, yyShift_facts_5, yyShift_facts_6, yyShift_facts_9, yyShift_facts_10,
      yyShift_facts_16, yyShift_facts_19, yyShift_facts_26, yyShift_facts_30, TokKind.code,
      TokKind.num, hl, h26, h20, h16, h10, h4, hs, hv] at h
    obtain ⟨_, qb, hq, h⟩ := h
    rw [halts_boundary] at h
    exact ⟨ts, qb, rest1, _, e, SearchBase.greaterEqual _ _ _ _ ts n qb hpn hq, rfl, rfl,
      machine_unread _ _ _ _ _ _ _ _ _ _ _ _ _ h⟩
  · have hk := yyShift_26_rest k h1 (fun e => hn (Or.inr e)) (fun e => hn (Or.inl e))
    simp [yynewstate_look, yydefault_look, yynewstate_simple, yydefault_simple, yyact_reduce,
      yyreduce_mk, yyact_zero, halts_mid, haltsNext_next, haltsNext_ret, haltsNext_panic,
      haltsNext_ok, haltsNext_logged, haltsNext_setQuery, haltsNext_setQueryOrPanic,
      haltsNext_setBoost, haltsNext_boostedClause, yyPact_facts, yyDef_facts, yyR1_facts,
      yyR2_facts, yyPgo_facts, excaAction_facts, errShift_facts, yyGoto_facts, yyAction_facts,
      StackOK_cons, succ_lt_one, succ_lt_two, succ_lt_three, succ_lt_four, succ_lt_five,
      queryStringStringToken_wrapper, queryStringPhraseToken_wrapper, fieldname_wrapper,
      dateRangeGreater_wrapper, dateRangeLess_wrapper, logDebugGrammarf_wrapper,
      TokKind.code_nonneg, yyFlag, slots_above_cons, slots_below_cons, slotHead_cons,
      slotTail_cons, dollar, searchPartAction, hl, h26, h20, h16, h10, h4, hs, hk] at h

theorem yyShift_19_rest (k : TokKind) (h1 : k ≠ TokKind.tPHRASE) (h2 : k ≠ TokKind.tMINUS) (h3 : k ≠ TokKind.tNUMBER) :
    yyShift 19 (TokKind.num k) = .ok none := by
  cases k <;> first | rfl | contradiction

/-- After `tSTRING tCOLON tLESS tEQUAL`: productions 20 and 24. -/
theorem lessEqual_phase (mode : LexErrorMode) (lib : GoLib) (lf : lexerWrapper) (cf : Int)
    (hl : lf.errs = []) (o : QueryStringOptions) (q : BooleanQuery)
    (e29 e21 e16 e10 e4 : yySymType) (b : List yySymType)
    (h29 : e29.yys = 29) (h21 : e21.yys = 21) (h16 : e16.yys = 16) (h10 : e10.yys = 10) (h4 : e4.yys = 4)
    (hs : StackOK b) (pend : List LexItem)
    (h : Machine mode lib (Run.ret lf cf) o q 29
      (e29 :: e21 :: e16 :: e10 :: e4 :: b) pend) :
    ∃ ts qb rest e9, pend = ts ++ rest ∧
      SearchBase lib o
        (LexItem.tok TokKind.tSTRING e10.s :: LexItem.tok TokKind.tCOLON e16.s :: LexItem.tok TokKind.tLESS e21.s :: LexItem.tok TokKind.tEQUAL e29.s :: ts) qb ∧
      e9.yys = 9 ∧ e9.q = qb ∧ Machine mode lib (Run.ret lf cf) o q 9 (e9 :: e4 :: b) rest := by
  rcases machine_fetch mode lib lf cf hl o q 29 19 _ pend rfl (by decide) h with
    ⟨rfl, lval, v, above, ne, h⟩ | ⟨k, t, rest, rfl, v, above, ne, h⟩
  · simp [yynewstate_look, yydefault_look, yynewstate_simple, yydefault_simple, yyact_reduce,
      yyreduce_mk, yyact_zero, halts_mid, haltsNext_next, haltsNext_ret, haltsNext_panic,
      haltsNext_ok, haltsNext_logged, haltsNext_setQuery, haltsNext_setQueryOrPanic,
      haltsNext_setBoost, haltsNext_boostedClause, yyPact_facts, yyDef_facts, yyR1_facts,
      yyR2_facts, yyPgo_facts, excaAction_facts, errShift_facts, yyGoto_facts, yyAction_facts,
      StackOK_cons, succ_lt_one, succ_lt_two, succ_lt_three, succ_lt_four, succ_lt_five,
      queryStringStringToken_wrapper, queryStringPhraseToken_wrapper, fieldname_wrapper,
      dateRangeGreater_wrapper, dateRangeLess_wrapper, logDebugGrammarf_wrapper,
      TokKind.code_nonneg, yyFlag, slots_above_cons, slots_below_cons, slotHead_cons,
      slotTail_cons, dollar, searchPartAction, yyShift_facts_m11, yyShift_facts_m3,
      yyShift_facts_m1, yyShift_facts_5, yyShift_facts_6, yyShift_facts_9, yyShift_facts_10,
      yyShift_facts_16, yyShift_facts_19, yyShift_facts_26, yyShift_facts_30, TokKind.code,
      TokKind.num, hl, h29, h21, h16, h10, h4, hs] at h
  by_cases h1 : k = TokKind.tPHRASE
  · subst h1
    simp [yynewstate_look, yydefault_look, yynewstate_simple, yydefault_simple, yyact_reduce,
      yyreduce_mk, yyact_zero, halts_mid, haltsNext_next, haltsNext_ret, haltsNext_panic,
      haltsNext_ok, haltsNext_logged, haltsNext_setQuery, haltsNext_setQueryOrPanic,
      haltsNext_setBoost, haltsNext_boostedClause, yyPact_facts, yyDef_facts, yyR1_facts,
      yyR2_facts, yyPgo_facts, excaAction_facts, errShift_facts, yyGoto_facts, yyAction_facts,
      StackOK_cons, succ_lt_one, succ_lt_two, succ_lt_three, succ_lt_four, succ_lt_five,
      queryStringStringToken_wrapper, queryStringPhraseToken_wrapper, fieldname_wrapper,
      dateRangeGreater_wrapper, dateRangeLess_wrapper, logDebugGrammarf_wrapper,
      TokKind.code_nonneg, yyFlag, slots_above_cons, slots_below_cons, slotHead_cons,
      slotTail_cons, dollar, searchPartAction, yyShift_facts_m11, yyShift_facts_m3,
      yyShift_facts_m1, yyShift_facts_5, yyShift_facts_6, yyShift_facts_9, yyShift_facts_10,
      yyShift_facts_16, yyShift_facts_19, yyShift_facts_26, yyShift_facts_30, TokKind.code,
      TokKind.num, hl, h29, h21, h16, h10, h4, hs] at h
    obtain ⟨_, qb, hq, h⟩ := h
    rw [halts_boundary] at h
    exact ⟨[LexItem.tok TokKind.tPHRASE t], qb, rest, _, rfl,
      SearchBase.lessEqualDate _ _ _ _ t qb hq, rfl, rfl,
      machine_unread _ _ _ _ _ _ _ _ _ _ _ _ _ h⟩
  by_cases hn : k = TokKind.tNUMBER ∨ k = TokKind.tMINUS
  · obtain ⟨ts, n, rest1, lval1, v1, above1, ne1, e, hpn, hv, h⟩ :=
      number_phase mode lib lf cf hl o q 29 19 34 e29 _ h29 rfl (by decide) rfl rfl
        rfl (by simp [StackOK_cons, errShift_facts, h29, h21, h16, h10, h4, hs]) k hn t rest v above ne h
    simp [yynewstate_look, yydefault_look, yynewstate_simple, yydefault_simple, yyact_reduce,
      yyreduce_mk, yyact_zero, halts_mid, haltsNext_next, haltsNext_ret, haltsNext_panic,
      haltsNext_ok, haltsNext_logged, haltsNext_setQuery, haltsNext_setQueryOrPanic,
      haltsNext_setBoost, haltsNext_boostedClause, yyPact_facts, yyDef_facts, yyR1_facts,
      yyR2_facts, yyPgo_facts, excaAction_facts, errShift_facts, yyGoto_facts, yyAction_facts,
      StackOK_cons, succ_lt_one, succ_lt_two, succ_lt_three, succ_lt_four, succ_lt_five,
      queryStringStringToken_wrapper, queryStringPhraseToken_wrapper, fieldname_wrapper,
      dateRangeGreater_wrapper, dateRangeLess_wrapper, logDebugGrammarf_wrapper,
      TokKind.code_nonneg, yyFlag, slots_above_cons, slots_below_cons, slotHead_cons,
      slotTail_cons, dollar, searchPartAction, yyShift_facts_m11, yyShift_facts_m3,
      yyShift_facts_m1, yyShift_facts_5, yyShift_facts_6, yyShift_facts_9, yyShift_facts_10,
      yyShift_facts_16, yyShift_facts_19, yyShift_facts_26, yyShift_facts_30, TokKind.code,
      TokKind.num, hl, h29, h21, h16, h10, h4, hs, hv] at h
    obtain ⟨_, qb, hq, h⟩ := h
    rw [halts_boundary] at h
    exact ⟨ts, qb, rest1, _, e, SearchBase.lessEqual _ _ _ _ ts n qb hpn hq, rfl, rfl,
      machine_unread _ _ _ _ _ _ _ _ _ _ _ _ _ h⟩
  · have hk := yyShift_19_rest k h1 (fun e => hn (Or.inr e)) (fun e => hn (Or.inl e))
    simp [yynewstate_look, yydefault_look, yynewstate_simple, yydefault_simple, yyact_reduce,
      yyreduce_mk, yyact_zero, halts_mid, haltsNext_next, haltsNext_ret, haltsNext_panic,
      haltsNext_ok, haltsNext_logged, haltsNext_setQuery, haltsNext_setQueryOrPanic,
      haltsNext_setBoost, haltsNext_boostedClause, yyPact_facts, yyDef_facts, yyR1_facts,
      yyR2_facts, yyPgo_facts, excaAction_facts, errShift_facts, yyGoto_facts, yyAction_facts,
      StackOK_cons, succ_lt_one, succ_lt_two, succ_lt_three, succ_lt_four, succ_lt_five,
      queryStringStringToken_wrapper, queryStringPhraseToken_wrapper, fieldname_wrapper,
      dateRangeGreater_wrapper, dateRangeLess_wrapper, logDebugGrammarf_wrapper,
      TokKind.code_nonneg, yyFlag, slots_above_cons, slots_below_cons, slotHead_cons,
      slotTail_cons, dollar, searchPartAction, hl, h29, h21, h16, h10, h4, hs, hk] at h

theorem yyShift_6_rest (k : TokKind) (h1 : k ≠ TokKind.tPHRASE) (h2 : k ≠ TokKind.tMINUS) (h3 : k ≠ TokKind.tNUMBER) (h4 : k ≠ TokKind.tEQUAL) :
    yyShift 6 (TokKind.num k) = .ok none := by
  cases k <;> first | rfl | contradiction

/-- After `tSTRING tCOLON tGREATER`: productions 17, 18, 21 and 22. -/
theorem greater_phase (mode : LexErrorMode) (lib : GoLib) (lf : lexerWrapper) (cf : Int)
    (hl : lf.errs = []) (o : QueryStringOptions) (q : BooleanQuery)
    (e20 e16 e10 e4 : yySymType) (b : List yySymType)
    (h20 : e20.yys = 20) (h16 : e16.yys = 16) (h10 : e10.yys = 10) (h4 : e4.yys = 4)
    (hs : StackOK b) (pend : List LexItem)
    (h : Machine mode lib (Run.ret lf cf) o q 20
      (e20 :: e16 :: e10 :: e4 :: b) pend) :
    ∃ ts qb rest e9, pend = ts ++ rest ∧
      SearchBase lib o
        (LexItem.tok TokKind.tSTRING e10.s :: LexItem.tok TokKind.tCOLON e16.s :: LexItem.tok TokKind.tGREATER e20.s :: ts) qb ∧
      e9.yys = 9 ∧ e9.q = qb ∧ Machine mode lib (Run.ret lf cf) o q 9 (e9 :: e4 :: b) rest := by
  rcases machine_fetch mode lib lf cf hl o q 20 6 _ pend rfl (by decide) h with
    ⟨rfl, lval, v, above, ne, h⟩ | ⟨k, t, rest, rfl, v, above, ne, h⟩
  · simp [yynewstate_look, yydefault_look, yynewstate_simple, yydefault_simple, yyact_reduce,
      yyreduce_mk, yyact_zero, halts_mid, haltsNext_next, haltsNext_ret, haltsNext_panic,
      haltsNext_ok, haltsNext_logged, haltsNext_setQuery, haltsNext_setQueryOrPanic,
      haltsNext_setBoost, haltsNext_boostedClause, yyPact_facts, yyDef_facts, yyR1_facts,
      yyR2_facts, yyPgo_facts, excaAction_facts, errShift_facts, yyGoto_facts, yyAction_facts,
      StackOK_cons, succ_lt_one, succ_lt_two, succ_lt_three, succ_lt_four, succ_lt_five,
      queryStringStringToken_wrapper, queryStringPhraseToken_wrapper, fieldname_wrapper,
      dateRangeGreater_wrapper, dateRangeLess_wrapper, logDebugGrammarf_wrapper,
      TokKind.code_nonneg, yyFlag, slots_above_cons, slots_below_cons, slotHead_cons,
      slotTail_cons, dollar, searchPartAction, yyShift_facts_m11, yyShift_facts_m3,
      yyShift_facts_m1, yyShift_facts_5, yyShift_facts_6, yyShift_facts_9, yyShift_facts_10,
      yyShift_facts_16, yyShift_facts_19, yyShift_facts_26, yyShift_facts_30, TokKind.code,
      TokKind.num, hl, h20, h16, h10, h4, hs] at h
  by_cases h1 : k = TokKind.tPHRASE
  · subst h1
    simp [yynewstate_look, yydefault_look, yynewstate_simple, yydefault_simple, yyact_reduce,
      yyreduce_mk, yyact_zero, halts_mid, haltsNext_next, haltsNext_ret, haltsNext_panic,
      haltsNext_ok, haltsNext_logged, haltsNext_setQuery, haltsNext_setQueryOrPanic,
      haltsNext_setBoost, haltsNext_boostedClause, yyPact_facts, yyDef_facts, yyR1_facts,
      yyR2_facts, yyPgo_facts, excaAction_facts, errShift_facts, yyGoto_facts, yyAction_facts,
      StackOK_cons, succ_lt_one, succ_lt_two, succ_lt_three, succ_lt_four, succ_lt_five,
      queryStringStringToken_wrapper, queryStringPhraseToken_wrapper, fieldname_wrapper,
      dateRangeGreater_wrapper, dateRangeLess_wrapper, logDebugGrammarf_wrapper,
      TokKind.code_nonneg, yyFlag, slots_above_cons, slots_below_cons, slotHead_cons,
      slotTail_cons, dollar, searchPartAction, yyShift_facts_m11, yyShift_facts_m3,
      yyShift_facts_m1, yyShift_facts_5, yyShift_facts_6, yyShift_facts_9, yyShift_facts_10,
      yyShift_facts_16, yyShift_facts_19, yyShift_facts_26, yyShift_facts_30, TokKind.code,
      TokKind.num, hl, h20, h16, h10, h4, hs] at h
    obtain ⟨_, qb, hq, h⟩ := h
    rw [halts_boundary] at h
    exact ⟨[LexItem.tok TokKind.tPHRASE t], qb, rest, _, rfl,
      SearchBase.greaterDate _ _ _ t qb hq, rfl, rfl,
      machine_unread _ _ _ _ _ _ _ _ _ _ _ _ _ h⟩
  by_cases h2 : k = TokKind.tEQUAL
  · subst h2
    simp [yynewstate_look, yydefault_look, yynewstate_simple, yydefault_simple, yyact_reduce,
      yyreduce_mk, yyact_zero, halts_mid, haltsNext_next, haltsNext_ret, haltsNext_panic,
      haltsNext_ok, haltsNext_logged, haltsNext_setQuery, haltsNext_setQueryOrPanic,
      haltsNext_setBoost, haltsNext_boostedClause, yyPact_facts, yyDef_facts, yyR1_facts,
      yyR2_facts, yyPgo_facts, excaAction_facts, errShift_facts, yyGoto_facts, yyAction_facts,
      StackOK_cons, succ_lt_one, succ_lt_two, succ_lt_three, succ_lt_four, succ_lt_five,
      queryStringStringToken_wrapper, queryStringPhraseToken_wrapper, fieldname_wrapper,
      dateRangeGreater_wrapper, dateRangeLess_wrapper, logDebugGrammarf_wrapper,
      TokKind.code_nonneg, yyFlag, slots_above_cons, slots_below_cons, slotHead_cons,
      slotTail_cons, dollar, searchPartAction, yyShift_facts_m11, yyShift_facts_m3,
      yyShift_facts_m1, yyShift_facts_5, yyShift_facts_6, yyShift_facts_9, yyShift_facts_10,
      yyShift_facts_16, yyShift_facts_19, yyShift_facts_26, yyShift_facts_30, TokKind.code,
      TokKind.num, hl, h20, h16, h10, h4, hs] at h
    obtain ⟨ts, qb, rest1, e9, e, hb, h9, hq, h⟩ :=
      greaterEqual_phase mode lib lf cf hl o q _ e20 e16 e10 e4 b rfl h20 h16 h10 h4 hs _
        (machine_unread _ _ _ _ _ _ _ _ _ _ _ _ _ h)
    exact ⟨LexItem.tok TokKind.tEQUAL t :: ts, qb, rest1, e9, by rw [e]; rfl, hb, h9, hq, h⟩
  by_cases hn : k = TokKind.tNUMBER ∨ k = TokKind.tMINUS
  · obtain ⟨ts, n, rest1, lval1, v1, above1, ne1, e, hpn, hv, h⟩ :=
      number_phase mode lib lf cf hl o q 20 6 25 e20 _ h20 rfl (by decide) rfl rfl
        rfl (by simp [StackOK_cons, errShift_facts, h20, h16, h10, h4, hs]) k hn t rest v above ne h
    simp [yynewstate_look, yydefault_look, yynewstate_simple, yydefault_simple, yyact_reduce,
      yyreduce_mk, yyact_zero, halts_mid, haltsNext_next, haltsNext_ret, haltsNext_panic,
      haltsNext_ok, haltsNext_logged, haltsNext_setQuery, haltsNext_setQueryOrPanic,
      haltsNext_setBoost, haltsNext_boostedClause, yyPact_facts, yyDef_facts, yyR1_facts,
      yyR2_facts, yyPgo_facts, excaAction_facts, errShift_facts, yyGoto_facts, yyAction_facts,
      StackOK_cons, succ_lt_one, succ_lt_two, succ_lt_three, succ_lt_four, succ_lt_five,
      queryStringStringToken_wrapper, queryStringPhraseToken_wrapper, fieldname_wrapper,
      dateRangeGreater_wrapper, dateRangeLess_wrapper, logDebugGrammarf_wrapper,
      TokKind.code_nonneg, yyFlag, slots_above_cons, slots_below_cons, slotHead_cons,
      slotTail_cons, dollar, searchPartAction, yyShift_facts_m11, yyShift_facts_m3,
      yyShift_facts_m1, yyShift_facts_5, yyShift_facts_6, yyShift_facts_9, yyShift_facts_10,
      yyShift_facts_16, yyShift_facts_19, yyShift_facts_26, yyShift_facts_30, TokKind.code,
      TokKind.num, hl, h20, h16, h10, h4, hs, hv] at h
    obtain ⟨_, qb, hq, h⟩ := h
    rw [halts_boundary] at h
    exact ⟨ts, qb, rest1, _, e, SearchBase.greater _ _ _ ts n qb hpn hq, rfl, rfl,
      machine_unread _ _ _ _ _ _ _ _ _ _ _ _ _ h⟩
  · have hk := yyShift_6_rest k h1 (fun e => hn (Or.inr e)) (fun e => hn (Or.inl e)) h2
    simp [yynewstate_look, yydefault_look, yynewstate_simple, yydefault_simple, yyact_reduce,
      yyreduce_mk, yyact_zero, halts_mid, haltsNext_next, haltsNext_ret, haltsNext_panic,
      haltsNext_ok, haltsNext_logged, haltsNext_setQuery, haltsNext_setQueryOrPanic,
      haltsNext_setBoost, haltsNext_boostedClause, yyPact_facts, yyDef_facts, yyR1_facts,
      yyR2_facts, yyPgo_facts, excaAction_facts, errShift_facts, yyGoto_facts, yyAction_facts,
      StackOK_cons, succ_lt_one, succ_lt_two, succ_lt_three, succ_lt_four, succ_lt_five,
      queryStringStringToken_wrapper, queryStringPhraseToken_wrapper, fieldname_wrapper,
      dateRangeGreater_wrapper, dateRangeLess_wrapper, logDebugGrammarf_wrapper,
      TokKind.code_nonneg, yyFlag, slots_above_cons, slots_below_cons, slotHead_cons,
      slotTail_cons, dollar, searchPartAction, hl, h20, h16, h10, h4, hs, hk] at h

theorem yyShift_5_rest (k : TokKind) (h1 : k ≠ TokKind.tPHRASE) (h2 : k ≠ TokKind.tMINUS) (h3 : k ≠ TokKind.tNUMBER) (h4 : k ≠ TokKind.tEQUAL) :
    yyShift 5 (TokKind.num k) = .ok none := by
  cases k <;> first | rfl | contradiction

/-- After `tSTRING tCOLON tLESS`: productions 19, 20, 23 and 24. -/
theorem less_phase (mode : LexErrorMode) (lib : GoLib) (lf : lexerWrapper) (cf : Int)
    (hl : lf.errs = []) (o : QueryStringOptions) (q : BooleanQuery)
    (e21 e16 e10 e4 : yySymType) (b : List yySymType)
    (h21 : e21.yys = 21) (h16 : e16.yys = 16) (h10 : e10.yys = 10) (h4 : e4.yys = 4)
    (hs : StackOK b) (pend : List LexItem)
    (h : Machine mode lib (Run.ret lf cf) o q 21
      (e21 :: e16 :: e10 :: e4 :: b) pend) :
    ∃ ts qb rest e9, pend = ts ++ rest ∧
      SearchBase lib o
        (LexItem.tok TokKind.tSTRING e10.s :: LexItem.tok TokKind.tCOLON e16.s :: LexItem.tok TokKind.tLESS e21.s :: ts) qb ∧
      e9.yys = 9 ∧ e9.q = qb ∧ Machine mode lib (Run.ret lf cf) o q 9 (e9 :: e4 :: b) rest := by
  rcases machine_fetch mode lib lf cf hl o q 21 5 _ pend rfl (by decide) h with
    ⟨rfl, lval, v, above, ne, h⟩ | ⟨k, t, rest, rfl, v, above, ne, h⟩
  · simp [yynewstate_look, yydefault_look, yynewstate_simple, yydefault_simple, yyact_reduce,
      yyreduce_mk, yyact_zero, halts_mid, haltsNext_next, haltsNext_ret, haltsNext_panic,
      haltsNext_ok, haltsNext_logged, haltsNext_setQuery, haltsNext_setQueryOrPanic,
      haltsNext_setBoost, haltsNext_boostedClause, yyPact_facts, yyDef_facts, yyR1_facts,
      yyR2_facts, yyPgo_facts, excaAction_facts, errShift_facts, yyGoto_facts, yyAction_facts,
      StackOK_cons, succ_lt_one, succ_lt_two, succ_lt_three, succ_lt_four, succ_lt_five,
      queryStringStringToken_wrapper, queryStringPhraseToken_wrapper, fieldname_wrapper,
      dateRangeGreater_wrapper, dateRangeLess_wrapper, logDebugGrammarf_wrapper,
      TokKind.code_nonneg, yyFlag, slots_above_cons, slots_below_cons, slotHead_cons,
      slotTail_cons, dollar, searchPartAction, yyShift_facts_m11, yyShift_facts_m3,
      yyShift_facts_m1, yyShift_facts_5, yyShift_facts_6, yyShift_facts_9, yyShift_facts_10,
      yyShift_facts_16, yyShift_facts_19, yyShift_facts_26, yyShift_facts_30, TokKind.code,
      TokKind.num, hl, h21, h16, h10, h4, hs] at h
  by_cases h1 : k = TokKind.tPHRASE
  · subst h1
    simp [yynewstate_look, yydefault_look, yynewstate_simple, yydefault_simple, yyact_reduce,
      yyreduce_mk, yyact_zero, halts_mid, haltsNext_next, haltsNext_ret, haltsNext_panic,
      haltsNext_ok, haltsNext_logged, haltsNext_setQuery, haltsNext_setQueryOrPanic,
      haltsNext_setBoost, haltsNext_boostedClause, yyPact_facts, yyDef_facts, yyR1_facts,
      yyR2_facts, yyPgo_facts, excaAction_facts, errShift_facts, yyGoto_facts, yyAction_facts,
      StackOK_cons, succ_lt_one, succ_lt_two, succ_lt_three, succ_lt_four, succ_lt_five,
      queryStringStringToken_wrapper, queryStringPhraseToken_wrapper, fieldname_wrapper,
      dateRangeGreater_wrapper, dateRangeLess_wrapper, logDebugGrammarf_wrapper,
      TokKind.code_nonneg, yyFlag, slots_above_cons, slots_below_cons, slotHead_cons,
      slotTail_cons, dollar, searchPartAction, yyShift_facts_m11, yyShift_facts_m3,
      yyShift_facts_m1, yyShift_facts_5, yyShift_facts_6, yyShift_facts_9, yyShift_facts_10,
      yyShift_facts_16, yyShift_facts_19, yyShift_facts_26, yyShift_facts_30, TokKind.code,
      TokKind.num, hl, h21, h16, h10, h4, hs] at h
    obtain ⟨_, qb, hq, h⟩ := h
    rw [halts_boundary] at h
    exact ⟨[LexItem.tok TokKind.tPHRASE t], qb, rest, _, rfl,
      SearchBase.lessDate _ _ _ t qb hq, rfl, rfl,
      machine_unread _ _ _ _ _ _ _ _ _ _ _ _ _ h⟩
  by_cases h2 : k = TokKind.tEQUAL
  · subst h2
    simp [yynewstate_look, yydefault_look, yynewstate_simple, yydefault_simple, yyact_reduce,
      yyreduce_mk, yyact_zero, halts_mid, haltsNext_next, haltsNext_ret, haltsNext_panic,
      haltsNext_ok, haltsNext_logged, haltsNext_setQuery, haltsNext_setQueryOrPanic,
      haltsNext_setBoost, haltsNext_boostedClause, yyPact_facts, yyDef_facts, yyR1_facts,
      yyR2_facts, yyPgo_facts, excaAction_facts, errShift_facts, yyGoto_facts, yyAction_facts,
      StackOK_cons, succ_lt_one, succ_lt_two, succ_lt_three, succ_lt_four, succ_lt_five,
      queryStringStringToken_wrapper, queryStringPhraseToken_wrapper, fieldname_wrapper,
      dateRangeGreater_wrapper, dateRangeLess_wrapper, logDebugGrammarf_wrapper,
      TokKind.code_nonneg, yyFlag, slots_above_cons, slots_below_cons, slotHead_cons,
      slotTail_cons, dollar, searchPartAction, yyShift_facts_m11, yyShift_facts_m3,
      yyShift_facts_m1, yyShift_facts_5, yyShift_facts_6, yyShift_facts_9, yyShift_facts_10,
      yyShift_facts_16, yyShift_facts_19, yyShift_facts_26, yyShift_facts_30, TokKind.code,
      TokKind.num, hl, h21, h16, h10, h4, hs] at h
    obtain ⟨ts, qb, rest1, e9, e, hb, h9, hq, h⟩ :=
      lessEqual_phase mode lib lf cf hl o q _ e21 e16 e10 e4 b rfl h21 h16 h10 h4 hs _
        (machine_unread _ _ _ _ _ _ _ _ _ _ _ _ _ h)
    exact ⟨LexItem.tok TokKind.tEQUAL t :: ts, qb, rest1, e9, by rw [e]; rfl, hb, h9, hq, h⟩
  by_cases hn : k = TokKind.tNUMBER ∨ k = TokKind.tMINUS
  · obtain ⟨ts, n, rest1, lval1, v1, above1, ne1, e, hpn, hv, h⟩ :=
      number_phase mode lib lf cf hl o q 21 5 28 e21 _ h21 rfl (by decide) rfl rfl
        rfl (by simp [StackOK_cons, errShift_facts, h21, h16, h10, h4, hs]) k hn t rest v above ne h
    simp [yynewstate_look, yydefault_look, yynewstate_simple, yydefault_simple, yyact_reduce,
      yyreduce_mk, yyact_zero, halts_mid, haltsNext_next, haltsNext_ret, haltsNext_panic,
      haltsNext_ok, haltsNext_logged, haltsNext_setQuery, haltsNext_setQueryOrPanic,
      haltsNext_setBoost, haltsNext_boostedClause, yyPact_facts, yyDef_facts, yyR1_facts,
      yyR2_facts, yyPgo_facts, excaAction_facts, errShift_facts, yyGoto_facts, yyAction_facts,
      StackOK_cons, succ_lt_one, succ_lt_two, succ_lt_three, succ_lt_four, succ_lt_five,
      queryStringStringToken_wrapper, queryStringPhraseToken_wrapper, fieldname_wrapper,
      dateRangeGreater_wrapper, dateRangeLess_wrapper, logDebugGrammarf_wrapper,
      TokKind.code_nonneg, yyFlag, slots_above_cons, slots_below_cons, slotHead_cons,
      slotTail_cons, dollar, searchPartAction, yyShift_facts_m11, yyShift_facts_m3,
      yyShift_facts_m1, yyShift_facts_5, yyShift_facts_6, yyShift_facts_9, yyShift_facts_10,
      yyShift_facts_16, yyShift_facts_19, yyShift_facts_26, yyShift_facts_30, TokKind.code,
      TokKind.num, hl, h21, h16, h10, h4, hs, hv] at h
    obtain ⟨_, qb, hq, h⟩ := h
    rw [halts_boundary] at h
    exact ⟨ts, qb, rest1, _, e, SearchBase.less _ _ _ ts n qb hpn hq, rfl, rfl,
      machine_unread _ _ _ _ _ _ _ _ _ _ _ _ _ h⟩
  · have hk := yyShift_5_rest k h1 (fun e => hn (Or.inr e)) (fun e => hn (Or.inl e)) h2
    simp [yynewstate_look, yydefault_look, yynewstate_simple, yydefault_simple, yyact_reduce,
      yyreduce_mk, yyact_zero, halts_mid, haltsNext_next, haltsNext_ret, haltsNext_panic,
      haltsNext_ok, haltsNext_logged, haltsNext_setQuery, haltsNext_setQueryOrPanic,
      haltsNext_setBoost, haltsNext_boostedClause, yyPact_facts, yyDef_facts, yyR1_facts,
      yyR2_facts, yyPgo_facts, excaAction_facts, errShift_facts, yyGoto_facts, yyAction_facts,
      StackOK_cons, succ_lt_one, succ_lt_two, succ_lt_three, succ_lt_four, succ_lt_five,
      queryStringStringToken_wrapper, queryStringPhraseToken_wrapper, fieldname_wrapper,
      dateRangeGreater_wrapper, dateRangeLess_wrapper, logDebugGrammarf_wrapper,
      TokKind.code_nonneg, yyFlag, slots_above_cons, slots_below_cons, slotHead_cons,
      slotTail_cons, dollar, searchPartAction, hl, h21, h16, h10, h4, hs, hk] at h

theorem yyShift_m11_rest (k : TokKind) (h1 : k ≠ TokKind.tTILDE) :
    yyShift (-11) (TokKind.num k) = .ok none := by
  cases k <;> first | rfl | contradiction

/-- After `tSTRING tCOLON tSTRING`: productions 11 and 14. -/
theorem fieldString_phase (mode : LexErrorMode) (lib : GoLib) (lf : lexerWrapper) (cf : Int)
    (hl : lf.errs = []) (o : QueryStringOptions) (q : BooleanQuery)
    (e17 e16 e10 e4 : yySymType) (b : List yySymType)
    (h10 : e10.yys = 10) (h4 : e4.yys = 4) (pend : List LexItem)
    (h : Machine mode lib (Run.ret lf cf) o q 17
      (e17 :: e16 :: e10 :: e4 :: b) pend) :
    ∃ ts qb rest e9, pend = ts ++ rest ∧
      SearchBase lib o
        (LexItem.tok TokKind.tSTRING e10.s :: LexItem.tok TokKind.tCOLON e16.s ::
          LexItem.tok TokKind.tSTRING e17.s :: ts) qb ∧
      e9.yys = 9 ∧ e9.q = qb ∧ Machine mode lib (Run.ret lf cf) o q 9 (e9 :: e4 :: b) rest := by
  rcases machine_fetch mode lib lf cf hl o q 17 (-11) _ pend (by rfl) (by decide) h with
    ⟨rfl, lval, v, above, ne, h⟩ | ⟨k, t, rest, rfl, v, above, ne, h⟩
  · simp [yynewstate_look, yydefault_look, yynewstate_simple, yydefault_simple, yyact_reduce,
      yyreduce_mk, yyact_zero, halts_mid, haltsNext_next, haltsNext_ret, haltsNext_panic,
      haltsNext_ok, haltsNext_logged, haltsNext_setQuery, haltsNext_setQueryOrPanic,
      haltsNext_setBoost, haltsNext_boostedClause, yyPact_facts, yyDef_facts, yyR1_facts,
      yyR2_facts, yyPgo_facts, excaAction_facts, errShift_facts, yyGoto_facts, yyAction_facts,
      StackOK_cons, succ_lt_one, succ_lt_two, succ_lt_three, succ_lt_four, succ_lt_five,
      queryStringStringToken_wrapper, queryStringPhraseToken_wrapper, fieldname_wrapper,
      dateRangeGreater_wrapper, dateRangeLess_wrapper, logDebugGrammarf_wrapper,
      TokKind.code_nonneg, yyFlag, slots_above_cons, slots_below_cons, slotHead_cons,
      slotTail_cons, dollar, searchPartAction, yyShift_facts_m11, yyShift_facts_m3,
      yyShift_facts_m1, yyShift_facts_5, yyShift_facts_6, yyShift_facts_9, yyShift_facts_10,
      yyShift_facts_16, yyShift_facts_19, yyShift_facts_26, yyShift_facts_30, TokKind.code,
      TokKind.num, hl, h10, h4] at h
    obtain ⟨_, qb, hq, h⟩ := h
    rw [halts_boundary] at h
    exact ⟨[], qb, [], _, rfl, SearchBase.fieldString _ _ _ qb hq, rfl, rfl,
      machine_end _ _ _ _ _ _ _ _ _ _ _ h⟩
  by_cases h1 : k = TokKind.tTILDE
  · subst h1
    simp [yynewstate_look, yydefault_look, yynewstate_simple, yydefault_simple, yyact_reduce,
      yyreduce_mk, yyact_zero, halts_mid, haltsNext_next, haltsNext_ret, haltsNext_panic,
      haltsNext_ok, haltsNext_logged, haltsNext_setQuery, haltsNext_setQueryOrPanic,
      haltsNext_setBoost, haltsNext_boostedClause, yyPact_facts, yyDef_facts, yyR1_facts,
      yyR2_facts, yyPgo_facts, excaAction_facts, errShift_facts, yyGoto_facts, yyAction_facts,
      StackOK_cons, succ_lt_one, succ_lt_two, succ_lt_three, succ_lt_four, succ_lt_five,
      queryStringStringToken_wrapper, queryStringPhraseToken_wrapper, fieldname_wrapper,
      dateRangeGreater_wrapper, dateRangeLess_wrapper, logDebugGrammarf_wrapper,
      TokKind.code_nonneg, yyFlag, slots_above_cons, slots_below_cons, slotHead_cons,
      slotTail_cons, dollar, searchPartAction, yyShift_facts_m11, yyShift_facts_m3,
      yyShift_facts_m1, yyShift_facts_5, yyShift_facts_6, yyShift_facts_9, yyShift_facts_10,
      yyShift_facts_16, yyShift_facts_19, yyShift_facts_26, yyShift_facts_30, TokKind.code,
      TokKind.num, hl, h10, h4] at h
    obtain ⟨_, qb, hq, h⟩ := h
    rw [halts_boundary] at h
    exact ⟨[LexItem.tok TokKind.tTILDE t], qb, rest, _, rfl,
      SearchBase.fieldFuzzy _ _ _ t qb hq, rfl, rfl,
      machine_unread _ _ _ _ _ _ _ _ _ _ _ _ _ h⟩
  · have hk := yyShift_m11_rest k h1
    simp [yynewstate_look, yydefault_look, yynewstate_simple, yydefault_simple, yyact_reduce,
      yyreduce_mk, yyact_zero, halts_mid, haltsNext_next, haltsNext_ret, haltsNext_panic,
      haltsNext_ok, haltsNext_logged, haltsNext_setQuery, haltsNext_setQueryOrPanic,
      haltsNext_setBoost, haltsNext_boostedClause, yyPact_facts, yyDef_facts, yyR1_facts,
      yyR2_facts, yyPgo_facts, excaAction_facts, errShift_facts, yyGoto_facts, yyAction_facts,
      StackOK_cons, succ_lt_one, succ_lt_two, succ_lt_three, succ_lt_four, succ_lt_five,
      queryStringStringToken_wrapper, queryStringPhraseToken_wrapper, fieldname_wrapper,
      dateRangeGreater_wrapper, dateRangeLess_wrapper, logDebugGrammarf_wrapper,
      TokKind.code_nonneg, yyFlag, slots_above_cons, slots_below_cons, slotHead_cons,
      slotTail_cons, dollar, searchPartAction, hl, h10, h4, hk] at h
    obtain ⟨_, qb, hq, h⟩ := h
    rw [halts_boundary] at h
    exact ⟨[], qb, LexItem.tok k t :: rest, _, rfl, SearchBase.fieldString _ _ _ qb hq, rfl,
      rfl, machine_ahead _ _ _ _ _ _ _ _ _ _ _ _ _ h⟩

theorem yyShift_m3_rest (k : TokKind) (h1 : k ≠ TokKind.tSTRING) (h2 : k ≠ TokKind.tPHRASE)
    (h3 : k ≠ TokKind.tMINUS) (h4 : k ≠ TokKind.tNUMBER) (h5 : k ≠ TokKind.tGREATER)
    (h6 : k ≠ TokKind.tLESS) : yyShift (-3) (TokKind.num k) = .ok none := by
  cases k <;> first | rfl | contradiction

/-- After `tSTRING tCOLON`: productions 11 and 14 to 24. -/
theorem field_phase (mode : LexErrorMode) (lib : GoLib) (lf : lexerWrapper) (cf : Int)
    (hl : lf.errs = []) (o : QueryStringOptions) (q : BooleanQuery)
    (e16 e10 e4 : yySymType) (b : List yySymType)
    (h16 : e16.yys = 16) (h10 : e10.yys = 10) (h4 : e4.yys = 4)
    (hs : StackOK b) (pend : List LexItem)
    (h : Machine mode lib (Run.ret lf cf) o q 16 (e16 :: e10 :: e4 :: b) pend) :
    ∃ ts qb rest e9, pend = ts ++ rest ∧
      SearchBase lib o
        (LexItem.tok TokKind.tSTRING e10.s :: LexItem.tok TokKind.tCOLON e16.s :: ts) qb ∧
      e9.yys = 9 ∧ e9.q = qb ∧ Machine mode lib (Run.ret lf cf) o q 9 (e9 :: e4 :: b) rest := by
  rcases machine_fetch mode lib lf cf hl o q 16 (-3) _ pend (by rfl) (by decide) h with
    ⟨rfl, lval, v, above, ne, h⟩ | ⟨k, t, rest, rfl, v, above, ne, h⟩
  · simp [yynewstate_look, yydefault_look, yynewstate_simple, yydefault_simple, yyact_reduce,
      yyreduce_mk, yyact_zero, halts_mid, haltsNext_next, haltsNext_ret, haltsNext_panic,
      haltsNext_ok, haltsNext_logged, haltsNext_setQuery, haltsNext_setQueryOrPanic,
      haltsNext_setBoost, haltsNext_boostedClause, yyPact_facts, yyDef_facts, yyR1_facts,
      yyR2_facts, yyPgo_facts, excaAction_facts, errShift_facts, yyGoto_facts, yyAction_facts,
      StackOK_cons, succ_lt_one, succ_lt_two, succ_lt_three, succ_lt_four, succ_lt_five,
      queryStringStringToken_wrapper, queryStringPhraseToken_wrapper, fieldname_wrapper,
      dateRangeGreater_wrapper, dateRangeLess_wrapper, logDebugGrammarf_wrapper,
      TokKind.code_nonneg, yyFlag, slots_above_cons, slots_below_cons, slotHead_cons,
      slotTail_cons, dollar, searchPartAction, yyShift_facts_m11, yyShift_facts_m3,
      yyShift_facts_m1, yyShift_facts_5, yyShift_facts_6, yyShift_facts_9, yyShift_facts_10,
      yyShift_facts_16, yyShift_facts_19, yyShift_facts_26, yyShift_facts_30, TokKind.code,
      TokKind.num, hl, h16, h10, h4, hs] at h
  by_cases h1 : k = TokKind.tSTRING
  · subst h1
    simp [yynewstate_look, yydefault_look, yynewstate_simple, yydefault_simple, yyact_reduce,
      yyreduce_mk, yyact_zero, halts_mid, haltsNext_next, haltsNext_ret, haltsNext_panic,
      haltsNext_ok, haltsNext_logged, haltsNext_setQuery, haltsNext_setQueryOrPanic,
      haltsNext_setBoost, haltsNext_boostedClause, yyPact_facts, yyDef_facts, yyR1_facts,
      yyR2_facts, yyPgo_facts, excaAction_facts, errShift_facts, yyGoto_facts, yyAction_facts,
      StackOK_cons, succ_lt_one, succ_lt_two, succ_lt_three, succ_lt_four, succ_lt_five,
      queryStringStringToken_wrapper, queryStringPhraseToken_wrapper, fieldname_wrapper,
      dateRangeGreater_wrapper, dateRangeLess_wrapper, logDebugGrammarf_wrapper,
      TokKind.code_nonneg, yyFlag, slots_above_cons, slots_below_cons, slotHead_cons,
      slotTail_cons, dollar, searchPartAction, yyShift_facts_m11, yyShift_facts_m3,
      yyShift_facts_m1, yyShift_facts_5, yyShift_facts_6, yyShift_facts_9, yyShift_facts_10,
      yyShift_facts_16, yyShift_facts_19, yyShift_facts_26, yyShift_facts_30, TokKind.code,
      TokKind.num, hl, h16, h10, h4, hs] at h
    obtain ⟨ts, qb, rest1, e9, e, hb, h9, hq, h⟩ :=
      fieldString_phase mode lib lf cf hl o q _ e16 e10 e4 b h10 h4 _
        (machine_unread _ _ _ _ _ _ _ _ _ _ _ _ _ h)
    exact ⟨LexItem.tok TokKind.tSTRING t :: ts, qb, rest1, e9, by rw [e]; rfl, hb, h9, hq, h⟩
  by_cases h2 : k = TokKind.tPHRASE
  · subst h2
    simp [yynewstate_look, yydefault_look, yynewstate_simple, yydefault_simple, yyact_reduce,
      yyreduce_mk, yyact_zero, halts_mid, haltsNext_next, haltsNext_ret, haltsNext_panic,
      haltsNext_ok, haltsNext_logged, haltsNext_setQuery, haltsNext_setQueryOrPanic,
      haltsNext_setBoost, haltsNext_boostedClause, yyPact_facts, yyDef_facts, yyR1_facts,
      yyR2_facts, yyPgo_facts, excaAction_facts, errShift_facts, yyGoto_facts, yyAction_facts,
      StackOK_cons, succ_lt_one, succ_lt_two, succ_lt_three, succ_lt_four, succ_lt_five,
      queryStringStringToken_wrapper, queryStringPhraseToken_wrapper, fieldname_wrapper,
      dateRangeGreater_wrapper, dateRangeLess_wrapper, logDebugGrammarf_wrapper,
      TokKind.code_nonneg, yyFlag, slots_above_cons, slots_below_cons, slotHead_cons,
      slotTail_cons, dollar, searchPartAction, yyShift_facts_m11, yyShift_facts_m3,
      yyShift_facts_m1, yyShift_facts_5, yyShift_facts_6, yyShift_facts_9, yyShift_facts_10,
      yyShift_facts_16, yyShift_facts_19, yyShift_facts_26, yyShift_facts_30, TokKind.code,
      TokKind.num, hl, h16, h10, h4, hs] at h
    obtain ⟨_, h⟩ := h
    rw [halts_boundary] at h
    exact ⟨[LexItem.tok TokKind.tPHRASE t], _, rest, _, rfl,
      SearchBase.fieldPhrase _ _ t, rfl, rfl,
      machine_unread _ _ _ _ _ _ _ _ _ _ _ _ _ h⟩
  by_cases h5 : k = TokKind.tGREATER
  · subst h5
    simp [yynewstate_look, yydefault_look, yynewstate_simple, yydefault_simple, yyact_reduce,
      yyreduce_mk, yyact_zero, halts_mid, haltsNext_next, haltsNext_ret, haltsNext_panic,
      haltsNext_ok, haltsNext_logged, haltsNext_setQuery, haltsNext_setQueryOrPanic,
      haltsNext_setBoost, haltsNext_boostedClause, yyPact_facts, yyDef_facts, yyR1_facts,
      yyR2_facts, yyPgo_facts, excaAction_facts, errShift_facts, yyGoto_facts, yyAction_facts,
      StackOK_cons, succ_lt_one, succ_lt_two, succ_lt_three, succ_lt_four, succ_lt_five,
      queryStringStringToken_wrapper, queryStringPhraseToken_wrapper, fieldname_wrapper,
      dateRangeGreater_wrapper, dateRangeLess_wrapper, logDebugGrammarf_wrapper,
      TokKind.code_nonneg, yyFlag, slots_above_cons, slots_below_cons, slotHead_cons,
      slotTail_cons, dollar, searchPartAction, yyShift_facts_m11, yyShift_facts_m3,
      yyShift_facts_m1, yyShift_facts_5, yyShift_facts_6, yyShift_facts_9, yyShift_facts_10,
      yyShift_facts_16, yyShift_facts_19, yyShift_facts_26, yyShift_facts_30, TokKind.code,
      TokKind.num, hl, h16, h10, h4, hs] at h
    obtain ⟨ts, qb, rest1, e9, e, hb, h9, hq, h⟩ :=
      greater_phase mode lib lf cf hl o q _ e16 e10 e4 b rfl h16 h10 h4 hs _
        (machine_unread _ _ _ _ _ _ _ _ _ _ _ _ _ h)
    exact ⟨LexItem.tok TokKind.tGREATER t :: ts, qb, rest1, e9, by rw [e]; rfl, hb, h9, hq, h⟩
  by_cases h6 : k = TokKind.tLESS
  · subst h6
    simp [yynewstate_look, yydefault_look, yynewstate_simple, yydefault_simple, yyact_reduce,
      yyreduce_mk, yyact_zero, halts_mid, haltsNext_next, haltsNext_ret, haltsNext_panic,
      haltsNext_ok, haltsNext_logged, haltsNext_setQuery, haltsNext_setQueryOrPanic,
      haltsNext_setBoost, haltsNext_boostedClause, yyPact_facts, yyDef_facts, yyR1_facts,
      yyR2_facts, yyPgo_facts, excaAction_facts, errShift_facts, yyGoto_facts, yyAction_facts,
      StackOK_cons, succ_lt_one, succ_lt_two, succ_lt_three, succ_lt_four, succ_lt_five,
      queryStringStringToken_wrapper, queryStringPhraseToken_wrapper, fieldname_wrapper,
      dateRangeGreater_wrapper, dateRangeLess_wrapper, logDebugGrammarf_wrapper,
      TokKind.code_nonneg, yyFlag, slots_above_cons, slots_below_cons, slotHead_cons,
      slotTail_cons, dollar, searchPartAction, yyShift_facts_m11, yyShift_facts_m3,
      yyShift_facts_m1, yyShift_facts_5, yyShift_facts_6, yyShift_facts_9, yyShift_facts_10,
      yyShift_facts_16, yyShift_facts_19, yyShift_facts_26, yyShift_facts_30, TokKind.code,
      TokKind.num, hl, h16, h10, h4, hs] at h
    obtain ⟨ts, qb, rest1, e9, e, hb, h9, hq, h⟩ :=
      less_phase mode lib lf cf hl o q _ e16 e10 e4 b rfl h16 h10 h4 hs _
        (machine_unread _ _ _ _ _ _ _ _ _ _ _ _ _ h)
    exact ⟨LexItem.tok TokKind.tLESS t :: ts, qb, rest1, e9, by rw [e]; rfl, hb, h9, hq, h⟩
  by_cases hn : k = TokKind.tNUMBER ∨ k = TokKind.tMINUS
  · obtain ⟨ts, n, rest1, lval1, v1, above1, ne1, e, hpn, hv, h⟩ :=
      number_phase mode lib lf cf hl o q 16 (-3) 18 e16 _ h16 (by rfl) (by decide) (by rfl)
        (by rfl) (by rfl) (by simp [StackOK_cons, errShift_facts, h16, h10, h4, hs]) k hn t rest v above ne h
    simp [yynewstate_look, yydefault_look, yynewstate_simple, yydefault_simple, yyact_reduce,
      yyreduce_mk, yyact_zero, halts_mid, haltsNext_next, haltsNext_ret, haltsNext_panic,
      haltsNext_ok, haltsNext_logged, haltsNext_setQuery, haltsNext_setQueryOrPanic,
      haltsNext_setBoost, haltsNext_boostedClause, yyPact_facts, yyDef_facts, yyR1_facts,
      yyR2_facts, yyPgo_facts, excaAction_facts, errShift_facts, yyGoto_facts, yyAction_facts,
      StackOK_cons, succ_lt_one, succ_lt_two, succ_lt_three, succ_lt_four, succ_lt_five,
      queryStringStringToken_wrapper, queryStringPhraseToken_wrapper, fieldname_wrapper,
      dateRangeGreater_wrapper, dateRangeLess_wrapper, logDebugGrammarf_wrapper,
      TokKind.code_nonneg, yyFlag, slots_above_cons, slots_below_cons, slotHead_cons,
      slotTail_cons, dollar, searchPartAction, yyShift_facts_m11, yyShift_facts_m3,
      yyShift_facts_m1, yyShift_facts_5, yyShift_facts_6, yyShift_facts_9, yyShift_facts_10,
      yyShift_facts_16, yyShift_facts_19, yyShift_facts_26, yyShift_facts_30, TokKind.code,
      TokKind.num, hl, h16, h10, h4, hs, hv] at h
    obtain ⟨_, qb, hq, h⟩ := h
    rw [halts_boundary] at h
    exact ⟨ts, qb, rest1, _, e, SearchBase.fieldNumber _ _ ts n qb hpn hq, rfl, rfl,
      machine_unread _ _ _ _ _ _ _ _ _ _ _ _ _ h⟩
  · have hk := yyShift_m3_rest k h1 h2 (fun e => hn (Or.inr e)) (fun e => hn (Or.inl e)) h5 h6
    simp [yynewstate_look, yydefault_look, yynewstate_simple, yydefault_simple, yyact_reduce,
      yyreduce_mk, yyact_zero, halts_mid, haltsNext_next, haltsNext_ret, haltsNext_panic,
      haltsNext_ok, haltsNext_logged, haltsNext_setQuery, haltsNext_setQueryOrPanic,
      haltsNext_setBoost, haltsNext_boostedClause, yyPact_facts, yyDef_facts, yyR1_facts,
      yyR2_facts, yyPgo_facts, excaAction_facts, errShift_facts, yyGoto_facts, yyAction_facts,
      StackOK_cons, succ_lt_one, succ_lt_two, succ_lt_three, succ_lt_four, succ_lt_five,
      queryStringStringToken_wrapper, queryStringPhraseToken_wrapper, fieldname_wrapper,
      dateRangeGreater_wrapper, dateRangeLess_wrapper, logDebugGrammarf_wrapper,
      TokKind.code_nonneg, yyFlag, slots_above_cons, slots_below_cons, slotHead_cons,
      slotTail_cons, dollar, searchPartAction, hl, h16, h10, h4, hs, hk] at h

theorem yyShift_9_rest (k : TokKind) (h1 : k ≠ TokKind.tCOLON) (h2 : k ≠ TokKind.tTILDE) :
    yyShift 9 (TokKind.num k) = .ok none := by
  cases k <;> first | rfl | contradiction

/-- After `tSTRING`: productions 9 to 11 and 14 to 24. -/
theorem string_phase (mode : LexErrorMode) (lib : GoLib) (lf : lexerWrapper) (cf : Int)
    (hl : lf.errs = []) (o : QueryStringOptions) (q : BooleanQuery)
    (e10 e4 : yySymType) (b : List yySymType) (h10 : e10.yys = 10) (h4 : e4.yys = 4)
    (hs : StackOK b) (pend : List LexItem)
    (h : Machine mode lib (Run.ret lf cf) o q 10 (e10 :: e4 :: b) pend) :
    ∃ ts qb rest e9, pend = ts ++ rest ∧
      SearchBase lib o (LexItem.tok TokKind.tSTRING e10.s :: ts) qb ∧
      e9.yys = 9 ∧ e9.q = qb ∧ Machine mode lib (Run.ret lf cf) o q 9 (e9 :: e4 :: b) rest := by
  rcases machine_fetch mode lib lf cf hl o q 10 9 _ pend rfl (by decide) h with
    ⟨rfl, lval, v, above, ne, h⟩ | ⟨k, t, rest, rfl, v, above, ne, h⟩
  · simp [yynewstate_look, yydefault_look, yynewstate_simple, yydefault_simple, yyact_reduce,
      yyreduce_mk, yyact_zero, halts_mid, haltsNext_next, haltsNext_ret, haltsNext_panic,
      haltsNext_ok, haltsNext_logged, haltsNext_setQuery, haltsNext_setQueryOrPanic,
      haltsNext_setBoost, haltsNext_boostedClause, yyPact_facts, yyDef_facts, yyR1_facts,
      yyR2_facts, yyPgo_facts, excaAction_facts, errShift_facts, yyGoto_facts, yyAction_facts,
      StackOK_cons, succ_lt_one, succ_lt_two, succ_lt_three, succ_lt_four, succ_lt_five,
      queryStringStringToken_wrapper, queryStringPhraseToken_wrapper, fieldname_wrapper,
      dateRangeGreater_wrapper, dateRangeLess_wrapper, logDebugGrammarf_wrapper,
      TokKind.code_nonneg, yyFlag, slots_above_cons, slots_below_cons, slotHead_cons,
      slotTail_cons, dollar, searchPartAction, yyShift_facts_m11, yyShift_facts_m3,
      yyShift_facts_m1, yyShift_facts_5, yyShift_facts_6, yyShift_facts_9, yyShift_facts_10,
      yyShift_facts_16, yyShift_facts_19, yyShift_facts_26, yyShift_facts_30, TokKind.code,
      TokKind.num, hl, h10, h4, hs] at h
    obtain ⟨_, qb, hq, h⟩ := h
    rw [halts_boundary] at h
    exact ⟨[], qb, [], _, rfl, SearchBase.string _ qb hq, rfl, rfl,
      machine_end _ _ _ _ _ _ _ _ _ _ _ h⟩
  by_cases h1 : k = TokKind.tCOLON
  · subst h1
    simp [yynewstate_look, yydefault_look, yynewstate_simple, yydefault_simple, yyact_reduce,
      yyreduce_mk, yyact_zero, halts_mid, haltsNext_next, haltsNext_ret, haltsNext_panic,
      haltsNext_ok, haltsNext_logged, haltsNext_setQuery, haltsNext_setQueryOrPanic,
      haltsNext_setBoost, haltsNext_boostedClause, yyPact_facts, yyDef_facts, yyR1_facts,
      yyR2_facts, yyPgo_facts, excaAction_facts, errShift_facts, yyGoto_facts, yyAction_facts,
      StackOK_cons, succ_lt_one, succ_lt_two, succ_lt_three, succ_lt_four, succ_lt_five,
      queryStringStringToken_wrapper, queryStringPhraseToken_wrapper, fieldname_wrapper,
      dateRangeGreater_wrapper, dateRangeLess_wrapper, logDebugGrammarf_wrapper,
      TokKind.code_nonneg, yyFlag, slots_above_cons, slots_below_cons, slotHead_cons,
      slotTail_cons, dollar, searchPartAction, yyShift_facts_m11, yyShift_facts_m3,
      yyShift_facts_m1, yyShift_facts_5, yyShift_facts_6, yyShift_facts_9, yyShift_facts_10,
      yyShift_facts_16, yyShift_facts_19, yyShift_facts_26, yyShift_facts_30, TokKind.code,
      TokKind.num, hl, h10, h4, hs] at h
    obtain ⟨ts, qb, rest1, e9, e, hb, h9, hq, h⟩ :=
      field_phase mode lib lf cf hl o q _ e10 e4 b rfl h10 h4 hs _
        (machine_unread _ _ _ _ _ _ _ _ _ _ _ _ _ h)
    exact ⟨LexItem.tok TokKind.tCOLON t :: ts, qb, rest1, e9, by rw [e]; rfl, hb, h9, hq, h⟩
  by_cases h2 : k = TokKind.tTILDE
  · subst h2
    simp [yynewstate_look, yydefault_look, yynewstate_simple, yydefault_simple, yyact_reduce,
      yyreduce_mk, yyact_zero, halts_mid, haltsNext_next, haltsNext_ret, haltsNext_panic,
      haltsNext_ok, haltsNext_logged, haltsNext_setQuery, haltsNext_setQueryOrPanic,
      haltsNext_setBoost, haltsNext_boostedClause, yyPact_facts, yyDef_facts, yyR1_facts,
      yyR2_facts, yyPgo_facts, excaAction_facts, errShift_facts, yyGoto_facts, yyAction_facts,
      StackOK_cons, succ_lt_one, succ_lt_two, succ_lt_three, succ_lt_four, succ_lt_five,
      queryStringStringToken_wrapper, queryStringPhraseToken_wrapper, fieldname_wrapper,
      dateRangeGreater_wrapper, dateRangeLess_wrapper, logDebugGrammarf_wrapper,
      TokKind.code_nonneg, yyFlag, slots_above_cons, slots_below_cons, slotHead_cons,
      slotTail_cons, dollar, searchPartAction, yyShift_facts_m11, yyShift_facts_m3,
      yyShift_facts_m1, yyShift_facts_5, yyShift_facts_6, yyShift_facts_9, yyShift_facts_10,
      yyShift_facts_16, yyShift_facts_19, yyShift_facts_26, yyShift_facts_30, TokKind.code,
      TokKind.num, hl, h10, h4, hs] at h
    obtain ⟨_, qb, hq, h⟩ := h
    rw [halts_boundary] at h
    exact ⟨[LexItem.tok TokKind.tTILDE t], qb, rest, _, rfl,
      SearchBase.fuzzy _ t qb hq, rfl, rfl,
      machine_unread _ _ _ _ _ _ _ _ _ _ _ _ _ h⟩
  · have hk := yyShift_9_rest k h1 h2
    simp [yynewstate_look, yydefault_look, yynewstate_simple, yydefault_simple, yyact_reduce,
      yyreduce_mk, yyact_zero, halts_mid, haltsNext_next, haltsNext_ret, haltsNext_panic,
      haltsNext_ok, haltsNext_logged, haltsNext_setQuery, haltsNext_setQueryOrPanic,
      haltsNext_setBoost, haltsNext_boostedClause, yyPact_facts, yyDef_facts, yyR1_facts,
      yyR2_facts, yyPgo_facts, excaAction_facts, errShift_facts, yyGoto_facts, yyAction_facts,
      StackOK_cons, succ_lt_one, succ_lt_two, succ_lt_three, succ_lt_four, succ_lt_five,
      queryStringStringToken_wrapper, queryStringPhraseToken_wrapper, fieldname_wrapper,
      dateRangeGreater_wrapper, dateRangeLess_wrapper, logDebugGrammarf_wrapper,
      TokKind.code_nonneg, yyFlag, slots_above_cons, slots_below_cons, slotHead_cons,
      slotTail_cons, dollar, searchPartAction, hl, h10, h4, hs, hk] at h
    obtain ⟨_, qb, hq, h⟩ := h
    rw [halts_boundary] at h
    exact ⟨[], qb, LexItem.tok k t :: rest, _, rfl, SearchBase.string _ qb hq, rfl,
      rfl, machine_ahead _ _ _ _ _ _ _ _ _ _ _ _ _ h⟩

theorem yyShift_30_rest (k : TokKind) (h1 : k ≠ TokKind.tSTRING) (h2 : k ≠ TokKind.tPHRASE)
    (h3 : k ≠ TokKind.tNUMBER) : yyShift 30 (TokKind.num k) = .ok none := by
  cases k <;> first | rfl | contradiction

/-- The clause of a search part: productions 9 to 24. -/
theorem base_phase (mode : LexErrorMode) (lib : GoLib) (lf : lexerWrapper) (cf : Int)
    (hl : lf.errs = []) (o : QueryStringOptions) (q : BooleanQuery)
    (e4 : yySymType) (b : List yySymType) (h4 : e4.yys = 4)
    (hs : StackOK b) (pend : List LexItem)
    (h : Machine mode lib (Run.ret lf cf) o q 4 (e4 :: b) pend) :
    ∃ ts qb rest e9, pend = ts ++ rest ∧ SearchBase lib o ts qb ∧
      e9.yys = 9 ∧ e9.q = qb ∧ Machine mode lib (Run.ret lf cf) o q 9 (e9 :: e4 :: b) rest := by
  rcases machine_fetch mode lib lf cf hl o q 4 30 _ pend rfl (by decide) h with
    ⟨rfl, lval, v, above, ne, h⟩ | ⟨k, t, rest, rfl, v, above, ne, h⟩
  · simp [yynewstate_look, yydefault_look, yynewstate_simple, yydefault_simple, yyact_reduce,
      yyreduce_mk, yyact_zero, halts_mid, haltsNext_next, haltsNext_ret, haltsNext_panic,
      haltsNext_ok, haltsNext_logged, haltsNext_setQuery, haltsNext_setQueryOrPanic,
      haltsNext_setBoost, haltsNext_boostedClause, yyPact_facts, yyDef_facts, yyR1_facts,
      yyR2_facts, yyPgo_facts, excaAction_facts, errShift_facts, yyGoto_facts, yyAction_facts,
      StackOK_cons, succ_lt_one, succ_lt_two, succ_lt_three, succ_lt_four, succ_lt_five,
      queryStringStringToken_wrapper, queryStringPhraseToken_wrapper, fieldname_wrapper,
      dateRangeGreater_wrapper, dateRangeLess_wrapper, logDebugGrammarf_wrapper,
      TokKind.code_nonneg, yyFlag, slots_above_cons, slots_below_cons, slotHead_cons,
      slotTail_cons, dollar, searchPartAction, yyShift_facts_m11, yyShift_facts_m3,
      yyShift_facts_m1, yyShift_facts_5, yyShift_facts_6, yyShift_facts_9, yyShift_facts_10,
      yyShift_facts_16, yyShift_facts_19, yyShift_facts_26, yyShift_facts_30, TokKind.code,
      TokKind.num, hl, h4, hs] at h
  by_cases h1 : k = TokKind.tSTRING
  · subst h1
    simp [yynewstate_look, yydefault_look, yynewstate_simple, yydefault_simple, yyact_reduce,
      yyreduce_mk, yyact_zero, halts_mid, haltsNext_next, haltsNext_ret, haltsNext_panic,
      haltsNext_ok, haltsNext_logged, haltsNext_setQuery, haltsNext_setQueryOrPanic,
      haltsNext_setBoost, haltsNext_boostedClause, yyPact_facts, yyDef_facts, yyR1_facts,
      yyR2_facts, yyPgo_facts, excaAction_facts, errShift_facts, yyGoto_facts, yyAction_facts,
      StackOK_cons, succ_lt_one, succ_lt_two, succ_lt_three, succ_lt_four, succ_lt_five,
      queryStringStringToken_wrapper, queryStringPhraseToken_wrapper, fieldname_wrapper,
      dateRangeGreater_wrapper, dateRangeLess_wrapper, logDebugGrammarf_wrapper,
      TokKind.code_nonneg, yyFlag, slots_above_cons, slots_below_cons, slotHead_cons,
      slotTail_cons, dollar, searchPartAction, yyShift_facts_m11, yyShift_facts_m3,
      yyShift_facts_m1, yyShift_facts_5, yyShift_facts_6, yyShift_facts_9, yyShift_facts_10,
      yyShift_facts_16, yyShift_facts_19, yyShift_facts_26, yyShift_facts_30, TokKind.code,
      TokKind.num, hl, h4, hs] at h
    obtain ⟨ts, qb, rest1, e9, e, hb, h9, hq, h⟩ :=
      string_phase mode lib lf cf hl o q _ e4 b rfl h4 hs _
        (machine_unread _ _ _ _ _ _ _ _ _ _ _ _ _ h)
    exact ⟨LexItem.tok TokKind.tSTRING t :: ts, qb, rest1, e9, by rw [e]; rfl, hb, h9, hq, h⟩
  by_cases h2 : k = TokKind.tPHRASE
  · subst h2
    simp [yynewstate_look, yydefault_look, yynewstate_simple, yydefault_simple, yyact_reduce,
      yyreduce_mk, yyact_zero, halts_mid, haltsNext_next, haltsNext_ret, haltsNext_panic,
      haltsNext_ok, haltsNext_logged, haltsNext_setQuery, haltsNext_setQueryOrPanic,
      haltsNext_setBoost, haltsNext_boostedClause, yyPact_facts, yyDef_facts, yyR1_facts,
      yyR2_facts, yyPgo_facts, excaAction_facts, errShift_facts, yyGoto_facts, yyAction_facts,
      StackOK_cons, succ_lt_one, succ_lt_two, succ_lt_three, succ_lt_four, succ_lt_five,
      queryStringStringToken_wrapper, queryStringPhraseToken_wrapper, fieldname_wrapper,
      dateRangeGreater_wrapper, dateRangeLess_wrapper, logDebugGrammarf_wrapper,
      TokKind.code_nonneg, yyFlag, slots_above_cons, slots_below_cons, slotHead_cons,
      slotTail_cons, dollar, searchPartAction, yyShift_facts_m11, yyShift_facts_m3,
      yyShift_facts_m1, yyShift_facts_5, yyShift_facts_6, yyShift_facts_9, yyShift_facts_10,
      yyShift_facts_16, yyShift_facts_19, yyShift_facts_26, yyShift_facts_30, TokKind.code,
      TokKind.num, hl, h4, hs] at h
    obtain ⟨_, h⟩ := h
    rw [halts_boundary] at h
    exact ⟨[LexItem.tok TokKind.tPHRASE t], _, rest, _, rfl,
      SearchBase.phrase t, rfl, rfl,
      machine_unread _ _ _ _ _ _ _ _ _ _ _ _ _ h⟩
  by_cases h3 : k = TokKind.tNUMBER
  · subst h3
    simp [yynewstate_look, yydefault_look, yynewstate_simple, yydefault_simple, yyact_reduce,
      yyreduce_mk, yyact_zero, halts_mid, haltsNext_next, haltsNext_ret, haltsNext_panic,
      haltsNext_ok, haltsNext_logged, haltsNext_setQuery, haltsNext_setQueryOrPanic,
      haltsNext_setBoost, haltsNext_boostedClause, yyPact_facts, yyDef_facts, yyR1_facts,
      yyR2_facts, yyPgo_facts, excaAction_facts, errShift_facts, yyGoto_facts, yyAction_facts,
      StackOK_cons, succ_lt_one, succ_lt_two, succ_lt_three, succ_lt_four, succ_lt_five,
      queryStringStringToken_wrapper, queryStringPhraseToken_wrapper, fieldname_wrapper,
      dateRangeGreater_wrapper, dateRangeLess_wrapper, logDebugGrammarf_wrapper,
      TokKind.code_nonneg, yyFlag, slots_above_cons, slots_below_cons, slotHead_cons,
      slotTail_cons, dollar, searchPartAction, yyShift_facts_m11, yyShift_facts_m3,
      yyShift_facts_m1, yyShift_facts_5, yyShift_facts_6, yyShift_facts_9, yyShift_facts_10,
      yyShift_facts_16, yyShift_facts_19, yyShift_facts_26, yyShift_facts_30, TokKind.code,
      TokKind.num, hl, h4, hs] at h
    obtain ⟨_, qb, hq, h⟩ := h
    rw [halts_boundary] at h
    exact ⟨[LexItem.tok TokKind.tNUMBER t], qb, rest, _, rfl,
      SearchBase.number t qb hq, rfl, rfl,
      machine_unread _ _ _ _ _ _ _ _ _ _ _ _ _ h⟩
  · have hk := yyShift_30_rest k h1 h2 h3
    simp [yynewstate_look, yydefault_look, yynewstate_simple, yydefault_simple, yyact_reduce,
      yyreduce_mk, yyact_zero, halts_mid, haltsNext_next, haltsNext_ret, haltsNext_panic,
      haltsNext_ok, haltsNext_logged, haltsNext_setQuery, haltsNext_setQueryOrPanic,
      haltsNext_setBoost, haltsNext_boostedClause, yyPact_facts, yyDef_facts, yyR1_facts,
      yyR2_facts, yyPgo_facts, excaAction_facts, errShift_facts, yyGoto_facts, yyAction_facts,
      StackOK_cons, succ_lt_one, succ_lt_two, succ_lt_three, succ_lt_four, succ_lt_five,
      queryStringStringToken_wrapper, queryStringPhraseToken_wrapper, fieldname_wrapper,
      dateRangeGreater_wrapper, dateRangeLess_wrapper, logDebugGrammarf_wrapper,
      TokKind.code_nonneg, yyFlag, slots_above_cons, slots_below_cons, slotHead_cons,
      slotTail_cons, dollar, searchPartAction, hl, h4, hs, hk] at h

theorem SearchBase.ne_nil (lib : GoLib) (o : QueryStringOptions) (ts : List LexItem)
    (q : Query) (h : SearchBase lib o ts q) : ts ≠ [] := by
  cases h <;> simp

theorem PStack_head (e : yySymType) (b : List yySymType) (h : PStack (e :: b)) :
    e.yys = 0 ∨ e.yys = 3 := by
  cases b with
  | nil => exact Or.inl h
  | cons e2 b2 => exact Or.inr h.1

/-- A search part, from one state between search parts to the next. At the end of the input
the parser stays in state 3. -/
theorem part_phase (mode : LexErrorMode) (lib : GoLib) (lf : lexerWrapper) (cf : Int)
    (hl : lf.errs = []) (o : QueryStringOptions) (q : BooleanQuery)
    (eb : yySymType) (b : List yySymType) (hb : eb.yys = 0 ∨ eb.yys = 3) (hs : StackOK b)
    (pend : List LexItem) (h : Machine mode lib (Run.ret lf cf) o q eb.yys (eb :: b) pend) :
    (pend = [] ∧ eb.yys = 3 ∧ ∃ lval v above ne,
        haltsNext mode lib (Run.ret lf cf) (yynewstate mode lib
          ⟨⟨[], [], q, o, o.debugParser, o.dateFormat, o.logger⟩, lval, 0, 1, v, eb :: b,
            above, ne, 0, 3⟩)) ∨
      ∃ ts n q1 rest e3, pend = ts ++ rest ∧ SearchPart lib o ts n q1 ∧
        rest.length < pend.length ∧ e3.yys = 3 ∧
        Machine mode lib (Run.ret lf cf) o (addRole q n q1) 3 (e3 :: eb :: b) rest := by
  rcases lead_phase mode lib lf cf hl o q eb b hb pend h with
    h | ⟨ts1, n, rest1, e4, rfl, hlead, h4, hn, h⟩
  · exact Or.inl h
  · right
    have hs1 : StackOK (eb :: b) := by
      rw [StackOK_cons]
      refine ⟨?_, hs⟩
      rcases hb with hb | hb <;> rw [hb] <;> rfl
    obtain ⟨ts2, qb, rest2, e9, rfl, hbase, h9, hq, h⟩ :=
      base_phase mode lib lf cf hl o q e4 (eb :: b) h4 hs1 rest1 h
    obtain ⟨ts3, pf, rest3, q1, e3, rfl, hsuf, hboost, h3, h⟩ :=
      suffix_phase mode lib lf cf hl o q e9 e4 eb b h9 hb rest2 h
    rw [hn] at h
    rw [hq] at hboost
    refine ⟨ts1 ++ (ts2 ++ ts3), n, q1, rest3, e3, by simp,
      SearchPart.mk ts1 ts2 ts3 n qb pf q1 hlead hbase hsuf hboost, ?_, h3, h⟩
    have := List.length_pos.mpr (SearchBase.ne_nil lib o ts2 qb hbase)
    simp only [List.length_append]
    omega

/-- At the end of the input the parser reduces the search parts on its stack and accepts:
the wrapper is the one it had. -/
theorem finish_stack (mode : LexErrorMode) (lib : GoLib) (lf : lexerWrapper) (cf : Int)
    (o : QueryStringOptions) (q : BooleanQuery) (b : List yySymType) :
    ∀ (e : yySymType), PStack (e :: b) → ∀ (s : Int), yyGoto 6 28 e.yys = .ok s →
      ∀ (lval v : yySymType) (above : List yySymType) (ne : Int),
        Halts mode lib Label.yystack
          ⟨⟨[], [], q, o, o.debugParser, o.dateFormat, o.logger⟩, lval, 0, 1, v, e :: b, above,
            ne, 0, s⟩ (Run.ret lf cf) → lf.query = q ∧ cf = 0 := by
  induction b with
  | nil =>
    intro e he s hg lval v above ne h
    have he0 : e.yys = 0 := he
    rw [he0] at hg
    have hs : s = 2 := by
      have := yyGoto_facts
      simp_all
    subst hs
    simp [yynewstate_look, yydefault_look, yynewstate_simple, yydefault_simple, yyact_reduce,
      yyreduce_mk, yyact_zero, halts_mid, haltsNext_next, haltsNext_ret, haltsNext_panic,
      haltsNext_ok, haltsNext_logged, haltsNext_setQuery, haltsNext_setQueryOrPanic,
      haltsNext_setBoost, haltsNext_boostedClause, yyPact_facts, yyDef_facts, yyR1_facts,
      yyR2_facts, yyPgo_facts, excaAction_facts, errShift_facts, yyGoto_facts, yyAction_facts,
      StackOK_cons, succ_lt_one, succ_lt_two, succ_lt_three, succ_lt_four, succ_lt_five,
      queryStringStringToken_wrapper, queryStringPhraseToken_wrapper, fieldname_wrapper,
      dateRangeGreater_wrapper, dateRangeLess_wrapper, logDebugGrammarf_wrapper,
      TokKind.code_nonneg, yyFlag, slots_above_cons, slots_below_cons, slotHead_cons,
      slotTail_cons, dollar, searchPartAction, yyShift_facts_m11, yyShift_facts_m3,
      yyShift_facts_m1, yyShift_facts_5, yyShift_facts_6, yyShift_facts_9, yyShift_facts_10,
      yyShift_facts_16, yyShift_facts_19, yyShift_facts_26, yyShift_facts_30, TokKind.code,
      TokKind.num, he0] at h
    obtain ⟨_, rfl, rfl⟩ := h
    exact ⟨rfl, rfl⟩
  | cons e2 b2 ih =>
    intro e he s hg lval v above ne h
    have he3 : e.yys = 3 := he.1
    rw [he3] at hg
    have hs : s = 8 := by
      have := yyGoto_facts
      simp_all
    subst hs
    have hg2 : ∃ s2, yyGoto 6 28 e2.yys = .ok s2 := by
      rcases PStack_head e2 b2 he.2 with h2 | h2 <;> rw [h2]
      · exact ⟨2, rfl⟩
      · exact ⟨8, rfl⟩
    obtain ⟨s2, hg2⟩ := hg2
    simp [yynewstate_look, yydefault_look, yynewstate_simple, yydefault_simple, yyact_reduce,
      yyreduce_mk, yyact_zero, halts_mid, haltsNext_next, haltsNext_ret, haltsNext_panic,
      haltsNext_ok, haltsNext_logged, haltsNext_setQuery, haltsNext_setQueryOrPanic,
      haltsNext_setBoost, haltsNext_boostedClause, yyPact_facts, yyDef_facts, yyR1_facts,
      yyR2_facts, yyPgo_facts, excaAction_facts, errShift_facts, yyGoto_facts, yyAction_facts,
      StackOK_cons, succ_lt_one, succ_lt_two, succ_lt_three, succ_lt_four, succ_lt_five,
      queryStringStringToken_wrapper, queryStringPhraseToken_wrapper, fieldname_wrapper,
      dateRangeGreater_wrapper, dateRangeLess_wrapper, logDebugGrammarf_wrapper,
      TokKind.code_nonneg, yyFlag, slots_above_cons, slots_below_cons, slotHead_cons,
      slotTail_cons, dollar, searchPartAction, yyShift_facts_m11, yyShift_facts_m3,
      yyShift_facts_m1, yyShift_facts_5, yyShift_facts_6, yyShift_facts_9, yyShift_facts_10,
      yyShift_facts_16, yyShift_facts_19, yyShift_facts_26, yyShift_facts_30, TokKind.code,
      TokKind.num, he3, hg2] at h
    exact ih e2 he.2 s2 hg2 _ _ _ _ h.2

/-- In state 3 at the end of the input the parser accepts: the wrapper is the one it had. -/
theorem finish_phase (mode : LexErrorMode) (lib : GoLib) (lf : lexerWrapper) (cf : Int)
    (o : QueryStringOptions) (q : BooleanQuery) (eb : yySymType) (b : List yySymType)
    (hp : PStack (eb :: b)) (hb : eb.yys = 3) (lval v : yySymType) (above : List yySymType)
    (ne : Int)
    (h : haltsNext mode lib (Run.ret lf cf) (yynewstate mode lib
          ⟨⟨[], [], q, o, o.debugParser, o.dateFormat, o.logger⟩, lval, 0, 1, v, eb :: b,
            above, ne, 0, 3⟩)) : lf.query = q ∧ cf = 0 := by
  cases b with
  | nil =>
    have h0 : eb.yys = 0 := hp
    omega
  | cons e2 b2 =>
    have hg2 : ∃ s2, yyGoto 6 28 e2.yys = .ok s2 := by
      rcases PStack_head e2 b2 hp.2 with h2 | h2 <;> rw [h2]
      · exact ⟨2, rfl⟩
      · exact ⟨8, rfl⟩
    obtain ⟨s2, hg2⟩ := hg2
    simp [yynewstate_look, yydefault_look, yynewstate_simple, yydefault_simple, yyact_reduce,
      yyreduce_mk, yyact_zero, halts_mid, haltsNext_next, haltsNext_ret, haltsNext_panic,
      haltsNext_ok, haltsNext_logged, haltsNext_setQuery, haltsNext_setQueryOrPanic,
      haltsNext_setBoost, haltsNext_boostedClause, yyPact_facts, yyDef_facts, yyR1_facts,
      yyR2_facts, yyPgo_facts, excaAction_facts, errShift_facts, yyGoto_facts, yyAction_facts,
      StackOK_cons, succ_lt_one, succ_lt_two, succ_lt_three, succ_lt_four, succ_lt_five,
      queryStringStringToken_wrapper, queryStringPhraseToken_wrapper, fieldname_wrapper,
      dateRangeGreater_wrapper, dateRangeLess_wrapper, logDebugGrammarf_wrapper,
      TokKind.code_nonneg, yyFlag, slots_above_cons, slots_below_cons, slotHead_cons,
      slotTail_cons, dollar, searchPartAction, yyShift_facts_m11, yyShift_facts_m3,
      yyShift_facts_m1, yyShift_facts_5, yyShift_facts_6, yyShift_facts_9, yyShift_facts_10,
      yyShift_facts_16, yyShift_facts_19, yyShift_facts_26, yyShift_facts_30, TokKind.code,
      TokKind.num, hb, hg2] at h
    exact finish_stack mode lib lf cf o q b2 e2 hp.2 s2 hg2 _ _ _ _ h.2

/-- The clauses that the root query has after a parse without an error: those of the search
parts of the input, added in order by their roles. -/
theorem parts_sound (mode : LexErrorMode) (lib : GoLib) (lf : lexerWrapper) (cf : Int)
    (hl : lf.errs = []) (o : QueryStringOptions) :
    ∀ (n : Nat) (pend : List LexItem), pend.length < n →
      ∀ (q : BooleanQuery) (eb : yySymType) (b : List yySymType), PStack (eb :: b) →
        Machine mode lib (Run.ret lf cf) o q eb.yys (eb :: b) pend →
        (pend = [] ∧ eb.yys = 3 ∧ lf.query = q) ∨
          ∃ cs, SearchParts lib o pend cs ∧
            lf.query = cs.foldl (fun r c => addRole r c.1 c.2) q := by
  intro n
  induction n with
  | zero =>
    intro pend hlen
    omega
  | succ n ih =>
    intro pend hlen q eb b hp h
    have hb := PStack_head eb b hp
    have hs : StackOK b := fun x hx => StackOK_of_PStack (eb :: b) hp x (List.mem_cons_of_mem _ hx)
    rcases part_phase mode lib lf cf hl o q eb b hb hs pend h with
      ⟨rfl, h3, lval, v, above, ne, h⟩ | ⟨ts, r, q1, rest, e3, rfl, hpart, hlt, h3, h⟩
    · exact Or.inl ⟨rfl, h3, (finish_phase mode lib lf cf o q eb b hp h3 lval v above ne h).1⟩
    · right
      have hp3 : PStack (e3 :: eb :: b) := ⟨h3, hp⟩
      rw [← h3] at h
      rcases ih rest (by omega) (addRole q r q1) e3 (eb :: b) hp3 h with
        ⟨rfl, _, hq⟩ | ⟨cs, hcs, hq⟩
      · refine ⟨[(r, q1)], ?_, hq⟩
        rw [List.append_nil]
        exact SearchParts.one ts r q1 hpart
      · exact ⟨(r, q1) :: cs, SearchParts.cons ts rest r q1 cs hpart hcs, hq⟩

theorem addRole_musts (q : BooleanQuery) (n : Int) (x : Query) :
    (addRole q n x).musts = q.musts ++ (if n = queryMust then [x] else []) := by
  unfold addRole
  by_cases h0 : n = queryShould
  · subst h0
    simp [BooleanQuery.AddShould, queryShould, queryMust]
  by_cases h1 : n = queryMust
  · subst h1
    simp [BooleanQuery.AddMust, queryShould, queryMust]
  by_cases h2 : n = queryMustNot
  · subst h2
    simp [BooleanQuery.AddMustNot, queryShould, queryMust, queryMustNot]
  simp [h0, h1, h2]

theorem addRole_shoulds (q : BooleanQuery) (n : Int) (x : Query) :
    (addRole q n x).shoulds = q.shoulds ++ (if n = queryShould then [x] else []) := by
  unfold addRole
  by_cases h0 : n = queryShould
  · subst h0
    simp [BooleanQuery.AddShould, queryShould, queryMust]
  by_cases h1 : n = queryMust
  · subst h1
    simp [BooleanQuery.AddMust, queryShould, queryMust]
  by_cases h2 : n = queryMustNot
  · subst h2
    simp [BooleanQuery.AddMustNot, queryShould, queryMust, queryMustNot]
  simp [h0, h1, h2]

theorem addRole_mustNots (q : BooleanQuery) (n : Int) (x : Query) :
    (addRole q n x).mustNots = q.mustNots ++ (if n = queryMustNot then [x] else []) := by
  unfold addRole
  by_cases h0 : n = queryShould
  · subst h0
    simp [BooleanQuery.AddShould, queryShould, queryMust, queryMustNot]
  by_cases h1 : n = queryMust
  · subst h1
    simp [BooleanQuery.AddMust, queryShould, queryMust, queryMustNot]
  by_cases h2 : n = queryMustNot
  · subst h2
    simp [BooleanQuery.AddMustNot, queryShould, queryMust, queryMustNot]
  simp [h0, h1, h2]

theorem addRole_rest (q : BooleanQuery) (n : Int) (x : Query) :
    (addRole q n x).boost = q.boost ∧ (addRole q n x).minShould = q.minShould := by
  unfold addRole
  split_ifs <;> exact ⟨rfl, rfl⟩

theorem clausesOf_cons (role : Int) (c : Int × Query) (cs : List (Int × Query)) :
    clausesOf role (c :: cs) = (if c.1 = role then [c.2] else []) ++ clausesOf role cs := by
  unfold clausesOf
  by_cases h : c.1 = role <;> simp [List.filter_cons, h]

/-- The lists of the root query after the clauses `cs` have been added by their roles. -/
theorem foldl_addRole (cs : List (Int × Query)) (q : BooleanQuery) :
    (cs.foldl (fun r c => addRole r c.1 c.2) q).musts = q.musts ++ clausesOf queryMust cs ∧
      (cs.foldl (fun r c => addRole r c.1 c.2) q).shoulds =
        q.shoulds ++ clausesOf queryShould cs ∧
      (cs.foldl (fun r c => addRole r c.1 c.2) q).mustNots =
        q.mustNots ++ clausesOf queryMustNot cs ∧
      (cs.foldl (fun r c => addRole r c.1 c.2) q).boost = q.boost ∧
      (cs.foldl (fun r c => addRole r c.1 c.2) q).minShould = q.minShould := by
  induction cs generalizing q with
  | nil => simp [clausesOf]
  | cons c cs ih =>
    simp only [List.foldl_cons]
    obtain ⟨h1, h2, h3, h4, h5⟩ := ih (addRole q c.1 c.2)
    rw [h1, h2, h3, h4, h5, addRole_musts, addRole_shoulds, addRole_mustNots,
      (addRole_rest q c.1 c.2).1, (addRole_rest q c.1 c.2).2, clausesOf_cons, clausesOf_cons,
      clausesOf_cons]
    simp only [List.append_assoc, and_self]

/-- What `doParse` leaves when no error is on record: the input is a sequence of search parts,
and the root query holds their clauses, added in order by their roles. -/
theorem doParse_sound (mode : LexErrorMode) (lib : GoLib) (fuel : Nat) (items : List LexItem)
    (o : QueryStringOptions) (l : lexerWrapper)
    (h : doParse mode lib fuel (newLexerWrapper items o) = some l) (hl : l.errs = []) :
    ∃ cs, SearchParts lib o items cs ∧
      l.query = cs.foldl (fun r c => addRole r c.1 c.2) (NewBooleanQuery.SetMinShould 1) := by
  unfold doParse yyParse at h
  cases hrun : parseLoop mode lib fuel Label.yystack (ParseState.init (newLexerWrapper items o))
    with
  | outOfFuel =>
    rw [hrun] at h
    cases h
  | panic l1 p =>
    rw [hrun] at h
    simp only [Option.some.injEq] at h
    subst h
    simp at hl
  | ret l1 c =>
    rw [hrun] at h
    simp only [Option.some.injEq] at h
    subst h
    have hH : Halts mode lib Label.yystack (ParseState.init (newLexerWrapper items o))
        (Run.ret l1 c) := ⟨fuel, hrun, by simp⟩
    have h2 : haltsNext mode lib (Run.ret l1 c) (yynewstate mode lib
        ⟨⟨items, [], NewBooleanQuery.SetMinShould 1, o, o.debugParser, o.dateFormat, o.logger⟩,
          yySymType.zero, -1, -1, yySymType.zero, [{ yySymType.zero with yys := 0 }],
          List.replicate 15 yySymType.zero, 0, 0, 0⟩) :=
      (halts_iff mode lib _ _ _).mp hH
    have hm := machine_unread mode lib _ o _ _ _ _ _ _ _ _ _ h2
    rcases parts_sound mode lib l1 c hl o (items.length + 1) items (by omega) _
        { yySymType.zero with yys := 0 } [] rfl hm with ⟨_, h3, _⟩ | h
    · cases h3
    · exact h

/-- Claim C2. When a token sequence is parsed without an error, it is a sequence of search
parts, and each search part contributes exactly one clause to the root query: the clause is
in the Must list when the part has no prefix or the prefix PLUS, in the Should list when the
prefix is QUESTION, and in the MustNot list when the prefix is MINUS; each list holds its
clauses in the order of the input. -/
theorem doParse_clauses (mode : LexErrorMode) (lib : GoLib) (fuel : Nat)
    (items : List LexItem) (o : QueryStringOptions) (l : lexerWrapper)
    (h : doParse mode lib fuel (newLexerWrapper items o) = some l) (hl : l.errs = []) :
    ∃ cs, SearchParts lib o items cs ∧ l.query.musts = clausesOf queryMust cs ∧
      l.query.shoulds = clausesOf queryShould cs ∧
      l.query.mustNots = clausesOf queryMustNot cs := by
  obtain ⟨cs, hcs, hq⟩ := doParse_sound mode lib fuel items o l h hl
  obtain ⟨h1, h2, h3, _⟩ := foldl_addRole cs (NewBooleanQuery.SetMinShould 1)
  rw [hq]
  exact ⟨cs, hcs, by simpa [NewBooleanQuery, BooleanQuery.SetMinShould] using h1,
    by simpa [NewBooleanQuery, BooleanQuery.SetMinShould] using h2,
    by simpa [NewBooleanQuery, BooleanQuery.SetMinShould] using h3⟩

/-- The parse of `a +b ?c -d^2`: four search parts, one clause each. -/
theorem doParse_clauses_witness :
    doParse LexErrorMode.records plainLib 64 (newLexerWrapper roleItems DefaultOptions) =
        some roleResult ∧ roleResult.errs = [] ∧
      ∃ cs, SearchParts plainLib DefaultOptions roleItems cs ∧
        roleResult.query.musts = clausesOf queryMust cs ∧
        roleResult.query.shoulds = clausesOf queryShould cs ∧
        roleResult.query.mustNots = clausesOf queryMustNot cs :=
  ⟨rfl, rfl, doParse_clauses LexErrorMode.records plainLib 64 roleItems DefaultOptions
    roleResult rfl rfl⟩

theorem coalesceRef_nil : coalesceRef [] = [] := by
  rw [coalesceRef]

theorem coalesceRef_other (q : Query) (rest : List Query) (h : isPlainTerm q = false) :
    coalesceRef (q :: rest) = q :: coalesceRef rest := by
  rw [coalesceRef]
  simp [h]

theorem takeWhile_run (run rest : List Query) (s : Query)
    (hrun : ∀ x ∈ run, isPlainTerm x = true) (hs : isPlainTerm s = false) :
    (run ++ s :: rest).takeWhile isPlainTerm = run ∧
      (run ++ s :: rest).dropWhile isPlainTerm = s :: rest := by
  induction run with
  | nil => simp [List.takeWhile, List.dropWhile, hs]
  | cons x r ih =>
    have hx := hrun x (List.mem_cons_self _ _)
    have ih1 := ih (fun y hy => hrun y (List.mem_cons_of_mem _ hy))
    simp [List.takeWhile, List.dropWhile, hx, ih1.1, ih1.2]

theorem takeWhile_all (run : List Query) (hrun : ∀ x ∈ run, isPlainTerm x = true) :
    run.takeWhile isPlainTerm = run ∧ run.dropWhile isPlainTerm = [] := by
  induction run with
  | nil => simp
  | cons x r ih =>
    have hx := hrun x (List.mem_cons_self _ _)
    have ih1 := ih (fun y hy => hrun y (List.mem_cons_of_mem _ hy))
    simp [List.takeWhile, List.dropWhile, hx, ih1.1, ih1.2]

/-- What a pending run contributes: nothing when it is empty, else its coalescing. -/
theorem coalesceRef_run (run : List Query) (hrun : ∀ x ∈ run, isPlainTerm x = true) :
    coalesceRef run = coalesceRun run := by
  cases run with
  | nil => simp [coalesceRef_nil, coalesceRun]
  | cons x r =>
    have hx := hrun x (List.mem_cons_self _ _)
    have h1 := takeWhile_all r (fun y hy => hrun y (List.mem_cons_of_mem _ hy))
    rw [coalesceRef]
    simp [hx, h1.1, h1.2, coalesceRef_nil]

theorem coalesceRef_run_other (run rest : List Query) (s : Query)
    (hrun : ∀ x ∈ run, isPlainTerm x = true) (hs : isPlainTerm s = false) :
    coalesceRef (run ++ s :: rest) = coalesceRun run ++ s :: coalesceRef rest := by
  cases run with
  | nil => simp [coalesceRef_other, hs, coalesceRun]
  | cons x r =>
    have hx := hrun x (List.mem_cons_self _ _)
    have h1 := takeWhile_run r rest s (fun y hy => hrun y (List.mem_cons_of_mem _ hy)) hs
    rw [List.cons_append, coalesceRef]
    simp [hx, h1.1, h1.2, coalesceRef_other, hs]

/-! ## The coalescing loop -/

theorem plainText_plain (s : Query) (h : isPlainTerm s = true) :
    plainText s = .ok (some (termText s)) := by
  cases s <;> simp_all [isPlainTerm, plainText, termText]

theorem plainText_other (s : Query) (h : isPlainTerm s = false) (hn : s ≠ Query.nilMatch) :
    plainText s = .ok none := by
  cases s <;> simp_all [isPlainTerm, plainText]

theorem set_length_append (out : List Query) (x q : Query) (tail : List Query) :
    (out ++ x :: tail).set out.length q = out ++ q :: tail := by
  induction out with
  | nil => rfl
  | cons y ys ih => simp [List.set, ih]

/-- The assignment `musts[n] = q; n++` at a position that has been read. -/
theorem Coalescer.put_spec (c : Coalescer) (out : List Query) (x : Query) (tail : List Query)
    (q : Query) (hm : c.musts = out ++ x :: tail) (hn : c.n = out.length) :
    c.put q = .ok { c with musts := (out ++ [q]) ++ tail, n := (out ++ [q]).length } := by
  unfold Coalescer.put
  have hlt : c.n < c.musts.length := by
    rw [hm, hn]
    simp
  rw [if_pos hlt]
  simp only [hm, hn, set_length_append]
  simp

/-- The statement that stores a pending run, when the run has been read. -/
theorem Coalescer.flush_spec (orig : List Query) (c : Coalescer)
    (out free run rest : List Query) (h : c.Inv orig out free run rest) :
    ∃ c1 free1, c.flush = .ok c1 ∧ c1.musts = (out ++ coalesceRun run) ++ (free1 ++ rest) ∧
      c1.n = (out ++ coalesceRun run).length ∧ c1.musts.length = orig.length ∧
      free1.length + (coalesceRun run).length = free.length := by
  obtain ⟨hm, hn, hlen, hfree, hplain, hw, hlast, href⟩ := h
  unfold Coalescer.flush
  have hwl : c.words.length = run.length := by rw [hw, List.length_map]
  rcases run with _ | ⟨x, _ | ⟨x2, r⟩⟩
  · refine ⟨c, free, ?_, ?_, ?_, hlen, ?_⟩
    · simp [hwl]
    · simpa [coalesceRun] using hm
    · simpa [coalesceRun] using hn
    · simp [coalesceRun]
  · rcases free with _ | ⟨y, t⟩
    · simp at hfree
    have hm1 : c.musts = out ++ y :: (t ++ rest) := by simpa using hm
    refine ⟨{ c with musts := (out ++ [x]) ++ (t ++ rest), n := (out ++ [x]).length }, t,
      ?_, ?_, ?_, ?_, ?_⟩
    · rw [if_pos (by simpa using hwl), Coalescer.put_spec c out y (t ++ rest) c.last hm1 hn,
        hlast x rfl]
    · simp [coalesceRun]
    · simp [coalesceRun]
    · rw [hm1] at hlen
      simpa using hlen
    · simp [coalesceRun]
  · rcases free with _ | ⟨y, t⟩
    · simp at hfree
    have hm1 : c.musts = out ++ y :: (t ++ rest) := by simpa using hm
    have h1 : ¬ c.words.length = 1 := by
      rw [hwl]
      simp
    have h2 : 1 < c.words.length := by
      rw [hwl]
      simp
    refine ⟨{ c with musts := (out ++ [mergedTerm (x :: x2 :: r)]) ++ (t ++ rest),
                     n := (out ++ [mergedTerm (x :: x2 :: r)]).length }, t, ?_, ?_, ?_, ?_, ?_⟩
    · rw [if_neg h1, if_pos h2]
      have hq : (NewMatchQuery (joinWords c.words)).SetOperator
          MatchQueryOperator.MatchQueryOperatorAnd = mergedTerm (x :: x2 :: r) := by
        rw [hw]
        rfl
      rw [hq]
      exact Coalescer.put_spec c out y (t ++ rest) _ hm1 hn
    · simp [coalesceRun]
    · simp [coalesceRun]
    · rw [hm1] at hlen
      simpa using hlen
    · simp [coalesceRun]

theorem getElem?_read (out free : List Query) (s : Query) (rest : List Query) :
    (out ++ (free ++ s :: rest))[(out ++ free).length]? = some s := by
  have h : (out ++ free).length ≤ (out ++ free).length := Nat.le_refl _
  rw [← List.append_assoc, List.getElem?_append_right h, Nat.sub_self]
  simp

/-- The body of the loop on a plain term: the term joins the pending run. -/
theorem Coalescer.body_plain (orig : List Query) (c : Coalescer)
    (out free run rest : List Query) (s : Query) (h : c.Inv orig out free run (s :: rest))
    (hp : isPlainTerm s = true) :
    ∃ c1, c.body s = .ok c1 ∧ c1.Inv orig out (free ++ [s]) (run ++ [s]) rest := by
  obtain ⟨hm, hn, hlen, hfree, hplain, hw, hlast, href⟩ := h
  refine ⟨{ c with last := s, words := c.words ++ [termText s] }, ?_, ?_, hn, hlen, ?_, ?_, ?_,
    ?_, ?_⟩
  · simp [Coalescer.body, plainText_plain s hp]
  · simpa using hm
  · simpa using hfree
  · intro x hx
    rcases List.mem_append.mp hx with hx | hx
    · exact hplain x hx
    · rw [List.mem_singleton.mp hx]
      exact hp
  · simp [hw]
  · intro x hx
    rcases run with _ | ⟨y, r⟩
    · simpa using hx
    · simp at hx
  · simpa using href

/-- The body of the loop on another clause: the pending run is stored, then the clause, both
at positions that have been read. -/
theorem Coalescer.body_other (orig : List Query) (c : Coalescer)
    (out free run rest : List Query) (s : Query) (h : c.Inv orig out free run (s :: rest))
    (hp : isPlainTerm s = false) (hn : s ≠ Query.nilMatch) :
    ∃ c1 out1 free1, c.body s = .ok c1 ∧ c1.Inv orig out1 free1 [] rest ∧
      (out1 ++ free1).length = (out ++ free).length + 1 := by
  obtain ⟨c1, free1, hflush, hm1, hn1, hlen1, hf1⟩ :=
    Coalescer.flush_spec orig c out free run (s :: rest) h
  obtain ⟨hm, hcn, hlen, hfree, hplain, hw, hlast, href⟩ := h
  have href1 : coalesceRef orig = (out ++ coalesceRun run ++ [s]) ++ coalesceRef ([] ++ rest) := by
    rw [href, coalesceRef_run_other run rest s hplain hp]
    simp
  rcases free1 with _ | ⟨y, t⟩
  · have hput := Coalescer.put_spec { c1 with last := Query.nilMatch, words := [] }
      (out ++ coalesceRun run) s rest s (by simpa using hm1) hn1
    refine ⟨{ musts := out ++ coalesceRun run ++ [s] ++ rest,
              n := (out ++ coalesceRun run ++ [s]).length, last := Query.nilMatch, words := [] },
      out ++ coalesceRun run ++ [s], [], ?_, ⟨?_, ?_, ?_, ?_, ?_, ?_, ?_, href1⟩, ?_⟩
    · simp only [Coalescer.body, plainText_other s hp hn, hflush, hput]
    · simp
    · simp
    · rw [hm1] at hlen1
      simpa using hlen1
    · simp
    · simp
    · simp
    · simp
    · simp only [List.length_append, List.length_cons, List.length_nil] at hf1 ⊢
      omega
  · have hput := Coalescer.put_spec { c1 with last := Query.nilMatch, words := [] }
      (out ++ coalesceRun run) y (t ++ s :: rest) s (by simpa using hm1) hn1
    refine ⟨{ musts := out ++ coalesceRun run ++ [s] ++ (t ++ s :: rest),
              n := (out ++ coalesceRun run ++ [s]).length, last := Query.nilMatch, words := [] },
      out ++ coalesceRun run ++ [s], t ++ [s], ?_, ⟨?_, ?_, ?_, ?_, ?_, ?_, ?_, href1⟩, ?_⟩
    · simp only [Coalescer.body, plainText_other s hp hn, hflush, hput]
    · simp
    · simp
    · rw [hm1] at hlen1
      simpa using hlen1
    · simp
    · simp
    · simp
    · simp
    · simp only [List.length_append, List.length_cons, List.length_nil] at hf1 ⊢
      omega

/-- The loop `for _, s := range musts`: it ends, and what it has then stored and what it
holds as the pending run make up the reference coalescing. -/
theorem Coalescer.loop_spec (orig : List Query) :
    ∀ (rest : List Query) (c : Coalescer) (out free run : List Query),
      c.Inv orig out free run rest → (∀ s ∈ rest, s ≠ Query.nilMatch) →
      ∃ c1 out1 free1 run1, Coalescer.loop rest.length (out ++ free).length c = .ok c1 ∧
        c1.Inv orig out1 free1 run1 [] := by
  intro rest
  induction rest with
  | nil =>
    intro c out free run h _
    exact ⟨c, out, free, run, rfl, h⟩
  | cons s rest ih =>
    intro c out free run h hnil
    have hs := hnil s (List.mem_cons_self _ _)
    have hrest : ∀ x ∈ rest, x ≠ Query.nilMatch := fun x hx =>
      hnil x (List.mem_cons_of_mem _ hx)
    have hread : c.musts[(out ++ free).length]? = some s := by
      rw [h.1]
      exact getElem?_read out free s rest
    simp only [List.length_cons, Coalescer.loop, hread]
    cases hp : isPlainTerm s with
    | true =>
      obtain ⟨c1, hb, hinv⟩ := Coalescer.body_plain orig c out free run rest s h hp
      obtain ⟨c2, out2, free2, run2, hloop, hinv2⟩ := ih c1 out (free ++ [s]) (run ++ [s]) hinv hrest
      refine ⟨c2, out2, free2, run2, ?_, hinv2⟩
      rw [hb]
      simpa [List.append_assoc] using hloop
    | false =>
      obtain ⟨c1, out1, free1, hb, hinv, hlen⟩ :=
        Coalescer.body_other orig c out free run rest s h hp hs
      obtain ⟨c2, out2, free2, run2, hloop, hinv2⟩ := ih c1 out1 free1 [] hinv hrest
      refine ⟨c2, out2, free2, run2, ?_, hinv2⟩
      rw [hb]
      rw [hlen] at hloop
      exact hloop

/-! ## No nil pointer among the clauses of a parse without an error -/

theorem queryStringStringToken_ne (l : lexerWrapper) (f s : String) (q : Query)
    (h : queryStringStringToken l f s = .ok q) : q ≠ Query.nilMatch := by
  unfold queryStringStringToken at h
  split_ifs at h
  · cases hi : sliceInner s with
    | error p => simp [hi] at h
    | ok inner =>
      simp only [hi, Except.ok.injEq] at h
      subst h
      simp [Query.SetField]
  all_goals
    simp only [Except.ok.injEq] at h
    subst h
    simp [Query.SetField, Query.SetOperator, NewMatchQuery, NewNumericRangeInclusiveQuery]

theorem queryStringStringTokenFuzzy_ne (lib : GoLib) (f s n : String) (q : Query)
    (h : queryStringStringTokenFuzzy lib f s n = .ok q) : q ≠ Query.nilMatch := by
  unfold queryStringStringTokenFuzzy at h
  cases hp : ParseFloat lib n with
  | error e => simp [hp] at h
  | ok v =>
    simp only [hp, Except.ok.injEq] at h
    subst h
    simp [Query.SetField, Query.SetFuzziness, NewMatchQuery]

theorem queryStringNumberToken_ne (lib : GoLib) (f s : String) (q : Query)
    (h : queryStringNumberToken lib f s = .ok q) : q ≠ Query.nilMatch := by
  unfold queryStringNumberToken at h
  cases hp : ParseFloat lib s with
  | error e => simp [hp] at h
  | ok v =>
    simp only [hp, Except.ok.injEq] at h
    subst h
    simp [BooleanQuery.toQuery]

theorem queryStringPhraseToken_ne (l : lexerWrapper) (f s : String) :
    queryStringPhraseToken l f s ≠ Query.nilMatch := by
  unfold queryStringPhraseToken
  split_ifs <;> simp [Query.SetField, BooleanQuery.toQuery]

theorem numericRangeGreater_ne (lib : GoLib) (f s : String) (e : Bool) (q : Query)
    (h : queryStringNumericRangeGreaterThanOrEqual lib f s e = .ok q) :
    q ≠ Query.nilMatch := by
  unfold queryStringNumericRangeGreaterThanOrEqual at h
  cases hp : ParseFloat lib s with
  | error e => simp [hp] at h
  | ok v =>
    simp only [hp, Except.ok.injEq] at h
    subst h
    simp [Query.SetField, NewNumericRangeInclusiveQuery]

theorem numericRangeLess_ne (lib : GoLib) (f s : String) (e : Bool) (q : Query)
    (h : queryStringNumericRangeLessThanOrEqual lib f s e = .ok q) :
    q ≠ Query.nilMatch := by
  unfold queryStringNumericRangeLessThanOrEqual at h
  cases hp : ParseFloat lib s with
  | error e => simp [hp] at h
  | ok v =>
    simp only [hp, Except.ok.injEq] at h
    subst h
    simp [Query.SetField, NewNumericRangeInclusiveQuery]

theorem dateRangeGreater_ne (lib : GoLib) (l : lexerWrapper) (f s : String) (e : Bool)
    (q : Query) (h : queryStringDateRangeGreaterThanOrEqual lib l f s e = .ok q) :
    q ≠ Query.nilMatch := by
  unfold queryStringDateRangeGreaterThanOrEqual at h
  cases hp : queryTimeFromString lib l s with
  | error e => simp [hp] at h
  | ok v =>
    simp only [hp, Except.ok.injEq] at h
    subst h
    simp [Query.SetField, NewDateRangeInclusiveQuery]

theorem dateRangeLess_ne (lib : GoLib) (l : lexerWrapper) (f s : String) (e : Bool)
    (q : Query) (h : queryStringDateRangeLessThanOrEqual lib l f s e = .ok q) :
    q ≠ Query.nilMatch := by
  unfold queryStringDateRangeLessThanOrEqual at h
  cases hp : queryTimeFromString lib l s with
  | error e => simp [hp] at h
  | ok v =>
    simp only [hp, Except.ok.injEq] at h
    subst h
    simp [Query.SetField, NewDateRangeInclusiveQuery]

theorem queryStringSetBoost_ne (q : Query) (b : Float64) (q1 : Query)
    (h : queryStringSetBoost q b = .ok (.ok q1)) : q1 ≠ Query.nilMatch := by
  cases q <;> simp [queryStringSetBoost] at h <;> subst h <;> simp

theorem searchBase_ne_nilMatch (lib : GoLib) (o : QueryStringOptions) (ts : List LexItem)
    (q : Query) (h : SearchBase lib o ts q) : q ≠ Query.nilMatch := by
  cases h with
  | string s q h => exact queryStringStringToken_ne _ _ _ _ h
  | fuzzy s n q h => exact queryStringStringTokenFuzzy_ne _ _ _ _ _ h
  | fieldFuzzy f c s n q h => exact queryStringStringTokenFuzzy_ne _ _ _ _ _ h
  | number s q h => exact queryStringNumberToken_ne _ _ _ _ h
  | phrase s => exact queryStringPhraseToken_ne _ _ _
  | fieldString f c s q h => exact queryStringStringToken_ne _ _ _ _ h
  | fieldNumber f c ts s q hn h => exact queryStringNumberToken_ne _ _ _ _ h
  | fieldPhrase f c s => exact queryStringPhraseToken_ne _ _ _
  | greater f c g ts s q hn h => exact numericRangeGreater_ne _ _ _ _ _ h
  | greaterEqual f c g e ts s q hn h => exact numericRangeGreater_ne _ _ _ _ _ h
  | less f c g ts s q hn h => exact numericRangeLess_ne _ _ _ _ _ h
  | lessEqual f c g e ts s q hn h => exact numericRangeLess_ne _ _ _ _ _ h
  | greaterDate f c g p q h => exact dateRangeGreater_ne _ _ _ _ _ _ h
  | greaterEqualDate f c g e p q h => exact dateRangeGreater_ne _ _ _ _ _ _ h
  | lessDate f c g p q h => exact dateRangeLess_ne _ _ _ _ _ _ h
  | lessEqualDate f c g e p q h => exact dateRangeLess_ne _ _ _ _ _ _ h

theorem searchPart_ne_nilMatch (lib : GoLib) (o : QueryStringOptions) (ts : List LexItem)
    (n : Int) (q : Query) (h : SearchPart lib o ts n q) : q ≠ Query.nilMatch := by
  cases h with
  | mk ts1 ts2 ts3 n q0 pf q1 h1 h2 h3 h4 =>
    cases pf with
    | none =>
      have e : q = q0 := h4
      rw [e]
      exact searchBase_ne_nilMatch lib o ts2 q0 h2
    | some b => exact queryStringSetBoost_ne q0 b q h4

theorem searchParts_ne_nilMatch (lib : GoLib) (o : QueryStringOptions) (ts : List LexItem)
    (cs : List (Int × Query)) (h : SearchParts lib o ts cs) :
    ∀ c ∈ cs, c.2 ≠ Query.nilMatch := by
  induction h with
  | one ts n q h =>
    intro c hc
    rw [List.mem_singleton.mp hc]
    exact searchPart_ne_nilMatch lib o ts n q h
  | cons ts rest n q cs h _ ih =>
    intro c hc
    rcases List.mem_cons.mp hc with hc | hc
    · rw [hc]
      exact searchPart_ne_nilMatch lib o ts n q h
    · exact ih c hc

theorem clausesOf_ne_nilMatch (role : Int) (cs : List (Int × Query))
    (h : ∀ c ∈ cs, c.2 ≠ Query.nilMatch) : ∀ s ∈ clausesOf role cs, s ≠ Query.nilMatch := by
  intro s hs
  simp only [clausesOf, List.mem_map, List.mem_filter] at hs
  obtain ⟨c, ⟨hc, _⟩, rfl⟩ := hs
  exact h c hc

/-- The coalescing loop and the statement after it, on a list without a nil `*MatchQuery`:
neither faults, and the first `n` elements of the slice are then the reference coalescing. -/
theorem coalesce_spec (orig : List Query) (hnil : ∀ s ∈ orig, s ≠ Query.nilMatch) :
    ∃ c c1, Coalescer.loop orig.length 0
        { musts := orig, n := 0, last := Query.nilMatch, words := [] } = .ok c ∧
      c.flush = .ok c1 ∧ c1.musts.take c1.n = coalesceRef orig ∧
      c1.musts.length = orig.length := by
  have h0 : Coalescer.Inv orig { musts := orig, n := 0, last := Query.nilMatch, words := [] }
      [] [] [] orig := by
    refine ⟨rfl, rfl, rfl, Nat.le_refl _, ?_, rfl, ?_, rfl⟩
    · intro x hx
      cases hx
    · intro x hx
      cases hx
  obtain ⟨c, out1, free1, run1, hloop, hinv⟩ :=
    Coalescer.loop_spec orig orig _ [] [] [] h0 hnil
  obtain ⟨c1, free2, hflush, hm, hn, hlen, _⟩ :=
    Coalescer.flush_spec orig c out1 free1 run1 [] hinv
  refine ⟨c, c1, hloop, hflush, ?_, hlen⟩
  obtain ⟨_, _, _, _, hplain, _, _, href⟩ := hinv
  rw [href, List.append_nil, coalesceRef_run run1 hplain, hm, hn]
  exact List.take_left' rfl

/-- Claim C1. When a query text that is not empty is parsed without an error,
`ParseQueryString` returns a query, and the Must list of that query is the reference
coalescing of the Must list that the parse left: each maximal run of two or more consecutive
plain terms is replaced by one `MatchQuery` with empty field, operator AND and the texts of the
run joined by single spaces, and every run of length one and every other clause is kept
unchanged and in order. In particular the rewrite in place and the type assertion on the
clauses do not fault. -/
theorem ParseQueryString_coalesces (mode : LexErrorMode) (lib : GoLib)
    (newQueryStringLex : QueryStringLex) (query : String) (options : QueryStringOptions)
    (lex : lexerWrapper) (hq : query ≠ "")
    (h : doParse mode lib (parseFuel (newQueryStringLex query options))
      (newLexerWrapper (newQueryStringLex query options) options) = some lex)
    (hl : lex.errs = []) :
    ∃ rq, ParseQueryString mode lib newQueryStringLex query options = .returns (.ok rq) ∧
      rq.Musts = coalesceRef lex.query.musts := by
  obtain ⟨cs, hcs, hroot⟩ := doParse_sound mode lib _ _ options lex h hl
  have hmusts : lex.query.musts = clausesOf queryMust cs := by
    rw [hroot]
    simpa [NewBooleanQuery, BooleanQuery.SetMinShould] using
      (foldl_addRole cs (NewBooleanQuery.SetMinShould 1)).1
  have hnil : ∀ s ∈ lex.query.musts, s ≠ Query.nilMatch := by
    rw [hmusts]
    exact clausesOf_ne_nilMatch queryMust cs
      (searchParts_ne_nilMatch lib options _ cs hcs)
  obtain ⟨c, c1, hloop, hflush, htake, hlen⟩ := coalesce_spec lex.query.musts hnil
  unfold ParseQueryString
  simp only [if_neg hq, h, hl, List.length_nil, Nat.lt_irrefl, if_false, hloop, hflush]
  by_cases hn : lex.query.musts.length = c1.n
  · refine ⟨_, by rw [if_neg (by simpa using hn)], ?_⟩
    rw [← htake, ← hn, ← hlen, List.take_length]
    rfl
  · refine ⟨_, by rw [if_pos (by simpa using hn)], ?_⟩
    rw [← htake]
    simp [Query.Musts, BooleanQuery.toQuery, BooleanQuery.AddMust, BooleanQuery.AddShould,
      BooleanQuery.AddMustNot, BooleanQuery.SetMinShould, NewBooleanQuery]

/-- The coalescing of `a b c:d e f g`: the runs `a b` and `e f g` are merged, and the clause
with a field between them is kept. -/
theorem ParseQueryString_coalesces_witness :
    "a b c:d e f g" ≠ "" ∧
      doParse LexErrorMode.records plainLib (parseFuel (runLex "a b c:d e f g" DefaultOptions))
          (newLexerWrapper (runLex "a b c:d e f g" DefaultOptions) DefaultOptions) =
        some runResult ∧
      runResult.errs = [] ∧
      (∃ rq, ParseQueryString LexErrorMode.records plainLib runLex "a b c:d e f g"
            DefaultOptions = .returns (.ok rq) ∧
          rq.Musts = coalesceRef runResult.query.musts) ∧
      ParseQueryString LexErrorMode.records plainLib runLex "a b c:d e f g" DefaultOptions =
        .returns (.ok (Query.BooleanQuery
          [Query.MatchQuery "a b" "" none 0 MatchQueryOperator.MatchQueryOperatorAnd,
           Query.MatchQuery "d" "c" none 0 MatchQueryOperator.MatchQueryOperatorAnd,
           Query.MatchQuery "e f g" "" none 0 MatchQueryOperator.MatchQueryOperatorAnd]
          [] [] none 1)) :=
  ⟨by decide, rfl, rfl,
    ParseQueryString_coalesces LexErrorMode.records plainLib runLex "a b c:d e f g"
      DefaultOptions runResult (by decide) rfl rfl, rfl⟩

/-! ## Every run ends -/

theorem rank_le (s : Int) : rank s ≤ 5 := by
  unfold rank
  by_cases h : s.toNat < 36
  · generalize s.toNat = n at h
    interval_cases n <;> decide
  · rw [List.getD_eq_default]
    · omega
    · simp only [yyRank, List.length_cons, List.length_nil]
      omega

theorem index_ok {α : Type} (tbl : List α) (i : Int) (v : α) (h : index tbl i = .ok v) :
    0 ≤ i ∧ i < tbl.length := by
  unfold index at h
  split_ifs at h with h0
  cases hg : tbl[i.toNat]? with
  | none => simp [hg] at h
  | some w =>
    have := (List.getElem?_eq_some_iff.mp hg).1
    omega

theorem logged_keepsLex (l : lexerWrapper) (a : Act yySymType) (h : a.KeepsLex l) :
    (logged l a).KeepsLex l := by
  unfold logged
  cases l.logDebugGrammarf with
  | error p => trivial
  | ok u => exact h

theorem setQuery_keepsLex (mode : LexErrorMode) (l : lexerWrapper) (v : yySymType)
    (r : Except String Query) (nilValue : Query) :
    (setQuery mode l v r nilValue).KeepsLex l := by
  cases r with
  | ok q => rfl
  | error e => cases mode <;> simp [setQuery, lexError, Act.KeepsLex]

theorem setQueryOrPanic_keepsLex (l : lexerWrapper) (v : yySymType) (r : Except Panic Query) :
    (setQueryOrPanic l v r).KeepsLex l := by
  cases r with
  | ok q => rfl
  | error e => trivial

theorem setBoost_keepsLex (mode : LexErrorMode) (l : lexerWrapper) (v : yySymType)
    (r : Except String Float64) : (setBoost mode l v r).KeepsLex l := by
  cases r with
  | ok q => rfl
  | error e => cases mode <;> simp [setBoost, lexError, Act.KeepsLex]

theorem boostedClause_keepsLex (mode : LexErrorMode) (l : lexerWrapper) (n : Int)
    (v : yySymType) (r : Except Panic (Except String Query)) :
    (boostedClause mode l n v r).KeepsLex l := by
  cases r with
  | error p => trivial
  | ok r1 =>
    cases r1 with
    | ok q => rfl
    | error e => cases mode <;> simp [boostedClause, lexError, Act.KeepsLex]

theorem searchPartAction_keepsLex (mode : LexErrorMode) (l : lexerWrapper)
    (D : List yySymType) (v : yySymType) : (searchPartAction mode l D v).KeepsLex l := by
  unfold searchPartAction
  cases (dollar D 3).pf with
  | none => rfl
  | some b => exact boostedClause_keepsLex mode l _ v _

theorem Act.keepsLex_ite {α : Type} {c : Prop} [Decidable c] {l : lexerWrapper} {a b : Act α}
    (ha : a.KeepsLex l) (hb : b.KeepsLex l) : (if c then a else b).KeepsLex l := by
  split <;> assumption

theorem yyAction_keepsLex (mode : LexErrorMode) (lib : GoLib) (l : lexerWrapper) (n : Int)
    (D : List yySymType) (v : yySymType) : (yyAction mode lib l n D v).KeepsLex l := by
  have hok : ∀ v1 : yySymType, (Act.ok l v1 : Act yySymType).KeepsLex l := fun v1 => rfl
  unfold yyAction
  repeat' first
    | exact hok _
    | exact searchPartAction_keepsLex mode l D v
    | exact logged_keepsLex l _ (hok _)
    | exact logged_keepsLex l _ (setQuery_keepsLex mode l _ _ _)
    | exact logged_keepsLex l _ (setQueryOrPanic_keepsLex l _ _)
    | exact logged_keepsLex l _ (setBoost_keepsLex mode l _ _)
    | apply Act.keepsLex_ite

/-- What `Lex` delivers: a token, from fewer items than before, or the end of the input. -/
theorem lexItems_spec (mode : LexErrorMode) (l : lexerWrapper) (lval : yySymType)
    (items : List LexItem) (errs : List String) (l1 : lexerWrapper) (lval1 : yySymType)
    (ch : Int) (h : lexItems mode l lval items errs = .ok l1 (lval1, ch)) :
    (l1.lex.length < items.length ∧ ∃ k : TokKind, ch = TokKind.code k) ∨
      (l1.lex = [] ∧ ch = 0) := by
  induction items generalizing errs with
  | nil =>
    simp only [lexItems, Act.ok.injEq, Prod.mk.injEq] at h
    obtain ⟨rfl, _, rfl⟩ := h
    exact Or.inr ⟨rfl, rfl⟩
  | cons item rest ih =>
    cases item with
    | tok k t =>
      simp only [lexItems, Act.ok.injEq, Prod.mk.injEq] at h
      obtain ⟨rfl, _, rfl⟩ := h
      exact Or.inl ⟨by simp, k, rfl⟩
    | err msg =>
      cases mode with
      | panics => simp [lexItems] at h
      | records =>
        simp only [lexItems] at h
        rcases ih _ h with ⟨h1, h2⟩ | h1
        · exact Or.inl ⟨by simp only [List.length_cons]; omega, h2⟩
        · exact Or.inr h1

theorem yylex1_spec (mode : LexErrorMode) (l : lexerWrapper) (lval : yySymType)
    (l1 : lexerWrapper) (lval1 : yySymType) (ch tk : Int)
    (h : yylex1 mode l lval = .ok l1 (lval1, ch, tk)) :
    0 ≤ ch ∧ l1.lex.length + (if 0 ≤ ch ∧ tk ≠ yyEofCode then 1 else 0) ≤ l.lex.length := by
  unfold yylex1 lexerWrapper.Lex at h
  cases hr : lexItems mode l lval l.lex l.errs with
  | panic l2 p => simp [hr] at h
  | ok l2 a =>
    obtain ⟨lval2, ch2⟩ := a
    rw [hr] at h
    simp only at h
    cases ht : yylex1Token ch2 with
    | error p => simp [ht] at h
    | ok tk2 =>
      simp only [ht, Act.ok.injEq, Prod.mk.injEq] at h
      obtain ⟨rfl, _, rfl, rfl⟩ := h
      rcases lexItems_spec mode l lval l.lex l.errs l2 lval2 ch2 hr with ⟨h1, k, rfl⟩ | ⟨h1, rfl⟩
      · refine ⟨TokKind.code_nonneg k, ?_⟩
        split_ifs <;> omega
      · have e : tk2 = 1 := by
          have h0 : yylex1Token 0 = .ok 1 := rfl
          rw [h0] at ht
          cases ht
          rfl
        subst e
        simp [h1, yyEofCode]

theorem yyChk_ok (ys c : Int) (h : index yyChk ys = .ok c) : 0 ≤ ys ∧ ys < 36 :=
  index_ok yyChk ys c h

/-- No state shifts the token `error`. -/
theorem errShift_none (x ys : Int) : errShift x ≠ .ok (some ys) := by
  intro h
  unfold errShift at h
  cases hp : index yyPact x with
  | error p => simp [hp] at h
  | ok pact =>
    obtain ⟨h0, h1⟩ := index_ok yyPact x pact hp
    have h2 : x < 36 := h1
    have h3 : errShift x = .ok none := by
      interval_cases x <;> rfl
    unfold errShift at h3
    rw [h3] at h
    cases h

theorem errorPop_decr (P : Nat) (st : ParseState) (b a : List yySymType) :
    (errorPop st b a).Decr P := by
  induction b generalizing a with
  | nil => trivial
  | cons e rest ih =>
    unfold errorPop
    cases he : errShift e.yys with
    | error p => trivial
    | ok r =>
      cases r with
      | none => exact ih _
      | some ys => exact absurd he (errShift_none _ _)

/-- The end of the input is never shifted. -/
theorem yyShift_token (pact tk ys : Int) (h : yyShift pact tk = .ok (some ys)) :
    tk ≠ yyEofCode := by
  unfold yyShift at h
  simp only at h
  split_ifs at h
  · cases h
  · cases ha : index yyAct (pact + tk) with
    | error p => simp [ha] at h
    | ok y =>
      rw [ha] at h
      simp only at h
      cases hc : index yyChk y with
      | error p => simp [hc] at h
      | ok c =>
        rw [hc] at h
        simp only at h
        split_ifs at h with hct
        · obtain ⟨h0, h1⟩ := yyChk_ok y c hc
          subst hct
          intro h1
          rw [h1] at hc
          have h2 : (match index yyChk y with
              | .ok c => decide (c = yyEofCode)
              | .error _ => false) = false := by
            interval_cases y <;> rfl
          rw [hc] at h2
          simp at h2
        · cases h

/-- The state after a reduction to `nt`: the default of `nt`, or a state that `yyChk` gives
`nt`. -/
theorem yyGoto_target (nt yyg top g : Int) (h : yyGoto nt yyg top = .ok g) :
    index yyAct yyg = .ok g ∨ index yyChk g = .ok (-nt) := by
  unfold yyGoto at h
  simp only at h
  split_ifs at h
  · exact Or.inl h
  · cases ha : index yyAct (yyg + top + 1) with
    | error p => simp [ha] at h
    | ok y =>
      rw [ha] at h
      simp only at h
      cases hc : index yyChk y with
      | error p => simp [hc] at h
      | ok c =>
        rw [hc] at h
        simp only at h
        split_ifs at h with hcn
        · exact Or.inl h
        · simp only [Except.ok.injEq] at h
          subst h
          have : c = -nt := by
            by_contra hne
            exact hcn hne
          rw [this] at hc
          exact Or.inr hc

theorem goto_rank (nt yyg top g : Int) (hg : index yyPgo nt = .ok yyg)
    (h : yyGoto nt yyg top = .ok g) : rank g ≤ gotoRank nt := by
  obtain ⟨h0, h1⟩ := index_ok yyPgo nt yyg hg
  have h2 : nt < 8 := h1
  rcases yyGoto_target nt yyg top g h with ht | ht
  · have key : (match index yyPgo nt with
        | .ok y =>
          (match index yyAct y with
            | .ok g1 => decide (rank g1 ≤ gotoRank nt)
            | .error _ => true)
        | .error _ => true) = true := by
      interval_cases nt <;> rfl
    rw [hg] at key
    simp only [ht, decide_eq_true_eq] at key
    exact key
  · obtain ⟨h3, h4⟩ := yyChk_ok g _ ht
    have key : (match index yyChk g with
        | .ok c => decide (c = -nt → rank g ≤ gotoRank nt)
        | .error _ => true) = true := by
      interval_cases nt <;> interval_cases g <;> rfl
    rw [ht] at key
    simpa using key

/-- The default reduction of a state leads to a state of lower rank, up to the symbols that
it pops. -/
theorem rank_reduce (s n : Int) (k : Nat) (nt : Int) (hd : index yyDef s = .ok n) (hn : 0 < n)
    (hk : index yyR2 n = .ok k) (hnt : index yyR1 n = .ok nt) :
    gotoRank nt + 1 < rank s + k := by
  obtain ⟨h0, h1⟩ := index_ok yyDef s n hd
  have h2 : s < 36 := h1
  have key : (match index yyDef s with
      | .ok n1 =>
        (match index yyR2 n1, index yyR1 n1 with
          | .ok k1, .ok nt1 => decide (0 < n1 → gotoRank nt1 + 1 < rank s + k1)
          | _, _ => true)
      | .error _ => true) = true := by
    interval_cases s <;> rfl
  rw [hd] at key
  simp only [hk, hnt, decide_eq_true_eq] at key
  exact key hn

/-- The two entries of `yyExca`: state 1 accepts or reports an error, and state 3 reduces by
production 3 or by production 5. -/
theorem excaAction_cases (s tk n : Int) (hd : index yyDef s = .ok (-2))
    (h : excaAction s tk = .ok n) : n < 0 ∨ n = 0 ∨ (s = 3 ∧ (n = 3 ∨ n = 5)) := by
  obtain ⟨h0, h1⟩ := index_ok yyDef s _ hd
  have h2 : s < 36 := h1
  have h3 : s = 1 ∨ s = 3 := by
    have key : (match index yyDef s with
        | .ok n1 => decide (n1 = -2 → s = 1 ∨ s = 3)
        | .error _ => true) = true := by
      interval_cases s <;> rfl
    rw [hd] at key
    simpa using key
  rcases h3 with rfl | rfl
  · by_cases ht : tk = 1
    · subst ht
      have e : excaAction 1 1 = .ok (-1) := rfl
      rw [e] at h
      cases h
      exact Or.inl (by decide)
    · have e : excaAction 1 tk = .ok 0 := by
        simp [excaAction, excaFind, excaScan, yyExca, ht, Ne.symm ht]
      rw [e] at h
      cases h
      exact Or.inr (Or.inl rfl)
  · by_cases ht : tk = 1
    · subst ht
      have e : excaAction 3 1 = .ok 3 := rfl
      rw [e] at h
      cases h
      exact Or.inr (Or.inr ⟨rfl, Or.inl rfl⟩)
    · have e : excaAction 3 tk = .ok 5 := by
        simp [excaAction, excaFind, excaScan, yyExca, ht, Ne.symm ht]
      rw [e] at h
      cases h
      exact Or.inr (Or.inr ⟨rfl, Or.inr rfl⟩)

theorem withLookahead_decr (mode : LexErrorMode) (st : ParseState) (k : ParseState → Step)
    (P : Nat)
    (hk : ∀ st1 : ParseState, 0 ≤ st1.char → tokensLeft st1 ≤ tokensLeft st →
      st1.below = st.below → st1.yystate = st.yystate → st1.Errflag = st.Errflag →
      (k st1).Decr P)
    (hst : st.char < 0 ∨ (k st).Decr P) : (withLookahead mode st k).Decr P := by
  unfold withLookahead
  split_ifs with hc
  · cases hr : yylex1 mode st.yylex st.lval with
    | panic l p => trivial
    | ok l a =>
      obtain ⟨lval, ch, tk⟩ := a
      obtain ⟨h1, h2⟩ := yylex1_spec mode st.yylex st.lval l lval ch tk hr
      simp only
      refine hk _ h1 ?_ rfl rfl rfl
      simp only [tokensLeft]
      omega
  · rcases hst with h | h
    · exact absurd h hc
    · exact h

/-- A reduction goes on at `yystack` with the symbols of the production popped, in a state
whose rank is bounded by its nonterminal. -/
theorem yyreduce_decr (mode : LexErrorMode) (lib : GoLib) (st : ParseState) (n : Int)
    (P : Nat) (hef : st.Errflag = 0)
    (hP : ∀ k nt, index yyR2 n = .ok k → index yyR1 n = .ok nt → k ≤ st.below.length →
      8 * tokensLeft st + gotoRank nt + (st.below.length - k) < P) :
    (yyreduce mode lib st n).Decr P := by
  unfold yyreduce
  cases hk : index yyR2 n with
  | error p => trivial
  | ok k =>
    simp only
    split_ifs with hlen
    · trivial
    · cases slots (st.below.drop k) ((st.below.take k).reverse ++ st.above) with
      | nil => trivial
      | cons yyVAL above1 =>
        simp only
        cases hnt : index yyR1 n with
        | error p => trivial
        | ok nt =>
          simp only
          cases hg : index yyPgo nt with
          | error p => trivial
          | ok yyg =>
            simp only
            cases hd : st.below.drop k with
            | nil => trivial
            | cons top below1 =>
              simp only
              cases hgo : yyGoto nt yyg top.yys with
              | error p => trivial
              | ok g =>
                simp only
                have hkeep := yyAction_keepsLex mode lib st.yylex n
                  ((st.below.take (k + 1)).reverse) yyVAL
                cases ha : yyAction mode lib st.yylex n ((st.below.take (k + 1)).reverse)
                    yyVAL with
                | panic l p => trivial
                | ok l v =>
                  rw [ha] at hkeep
                  have hl : l.lex = st.yylex.lex := hkeep
                  have hr := goto_rank nt yyg top.yys g hg hgo
                  have hlen2 : (top :: below1).length = st.below.length - k := by
                    rw [← hd, List.length_drop]
                  have hb := hP k nt hk hnt (by omega)
                  refine ⟨rfl, hef, ?_⟩
                  simp only [potential, tokensLeft, hl, hlen2] at hb ⊢
                  omega

theorem yyact_decr (mode : LexErrorMode) (lib : GoLib) (st : ParseState) (n : Int) (P : Nat)
    (hef : st.Errflag = 0)
    (hP : n ≠ 0 → ∀ k nt, index yyR2 n = .ok k → index yyR1 n = .ok nt →
      k ≤ st.below.length → 8 * tokensLeft st + gotoRank nt + (st.below.length - k) < P) :
    (yyact mode lib st n).Decr P := by
  unfold yyact
  split_ifs with h0
  · cases yyErrorMessage st.yystate st.yytoken with
    | error p => trivial
    | ok msg => exact errorPop_decr P _ _ _
  · exact yyreduce_decr mode lib st n P hef (hP h0)

/-- The bound that the default action of a state needs: the state is on the stack, and the
potential before the push was `P`. -/
theorem yydefault_decr (mode : LexErrorMode) (lib : GoLib) (st : ParseState) (P : Nat)
    (hef : st.Errflag = 0) (hb : 1 ≤ st.below.length)
    (hP : 8 * tokensLeft st + rank st.yystate + st.below.length ≤ P + 1) :
    (yydefault mode lib st).Decr P := by
  unfold yydefault
  cases hd : index yyDef st.yystate with
  | error p => trivial
  | ok n =>
    simp only
    split_ifs with h2
    · subst h2
      have hk : ∀ st1 : ParseState, tokensLeft st1 ≤ tokensLeft st →
          st1.below = st.below → st1.yystate = st.yystate → st1.Errflag = st.Errflag →
          (match excaAction st1.yystate st1.yytoken with
            | .error p => Step.panic st1.yylex p
            | .ok yyn1 =>
              if yyn1 < 0 then Step.ret st1.yylex 0 else yyact mode lib st1 yyn1).Decr P := by
        intro st1 ht hbl hs he
        cases hx : excaAction st1.yystate st1.yytoken with
        | error p => trivial
        | ok n1 =>
          simp only
          split_ifs with hneg
          · trivial
          · rw [hs] at hx
            rcases excaAction_cases _ _ _ hd hx with h | h | ⟨h3, h⟩
            · exact absurd h hneg
            · subst h
              exact yyact_decr mode lib st1 0 P (he.trans hef) (fun h => absurd rfl h)
            · apply yyact_decr mode lib st1 n1 P (he.trans hef)
              intro _ k nt hk hnt hlen
              rw [h3] at hP
              have hr3 : rank 3 = 2 := rfl
              rw [hbl] at hlen ⊢
              rcases h with rfl | rfl
              · have e1 : index yyR2 3 = .ok 1 := rfl
                have e2 : index yyR1 3 = .ok 6 := rfl
                rw [e1] at hk
                rw [e2] at hnt
                cases hk
                cases hnt
                have : gotoRank 6 = 1 := rfl
                omega
              · have e1 : index yyR2 5 = .ok 0 := rfl
                have e2 : index yyR1 5 = .ok 4 := rfl
                rw [e1] at hk
                rw [e2] at hnt
                cases hk
                cases hnt
                have : gotoRank 4 = 0 := rfl
                omega
      apply withLookahead_decr mode st _ P
      · intro st1 _ ht hbl hs he
        exact hk st1 ht hbl hs he
      · exact Or.inr (hk st (Nat.le_refl _) rfl rfl rfl)
    · apply yyact_decr mode lib st n P hef
      intro hn0 k nt hk hnt hlen
      have hpos : 0 < n := by
        obtain ⟨h0, _⟩ := index_ok yyR2 n k hk
        omega
      have := rank_reduce st.yystate n k nt hd hpos hk hnt
      omega

theorem yynewstate_decr (mode : LexErrorMode) (lib : GoLib) (st : ParseState) (P : Nat)
    (hef : st.Errflag = 0) (hb : 1 ≤ st.below.length)
    (hP : 8 * tokensLeft st + rank st.yystate + st.below.length ≤ P + 1) :
    (yynewstate mode lib st).Decr P := by
  unfold yynewstate
  cases hp : index yyPact st.yystate with
  | error p => trivial
  | ok pact =>
    simp only
    split_ifs with hf
    · exact yydefault_decr mode lib st P hef hb hP
    · have hk : ∀ st1 : ParseState, 0 ≤ st1.char → tokensLeft st1 ≤ tokensLeft st →
          st1.below = st.below → st1.yystate = st.yystate → st1.Errflag = st.Errflag →
          (match yyShift pact st1.yytoken with
            | .error p => Step.panic st1.yylex p
            | .ok (some ys) =>
              Step.next Label.yystack
                { st1 with char := -1, yytoken := -1, yyVAL := st1.lval, yystate := ys,
                           Errflag := if 0 < st1.Errflag then st1.Errflag - 1
                                      else st1.Errflag }
            | .ok none => yydefault mode lib st1).Decr P := by
        intro st1 hch ht hbl hs he
        cases hsh : yyShift pact st1.yytoken with
        | error p => trivial
        | ok r =>
          cases r with
          | none =>
            apply yydefault_decr mode lib st1 P (he.trans hef)
            · rw [hbl]
              exact hb
            · rw [hbl, hs]
              omega
          | some ys =>
            have htk := yyShift_token pact st1.yytoken ys hsh
            have he1 : st1.Errflag = 0 := he.trans hef
            refine ⟨rfl, ?_, ?_⟩
            · simp [he1]
            · have hr := rank_le ys
              have hT1 : tokensLeft st1 = st1.yylex.lex.length + 1 := by
                simp [tokensLeft, hch, htk]
              rw [hT1] at ht
              simp only [potential, tokensLeft, hbl, (show ¬ (0 : Int) ≤ -1 by decide),
                false_and, if_false]
              omega
      apply withLookahead_decr mode st _ P
      · exact hk
      · by_cases hc : st.char < 0
        · exact Or.inl hc
        · exact Or.inr (hk st (by omega) (Nat.le_refl _) rfl rfl rfl)

theorem yystack_decr (mode : LexErrorMode) (lib : GoLib) (st : ParseState)
    (hef : st.Errflag = 0) : (yystack mode lib st).Decr (potential st) := by
  unfold yystack
  cases slots st.below st.above with
  | nil => trivial
  | cons x above2 =>
    simp only
    refine yynewstate_decr mode lib _ (potential st) hef ?_ ?_
    · simp
    · simp only [potential, tokensLeft, List.length_cons]
      omega

/-- A run from `yystack` outside the error recovery ends within its potential. -/
theorem parseLoop_total (mode : LexErrorMode) (lib : GoLib) :
    ∀ (n : Nat) (st : ParseState), st.Errflag = 0 → potential st < n →
      parseLoop mode lib n Label.yystack st ≠ Run.outOfFuel := by
  intro n
  induction n with
  | zero =>
    intro st _ h
    omega
  | succ n ih =>
    intro st hef hp
    have hd := yystack_decr mode lib st hef
    simp only [parseLoop, yyStep]
    cases hs : yystack mode lib st with
    | ret l c => simp
    | panic l p => simp
    | next lbl st1 =>
      rw [hs] at hd
      obtain ⟨rfl, he1, hp1⟩ := hd
      simp only
      exact ih st1 he1 (by omega)

/-- The fuel that `ParseQueryString` gives `Parse` suffices for every list of items. -/
theorem doParse_total (mode : LexErrorMode) (lib : GoLib) (items : List LexItem)
    (o : QueryStringOptions) :
    ∃ lex, doParse mode lib (parseFuel items) (newLexerWrapper items o) = some lex := by
  have h := parseLoop_total mode lib (parseFuel items)
    (ParseState.init (newLexerWrapper items o)) rfl
    (by
      have e : potential (ParseState.init (newLexerWrapper items o)) = 8 * items.length + 2 := by
        simp [potential, tokensLeft, ParseState.init, newLexerWrapper, rank, yyRank]
      rw [e, parseFuel]
      omega)
  unfold doParse yyParse
  cases hr : parseLoop mode lib (parseFuel items) Label.yystack
      (ParseState.init (newLexerWrapper items o)) with
  | ret l c => exact ⟨l, rfl⟩
  | panic l p => exact ⟨_, rfl⟩
  | outOfFuel => exact absurd hr h

/-! ## What `ParseQueryString` returns -/

theorem printfNoArgs_plain (lib : GoLib) (cs : List Char) (h : ∀ c ∈ cs, c ≠ '%') :
    printfNoArgs lib cs = cs := by
  induction cs with
  | nil => rfl
  | cons c r ih =>
    have hc : c ≠ '%' := h c (List.mem_cons_self _ _)
    cases r with
    | nil => simp [printfNoArgs, hc]
    | cons d r =>
      rw [printfNoArgs, if_neg hc, ih (fun x hx => h x (List.mem_cons_of_mem _ hx))]

/-- A format without a `%` is printed as it is. -/
theorem errorfText_plain (lib : GoLib) (format : String) (h : ∀ c ∈ format.data, c ≠ '%') :
    errorfText lib format = format := by
  unfold errorfText
  rw [printfNoArgs_plain lib _ h]

/-- With an error on record `ParseQueryString` returns an error, whose message is printed
from the errors joined by newlines. -/
theorem ParseQueryString_failed (mode : LexErrorMode) (lib : GoLib)
    (newQueryStringLex : QueryStringLex) (query : String) (options : QueryStringOptions)
    (lex : lexerWrapper) (hq : query ≠ "")
    (h : doParse mode lib (parseFuel (newQueryStringLex query options))
      (newLexerWrapper (newQueryStringLex query options) options) = some lex)
    (hl : lex.errs ≠ []) :
    ParseQueryString mode lib newQueryStringLex query options =
      .returns (.error (errorfText lib ("\n".intercalate lex.errs))) := by
  unfold ParseQueryString
  have hpos : 0 < lex.errs.length := List.length_pos.mpr hl
  simp only [if_neg hq, h, if_pos hpos]

/-- With no error on record `ParseQueryString` returns the root of the parse with its Must
list coalesced. -/
theorem ParseQueryString_parsed (mode : LexErrorMode) (lib : GoLib)
    (newQueryStringLex : QueryStringLex) (query : String) (options : QueryStringOptions)
    (lex : lexerWrapper) (hq : query ≠ "")
    (h : doParse mode lib (parseFuel (newQueryStringLex query options))
      (newLexerWrapper (newQueryStringLex query options) options) = some lex)
    (hl : lex.errs = []) :
    ParseQueryString mode lib newQueryStringLex query options =
      .returns (.ok (Query.BooleanQuery (coalesceRef lex.query.musts) lex.query.shoulds
        lex.query.mustNots none 1)) := by
  obtain ⟨cs, hcs, hroot⟩ := doParse_sound mode lib _ _ options lex h hl
  obtain ⟨h1, _, _, h4, h5⟩ := foldl_addRole cs (NewBooleanQuery.SetMinShould 1)
  rw [← hroot] at h1 h4 h5
  have hmusts : lex.query.musts = clausesOf queryMust cs := by
    simpa [NewBooleanQuery, BooleanQuery.SetMinShould] using h1
  have hboost : lex.query.boost = none := by
    simpa [NewBooleanQuery, BooleanQuery.SetMinShould] using h4
  have hmin : lex.query.minShould = 1 := by
    simpa [NewBooleanQuery, BooleanQuery.SetMinShould] using h5
  have hnil : ∀ s ∈ lex.query.musts, s ≠ Query.nilMatch := by
    rw [hmusts]
    exact clausesOf_ne_nilMatch queryMust cs
      (searchParts_ne_nilMatch lib options _ cs hcs)
  obtain ⟨c, c1, hloop, hflush, htake, hlen⟩ := coalesce_spec lex.query.musts hnil
  unfold ParseQueryString
  simp only [if_neg hq, h, hl, List.length_nil, Nat.lt_irrefl, if_false, hloop, hflush]
  by_cases hn : lex.query.musts.length = c1.n
  · rw [if_neg (by simpa using hn), ← htake, ← hn, ← hlen, List.take_length]
    simp [BooleanQuery.toQuery, hboost, hmin]
  · rw [if_pos (by simpa using hn), ← htake]
    simp [BooleanQuery.toQuery, BooleanQuery.AddMust, BooleanQuery.AddShould,
      BooleanQuery.AddMustNot, BooleanQuery.SetMinShould, NewBooleanQuery, hmin]

/-- Claim C16. On the empty text `ParseQueryString` returns the query that matches nothing
and no error, whatever the options are; on a text that is not empty it returns an error or a
boolean query, and so never the query that matches nothing. -/
theorem ParseQueryString_matchNone (mode : LexErrorMode) (lib : GoLib)
    (newQueryStringLex : QueryStringLex) (query : String) (options : QueryStringOptions)
    (hq : query ≠ "") :
    ParseQueryString mode lib newQueryStringLex "" options =
        .returns (.ok Query.MatchNoneQuery) ∧
      ((∃ msg, ParseQueryString mode lib newQueryStringLex query options =
          .returns (.error msg)) ∨
        ∃ musts shoulds mustNots boost minShould,
          ParseQueryString mode lib newQueryStringLex query options =
            .returns (.ok (Query.BooleanQuery musts shoulds mustNots boost minShould))) ∧
      ParseQueryString mode lib newQueryStringLex query options ≠
        .returns (.ok Query.MatchNoneQuery) := by
  obtain ⟨lex, h⟩ := doParse_total mode lib (newQueryStringLex query options) options
  refine ⟨by simp [ParseQueryString], ?_⟩
  by_cases hl : lex.errs = []
  · have hr := ParseQueryString_parsed mode lib newQueryStringLex query options lex hq h hl
    refine ⟨Or.inr ⟨_, _, _, _, _, hr⟩, ?_⟩
    rw [hr]
    intro hc
    cases hc
  · have hr := ParseQueryString_failed mode lib newQueryStringLex query options lex hq h hl
    refine ⟨Or.inl ⟨_, hr⟩, ?_⟩
    rw [hr]
    intro hc
    cases hc

/-- Claim C16 on `a b c:d e f g`, which gives a boolean query. -/
theorem ParseQueryString_matchNone_witness :
    "a b c:d e f g" ≠ "" ∧
      ParseQueryString LexErrorMode.records plainLib runLex "" DefaultOptions =
        .returns (.ok Query.MatchNoneQuery) ∧
      ((∃ msg, ParseQueryString LexErrorMode.records plainLib runLex "a b c:d e f g"
          DefaultOptions = .returns (.error msg)) ∨
        ∃ musts shoulds mustNots boost minShould,
          ParseQueryString LexErrorMode.records plainLib runLex "a b c:d e f g"
            DefaultOptions =
            .returns (.ok (Query.BooleanQuery musts shoulds mustNots boost minShould))) ∧
      ParseQueryString LexErrorMode.records plainLib runLex "a b c:d e f g" DefaultOptions ≠
        .returns (.ok Query.MatchNoneQuery) :=
  ⟨by decide, ParseQueryString_matchNone LexErrorMode.records plainLib runLex "a b c:d e f g"
    DefaultOptions (by decide)⟩

/-- Claim C17. `ParseQueryString` returns a query or an error, never both and never neither.
On the empty text nothing is parsed and the query that matches nothing is returned. On every
other text the parse ends, and an error is returned exactly when the parse left at least one
error on record (of the lexer, of the syntax, of a builder, or a recovered panic); otherwise a
query that is not nil is returned. -/
theorem ParseQueryString_query_or_error (mode : LexErrorMode) (lib : GoLib)
    (newQueryStringLex : QueryStringLex) (query : String) (options : QueryStringOptions) :
    (query = "" ∧ ParseQueryString mode lib newQueryStringLex query options =
        .returns (.ok Query.MatchNoneQuery)) ∨
      (query ≠ "" ∧
        ∃ lex, doParse mode lib (parseFuel (newQueryStringLex query options))
            (newLexerWrapper (newQueryStringLex query options) options) = some lex ∧
          ((∃ msg, ParseQueryString mode lib newQueryStringLex query options =
              .returns (.error msg)) ↔ lex.errs ≠ []) ∧
          ((∃ rq, rq ≠ Query.nil ∧ ParseQueryString mode lib newQueryStringLex query options =
              .returns (.ok rq)) ↔ lex.errs = [])) := by
  by_cases hq : query = ""
  · exact Or.inl ⟨hq, by simp [ParseQueryString, hq]⟩
  · refine Or.inr ⟨hq, ?_⟩
    obtain ⟨lex, h⟩ := doParse_total mode lib (newQueryStringLex query options) options
    refine ⟨lex, h, ?_⟩
    by_cases hl : lex.errs = []
    · have hr := ParseQueryString_parsed mode lib newQueryStringLex query options lex hq h hl
      rw [hr]
      constructor
      · constructor
        · rintro ⟨msg, hm⟩
          cases hm
        · intro hne
          exact absurd hl hne
      · constructor
        · intro _
          exact hl
        · intro _
          refine ⟨_, ?_, rfl⟩
          intro hc
          cases hc
    · have hr := ParseQueryString_failed mode lib newQueryStringLex query options lex hq h hl
      rw [hr]
      constructor
      · constructor
        · intro _
          exact hl
        · intro _
          exact ⟨_, rfl⟩
      · constructor
        · rintro ⟨rq, _, hm⟩
          cases hm
        · intro he
          exact absurd he hl

/-- Claim C18, at an input on which the code departs from it. The message of the error is
what `fmt.Errorf` prints with the joined errors as its format, not the joined errors
themselves: the phrase of `field:>"%d"` is echoed by the error of `time.Parse`, which is the
one error on record, and in the message returned its `%d` has become `%!d(MISSING)`. -/
theorem ParseQueryString_error_format :
    (∃ lex, doParse LexErrorMode.records plainLib (parseFuel percentItems)
        (newLexerWrapper percentItems DefaultOptions) = some lex ∧
      lex.errs = ["invalid time: parsing time \"%d\": cannot parse"] ∧
      ParseQueryString LexErrorMode.records plainLib (itemsLex percentItems) "field:>\"%d\""
          DefaultOptions =
        .returns (.error (errorfText plainLib ("\n".intercalate lex.errs)))) ∧
      ParseQueryString LexErrorMode.records plainLib (itemsLex percentItems) "field:>\"%d\""
          DefaultOptions =
        .returns (.error "invalid time: parsing time \"%!d(MISSING)\": cannot parse") ∧
      ParseQueryString LexErrorMode.records plainLib (itemsLex percentItems) "field:>\"%d\""
          DefaultOptions ≠
        .returns (.error "invalid time: parsing time \"%d\": cannot parse") := by
  have h : ParseQueryString LexErrorMode.records plainLib (itemsLex percentItems)
      "field:>\"%d\"" DefaultOptions =
      .returns (.error "invalid time: parsing time \"%!d(MISSING)\": cannot parse") := rfl
  refine ⟨⟨_, rfl, rfl, rfl⟩, h, ?_⟩
  intro hc
  exact absurd (Except.error.inj (Outcome.returns.inj (h.symm.trans hc))) (by decide)

/-! ## The payloads of a parse without an error -/

theorem queryStringStringTokenFuzzy_parses (lib : GoLib) (f s n : String) (q : Query)
    (h : queryStringStringTokenFuzzy lib f s n = .ok q) : ∃ v, ParseFloat lib n = .ok v := by
  unfold queryStringStringTokenFuzzy at h
  cases hp : ParseFloat lib n with
  | error e => simp [hp] at h
  | ok v => exact ⟨v, rfl⟩

theorem queryStringNumberToken_parses (lib : GoLib) (f s : String) (q : Query)
    (h : queryStringNumberToken lib f s = .ok q) : ∃ v, ParseFloat lib s = .ok v := by
  unfold queryStringNumberToken at h
  cases hp : ParseFloat lib s with
  | error e => simp [hp] at h
  | ok v => exact ⟨v, rfl⟩

theorem numericRangeGreater_parses (lib : GoLib) (f s : String) (b : Bool) (q : Query)
    (h : queryStringNumericRangeGreaterThanOrEqual lib f s b = .ok q) :
    ∃ v, ParseFloat lib s = .ok v := by
  unfold queryStringNumericRangeGreaterThanOrEqual at h
  cases hp : ParseFloat lib s with
  | error e => simp [hp] at h
  | ok v => exact ⟨v, rfl⟩

theorem numericRangeLess_parses (lib : GoLib) (f s : String) (b : Bool) (q : Query)
    (h : queryStringNumericRangeLessThanOrEqual lib f s b = .ok q) :
    ∃ v, ParseFloat lib s = .ok v := by
  unfold queryStringNumericRangeLessThanOrEqual at h
  cases hp : ParseFloat lib s with
  | error e => simp [hp] at h
  | ok v => exact ⟨v, rfl⟩

theorem queryStringParseBoost_parses (lib : GoLib) (s : String) (b : Float64)
    (h : queryStringParseBoost lib s = .ok b) : ∃ v, ParseFloat lib s = .ok v := by
  unfold queryStringParseBoost at h
  cases hp : ParseFloat lib s with
  | error e => simp [hp] at h
  | ok v => exact ⟨v, rfl⟩

theorem posOrNegNumber_parses (lib : GoLib) (ts : List LexItem) (s : String)
    (hn : PosOrNegNumber ts s) (h : ∃ v, ParseFloat lib s = .ok v) :
    ∀ i ∈ ts, i.Parses lib := by
  cases hn with
  | number s =>
    intro i hi
    simp only [List.mem_singleton] at hi
    subst hi
    exact Or.inl h
  | negative m s =>
    intro i hi
    simp only [List.mem_cons, List.mem_singleton, List.not_mem_nil, or_false] at hi
    rcases hi with rfl | rfl
    · exact True.intro
    · exact Or.inr h

theorem searchBase_parses (lib : GoLib) (o : QueryStringOptions) (ts : List LexItem)
    (q : Query) (h : SearchBase lib o ts q) : ∀ i ∈ ts, i.Parses lib := by
  cases h with
  | string s q h =>
    intro i hi
    simp only [List.mem_singleton] at hi
    subst hi
    exact True.intro
  | fuzzy s n q h =>
    intro i hi
    simp only [List.mem_cons, List.mem_singleton, List.not_mem_nil, or_false] at hi
    rcases hi with rfl | rfl
    · exact True.intro
    · exact queryStringStringTokenFuzzy_parses _ _ _ _ _ h
  | fieldFuzzy f c s n q h =>
    intro i hi
    simp only [List.mem_cons, List.mem_singleton, List.not_mem_nil, or_false] at hi
    rcases hi with rfl | rfl | rfl | rfl
    · exact True.intro
    · exact True.intro
    · exact True.intro
    · exact queryStringStringTokenFuzzy_parses _ _ _ _ _ h
  | number s q h =>
    intro i hi
    simp only [List.mem_singleton] at hi
    subst hi
    exact Or.inl (queryStringNumberToken_parses _ _ _ _ h)
  | phrase s =>
    intro i hi
    simp only [List.mem_singleton] at hi
    subst hi
    exact True.intro
  | fieldString f c s q h =>
    intro i hi
    simp only [List.mem_cons, List.mem_singleton, List.not_mem_nil, or_false] at hi
    rcases hi with rfl | rfl | rfl <;> exact True.intro
  | fieldNumber f c ts s q hn h =>
    intro i hi
    simp only [List.mem_cons] at hi
    rcases hi with rfl | rfl | hi
    · exact True.intro
    · exact True.intro
    · exact posOrNegNumber_parses lib ts s hn (queryStringNumberToken_parses _ _ _ _ h) i hi
  | fieldPhrase f c s =>
    intro i hi
    simp only [List.mem_cons, List.mem_singleton, List.not_mem_nil, or_false] at hi
    rcases hi with rfl | rfl | rfl <;> exact True.intro
  | greater f c g ts s q hn h =>
    intro i hi
    simp only [List.mem_cons] at hi
    rcases hi with rfl | rfl | rfl | hi
    · exact True.intro
    · exact True.intro
    · exact True.intro
    · exact posOrNegNumber_parses lib ts s hn (numericRangeGreater_parses _ _ _ _ _ h) i hi
  | greaterEqual f c g e ts s q hn h =>
    intro i hi
    simp only [List.mem_cons] at hi
    rcases hi with rfl | rfl | rfl | rfl | hi
    · exact True.intro
    · exact True.intro
    · exact True.intro
    · exact True.intro
    · exact posOrNegNumber_parses lib ts s hn (numericRangeGreater_parses _ _ _ _ _ h) i hi
  | less f c g ts s q hn h =>
    intro i hi
    simp only [List.mem_cons] at hi
    rcases hi with rfl | rfl | rfl | hi
    · exact True.intro
    · exact True.intro
    · exact True.intro
    · exact posOrNegNumber_parses lib ts s hn (numericRangeLess_parses _ _ _ _ _ h) i hi
  | lessEqual f c g e ts s q hn h =>
    intro i hi
    simp only [List.mem_cons] at hi
    rcases hi with rfl | rfl | rfl | rfl | hi
    · exact True.intro
    · exact True.intro
    · exact True.intro
    · exact True.intro
    · exact posOrNegNumber_parses lib ts s hn (numericRangeLess_parses _ _ _ _ _ h) i hi
  | greaterDate f c g p q h =>
    intro i hi
    simp only [List.mem_cons, List.mem_singleton, List.not_mem_nil, or_false] at hi
    rcases hi with rfl | rfl | rfl | rfl <;> exact True.intro
  | greaterEqualDate f c g e p q h =>
    intro i hi
    simp only [List.mem_cons, List.mem_singleton, List.not_mem_nil, or_false] at hi
    rcases hi with rfl | rfl | rfl | rfl | rfl <;> exact True.intro
  | lessDate f c g p q h =>
    intro i hi
    simp only [List.mem_cons, List.mem_singleton, List.not_mem_nil, or_false] at hi
    rcases hi with rfl | rfl | rfl | rfl <;> exact True.intro
  | lessEqualDate f c g e p q h =>
    intro i hi
    simp only [List.mem_cons, List.mem_singleton, List.not_mem_nil, or_false] at hi
    rcases hi with rfl | rfl | rfl | rfl | rfl <;> exact True.intro

theorem searchPart_parses (lib : GoLib) (o : QueryStringOptions) (ts : List LexItem)
    (n : Int) (q : Query) (h : SearchPart lib o ts n q) : ∀ i ∈ ts, i.Parses lib := by
  cases h with
  | mk ts1 ts2 ts3 n q0 pf q1 h1 h2 h3 h4 =>
    intro i hi
    simp only [List.mem_append] at hi
    rcases hi with hi | hi | hi
    · cases h1 with
      | absent => cases hi
      | question s =>
        simp only [List.mem_singleton] at hi
        subst hi
        exact True.intro
      | plus s =>
        simp only [List.mem_singleton] at hi
        subst hi
        exact True.intro
      | minus s =>
        simp only [List.mem_singleton] at hi
        subst hi
        exact True.intro
    · exact searchBase_parses lib o ts2 q0 h2 i hi
    · cases h3 with
      | absent => cases hi
      | boost s b h =>
        simp only [List.mem_singleton] at hi
        subst hi
        exact queryStringParseBoost_parses lib s b h

/-- In a sequence of search parts every payload that a builder reads as a number parses. -/
theorem searchParts_parses (lib : GoLib) (o : QueryStringOptions) (ts : List LexItem)
    (cs : List (Int × Query)) (h : SearchParts lib o ts cs) : ∀ i ∈ ts, i.Parses lib := by
  induction h with
  | one ts n q h => exact searchPart_parses lib o ts n q h
  | cons ts rest n q cs h _ ih =>
    intro i hi
    simp only [List.mem_append] at hi
    rcases hi with hi | hi
    · exact searchPart_parses lib o ts n q h i hi
    · exact ih i hi

/-- An item whose payload does not parse makes `ParseQueryString` return an error. -/
theorem ParseQueryString_payload (mode : LexErrorMode) (lib : GoLib)
    (newQueryStringLex : QueryStringLex) (query : String) (options : QueryStringOptions)
    (i : LexItem) (hq : query ≠ "") (hmem : i ∈ newQueryStringLex query options)
    (hno : ¬ i.Parses lib) :
    ∃ lex, doParse mode lib (parseFuel (newQueryStringLex query options))
        (newLexerWrapper (newQueryStringLex query options) options) = some lex ∧
      lex.errs ≠ [] ∧
      ParseQueryString mode lib newQueryStringLex query options =
        .returns (.error (errorfText lib ("\n".intercalate lex.errs))) := by
  obtain ⟨lex, h⟩ := doParse_total mode lib (newQueryStringLex query options) options
  have hl : lex.errs ≠ [] := by
    intro hl
    obtain ⟨cs, hcs, _⟩ := doParse_sound mode lib _ _ options lex h hl
    exact hno (searchParts_parses lib options _ cs hcs i hmem)
  exact ⟨lex, h, hl,
    ParseQueryString_failed mode lib newQueryStringLex query options lex hq h hl⟩

theorem ParseFloat_empty (lib : GoLib) :
    ParseFloat lib "" = .error { func := "ParseFloat", num := "", err := NumErrKind.ErrSyntax } := by
  rfl

theorem ParseFloat_one (lib : GoLib) : ParseFloat lib "1" = .ok (Float64.ofNat 1) :=
  ParseFloat_digits lib "1" (by decide) (by decide) (by decide)

/-- The fuzzy builder has no default for a missing number: on the empty text
`strconv.ParseFloat` reports a syntax error, and the builder gives no query. -/
theorem queryStringStringTokenFuzzy_empty (lib : GoLib) (field str : String) :
    queryStringStringTokenFuzzy lib field str "" =
      .error ("invalid fuzziness value: " ++
        NumError.Error lib
          { func := "ParseFloat", num := "", err := NumErrKind.ErrSyntax }) := by
  simp [queryStringStringTokenFuzzy, ParseFloat_empty]

/-- The fuzzy builder on the text `1`: a match query with fuzziness 1. -/
theorem queryStringStringTokenFuzzy_one (lib : GoLib) (field str : String) :
    queryStringStringTokenFuzzy lib field str "1" =
      .ok (Query.MatchQuery str field none 1 MatchQueryOperator.MatchQueryOperatorOr) := by
  simp [queryStringStringTokenFuzzy, ParseFloat_one, Float64.toInt_ofNat lib 1 (by norm_num),
    NewMatchQuery, Query.SetFuzziness, Query.SetField]

theorem queryStringSetBoost_boostField (q q1 : Query) (b : Float64)
    (h : queryStringSetBoost q b = .ok (.ok q1)) : q1.boostField = some b := by
  cases q <;> simp [queryStringSetBoost] at h <;> subst h <;> rfl

/-- The function `queryStringParseBoost` has no default for a missing number either: on the
empty text it returns the error of `strconv.ParseFloat`. -/
theorem queryStringParseBoost_empty (lib : GoLib) :
    queryStringParseBoost lib "" =
      .error ("invalid boost value: " ++
        NumError.Error lib
          { func := "ParseFloat", num := "", err := NumErrKind.ErrSyntax }) := by
  simp [queryStringParseBoost, ParseFloat_empty]

/-- The function `queryStringParseBoost` on the text `1`: the boost 1.0. -/
theorem queryStringParseBoost_one (lib : GoLib) :
    queryStringParseBoost lib "1" = .ok (Float64.ofNat 1) := by
  simp [queryStringParseBoost, ParseFloat_one]

/-! ## Numbers out of range -/

theorem roundHalfEven_ge (a b : Nat) : a / b ≤ roundHalfEven a b := by
  unfold roundHalfEven
  simp only
  split_ifs <;> omega

theorem log2_one : Nat.log2 1 = 0 := by
  have h := Nat.log2_two_pow (n := 0)
  simpa using h

set_option exponentiation.threshold 2000 in
/-- A whole number from `2 ^ 1024` on is rounded to an infinity. -/
theorem roundFloat64_overflow (a : Nat) (h : 2 ^ 1024 ≤ a) : roundFloat64 a 1 = none := by
  have hpos : 0 < 2 ^ 1024 := pow_pos (by norm_num) _
  have ha : a ≠ 0 := Nat.pos_iff_ne_zero.mp (lt_of_lt_of_le hpos h)
  have hL1 : 2 ^ a.log2 ≤ a := Nat.log2_self_le ha
  have hL2 : 1024 ≤ a.log2 := (Nat.le_log2 (k := 1024) ha).mpr h
  have hb : binExp a 1 = (a.log2 : Int) := by
    simp [binExp, pow2Le, log2_one, hL1]
  have hk : ((a.log2 : Int) - 52).toNat = a.log2 - 52 := by omega
  have hq : 2 ^ 52 ≤ a / 2 ^ (a.log2 - 52) := by
    rw [Nat.le_div_iff_mul_le (pow_pos (by norm_num) _)]
    rw [← Nat.pow_add]
    have : 52 + (a.log2 - 52) = a.log2 := by omega
    rw [this]
    exact hL1
  have hm := roundHalfEven_ge a (2 ^ (a.log2 - 52))
  have hbig : 2 ^ 1024 ≤ roundHalfEven a (2 ^ (a.log2 - 52)) * 2 ^ (a.log2 - 52) := by
    calc 2 ^ 1024 ≤ 2 ^ a.log2 := Nat.pow_le_pow_right (by norm_num) hL2
      _ = 2 ^ 52 * 2 ^ (a.log2 - 52) := by
        rw [← Nat.pow_add]
        congr 1
        omega
      _ ≤ roundHalfEven a (2 ^ (a.log2 - 52)) * 2 ^ (a.log2 - 52) :=
        Nat.mul_le_mul_right _ (le_trans hq hm)
  unfold roundFloat64
  rw [if_neg ha]
  simp only [hb]
  have he : max (a.log2 : Int) (-1022) = (a.log2 : Int) := max_eq_left (by omega)
  rw [he]
  have h0 : (0 : Int) ≤ (a.log2 : Int) - 52 := by omega
  rw [if_pos h0, hk, Nat.one_mul, if_pos hbig]


set_option exponentiation.threshold 2000 in
/-- A string of digits that writes a number from `2 ^ 1024` on is out of range. -/
theorem ParseFloat_overflow (lib : GoLib) (s : String) (hne : s.data ≠ [])
    (hd : ∀ c ∈ s.data, isDigit c = true) (h : 2 ^ 1024 ≤ decVal s.data) :
    ParseFloat lib s = .error { func := "ParseFloat", num := s, err := NumErrKind.ErrRange } := by
  have hany : s.data.any isLetter = false := by
    rw [List.any_eq_false]
    intro c hc
    simp [isDigit_not_letter (hd c hc)]
  obtain ⟨c, r, hcr⟩ := List.exists_cons_of_ne_nil hne
  have hc := isDigit_not_sign (hd c (by rw [hcr]; exact List.mem_cons_self _ _))
  have hs : splitSign s.data = (false, s.data) := by
    rw [hcr]; exact splitSign_of_not_sign c r hc.1 hc.2
  have h53 : ¬ decVal s.data < 9007199254740992 := by
    have h2 : (9007199254740992 : Nat) ≤ 2 ^ 1024 := by norm_num
    omega
  simp [ParseFloat, hany, hs, plainDecimal_digits s.data hne hd, decimalToFloat64, h53,
    roundFloat64_overflow _ h]

theorem nines_data : nines.data = List.replicate 369 '9' := rfl

set_option exponentiation.threshold 2000 in
set_option maxRecDepth 100000 in
theorem decVal_nines : 2 ^ 1024 ≤ decVal nines.data := by
  rw [nines_data]
  decide


theorem ParseFloat_neg_error (lib : GoLib) (d : String) (e : NumError)
    (hd : ∀ c ∈ d.data, isDigit c = true ∨ c = '.') (h : ParseFloat lib d = .error e) :
    ∃ e2, ParseFloat lib ("-" ++ d) = .error e2 := by
  have hany : d.data.any isLetter = false := by
    rw [List.any_eq_false]
    intro c hc
    rcases hd c hc with h1 | h1
    · simp [isDigit_not_letter h1]
    · subst h1; decide
  have hdata : ("-" ++ d).data = '-' :: d.data := by
    simp [String.data_append]
  have hany2 : ("-" ++ d).data.any isLetter = false := by
    rw [hdata, List.any_cons, hany]; decide
  have hs2 : splitSign ("-" ++ d).data = (true, d.data) := by
    rw [hdata]; simp [splitSign]
  have hs : splitSign d.data = (false, d.data) := by
    cases hcr : d.data with
    | nil => rfl
    | cons c r =>
      have hc : c ≠ '-' ∧ c ≠ '+' := by
        rcases hd c (by rw [hcr]; exact List.mem_cons_self _ _) with h1 | h1
        · exact isDigit_not_sign h1
        · subst h1; decide
      exact splitSign_of_not_sign c r hc.1 hc.2
  simp only [ParseFloat, hany, hany2, hs, hs2] at h ⊢
  cases hp : plainDecimal d.data with
  | none => exact ⟨_, rfl⟩
  | some md =>
    obtain ⟨mant, fd⟩ := md
    simp only [hp] at h ⊢
    cases hq : decimalToFloat64 mant fd with
    | none => exact ⟨_, rfl⟩
    | some q => simp [hq] at h

/-- Claim C19. When the text of a NUMBER (digits and points) does not parse as a float64, the
number builder and both range builders report `error parsing number` for it, with every field
and for both the strict and the inclusive comparison, the text behind a minus sign does not
parse either, and every token sequence that holds the NUMBER leaves an error on record, so
that `ParseQueryString` returns an error. -/
theorem number_unparsed (mode : LexErrorMode) (lib : GoLib)
    (newQueryStringLex : QueryStringLex) (query : String) (options : QueryStringOptions)
    (text : String) (e : NumError) (hq : query ≠ "")
    (hd : ∀ c ∈ text.data, isDigit c = true ∨ c = '.')
    (hfail : ParseFloat lib text = .error e)
    (hmem : LexItem.tok TokKind.tNUMBER text ∈ newQueryStringLex query options) :
    (∀ field : String, queryStringNumberToken lib field text =
        .error ("error parsing number: " ++ e.Error lib)) ∧
      (∀ (field : String) (orEqual : Bool),
        queryStringNumericRangeGreaterThanOrEqual lib field text orEqual =
          .error ("error parsing number: " ++ e.Error lib)) ∧
      (∀ (field : String) (orEqual : Bool),
        queryStringNumericRangeLessThanOrEqual lib field text orEqual =
          .error ("error parsing number: " ++ e.Error lib)) ∧
      (∃ e2, ParseFloat lib ("-" ++ text) = .error e2) ∧
      (∃ lex, doParse mode lib (parseFuel (newQueryStringLex query options))
          (newLexerWrapper (newQueryStringLex query options) options) = some lex ∧
        lex.errs ≠ []) ∧
      ∃ msg, ParseQueryString mode lib newQueryStringLex query options =
        .returns (.error msg) := by
  obtain ⟨e2, he2⟩ := ParseFloat_neg_error lib text e hd hfail
  have hno : ¬ (LexItem.tok TokKind.tNUMBER text).Parses lib := by
    rintro (⟨v, hv⟩ | ⟨v, hv⟩)
    · rw [hfail] at hv
      cases hv
    · rw [he2] at hv
      cases hv
  obtain ⟨lex, h, hl, hr⟩ := ParseQueryString_payload mode lib newQueryStringLex query
    options _ hq hmem hno
  refine ⟨?_, ?_, ?_, ⟨e2, he2⟩, ⟨lex, h, hl⟩, ⟨_, hr⟩⟩
  · intro field
    simp [queryStringNumberToken, hfail]
  · intro field orEqual
    simp [queryStringNumericRangeGreaterThanOrEqual, hfail]
  · intro field orEqual
    simp [queryStringNumericRangeLessThanOrEqual, hfail]

/-- Claim C19 on `field:>` followed by 369 nines, which are out of the range of a float64. -/
theorem number_unparsed_witness :
    ninesQuery ≠ "" ∧
      (∀ c ∈ nines.data, isDigit c = true ∨ c = '.') ∧
      ParseFloat plainLib nines =
        .error { func := "ParseFloat", num := nines, err := NumErrKind.ErrRange } ∧
      LexItem.tok TokKind.tNUMBER nines ∈ itemsLex ninesItems ninesQuery DefaultOptions ∧
      ((∀ field : String, queryStringNumberToken plainLib field nines =
          .error ("error parsing number: " ++ NumError.Error plainLib
            { func := "ParseFloat", num := nines, err := NumErrKind.ErrRange })) ∧
        (∀ (field : String) (orEqual : Bool),
          queryStringNumericRangeGreaterThanOrEqual plainLib field nines orEqual =
            .error ("error parsing number: " ++ NumError.Error plainLib
              { func := "ParseFloat", num := nines, err := NumErrKind.ErrRange })) ∧
        (∀ (field : String) (orEqual : Bool),
          queryStringNumericRangeLessThanOrEqual plainLib field nines orEqual =
            .error ("error parsing number: " ++ NumError.Error plainLib
              { func := "ParseFloat", num := nines, err := NumErrKind.ErrRange })) ∧
        (∃ e2, ParseFloat plainLib ("-" ++ nines) = .error e2) ∧
        (∃ lex, doParse LexErrorMode.records plainLib
            (parseFuel (itemsLex ninesItems ninesQuery DefaultOptions))
            (newLexerWrapper (itemsLex ninesItems ninesQuery DefaultOptions)
              DefaultOptions) = some lex ∧
          lex.errs ≠ []) ∧
        ∃ msg, ParseQueryString LexErrorMode.records plainLib (itemsLex ninesItems)
          ninesQuery DefaultOptions = .returns (.error msg)) :=
  have hd : ∀ c ∈ nines.data, isDigit c = true ∨ c = '.' := by
    intro c hc
    rw [nines_data] at hc
    rw [List.eq_of_mem_replicate hc]
    exact Or.inl (by decide)
  have hfail : ParseFloat plainLib nines =
      .error { func := "ParseFloat", num := nines, err := NumErrKind.ErrRange } :=
    ParseFloat_overflow plainLib nines (by rw [nines_data]; decide)
      (by
        intro c hc
        rw [nines_data] at hc
        rw [List.eq_of_mem_replicate hc]
        decide)
      decVal_nines
  ⟨by decide, hd, hfail, by simp [itemsLex, ninesItems],
    number_unparsed LexErrorMode.records plainLib (itemsLex ninesItems) ninesQuery
      DefaultOptions nines _ (by decide) hd hfail (by simp [itemsLex, ninesItems])⟩

/-! ## Boosts -/

/-- Claim C13, at the input on which the code departs from it. The type switch of
`queryStringSetBoost` has no case for `*bluge.TermQuery`: a term query is not given the boost
but the error `cannot boost *bluge.TermQuery`, so `Field:term^2` with `Field` as a term field
is rejected. Each of the other seven variants is returned with the boost `b` and no error. -/
theorem queryStringSetBoost_variants (b : Float64) :
    (∀ (t f : String) (b0 : Option Float64),
        queryStringSetBoost (Query.TermQuery t f b0) b =
          .ok (.error "cannot boost *bluge.TermQuery")) ∧
      ParseQueryString LexErrorMode.records plainLib (itemsLex termBoostItems) "Field:term^2"
          termFieldOptions = .returns (.error "cannot boost *bluge.TermQuery") ∧
      (∀ (m f : String) (b0 : Option Float64) (fz : Int) (op : MatchQueryOperator),
        queryStringSetBoost (Query.MatchQuery m f b0 fz op) b =
          .ok (.ok (Query.MatchQuery m f (some b) fz op))) ∧
      (∀ (m f : String) (b0 : Option Float64),
        queryStringSetBoost (Query.MatchPhraseQuery m f b0) b =
          .ok (.ok (Query.MatchPhraseQuery m f (some b)))) ∧
      (∀ (r f : String) (b0 : Option Float64),
        queryStringSetBoost (Query.RegexpQuery r f b0) b =
          .ok (.ok (Query.RegexpQuery r f (some b)))) ∧
      (∀ (w f : String) (b0 : Option Float64),
        queryStringSetBoost (Query.WildcardQuery w f b0) b =
          .ok (.ok (Query.WildcardQuery w f (some b)))) ∧
      (∀ (lo hi : Float64) (il ih : Bool) (f : String) (b0 : Option Float64),
        queryStringSetBoost (Query.NumericRangeQuery lo hi il ih f b0) b =
          .ok (.ok (Query.NumericRangeQuery lo hi il ih f (some b)))) ∧
      (∀ (s e : Time) (il ih : Bool) (f : String) (b0 : Option Float64),
        queryStringSetBoost (Query.DateRangeQuery s e il ih f b0) b =
          .ok (.ok (Query.DateRangeQuery s e il ih f (some b)))) ∧
      (∀ (ms ss mns : List Query) (b0 : Option Float64) (k : Int),
        queryStringSetBoost (Query.BooleanQuery ms ss mns b0 k) b =
          .ok (.ok (Query.BooleanQuery ms ss mns (some b) k))) :=
  ⟨fun _ _ _ => rfl, rfl, fun _ _ _ _ _ => rfl, fun _ _ _ => rfl, fun _ _ _ => rfl,
    fun _ _ _ => rfl, fun _ _ _ _ _ _ => rfl, fun _ _ _ _ _ _ => rfl,
    fun _ _ _ _ _ => rfl⟩

theorem dropWhile_head_not {α : Type} (p : α → Bool) (l : List α) (y : α) (r : List α)
    (h : l.dropWhile p = y :: r) : p y = false := by
  induction l with
  | nil => simp at h
  | cons x xs ih =>
    by_cases hx : p x = true
    · rw [List.dropWhile_cons_of_pos hx] at h
      exact ih h
    · rw [List.dropWhile_cons_of_neg hx] at h
      cases h
      simpa using hx

/-- A clause that is not a plain term divides the reference coalescing. -/
theorem coalesceRef_append_other (q : Query) (hq : isPlainTerm q = false) (n : Nat) :
    ∀ pre post : List Query, pre.length ≤ n →
      coalesceRef (pre ++ q :: post) = coalesceRef pre ++ q :: coalesceRef post := by
  induction n with
  | zero =>
    intro pre post h
    have : pre = [] := List.length_eq_zero.mp (Nat.le_zero.mp h)
    subst this
    simp [coalesceRef_nil, coalesceRef_other q post hq]
  | succ n ih =>
    intro pre post h
    have hsplit := List.takeWhile_append_dropWhile isPlainTerm pre
    have hrun : ∀ x ∈ pre.takeWhile isPlainTerm, isPlainTerm x = true :=
      fun x hx => (List.mem_takeWhile_imp hx)
    cases hd : pre.dropWhile isPlainTerm with
    | nil =>
      rw [hd, List.append_nil] at hsplit
      rw [← hsplit, coalesceRef_run_other _ post q hrun hq, coalesceRef_run _ hrun]
    | cons y r2 =>
      have hy := dropWhile_head_not isPlainTerm pre y r2 hd
      rw [hd] at hsplit
      have hlen : r2.length ≤ n := by
        have h1 : pre.length = (pre.takeWhile isPlainTerm).length + (r2.length + 1) := by
          conv_lhs => rw [← hsplit]
          simp
        omega
      rw [← hsplit, List.append_assoc, List.cons_append,
        coalesceRef_run_other _ (r2 ++ q :: post) y hrun hy, ih r2 post hlen,
        coalesceRef_run_other _ r2 y hrun hy]
      simp

/-- Claim C12. A STRING without a field whose text is plain (not slash-delimited, without `*`
and `?`, not `true` or `false`, the empty field name not being a term field), followed by a
BOOST whose payload parses to a `b` other than 1: production 9 builds `MatchQuery(text)` with
operator AND, production 26 the boost `b`, and production 4 adds the match query with the
boost `b` to the root. That clause is not a plain term for the coalescer, which therefore
keeps it as it is between the coalescing of the clauses before it and the coalescing of the
clauses after it, for every parse without an error whose Must list holds it. -/
theorem boosted_term_kept (mode : LexErrorMode) (lib : GoLib) (l : lexerWrapper)
    (text payload : String) (b : Float64) (d0 d1 d2 d3 yyVAL : yySymType)
    (hslash : ¬ (text.data.head? = some '/' ∧ text.data.getLast? = some '/'))
    (hwild : text.data.any (fun c => c == '*' || c == '?') = false)
    (hterm : isTermField l.options.termFields "" = false)
    (htrue : text ≠ "true") (hfalse : text ≠ "false")
    (hb : queryStringParseBoost lib payload = .ok b) (hne : b ≠ Float64.ofNat 1)
    (hlog : l.logDebugGrammarf = .ok ()) :
    yyAction mode lib l 9 [d0, { d1 with s := text }] yyVAL =
        Act.ok l { yyVAL with q := (Query.MatchQuery text "" none 0
          MatchQueryOperator.MatchQueryOperatorAnd) } ∧
      yyAction mode lib l 26 [d0, { d1 with s := payload }] yyVAL =
        Act.ok l { yyVAL with pf := some b } ∧
      yyAction mode lib l 4
          [d0, d1,
           { d2 with q := (Query.MatchQuery text "" none 0
              MatchQueryOperator.MatchQueryOperatorAnd) },
           { d3 with pf := some b }] yyVAL =
        Act.ok { l with query := (addRole l.query d1.n
          (Query.MatchQuery text "" (some b) 0 MatchQueryOperator.MatchQueryOperatorAnd)) }
          yyVAL ∧
      plainText
          (Query.MatchQuery text "" (some b) 0 MatchQueryOperator.MatchQueryOperatorAnd) =
        .ok none ∧
      (∀ pre post : List Query,
        coalesceRef (pre ++
            Query.MatchQuery text "" (some b) 0 MatchQueryOperator.MatchQueryOperatorAnd ::
              post) =
          coalesceRef pre ++
            Query.MatchQuery text "" (some b) 0 MatchQueryOperator.MatchQueryOperatorAnd ::
              coalesceRef post) ∧
      (∀ (newQueryStringLex : QueryStringLex) (query : String) (options : QueryStringOptions)
          (lex : lexerWrapper) (pre post : List Query),
        query ≠ "" →
        doParse mode lib (parseFuel (newQueryStringLex query options))
          (newLexerWrapper (newQueryStringLex query options) options) = some lex →
        lex.errs = [] →
        lex.query.musts = pre ++
          Query.MatchQuery text "" (some b) 0 MatchQueryOperator.MatchQueryOperatorAnd ::
            post →
        ParseQueryString mode lib newQueryStringLex query options =
          .returns (.ok (Query.BooleanQuery
            (coalesceRef pre ++
              Query.MatchQuery text "" (some b) 0 MatchQueryOperator.MatchQueryOperatorAnd ::
                coalesceRef post)
            lex.query.shoulds lex.query.mustNots none 1))) := by
  have hplain : isPlainTerm
      (Query.MatchQuery text "" (some b) 0 MatchQueryOperator.MatchQueryOperatorAnd) =
      false := by
    simp [isPlainTerm, boostValue, hne]
  have hq : queryStringStringToken l "" text =
      .ok (Query.MatchQuery text "" none 0 MatchQueryOperator.MatchQueryOperatorAnd) := by
    simp [queryStringStringToken, hslash, hwild, hterm, htrue, hfalse, NewMatchQuery,
      Query.SetField, Query.SetOperator]
  refine ⟨?_, ?_, ?_, ?_, ?_, ?_⟩
  · simp [yyAction, logged, hlog, setQueryOrPanic, dollar, hq]
  · simp [yyAction, logged, hlog, setBoost, dollar, hb]
  · simp [yyAction, searchPartAction, boostedClause, dollar, queryStringSetBoost]
  · exact plainText_other _ hplain (by intro h; cases h)
  · intro pre post
    exact coalesceRef_append_other _ hplain pre.length pre post (Nat.le_refl _)
  · intro newQueryStringLex query options lex pre post hq1 h hl hm
    rw [ParseQueryString_parsed mode lib newQueryStringLex query options lex hq1 h hl, hm,
      coalesceRef_append_other _ hplain pre.length pre post (Nat.le_refl _)]

/-- Claim C12 on `test^3`, and `test^3 other^6` as a whole: two Must clauses, with the boosts
3 and 6. -/
theorem boosted_term_kept_witness :
    yyAction LexErrorMode.records plainLib (plainWrapper []) 4
        [yySymType.zero, { yySymType.zero with n := queryMust },
         { yySymType.zero with q := (Query.MatchQuery "test" "" none 0
            MatchQueryOperator.MatchQueryOperatorAnd) },
         { yySymType.zero with pf := some (Float64.ofNat 3) }] yySymType.zero =
        Act.ok { plainWrapper [] with query := (addRole (plainWrapper []).query queryMust
          (Query.MatchQuery "test" "" (some (Float64.ofNat 3)) 0
            MatchQueryOperator.MatchQueryOperatorAnd)) }
          yySymType.zero ∧
      ParseQueryString LexErrorMode.records plainLib (itemsLex boostItems) "test^3 other^6"
          DefaultOptions =
        .returns (.ok (Query.BooleanQuery
          [Query.MatchQuery "test" "" (some (Float64.ofNat 3)) 0
             MatchQueryOperator.MatchQueryOperatorAnd,
           Query.MatchQuery "other" "" (some (Float64.ofNat 6)) 0
             MatchQueryOperator.MatchQueryOperatorAnd]
          [] [] none 1)) :=
  ⟨(boosted_term_kept LexErrorMode.records plainLib (plainWrapper []) "test" "3"
      (Float64.ofNat 3) yySymType.zero { yySymType.zero with n := queryMust } yySymType.zero
      yySymType.zero yySymType.zero (by decide) (by decide) rfl (by decide) (by decide)
      (by simp [queryStringParseBoost, ParseFloat_digits plainLib "3" (by decide) (by decide)
        (by decide), decVal])
      (by simp [Float64.ofNat]) rfl).2.2.1,
    rfl⟩

/-! ## Field names -/

/-- Claim C15. The name that `fieldname` gives a field is the lower-cased name when the
option `lowerFields` is set and the name as written otherwise, and each production with a
field works on that name alone: it is the field of the sub-query built (term, fuzzy, number,
phrase, the four numeric comparisons and the four date comparisons), and it is the name
looked up in `termFields` by the term and the phrase productions. -/
theorem fieldname_resolves (mode : LexErrorMode) (lib : GoLib) (l : lexerWrapper)
    (f text num phrase : String) (v : Float64) (t : Time) (d0 d1 d2 d3 d4 d5 yyVAL : yySymType)
    (hlog : l.logDebugGrammarf = .ok ())
    (hslash : ¬ (text.data.head? = some '/' ∧ text.data.getLast? = some '/'))
    (hv : ParseFloat lib num = .ok v) (ht : lib.timeParse l.dateFormat phrase = .ok t) :
    l.fieldname lib f = (if l.options.lowerFields then lib.toLower f else f) ∧
      yyAction mode lib l 14 [d0, { d1 with s := f }, d2, { d3 with s := text }] yyVAL =
        Act.ok l { yyVAL with q :=
          (if text.data.any (fun c => c == '*' || c == '?') then
            Query.WildcardQuery text (l.fieldname lib f) none
          else if isTermField l.options.termFields (l.fieldname lib f) then
            Query.TermQuery text (l.fieldname lib f) none
          else if text = "true" then
            Query.NumericRangeQuery (Float64.ofNat 1) (Float64.ofNat 1) true true
              (l.fieldname lib f) none
          else if text = "false" then
            Query.NumericRangeQuery (Float64.ofNat 0) (Float64.ofNat 0) true true
              (l.fieldname lib f) none
          else Query.MatchQuery text (l.fieldname lib f) none 0
            MatchQueryOperator.MatchQueryOperatorAnd) } ∧
      yyAction mode lib l 11
          [d0, { d1 with s := f }, d2, { d3 with s := text }, { d4 with s := num }] yyVAL =
        Act.ok l { yyVAL with q :=
          (Query.MatchQuery text (l.fieldname lib f) none (v.toInt lib)
            MatchQueryOperator.MatchQueryOperatorOr) } ∧
      yyAction mode lib l 15 [d0, { d1 with s := f }, d2, { d3 with s := num }] yyVAL =
        Act.ok l { yyVAL with q :=
          (Query.BooleanQuery []
            [Query.MatchQuery num (l.fieldname lib f) none 0
               MatchQueryOperator.MatchQueryOperatorOr,
             Query.NumericRangeQuery v v true true (l.fieldname lib f) none] [] none 1) } ∧
      yyAction mode lib l 16 [d0, { d1 with s := f }, d2, { d3 with s := text }] yyVAL =
        Act.ok l { yyVAL with q :=
          (if isTermField l.options.termFields (l.fieldname lib f) then
            Query.TermQuery text (l.fieldname lib f) none
          else if l.fieldname lib f = "" then
            Query.BooleanQuery []
              [Query.MatchPhraseQuery text "" none, Query.TermQuery text "" none] [] none 1
          else Query.MatchPhraseQuery text (l.fieldname lib f) none) } ∧
      yyAction mode lib l 17 [d0, { d1 with s := f }, d2, d3, { d4 with s := num }] yyVAL =
        Act.ok l { yyVAL with q :=
          (Query.NumericRangeQuery v MaxNumeric false true (l.fieldname lib f) none) } ∧
      yyAction mode lib l 18 [d0, { d1 with s := f }, d2, d3, d4, { d5 with s := num }]
          yyVAL =
        Act.ok l { yyVAL with q :=
          (Query.NumericRangeQuery v MaxNumeric true true (l.fieldname lib f) none) } ∧
      yyAction mode lib l 19 [d0, { d1 with s := f }, d2, d3, { d4 with s := num }] yyVAL =
        Act.ok l { yyVAL with q :=
          (Query.NumericRangeQuery MinNumeric v true false (l.fieldname lib f) none) } ∧
      yyAction mode lib l 20 [d0, { d1 with s := f }, d2, d3, d4, { d5 with s := num }]
          yyVAL =
        Act.ok l { yyVAL with q :=
          (Query.NumericRangeQuery MinNumeric v true true (l.fieldname lib f) none) } ∧
      yyAction mode lib l 21 [d0, { d1 with s := f }, d2, d3, { d4 with s := phrase }]
          yyVAL =
        Act.ok l { yyVAL with q :=
          (Query.DateRangeQuery t Time.zero false true (l.fieldname lib f) none) } ∧
      yyAction mode lib l 22 [d0, { d1 with s := f }, d2, d3, d4, { d5 with s := phrase }]
          yyVAL =
        Act.ok l { yyVAL with q :=
          (Query.DateRangeQuery t Time.zero true true (l.fieldname lib f) none) } ∧
      yyAction mode lib l 23 [d0, { d1 with s := f }, d2, d3, { d4 with s := phrase }]
          yyVAL =
        Act.ok l { yyVAL with q :=
          (Query.DateRangeQuery Time.zero t true false (l.fieldname lib f) none) } ∧
      yyAction mode lib l 24 [d0, { d1 with s := f }, d2, d3, d4, { d5 with s := phrase }]
          yyVAL =
        Act.ok l { yyVAL with q :=
          (Query.DateRangeQuery Time.zero t true true (l.fieldname lib f) none) } := by
  refine ⟨rfl, ?_, ?_, ?_, ?_, ?_, ?_, ?_, ?_, ?_, ?_, ?_, ?_⟩
  · simp only [yyAction, logged, hlog, dollar, List.getD_cons_succ, List.getD_cons_zero,
      queryStringStringToken, hslash, if_false]
    norm_num
    split_ifs <;> rfl
  · simp [yyAction, logged, hlog, dollar, setQuery, queryStringStringTokenFuzzy, hv,
      NewMatchQuery, Query.SetFuzziness, Query.SetField]
  · simp [yyAction, logged, hlog, dollar, setQuery, queryStringNumberToken, hv,
      NewMatchQuery, NewNumericRangeInclusiveQuery, Query.SetField, NewBooleanQuery,
      BooleanQuery.AddShould, BooleanQuery.SetMinShould, BooleanQuery.toQuery]
  · simp only [yyAction, logged, hlog, dollar, List.getD_cons_succ, List.getD_cons_zero,
      queryStringPhraseToken]
    norm_num
    split_ifs <;> simp_all [Query.SetField, NewBooleanQuery, BooleanQuery.AddShould,
      BooleanQuery.SetMinShould, BooleanQuery.toQuery]
  · simp [yyAction, logged, hlog, dollar, setQuery, queryStringNumericRangeGreaterThanOrEqual,
      hv, NewNumericRangeInclusiveQuery, Query.SetField]
  · simp [yyAction, logged, hlog, dollar, setQuery, queryStringNumericRangeGreaterThanOrEqual,
      hv, NewNumericRangeInclusiveQuery, Query.SetField]
  · simp [yyAction, logged, hlog, dollar, setQuery, queryStringNumericRangeLessThanOrEqual,
      hv, NewNumericRangeInclusiveQuery, Query.SetField]
  · simp [yyAction, logged, hlog, dollar, setQuery, queryStringNumericRangeLessThanOrEqual,
      hv, NewNumericRangeInclusiveQuery, Query.SetField]
  · simp [yyAction, logged, hlog, dollar, setQuery, queryStringDateRangeGreaterThanOrEqual,
      queryTimeFromString, ht, NewDateRangeInclusiveQuery, Query.SetField]
  · simp [yyAction, logged, hlog, dollar, setQuery, queryStringDateRangeGreaterThanOrEqual,
      queryTimeFromString, ht, NewDateRangeInclusiveQuery, Query.SetField]
  · simp [yyAction, logged, hlog, dollar, setQuery, queryStringDateRangeLessThanOrEqual,
      queryTimeFromString, ht, NewDateRangeInclusiveQuery, Query.SetField]
  · simp [yyAction, logged, hlog, dollar, setQuery, queryStringDateRangeLessThanOrEqual,
      queryTimeFromString, ht, NewDateRangeInclusiveQuery, Query.SetField]

/-- Claim C15 on `+Field:term` with the option set: the field of the sub-query is `field`. -/
theorem fieldname_resolves_witness :
    (newLexerWrapper [] DefaultOptions.WithLowercaseFields).fieldname plainLib "Field" =
        "field" ∧
      yyAction LexErrorMode.records plainLib
          (newLexerWrapper [] DefaultOptions.WithLowercaseFields) 14
          [yySymType.zero, { yySymType.zero with s := "Field" }, yySymType.zero,
           { yySymType.zero with s := "term" }] yySymType.zero =
        Act.ok (newLexerWrapper [] DefaultOptions.WithLowercaseFields)
          { yySymType.zero with q :=
            (Query.MatchQuery "term" "field" none 0
              MatchQueryOperator.MatchQueryOperatorAnd) } ∧
      ParseQueryString LexErrorMode.records plainLib (itemsLex lowerItems) "+Field:term"
          DefaultOptions.WithLowercaseFields =
        .returns (.ok (Query.BooleanQuery
          [Query.MatchQuery "term" "field" none 0 MatchQueryOperator.MatchQueryOperatorAnd]
          [] [] none 1)) ∧
      ParseQueryString LexErrorMode.records plainLib (itemsLex lowerItems) "+Field:term"
          DefaultOptions =
        .returns (.ok (Query.BooleanQuery
          [Query.MatchQuery "term" "Field" none 0 MatchQueryOperator.MatchQueryOperatorAnd]
          [] [] none 1)) :=
  have h := fieldname_resolves LexErrorMode.records plainLib
    (newLexerWrapper [] DefaultOptions.WithLowercaseFields) "Field" "term" "5"
    "2006-01-02T15:04:05Z" (Float64.ofNat 5) { wall := 0, ext := 63271811045, loc := none }
    yySymType.zero yySymType.zero yySymType.zero yySymType.zero yySymType.zero yySymType.zero
    yySymType.zero rfl (by decide)
    (ParseFloat_digits plainLib "5" (by decide) (by decide) (by decide)) rfl
  ⟨h.1.trans rfl, h.2.1.trans rfl, rfl, rfl⟩

/-! ## The order of the tokens -/

theorem Place.read_none (items : List LexItem) : Place.read none items = none := by
  induction items with
  | nil => rfl
  | cons i rest ih =>
    cases i with
    | tok k s => exact ih
    | err m => rfl

theorem Place.read_append (p : Option Place) (a b : List LexItem) :
    Place.read p (a ++ b) = Place.read (Place.read p a) b := by
  induction a generalizing p with
  | nil => rfl
  | cons i rest ih =>
    cases i with
    | tok k s => exact ih _
    | err m => exact (Place.read_none b).symm

theorem searchLead_read (ts : List LexItem) (n : Int) (h : SearchLead ts n) (p : Place)
    (hp : p.between = true) :
    ∃ p1, (p1.between = true ∨ p1 = Place.lead) ∧
      ∀ rest, Place.read (some p) (ts ++ rest) = Place.read (some p1) rest := by
  cases h with
  | absent => exact ⟨p, Or.inl hp, fun _ => rfl⟩
  | question s => cases p <;> first | exact ⟨Place.lead, Or.inr rfl, fun _ => rfl⟩ | cases hp
  | plus s => cases p <;> first | exact ⟨Place.lead, Or.inr rfl, fun _ => rfl⟩ | cases hp
  | minus s => cases p <;> first | exact ⟨Place.lead, Or.inr rfl, fun _ => rfl⟩ | cases hp

theorem posOrNegNumber_read (ts : List LexItem) (s : String) (h : PosOrNegNumber ts s)
    (p : Place) (hp : p = Place.colon ∨ p = Place.compare ∨ p = Place.compareEqual) :
    ∀ rest, Place.read (some p) (ts ++ rest) = Place.read (some Place.clause) rest := by
  cases h with
  | number s => rcases hp with rfl | rfl | rfl <;> exact fun _ => rfl
  | negative m s => rcases hp with rfl | rfl | rfl <;> exact fun _ => rfl

theorem Place.read_field (p : Place) (hp : p.between = true ∨ p = Place.lead) (f c : String)
    (rest : List LexItem) :
    Place.read (some p)
        (LexItem.tok TokKind.tSTRING f :: LexItem.tok TokKind.tCOLON c :: rest) =
      Place.read (some Place.colon) rest := by
  rcases hp with hp | rfl
  · cases p <;> first | rfl | cases hp
  · rfl

theorem searchBase_read (lib : GoLib) (o : QueryStringOptions) (ts : List LexItem)
    (q : Query) (h : SearchBase lib o ts q) (p : Place)
    (hp : p.between = true ∨ p = Place.lead) :
    ∃ p2, p2.afterBase = true ∧
      ∀ rest, Place.read (some p) (ts ++ rest) = Place.read (some p2) rest := by
  cases h with
  | string s q h =>
    refine ⟨Place.term, rfl, fun rest => ?_⟩
    rcases hp with hp | rfl
    · cases p <;> first | rfl | cases hp
    · rfl
  | fuzzy s n q h =>
    refine ⟨Place.clause, rfl, fun rest => ?_⟩
    rcases hp with hp | rfl
    · cases p <;> first | rfl | cases hp
    · rfl
  | number s q h =>
    refine ⟨Place.clause, rfl, fun rest => ?_⟩
    cases p <;> rfl
  | phrase s =>
    refine ⟨Place.clause, rfl, fun rest => ?_⟩
    rcases hp with hp | rfl
    · cases p <;> first | rfl | cases hp
    · rfl
  | fieldFuzzy f c s n q h =>
    exact ⟨Place.clause, rfl, fun rest => (Place.read_field p hp f c _).trans rfl⟩
  | fieldString f c s q h =>
    exact ⟨Place.fieldTerm, rfl, fun rest => (Place.read_field p hp f c _).trans rfl⟩
  | fieldNumber f c ts s q hn h =>
    exact ⟨Place.clause, rfl, fun rest => (Place.read_field p hp f c _).trans
      (posOrNegNumber_read ts s hn Place.colon (Or.inl rfl) rest)⟩
  | fieldPhrase f c s =>
    exact ⟨Place.clause, rfl, fun rest => (Place.read_field p hp f c _).trans rfl⟩
  | greater f c g ts s q hn h =>
    exact ⟨Place.clause, rfl, fun rest => (Place.read_field p hp f c _).trans
      (posOrNegNumber_read ts s hn Place.compare (Or.inr (Or.inl rfl)) rest)⟩
  | greaterEqual f c g e ts s q hn h =>
    exact ⟨Place.clause, rfl, fun rest => (Place.read_field p hp f c _).trans
      (posOrNegNumber_read ts s hn Place.compareEqual (Or.inr (Or.inr rfl)) rest)⟩
  | less f c g ts s q hn h =>
    exact ⟨Place.clause, rfl, fun rest => (Place.read_field p hp f c _).trans
      (posOrNegNumber_read ts s hn Place.compare (Or.inr (Or.inl rfl)) rest)⟩
  | lessEqual f c g e ts s q hn h =>
    exact ⟨Place.clause, rfl, fun rest => (Place.read_field p hp f c _).trans
      (posOrNegNumber_read ts s hn Place.compareEqual (Or.inr (Or.inr rfl)) rest)⟩
  | greaterDate f c g d q h =>
    exact ⟨Place.clause, rfl, fun rest => (Place.read_field p hp f c _).trans rfl⟩
  | greaterEqualDate f c g e d q h =>
    exact ⟨Place.clause, rfl, fun rest => (Place.read_field p hp f c _).trans rfl⟩
  | lessDate f c g d q h =>
    exact ⟨Place.clause, rfl, fun rest => (Place.read_field p hp f c _).trans rfl⟩
  | lessEqualDate f c g e d q h =>
    exact ⟨Place.clause, rfl, fun rest => (Place.read_field p hp f c _).trans rfl⟩

theorem searchSuffix_read (lib : GoLib) (ts : List LexItem) (pf : Option Float64)
    (h : SearchSuffix lib ts pf) (p : Place) (hp : p.afterBase = true) :
    ∃ p3, p3.afterPart = true ∧
      ∀ rest, Place.read (some p) (ts ++ rest) = Place.read (some p3) rest := by
  cases h with
  | absent => exact ⟨p, (by cases p <;> first | rfl | cases hp), fun _ => rfl⟩
  | boost s b h =>
    refine ⟨Place.boosted, rfl, fun rest => ?_⟩
    cases p <;> first | rfl | cases hp

theorem searchPart_read (lib : GoLib) (o : QueryStringOptions) (ts : List LexItem) (n : Int)
    (q : Query) (h : SearchPart lib o ts n q) (p : Place) (hp : p.between = true) :
    ∃ p3, p3.afterPart = true ∧
      ∀ rest, Place.read (some p) (ts ++ rest) = Place.read (some p3) rest := by
  cases h with
  | mk ts1 ts2 ts3 n q0 pf q1 h1 h2 h3 h4 =>
    obtain ⟨p1, hp1, e1⟩ := searchLead_read ts1 n h1 p hp
    obtain ⟨p2, hp2, e2⟩ := searchBase_read lib o ts2 q0 h2 p1 hp1
    obtain ⟨p3, hp3, e3⟩ := searchSuffix_read lib ts3 pf h3 p2 hp2
    refine ⟨p3, hp3, fun rest => ?_⟩
    rw [List.append_assoc, List.append_assoc, e1, e2, e3]

theorem Place.afterPart_between (p : Place) (h : p.afterPart = true) : p.between = true := by
  cases p <;> first | rfl | cases h

/-- A sequence of search parts can be read to its end. -/
theorem searchParts_read (lib : GoLib) (o : QueryStringOptions) (ts : List LexItem)
    (cs : List (Int × Query)) (h : SearchParts lib o ts cs) :
    ∀ p : Place, p.between = true →
      ∃ p3, p3.afterPart = true ∧ Place.read (some p) ts = some p3 := by
  induction h with
  | one ts n q h =>
    intro p hp
    obtain ⟨p3, hp3, e⟩ := searchPart_read lib o ts n q h p hp
    refine ⟨p3, hp3, ?_⟩
    have := e []
    rwa [List.append_nil] at this
  | cons ts rest n q cs h _ ih =>
    intro p hp
    obtain ⟨p3, hp3, e⟩ := searchPart_read lib o ts n q h p hp
    obtain ⟨p4, hp4, e4⟩ := ih p3 (Place.afterPart_between p3 hp3)
    exact ⟨p4, hp4, by rw [e, e4]⟩

theorem Place.read_stuck (p : Option Place) (pre pat post : List LexItem)
    (h : ∀ x : Place, Place.read (some x) pat = none) :
    Place.read p (pre ++ (pat ++ post)) = none := by
  rw [Place.read_append, Place.read_append]
  cases hx : Place.read p pre with
  | none => rw [Place.read_none, Place.read_none]
  | some x => rw [h x, Place.read_none]

/-- A token sequence with a misplaced token cannot be read. -/
theorem misplaced_read (items : List LexItem) (h : Misplaced items) :
    Place.read (some Place.start) items = none := by
  cases h with
  | boostFirst b rest => exact Place.read_none rest
  | boostAfter pre k a b post hk =>
    refine Place.read_stuck _ pre [LexItem.tok k a, LexItem.tok TokKind.tBOOST b] post ?_
    intro x
    rcases hk with rfl | rfl | rfl | rfl <;> cases x <;> rfl
  | afterColon pre c k a post hk =>
    refine Place.read_stuck _ pre [LexItem.tok TokKind.tCOLON c, LexItem.tok k a] post ?_
    intro x
    rcases hk with rfl | rfl | rfl | rfl <;> cases x <;> rfl
  | afterSign pre c m k a post hk =>
    refine Place.read_stuck _ pre
      [LexItem.tok TokKind.tCOLON c, LexItem.tok TokKind.tMINUS m, LexItem.tok k a] post ?_
    intro x
    cases k <;> first | (cases x <;> rfl) | exact absurd rfl hk
  | compared pre op g s post hop =>
    refine Place.read_stuck _ pre [LexItem.tok op g, LexItem.tok TokKind.tSTRING s] post ?_
    intro x
    rcases hop with rfl | rfl <;> cases x <;> rfl
  | comparedEqual pre op g e s post hop =>
    refine Place.read_stuck _ pre
      [LexItem.tok op g, LexItem.tok TokKind.tEQUAL e, LexItem.tok TokKind.tSTRING s] post ?_
    intro x
    rcases hop with rfl | rfl <;> cases x <;> rfl

/-- Claim C20. `ParseQueryString` returns an error for every token sequence that begins a
clause with BOOST (at the start, after a prefix, or after the BOOST of the clause before), or
in which a COLON is directly followed by PLUS, TILDE, BOOST or COLON, or in which the MINUS
after a COLON is followed by a token other than NUMBER, or in which GREATER or LESS, alone or
with an EQUAL behind it, is followed by a STRING: the parse leaves an error on record. -/
theorem ParseQueryString_misplaced (mode : LexErrorMode) (lib : GoLib)
    (newQueryStringLex : QueryStringLex) (query : String) (options : QueryStringOptions)
    (hq : query ≠ "") (hm : Misplaced (newQueryStringLex query options)) :
    (∃ lex, doParse mode lib (parseFuel (newQueryStringLex query options))
        (newLexerWrapper (newQueryStringLex query options) options) = some lex ∧
      lex.errs ≠ []) ∧
      ∃ msg, ParseQueryString mode lib newQueryStringLex query options =
        .returns (.error msg) := by
  obtain ⟨lex, h⟩ := doParse_total mode lib (newQueryStringLex query options) options
  have hl : lex.errs ≠ [] := by
    intro hl
    obtain ⟨cs, hcs, _⟩ := doParse_sound mode lib _ _ options lex h hl
    obtain ⟨p3, _, e⟩ := searchParts_read lib options _ cs hcs Place.start rfl
    rw [misplaced_read _ hm] at e
    cases e
  exact ⟨⟨lex, h, hl⟩, _,
    ParseQueryString_failed mode lib newQueryStringLex query options lex hq h hl⟩

/-- Claim C20 on `field:~text`. -/
theorem ParseQueryString_misplaced_witness :
    "field:~text" ≠ "" ∧ Misplaced (itemsLex colonTildeItems "field:~text" DefaultOptions) ∧
      (∃ lex, doParse LexErrorMode.records plainLib
          (parseFuel (itemsLex colonTildeItems "field:~text" DefaultOptions))
          (newLexerWrapper (itemsLex colonTildeItems "field:~text" DefaultOptions)
            DefaultOptions) = some lex ∧
        lex.errs ≠ []) ∧
      ∃ msg, ParseQueryString LexErrorMode.records plainLib (itemsLex colonTildeItems)
        "field:~text" DefaultOptions = .returns (.error msg) :=
  have hm : Misplaced (itemsLex colonTildeItems "field:~text" DefaultOptions) :=
    Misplaced.afterColon [LexItem.tok TokKind.tSTRING "field"] ":" TokKind.tTILDE "1"
      [LexItem.tok TokKind.tSTRING "text"] (Or.inr (Or.inl rfl))
  ⟨by decide, hm,
    ParseQueryString_misplaced LexErrorMode.records plainLib (itemsLex colonTildeItems)
      "field:~text" DefaultOptions (by decide) hm⟩

/-! ## The root that is returned -/

/-- Claim C23. When a text that is not empty is parsed without an error, the query returned
is a boolean query whose `minShould` is 1, which is the `minShould` of the root that the parse
left: so it is when the coalescing made the Must list shorter and the root was built anew, and
so it is when the list kept its length and the root of the parse is returned. -/
theorem ParseQueryString_minShould (mode : LexErrorMode) (lib : GoLib)
    (newQueryStringLex : QueryStringLex) (query : String) (options : QueryStringOptions)
    (lex : lexerWrapper) (hq : query ≠ "")
    (h : doParse mode lib (parseFuel (newQueryStringLex query options))
      (newLexerWrapper (newQueryStringLex query options) options) = some lex)
    (hl : lex.errs = []) :
    lex.query.minShould = 1 ∧
      ∃ c c1, Coalescer.loop lex.query.musts.length 0
          { musts := lex.query.musts, n := 0, last := Query.nilMatch, words := [] } = .ok c ∧
        c.flush = .ok c1 ∧
        (lex.query.musts.length ≠ c1.n →
          ParseQueryString mode lib newQueryStringLex query options =
            .returns (.ok (Query.BooleanQuery (c1.musts.take c1.n) lex.query.shoulds
              lex.query.mustNots none 1))) ∧
        (lex.query.musts.length = c1.n →
          ParseQueryString mode lib newQueryStringLex query options =
            .returns (.ok (Query.BooleanQuery c1.musts lex.query.shoulds
              lex.query.mustNots lex.query.boost 1))) := by
  obtain ⟨cs, hcs, hroot⟩ := doParse_sound mode lib _ _ options lex h hl
  obtain ⟨h1, _, _, _, h5⟩ := foldl_addRole cs (NewBooleanQuery.SetMinShould 1)
  rw [← hroot] at h1 h5
  have hmusts : lex.query.musts = clausesOf queryMust cs := by
    simpa [NewBooleanQuery, BooleanQuery.SetMinShould] using h1
  have hmin : lex.query.minShould = 1 := by
    simpa [NewBooleanQuery, BooleanQuery.SetMinShould] using h5
  have hnil : ∀ s ∈ lex.query.musts, s ≠ Query.nilMatch := by
    rw [hmusts]
    exact clausesOf_ne_nilMatch queryMust cs
      (searchParts_ne_nilMatch lib options _ cs hcs)
  obtain ⟨c, c1, hloop, hflush, _, _⟩ := coalesce_spec lex.query.musts hnil
  refine ⟨hmin, c, c1, hloop, hflush, ?_, ?_⟩
  · intro hn
    unfold ParseQueryString
    simp only [if_neg hq, h, hl, List.length_nil, Nat.lt_irrefl, if_false, hloop, hflush]
    rw [if_pos (by simpa using hn)]
    simp [BooleanQuery.toQuery, BooleanQuery.AddMust, BooleanQuery.AddShould,
      BooleanQuery.AddMustNot, BooleanQuery.SetMinShould, NewBooleanQuery, hmin]
  · intro hn
    unfold ParseQueryString
    simp only [if_neg hq, h, hl, List.length_nil, Nat.lt_irrefl, if_false, hloop, hflush]
    rw [if_neg (by simpa using hn)]
    simp [BooleanQuery.toQuery, hmin]

/-- Claim C23 on `a b c:d e f g`, whose root is built anew. -/
theorem ParseQueryString_minShould_witness :
    runResult.query.minShould = 1 ∧
      ∃ c c1, Coalescer.loop runResult.query.musts.length 0
          { musts := runResult.query.musts, n := 0, last := Query.nilMatch, words := [] } =
            .ok c ∧
        c.flush = .ok c1 ∧
        (runResult.query.musts.length ≠ c1.n →
          ParseQueryString LexErrorMode.records plainLib runLex "a b c:d e f g"
              DefaultOptions =
            .returns (.ok (Query.BooleanQuery (c1.musts.take c1.n) runResult.query.shoulds
              runResult.query.mustNots none 1))) ∧
        (runResult.query.musts.length = c1.n →
          ParseQueryString LexErrorMode.records plainLib runLex "a b c:d e f g"
              DefaultOptions =
            .returns (.ok (Query.BooleanQuery c1.musts runResult.query.shoulds
              runResult.query.mustNots runResult.query.boost 1))) :=
  ParseQueryString_minShould LexErrorMode.records plainLib runLex "a b c:d e f g"
    DefaultOptions runResult (by decide) rfl rfl

/-- Claim C24. When a text that is not empty is parsed without an error, the query returned
has the Should list, the MustNot list and the `minShould` of the root that the parse left,
also when the root is built anew; its Must list is the coalescing of the Must clauses alone,
in the order of the input, so that a clause with another role between two plain Must terms
does not keep them apart. -/
theorem ParseQueryString_frame (mode : LexErrorMode) (lib : GoLib)
    (newQueryStringLex : QueryStringLex) (query : String) (options : QueryStringOptions)
    (lex : lexerWrapper) (hq : query ≠ "")
    (h : doParse mode lib (parseFuel (newQueryStringLex query options))
      (newLexerWrapper (newQueryStringLex query options) options) = some lex)
    (hl : lex.errs = []) :
    ∃ cs, SearchParts lib options (newQueryStringLex query options) cs ∧
      lex.query.shoulds = clausesOf queryShould cs ∧
      lex.query.mustNots = clausesOf queryMustNot cs ∧
      ParseQueryString mode lib newQueryStringLex query options =
        .returns (.ok (Query.BooleanQuery (coalesceRef (clausesOf queryMust cs))
          lex.query.shoulds lex.query.mustNots none lex.query.minShould)) := by
  obtain ⟨cs, hcs, hroot⟩ := doParse_sound mode lib _ _ options lex h hl
  obtain ⟨h1, h2, h3, _, h5⟩ := foldl_addRole cs (NewBooleanQuery.SetMinShould 1)
  rw [← hroot] at h1 h2 h3 h5
  have hmusts : lex.query.musts = clausesOf queryMust cs := by
    simpa [NewBooleanQuery, BooleanQuery.SetMinShould] using h1
  have hmin : lex.query.minShould = 1 := by
    simpa [NewBooleanQuery, BooleanQuery.SetMinShould] using h5
  refine ⟨cs, hcs, by simpa [NewBooleanQuery, BooleanQuery.SetMinShould] using h2,
    by simpa [NewBooleanQuery, BooleanQuery.SetMinShould] using h3, ?_⟩
  rw [ParseQueryString_parsed mode lib newQueryStringLex query options lex hq h hl, hmusts,
    hmin]

/-- Claim C24 on `a ?x b`: the Must terms `a` and `b` are merged, and `x` stays the one
Should clause. -/
theorem ParseQueryString_frame_witness :
    (∃ lex, doParse LexErrorMode.records plainLib
        (parseFuel (itemsLex shouldBetweenItems "a ?x b" DefaultOptions))
        (newLexerWrapper (itemsLex shouldBetweenItems "a ?x b" DefaultOptions)
          DefaultOptions) = some lex ∧
      lex.errs = [] ∧
      ∃ cs, SearchParts plainLib DefaultOptions
          (itemsLex shouldBetweenItems "a ?x b" DefaultOptions) cs ∧
        lex.query.shoulds = clausesOf queryShould cs ∧
        lex.query.mustNots = clausesOf queryMustNot cs ∧
        ParseQueryString LexErrorMode.records plainLib (itemsLex shouldBetweenItems)
            "a ?x b" DefaultOptions =
          .returns (.ok (Query.BooleanQuery (coalesceRef (clausesOf queryMust cs))
            lex.query.shoulds lex.query.mustNots none lex.query.minShould))) ∧
      ParseQueryString LexErrorMode.records plainLib (itemsLex shouldBetweenItems) "a ?x b"
          DefaultOptions =
        .returns (.ok (Query.BooleanQuery
          [Query.MatchQuery "a b" "" none 0 MatchQueryOperator.MatchQueryOperatorAnd]
          [Query.MatchQuery "x" "" none 0 MatchQueryOperator.MatchQueryOperatorAnd]
          [] none 1)) :=
  ⟨⟨_, rfl, rfl,
    ParseQueryString_frame LexErrorMode.records plainLib (itemsLex shouldBetweenItems)
      "a ?x b" DefaultOptions _ (by decide) rfl rfl⟩, rfl⟩

/-- `ParseQueryString` returns on every text: it neither panics nor needs more rounds than the
model allows. -/
theorem ParseQueryString_returns (mode : LexErrorMode) (lib : GoLib)
    (newQueryStringLex : QueryStringLex) (query : String) (options : QueryStringOptions) :
    ∃ res, ParseQueryString mode lib newQueryStringLex query options = .returns res := by
  by_cases hq : query = ""
  · exact ⟨.ok Query.MatchNoneQuery, by simp [ParseQueryString, hq]⟩
  · obtain ⟨lex, h⟩ := doParse_total mode lib (newQueryStringLex query options) options
    by_cases hl : lex.errs = []
    · exact ⟨_, ParseQueryString_parsed mode lib newQueryStringLex query options lex hq h hl⟩
    · exact ⟨_, ParseQueryString_failed mode lib newQueryStringLex query options lex hq h hl⟩

/-- Claim C28. When a semantic action panics while `Parse` runs, `doParse` recovers: the
wrapper is the one of the moment of the panic with one more error, `parse error: ` followed by
the value of the panic, and `ParseQueryString` returns an error printed from the errors on
record, and no query. No text makes `ParseQueryString` panic. -/
theorem ParseQueryString_recovers (mode : LexErrorMode) (lib : GoLib)
    (newQueryStringLex : QueryStringLex) (query : String) (options : QueryStringOptions)
    (l : lexerWrapper) (p : Panic) (hq : query ≠ "")
    (hrun : yyParse mode lib (parseFuel (newQueryStringLex query options))
      (newLexerWrapper (newQueryStringLex query options) options) = Run.panic l p) :
    doParse mode lib (parseFuel (newQueryStringLex query options))
        (newLexerWrapper (newQueryStringLex query options) options) =
        some { l with errs := l.errs ++ ["parse error: " ++ p.msg] } ∧
      ParseQueryString mode lib newQueryStringLex query options =
        .returns (.error (errorfText lib
          ("\n".intercalate (l.errs ++ ["parse error: " ++ p.msg])))) ∧
      ∀ (query1 : String) (options1 : QueryStringOptions),
        ∃ res, ParseQueryString mode lib newQueryStringLex query1 options1 =
          .returns res := by
  have hd : doParse mode lib (parseFuel (newQueryStringLex query options))
      (newLexerWrapper (newQueryStringLex query options) options) =
      some { l with errs := l.errs ++ ["parse error: " ++ p.msg] } := by
    simp [doParse, hrun]
  refine ⟨hd, ?_, fun query1 options1 =>
    ParseQueryString_returns mode lib newQueryStringLex query1 options1⟩
  exact ParseQueryString_failed mode lib newQueryStringLex query options _ hq hd (by simp)

/-- Claim C28 on `/`, the text on which the string builder takes a slice out of range. -/
theorem ParseQueryString_recovers_witness :
    yyParse LexErrorMode.records plainLib (parseFuel (itemsLex slashItems "/" DefaultOptions))
        (newLexerWrapper (itemsLex slashItems "/" DefaultOptions) DefaultOptions) =
        Run.panic (plainWrapper [])
          { msg := "runtime error: slice bounds out of range [1:0]" } ∧
      ParseQueryString LexErrorMode.records plainLib (itemsLex slashItems) "/"
          DefaultOptions =
        .returns (.error "parse error: runtime error: slice bounds out of range [1:0]") :=
  ⟨rfl,
    (ParseQueryString_recovers LexErrorMode.records plainLib (itemsLex slashItems) "/"
      DefaultOptions (plainWrapper [])
      { msg := "runtime error: slice bounds out of range [1:0]" } (by decide) rfl).2.1.trans
      rfl⟩

/-! ## The coalescing of a list that has been coalesced -/

/-- The reference coalescing of a list, by the run of plain terms it starts with. -/
theorem coalesceRef_split (l : List Query) :
    ∃ run, (∀ x ∈ run, isPlainTerm x = true) ∧
      ((l = run ∧ coalesceRef l = coalesceRun run) ∨
        ∃ y r2, isPlainTerm y = false ∧ l = run ++ y :: r2 ∧
          coalesceRef l = coalesceRun run ++ y :: coalesceRef r2) := by
  have hsplit := List.takeWhile_append_dropWhile isPlainTerm l
  have hrun : ∀ x ∈ l.takeWhile isPlainTerm, isPlainTerm x = true :=
    fun x hx => (List.mem_takeWhile_imp hx)
  refine ⟨l.takeWhile isPlainTerm, hrun, ?_⟩
  cases hd : l.dropWhile isPlainTerm with
  | nil =>
    rw [hd, List.append_nil] at hsplit
    left
    refine ⟨hsplit.symm, ?_⟩
    conv_lhs => rw [← hsplit]
    exact coalesceRef_run _ hrun
  | cons y r2 =>
    have hy := dropWhile_head_not isPlainTerm l y r2 hd
    rw [hd] at hsplit
    right
    refine ⟨y, r2, hy, hsplit.symm, ?_⟩
    conv_lhs => rw [← hsplit]
    exact coalesceRef_run_other _ r2 y hrun hy

theorem mergedTerm_plain (run : List Query) : isPlainTerm (mergedTerm run) = true := by
  simp [mergedTerm, isPlainTerm, boostValue]

theorem coalesceRun_cases (run : List Query) (hrun : ∀ x ∈ run, isPlainTerm x = true) :
    coalesceRun run = [] ∨ ∃ x, isPlainTerm x = true ∧ coalesceRun run = [x] := by
  unfold coalesceRun
  rcases run with _ | ⟨x, _ | ⟨x2, r⟩⟩
  · left
    simp
  · right
    exact ⟨x, hrun x (List.mem_cons_self _ _), by simp⟩
  · right
    exact ⟨mergedTerm (x :: x2 :: r), mergedTerm_plain _, by simp⟩

theorem adjacentPlain_other (y : Query) (rest : List Query) (hy : isPlainTerm y = false) :
    adjacentPlain (y :: rest) = adjacentPlain rest := by
  cases rest with
  | nil => rfl
  | cons z r => simp [adjacentPlain, hy]

theorem adjacentPlain_before (x y : Query) (rest : List Query) (hy : isPlainTerm y = false) :
    adjacentPlain (x :: y :: rest) = adjacentPlain rest := by
  rw [adjacentPlain, adjacentPlain_other y rest hy, hy]
  simp

/-- The reference coalescing leaves no two plain terms side by side. -/
theorem adjacentPlain_coalesceRef (n : Nat) :
    ∀ l : List Query, l.length ≤ n → adjacentPlain (coalesceRef l) = false := by
  induction n with
  | zero =>
    intro l h
    have : l = [] := List.length_eq_zero.mp (Nat.le_zero.mp h)
    subst this
    rw [coalesceRef_nil]
    rfl
  | succ n ih =>
    intro l h
    obtain ⟨run, hrun, ⟨_, hc⟩ | ⟨y, r2, hy, hl, hc⟩⟩ := coalesceRef_split l
    · rw [hc]
      rcases coalesceRun_cases run hrun with h0 | ⟨x, _, h1⟩
      · rw [h0]
        rfl
      · rw [h1]
        rfl
    · have hlen : r2.length ≤ n := by
        rw [hl] at h
        simp at h
        omega
      rw [hc]
      rcases coalesceRun_cases run hrun with h0 | ⟨x, _, h1⟩
      · rw [h0, List.nil_append, adjacentPlain_other y _ hy]
        exact ih r2 hlen
      · rw [h1, List.singleton_append, adjacentPlain_before x y _ hy]
        exact ih r2 hlen

/-- A list without two plain terms side by side is its own reference coalescing. -/
theorem coalesceRef_fixed (l : List Query) (h : adjacentPlain l = false) :
    coalesceRef l = l := by
  induction l with
  | nil => exact coalesceRef_nil
  | cons q rest ih =>
    by_cases hq : isPlainTerm q = true
    · cases rest with
      | nil =>
        rw [coalesceRef_run [q] (by simpa using hq)]
        simp [coalesceRun]
      | cons y r =>
        have hy : isPlainTerm y = false := by
          simp [adjacentPlain, hq] at h
          exact h.1
        have hrest : adjacentPlain (y :: r) = false := by
          simp [adjacentPlain, hq] at h
          rw [adjacentPlain_other y r hy]
          cases r with
          | nil => rfl
          | cons z r3 => simpa [adjacentPlain, hy] using h.2
        have h1 := coalesceRef_run_other [q] r y (by simpa using hq) hy
        have h2 := ih hrest
        rw [coalesceRef_other y r hy] at h2
        rw [List.singleton_append] at h1
        rw [h1, List.cons.inj h2 |>.2]
        simp [coalesceRun]
    · have hq1 : isPlainTerm q = false := by simpa using hq
      rw [coalesceRef_other q rest hq1]
      rw [adjacentPlain_other q rest hq1] at h
      rw [ih h]

theorem coalesceRef_ne_nilMatch (n : Nat) :
    ∀ l : List Query, l.length ≤ n → (∀ s ∈ l, s ≠ Query.nilMatch) →
      ∀ s ∈ coalesceRef l, s ≠ Query.nilMatch := by
  induction n with
  | zero =>
    intro l h _ s hs
    have : l = [] := List.length_eq_zero.mp (Nat.le_zero.mp h)
    subst this
    rw [coalesceRef_nil] at hs
    cases hs
  | succ n ih =>
    intro l h hnil s hs
    have hplain : ∀ x : Query, isPlainTerm x = true → x ≠ Query.nilMatch := by
      intro x hx he
      rw [he] at hx
      cases hx
    obtain ⟨run, hrun, ⟨_, hc⟩ | ⟨y, r2, hy, hl, hc⟩⟩ := coalesceRef_split l
    · rw [hc] at hs
      rcases coalesceRun_cases run hrun with h0 | ⟨x, hx, h1⟩
      · rw [h0] at hs
        cases hs
      · rw [h1, List.mem_singleton] at hs
        rw [hs]
        exact hplain x hx
    · have hlen : r2.length ≤ n := by
        rw [hl] at h
        simp at h
        omega
      have hy1 : y ≠ Query.nilMatch := hnil y (by rw [hl]; simp)
      have hr2 : ∀ s ∈ r2, s ≠ Query.nilMatch := fun s hs => hnil s (by rw [hl]; simp [hs])
      rw [hc, List.mem_append, List.mem_cons] at hs
      rcases hs with hs | hs | hs
      · rcases coalesceRun_cases run hrun with h0 | ⟨x, hx, h1⟩
        · rw [h0] at hs
          cases hs
        · rw [h1, List.mem_singleton] at hs
          rw [hs]
          exact hplain x hx
      · rw [hs]
        exact hy1
      · exact ih r2 hlen hr2 s hs

/-- The coalescing loop and the statement after it, with the number of clauses stored. -/
theorem coalesce_stored (orig : List Query) (hnil : ∀ s ∈ orig, s ≠ Query.nilMatch) :
    ∃ c c1, Coalescer.loop orig.length 0
        { musts := orig, n := 0, last := Query.nilMatch, words := [] } = .ok c ∧
      c.flush = .ok c1 ∧ c1.musts.take c1.n = coalesceRef orig ∧
      c1.n = (coalesceRef orig).length ∧ c1.musts.length = orig.length := by
  have h0 : Coalescer.Inv orig { musts := orig, n := 0, last := Query.nilMatch, words := [] }
      [] [] [] orig := by
    refine ⟨rfl, rfl, rfl, Nat.le_refl _, ?_, rfl, ?_, rfl⟩
    · intro x hx
      cases hx
    · intro x hx
      cases hx
  obtain ⟨c, out1, free1, run1, hloop, hinv⟩ :=
    Coalescer.loop_spec orig orig _ [] [] [] h0 hnil
  obtain ⟨c1, free2, hflush, hm, hn, hlen, _⟩ :=
    Coalescer.flush_spec orig c out1 free1 run1 [] hinv
  obtain ⟨_, _, _, _, hplain, _, _, href⟩ := hinv
  have href1 : coalesceRef orig = out1 ++ coalesceRun run1 := by
    rw [href, List.append_nil, coalesceRef_run run1 hplain]
  refine ⟨c, c1, hloop, hflush, ?_, ?_, hlen⟩
  · rw [href1, hm, hn]
    exact List.take_left' rfl
  · rw [href1, hn]

/-- Claim C30. The reference coalescing leaves no two plain terms side by side (the term that
replaces a run is itself plain, and two runs are apart by a clause that is not), so the
coalescing of a coalesced list is that list; and the loop of `ParseQueryString` on such a list
stores as many clauses as the list has and leaves the list as it is, so that the root is not
built anew. -/
theorem coalesce_idempotent (orig : List Query) (hnil : ∀ s ∈ orig, s ≠ Query.nilMatch) :
    adjacentPlain (coalesceRef orig) = false ∧
      (∀ run : List Query, isPlainTerm (mergedTerm run) = true) ∧
      coalesceRef (coalesceRef orig) = coalesceRef orig ∧
      ∃ c c1, Coalescer.loop (coalesceRef orig).length 0
          { musts := coalesceRef orig, n := 0, last := Query.nilMatch, words := [] } =
            .ok c ∧
        c.flush = .ok c1 ∧ c1.n = (coalesceRef orig).length ∧
        c1.musts = coalesceRef orig := by
  have hadj := adjacentPlain_coalesceRef orig.length orig (Nat.le_refl _)
  have hfix := coalesceRef_fixed _ hadj
  have hnil1 := coalesceRef_ne_nilMatch orig.length orig (Nat.le_refl _) hnil
  obtain ⟨c, c1, hloop, hflush, htake, hn, hlen⟩ := coalesce_stored (coalesceRef orig) hnil1
  rw [hfix] at htake hn
  refine ⟨hadj, mergedTerm_plain, hfix, c, c1, hloop, hflush, hn, ?_⟩
  rw [← htake, hn, ← hlen, List.take_length]

/-- Claim C30 on a list with a run of two plain terms and a run of one. -/
theorem coalesce_idempotent_witness :
    (∀ s ∈ runMusts, s ≠ Query.nilMatch) ∧
      coalesceRef runMusts =
        [Query.MatchQuery "a b" "" none 0 MatchQueryOperator.MatchQueryOperatorAnd,
         Query.MatchQuery "d" "c" none 0 MatchQueryOperator.MatchQueryOperatorAnd,
         Query.MatchQuery "e" "" none 0 MatchQueryOperator.MatchQueryOperatorAnd] ∧
      adjacentPlain (coalesceRef runMusts) = false ∧
      coalesceRef (coalesceRef runMusts) = coalesceRef runMusts :=
  have hnil : ∀ s ∈ runMusts, s ≠ Query.nilMatch := by
    intro s hs
    simp only [runMusts, List.mem_cons, List.mem_singleton, List.not_mem_nil, or_false] at hs
    rcases hs with rfl | rfl | rfl | rfl <;> exact Query.noConfusion
  have h := coalesce_idempotent runMusts hnil
  have hc : coalesceRef runMusts =
      [Query.MatchQuery "a b" "" none 0 MatchQueryOperator.MatchQueryOperatorAnd,
       Query.MatchQuery "d" "c" none 0 MatchQueryOperator.MatchQueryOperatorAnd,
       Query.MatchQuery "e" "" none 0 MatchQueryOperator.MatchQueryOperatorAnd] := by
    simp [runMusts, coalesceRef, isPlainTerm, boostValue, coalesceRun, mergedTerm, termText,
      coalesceRef_nil, Float64.ofNat]
    rfl
  ⟨hnil, hc, h.1, h.2.2.1⟩

/-! ## The messages of the syntax errors -/

/-- Claim C27 as stated fails: in state 16, after a field and its COLON, six tokens can be
shifted, and `yyErrorMessage` names at most four: the message for `field::text` is the
unexpected token alone. -/
theorem yyErrorMessage_counterexample :
    yyErrorMessage 16 (TokKind.num TokKind.tCOLON) =
        .ok "syntax error: unexpected tCOLON" ∧
      ParseQueryString LexErrorMode.records plainLib (itemsLex colonColonItems) "field::text"
          DefaultOptions = .returns (.error "syntax error: unexpected tCOLON") :=
  ⟨rfl, rfl⟩

/-- Claim C27, amended. The states whose default action is the error are 4, 16, 20, 21, 23,
26 and 29, and state 1 has it in the exception table. The message of a syntax error in a
state names the unexpected token; behind it comes `, expecting` and the tokens that the state
shifts, joined by `or`, in the states that shift at most four tokens (4, 20, 21, 23, 26, 29);
in state 16, which shifts six, and in state 1, which shifts none, the message ends with the
unexpected token. -/
theorem yyErrorMessage_expecting (tk : Int) :
    (∀ s : Nat, s < 36 →
      (yyDef[s]? = some 0 ↔ s = 4 ∨ s = 16 ∨ s = 20 ∨ s = 21 ∨ s = 23 ∨ s = 26 ∨ s = 29)) ∧
      yyErrorMessage 4 tk = .ok ("syntax error: unexpected " ++ yyTokname tk ++
        ", expecting tSTRING or tPHRASE or tNUMBER") ∧
      yyErrorMessage 20 tk = .ok ("syntax error: unexpected " ++ yyTokname tk ++
        ", expecting tPHRASE or tMINUS or tNUMBER or tEQUAL") ∧
      yyErrorMessage 21 tk = .ok ("syntax error: unexpected " ++ yyTokname tk ++
        ", expecting tPHRASE or tMINUS or tNUMBER or tEQUAL") ∧
      yyErrorMessage 23 tk = .ok ("syntax error: unexpected " ++ yyTokname tk ++
        ", expecting tNUMBER") ∧
      yyErrorMessage 26 tk = .ok ("syntax error: unexpected " ++ yyTokname tk ++
        ", expecting tPHRASE or tMINUS or tNUMBER") ∧
      yyErrorMessage 29 tk = .ok ("syntax error: unexpected " ++ yyTokname tk ++
        ", expecting tPHRASE or tMINUS or tNUMBER") ∧
      yyErrorMessage 16 tk = .ok ("syntax error: unexpected " ++ yyTokname tk) ∧
      yyErrorMessage 1 tk = .ok ("syntax error: unexpected " ++ yyTokname tk) := by
  have h1 : yyErrorMessage 1 tk = .ok ("syntax error: unexpected " ++ yyTokname tk ++ "") :=
    rfl
  rw [String.append_empty] at h1
  refine ⟨?_, rfl, rfl, rfl, rfl, rfl, rfl, rfl, h1⟩
  intro s hs
  interval_cases s <;> decide

/-! ## After an error -/

theorem errShift_range (x : Int) (h0 : 0 ≤ x) (h1 : x < 36) : errShift x = .ok none := by
  interval_cases x <;> rfl

/-- Claim C26 as stated fails: on `^5` followed by 369 nines the BOOST is a syntax error, and
`Parse` returns at once: the NUMBER behind it is still with the lexer, and the error of the
number, which is out of range, is not on record. -/
theorem syntax_error_counterexample :
    ∃ lex, doParse LexErrorMode.records plainLib (parseFuel drainItems)
        (newLexerWrapper drainItems DefaultOptions) = some lex ∧
      lex.lex = [LexItem.tok TokKind.tNUMBER nines] ∧
      lex.errs =
        ["syntax error: unexpected tBOOST, expecting tSTRING or tPHRASE or tNUMBER"] :=
  ⟨_, rfl, rfl, rfl⟩

/-- Claim C26, amended. A syntax error ends the parse: in whatever state it is found, `Parse`
puts its message on record and returns 1 without another call of the lexer, so that the
tokens behind the offending one are not read and no error of a later clause is recorded; a
token sequence that starts with a BOOST ends with that one error on record and all that
follows the BOOST unread. An error of a builder does not end the parse when the lexer's
`Error` records it: the action goes on with the nil query, as in `a~x b~y`, where both errors
are on record and the lexer has been read to its end. -/
theorem syntax_error_stops (mode : LexErrorMode) (lib : GoLib) (st : ParseState)
    (msg : String) (hb : ∀ e ∈ st.below, 0 ≤ e.yys ∧ e.yys < 36) (hef : st.Errflag = 0)
    (hm : yyErrorMessage st.yystate st.yytoken = .ok msg) :
    yyact mode lib st 0 = Step.ret (st.yylex.Error msg) 1 ∧
      (st.yylex.Error msg).lex = st.yylex.lex ∧
      (∀ (o : QueryStringOptions) (b : String) (rest : List LexItem),
        doParse mode lib (parseFuel (LexItem.tok TokKind.tBOOST b :: rest))
            (newLexerWrapper (LexItem.tok TokKind.tBOOST b :: rest) o) =
          some { newLexerWrapper rest o with errs :=
            ["syntax error: unexpected tBOOST, expecting tSTRING or tPHRASE or tNUMBER"] }) ∧
      (∀ (l : lexerWrapper) (v : yySymType) (err : String) (nilValue : Query),
        setQuery LexErrorMode.records l v (.error err) nilValue =
          Act.ok (l.Error err) { v with q := nilValue }) ∧
      ∃ lex, doParse LexErrorMode.records plainLib (parseFuel twoErrorItems)
          (newLexerWrapper twoErrorItems DefaultOptions) = some lex ∧
        lex.lex = [] ∧
        lex.errs =
          ["invalid fuzziness value: strconv.ParseFloat: parsing \"x\": invalid syntax",
           "invalid fuzziness value: strconv.ParseFloat: parsing \"y\": invalid syntax"] := by
  have hs : StackOK st.below := fun e he => errShift_range e.yys (hb e he).1 (hb e he).2
  refine ⟨?_, rfl, ?_, fun _ _ _ _ => rfl, ⟨_, rfl, rfl, rfl⟩⟩
  · simp only [yyact, if_true, hef, hm]
    exact errorPop_ok _ _ _ hs
  · intro o b rest
    rfl

/-- Claim C26, amended, in state 4 with the lookahead BOOST. -/
theorem syntax_error_stops_witness :
    yyact LexErrorMode.records plainLib
        ⟨plainWrapper [LexItem.tok TokKind.tNUMBER nines], yySymType.zero,
          TokKind.code TokKind.tBOOST, TokKind.num TokKind.tBOOST, yySymType.zero,
          [{ yySymType.zero with yys := 4 }, yySymType.zero], [], 0, 0, 4⟩ 0 =
      Step.ret ((plainWrapper [LexItem.tok TokKind.tNUMBER nines]).Error
        "syntax error: unexpected tBOOST, expecting tSTRING or tPHRASE or tNUMBER") 1 :=
  (syntax_error_stops LexErrorMode.records plainLib
    ⟨plainWrapper [LexItem.tok TokKind.tNUMBER nines], yySymType.zero,
      TokKind.code TokKind.tBOOST, TokKind.num TokKind.tBOOST, yySymType.zero,
      [{ yySymType.zero with yys := 4 }, yySymType.zero], [], 0, 0, 4⟩
    "syntax error: unexpected tBOOST, expecting tSTRING or tPHRASE or tNUMBER"
    (by
      intro e he
      simp only [List.mem_cons, List.mem_singleton, List.not_mem_nil, or_false] at he
      rcases he with rfl | rfl <;> decide)
    rfl rfl).1

/-! ## Where the plain terms come from -/

theorem boosted_plain (q0 q1 : Query) (pf : Option Float64) (h : Boosted q0 pf q1)
    (hp : isPlainTerm q1 = true) :
    isBareMatch q0 = true ∧ boostValue pf = Float64.ofNat 1 := by
  cases pf with
  | none =>
    have e : q1 = q0 := h
    subst e
    cases q1 <;> simp_all [isPlainTerm, isBareMatch, boostValue]
  | some b =>
    have e : queryStringSetBoost q0 b = .ok (.ok q1) := h
    cases q0 <;> simp [queryStringSetBoost] at e <;> subst e <;>
      simp_all [isPlainTerm, isBareMatch, boostValue]

theorem queryStringNumberToken_not_bareMatch (lib : GoLib) (field s : String) (q : Query)
    (h : queryStringNumberToken lib field s = .ok q) : isBareMatch q = false := by
  unfold queryStringNumberToken at h
  cases hp : ParseFloat lib s with
  | error e => simp [hp] at h
  | ok v =>
    simp [hp, BooleanQuery.toQuery] at h
    subst h
    rfl

theorem queryStringPhraseToken_not_bareMatch (l : lexerWrapper) (field s : String) :
    isBareMatch (queryStringPhraseToken l field s) = false := by
  unfold queryStringPhraseToken
  split_ifs <;> rfl

theorem numericRangeGreater_not_bareMatch (lib : GoLib) (field s : String) (b : Bool)
    (q : Query) (h : queryStringNumericRangeGreaterThanOrEqual lib field s b = .ok q) :
    isBareMatch q = false := by
  unfold queryStringNumericRangeGreaterThanOrEqual at h
  cases hp : ParseFloat lib s with
  | error e => simp [hp] at h
  | ok v =>
    simp [hp, NewNumericRangeInclusiveQuery, Query.SetField] at h
    subst h
    rfl

theorem numericRangeLess_not_bareMatch (lib : GoLib) (field s : String) (b : Bool)
    (q : Query) (h : queryStringNumericRangeLessThanOrEqual lib field s b = .ok q) :
    isBareMatch q = false := by
  unfold queryStringNumericRangeLessThanOrEqual at h
  cases hp : ParseFloat lib s with
  | error e => simp [hp] at h
  | ok v =>
    simp [hp, NewNumericRangeInclusiveQuery, Query.SetField] at h
    subst h
    rfl

theorem dateRangeGreater_not_bareMatch (lib : GoLib) (l : lexerWrapper) (field s : String)
    (b : Bool) (q : Query)
    (h : queryStringDateRangeGreaterThanOrEqual lib l field s b = .ok q) :
    isBareMatch q = false := by
  unfold queryStringDateRangeGreaterThanOrEqual at h
  cases hp : queryTimeFromString lib l s with
  | error e => simp [hp] at h
  | ok v =>
    simp [hp, NewDateRangeInclusiveQuery, Query.SetField] at h
    subst h
    rfl

theorem dateRangeLess_not_bareMatch (lib : GoLib) (l : lexerWrapper) (field s : String)
    (b : Bool) (q : Query)
    (h : queryStringDateRangeLessThanOrEqual lib l field s b = .ok q) :
    isBareMatch q = false := by
  unfold queryStringDateRangeLessThanOrEqual at h
  cases hp : queryTimeFromString lib l s with
  | error e => simp [hp] at h
  | ok v =>
    simp [hp, NewDateRangeInclusiveQuery, Query.SetField] at h
    subst h
    rfl

/-- Claim C29 as stated fails: the fuzzy production with the payload 0 builds a match query
with the empty field, fuzziness 0 and no boost, which passes the test of the coalescer: in
`a~0 b` it is merged with the term behind it. -/
theorem plain_term_counterexample :
    queryStringStringTokenFuzzy plainLib "" "a" "0" =
        .ok (Query.MatchQuery "a" "" none 0 MatchQueryOperator.MatchQueryOperatorOr) ∧
      plainText (Query.MatchQuery "a" "" none 0 MatchQueryOperator.MatchQueryOperatorOr) =
        .ok (some "a") ∧
      (∃ lex, doParse LexErrorMode.records plainLib (parseFuel fuzzyZeroItems)
          (newLexerWrapper fuzzyZeroItems DefaultOptions) = some lex ∧ lex.errs = [] ∧
        lex.query.musts =
          [Query.MatchQuery "a" "" none 0 MatchQueryOperator.MatchQueryOperatorOr,
           Query.MatchQuery "b" "" none 0 MatchQueryOperator.MatchQueryOperatorAnd]) ∧
      ParseQueryString LexErrorMode.records plainLib (itemsLex fuzzyZeroItems) "a~0 b"
          DefaultOptions =
        .returns (.ok (Query.BooleanQuery
          [Query.MatchQuery "a b" "" none 0 MatchQueryOperator.MatchQueryOperatorAnd]
          [] [] none 1)) :=
  ⟨rfl, rfl, ⟨_, rfl, rfl, rfl⟩, rfl⟩

/-! ## Every sequence of search parts is parsed -/


theorem yynewstate_unread_tok (mode : LexErrorMode) (lib : GoLib) (k : TokKind) (t : String)
    (rest : List LexItem) (errs : List String) (q : BooleanQuery) (o : QueryStringOptions)
    (dp : Bool) (df : String) (lg : Option Logger) (lval : yySymType) (tk : Int)
    (v : yySymType) (b a : List yySymType) (ne ef s : Int) :
    yynewstate mode lib
        ⟨⟨LexItem.tok k t :: rest, errs, q, o, dp, df, lg⟩, lval, -1, tk, v, b, a, ne, ef, s⟩ =
      match index yyPact s with
      | .error p => .panic ⟨LexItem.tok k t :: rest, errs, q, o, dp, df, lg⟩ p
      | .ok pact =>
        if pact ≤ yyFlag then
          yydefault mode lib
            ⟨⟨LexItem.tok k t :: rest, errs, q, o, dp, df, lg⟩, lval, -1, tk, v, b, a, ne, ef,
              s⟩
        else
          yynewstate mode lib
            ⟨⟨rest, errs, q, o, dp, df, lg⟩, { yySymType.zero with s := t }, TokKind.code k,
              TokKind.num k, v, b, a, ne, ef, s⟩ := by
  cases hp : index yyPact s with
  | error p => simp [yynewstate, hp]
  | ok pact =>
    by_cases hf : pact ≤ yyFlag
    · simp [yynewstate, hp, hf]
    · simp [yynewstate, hp, hf, withLookahead, yylex1, lexerWrapper.Lex, lexItems,
        yylex1Token_code, TokKind.code_not_neg]

theorem yynewstate_unread_nil (mode : LexErrorMode) (lib : GoLib)
    (errs : List String) (q : BooleanQuery) (o : QueryStringOptions)
    (dp : Bool) (df : String) (lg : Option Logger) (lval : yySymType) (tk : Int)
    (v : yySymType) (b a : List yySymType) (ne ef s : Int) :
    yynewstate mode lib ⟨⟨[], errs, q, o, dp, df, lg⟩, lval, -1, tk, v, b, a, ne, ef, s⟩ =
      match index yyPact s with
      | .error p => .panic ⟨[], errs, q, o, dp, df, lg⟩ p
      | .ok pact =>
        if pact ≤ yyFlag then
          yydefault mode lib ⟨⟨[], errs, q, o, dp, df, lg⟩, lval, -1, tk, v, b, a, ne, ef, s⟩
        else
          yynewstate mode lib
            ⟨⟨[], errs, q, o, dp, df, lg⟩, lval, 0, 1, v, b, a, ne, ef, s⟩ := by
  have h0 : yylex1Token 0 = .ok 1 := rfl
  cases hp : index yyPact s with
  | error p => simp [yynewstate, hp]
  | ok pact =>
    by_cases hf : pact ≤ yyFlag
    · simp [yynewstate, hp, hf]
    · simp [yynewstate, hp, hf, withLookahead, yylex1, lexerWrapper.Lex, lexItems, h0]

/-- In a state that reads the lookahead, a run on a token and what follows it. -/
theorem ready_tok (mode : LexErrorMode) (lib : GoLib) (r : Run) (o : QueryStringOptions)
    (q : BooleanQuery) (s pact : Int) (below : List yySymType) (k : TokKind) (t : String)
    (rest : List LexItem) (hp : index yyPact s = .ok pact) (hf : ¬ pact ≤ yyFlag)
    (h : ∀ v above ne, haltsNext mode lib r (yynewstate mode lib
      ⟨⟨rest, [], q, o, o.debugParser, o.dateFormat, o.logger⟩, { yySymType.zero with s := t },
        TokKind.code k, TokKind.num k, v, below, above, ne, 0, s⟩)) :
    Ready mode lib r o q s below (LexItem.tok k t :: rest) := by
  intro lex lval ch tk v above ne hlook
  rcases hlook with ⟨rfl, rfl⟩ | ⟨k1, t1, rfl, rfl, rfl, he⟩ | ⟨_, _, _, he⟩
  · rw [yynewstate_unread_tok, hp]
    simp only [if_neg hf]
    exact h v above ne
  · cases he
    exact h v above ne
  · cases he

/-- In a state that reads the lookahead, a run at the end of the input. -/
theorem ready_nil (mode : LexErrorMode) (lib : GoLib) (r : Run) (o : QueryStringOptions)
    (q : BooleanQuery) (s pact : Int) (below : List yySymType)
    (hp : index yyPact s = .ok pact) (hf : ¬ pact ≤ yyFlag)
    (h : ∀ lval v above ne, haltsNext mode lib r (yynewstate mode lib
      ⟨⟨[], [], q, o, o.debugParser, o.dateFormat, o.logger⟩, lval, 0, 1, v, below, above,
        ne, 0, s⟩)) :
    Ready mode lib r o q s below [] := by
  intro lex lval ch tk v above ne hlook
  rcases hlook with ⟨rfl, rfl⟩ | ⟨k1, t1, _, _, _, he⟩ | ⟨rfl, rfl, rfl, _⟩
  · rw [yynewstate_unread_nil, hp]
    simp only [if_neg hf]
    exact h lval v above ne
  · cases he
  · exact h lval v above ne

theorem ready_unread (mode : LexErrorMode) (lib : GoLib) (r : Run) (o : QueryStringOptions)
    (q : BooleanQuery) (s : Int) (below : List yySymType) (pend : List LexItem)
    (h : Ready mode lib r o q s below pend) (lval : yySymType) (tk : Int) (v : yySymType)
    (above : List yySymType) (ne : Int) :
    haltsNext mode lib r (yynewstate mode lib
      ⟨⟨pend, [], q, o, o.debugParser, o.dateFormat, o.logger⟩, lval, -1, tk, v, below, above,
        ne, 0, s⟩) :=
  h pend lval (-1) tk v above ne (Or.inl ⟨rfl, rfl⟩)

theorem ready_ahead (mode : LexErrorMode) (lib : GoLib) (r : Run) (o : QueryStringOptions)
    (q : BooleanQuery) (s : Int) (below : List yySymType) (k : TokKind) (t : String)
    (rest : List LexItem) (h : Ready mode lib r o q s below (LexItem.tok k t :: rest))
    (v : yySymType) (above : List yySymType) (ne : Int) :
    haltsNext mode lib r (yynewstate mode lib
      ⟨⟨rest, [], q, o, o.debugParser, o.dateFormat, o.logger⟩, { yySymType.zero with s := t },
        TokKind.code k, TokKind.num k, v, below, above, ne, 0, s⟩) :=
  h rest _ _ _ v above ne (Or.inr (Or.inl ⟨k, t, rfl, rfl, rfl, rfl⟩))

theorem ready_end (mode : LexErrorMode) (lib : GoLib) (r : Run) (o : QueryStringOptions)
    (q : BooleanQuery) (s : Int) (below : List yySymType)
    (h : Ready mode lib r o q s below []) (lval v : yySymType) (above : List yySymType)
    (ne : Int) :
    haltsNext mode lib r (yynewstate mode lib
      ⟨⟨[], [], q, o, o.debugParser, o.dateFormat, o.logger⟩, lval, 0, 1, v, below, above,
        ne, 0, s⟩) :=
  h [] lval 0 1 v above ne (Or.inr (Or.inr ⟨rfl, rfl, rfl, rfl⟩))

theorem TokKind.code_facts :
    TokKind.code TokKind.tSTRING = 57346 ∧ TokKind.code TokKind.tPHRASE = 57347 ∧
    TokKind.code TokKind.tPLUS = 57348 ∧ TokKind.code TokKind.tMINUS = 57349 ∧
    TokKind.code TokKind.tCOLON = 57350 ∧ TokKind.code TokKind.tBOOST = 57351 ∧
    TokKind.code TokKind.tNUMBER = 57352 ∧ TokKind.code TokKind.tGREATER = 57353 ∧
    TokKind.code TokKind.tLESS = 57354 ∧ TokKind.code TokKind.tEQUAL = 57355 ∧
    TokKind.code TokKind.tTILDE = 57356 ∧ TokKind.code TokKind.tQUESTION = 57357 := by
  decide

theorem TokKind.num_facts :
    TokKind.num TokKind.tSTRING = 4 ∧ TokKind.num TokKind.tPHRASE = 5 ∧
    TokKind.num TokKind.tPLUS = 6 ∧ TokKind.num TokKind.tMINUS = 7 ∧
    TokKind.num TokKind.tCOLON = 8 ∧ TokKind.num TokKind.tBOOST = 9 ∧
    TokKind.num TokKind.tNUMBER = 10 ∧ TokKind.num TokKind.tGREATER = 11 ∧
    TokKind.num TokKind.tLESS = 12 ∧ TokKind.num TokKind.tEQUAL = 13 ∧
    TokKind.num TokKind.tTILDE = 14 ∧ TokKind.num TokKind.tQUESTION = 15 := by
  decide

/-- The suffix of a search part and the action of production 4, on a run that ends without an
error on record. -/
theorem suffix_ready (mode : LexErrorMode) (lib : GoLib) (lf : lexerWrapper) (cf : Int)
    (hl : lf.errs = []) (o : QueryStringOptions) (q : BooleanQuery)
    (hlog : (newLexerWrapper [] o).logDebugGrammarf = .ok ())
    (e9 e4 eb : yySymType) (b : List yySymType) (h9 : e9.yys = 9)
    (hb : eb.yys = 0 ∨ eb.yys = 3) (ts : List LexItem) (pf : Option Float64) (q1 : Query)
    (rest : List LexItem) (hs : SearchSuffix lib ts pf) (hq : Boosted e9.q pf q1)
    (hfollow : Follows [TokKind.tBOOST] rest)
    (h : ∀ e3 : yySymType, e3.yys = 3 →
      Ready mode lib (Run.ret lf cf) o (addRole q e4.n q1) 3 (e3 :: eb :: b) rest) :
    Ready mode lib (Run.ret lf cf) o q 9 (e9 :: e4 :: eb :: b) (ts ++ rest) := by
  have hg := yyGoto_part eb hb
  cases hs with
  | absent =>
    have e : q1 = e9.q := hq
    subst e
    rcases hfollow with rfl | ⟨k, t, r, rfl, hk⟩
    · refine ready_nil mode lib _ o q 9 16 _ rfl (by decide) ?_
      intro lval v above ne
      simp [yynewstate_look, yydefault_look, yynewstate_simple, yydefault_simple, yyact_reduce,
        yyreduce_mk, yyact_zero, halts_mid, haltsNext_next, haltsNext_ret, haltsNext_panic,
        haltsNext_ok, haltsNext_logged, haltsNext_setQuery, haltsNext_setQueryOrPanic,
        haltsNext_setBoost, haltsNext_boostedClause, yyPact_facts, yyDef_facts, yyR1_facts,
        yyR2_facts, yyPgo_facts, excaAction_facts, errShift_facts, yyGoto_facts, yyAction_facts,
        StackOK_cons, succ_lt_one, succ_lt_two, succ_lt_three, succ_lt_four, succ_lt_five,
        queryStringStringToken_wrapper, queryStringPhraseToken_wrapper, fieldname_wrapper,
        dateRangeGreater_wrapper, dateRangeLess_wrapper, logDebugGrammarf_wrapper,
        TokKind.code_nonneg, yyFlag, slots_above_cons, slots_below_cons, slotHead_cons,
        slotTail_cons, dollar, searchPartAction, yyShift_facts_m11, yyShift_facts_m3,
        yyShift_facts_m1, yyShift_facts_5, yyShift_facts_6, yyShift_facts_9, yyShift_facts_10,
        yyShift_facts_16, yyShift_facts_19, yyShift_facts_26, yyShift_facts_30, TokKind.code,
        TokKind.num, yynewstate_unread_tok, yynewstate_unread_nil, hl, h9, hg, hlog]
      rw [halts_boundary]
      exact ready_end _ _ _ _ _ _ _ (h _ rfl) _ _ _ _
    · have hk1 := yyShift_16_rest k (by simpa using hk)
      refine ready_tok mode lib _ o q 9 16 _ k t r rfl (by decide) ?_
      intro v above ne
      simp [yynewstate_look, yydefault_look, yynewstate_simple, yydefault_simple, yyact_reduce,
        yyreduce_mk, yyact_zero, halts_mid, haltsNext_next, haltsNext_ret, haltsNext_panic,
        haltsNext_ok, haltsNext_logged, haltsNext_setQuery, haltsNext_setQueryOrPanic,
        haltsNext_setBoost, haltsNext_boostedClause, yyPact_facts, yyDef_facts, yyR1_facts,
        yyR2_facts, yyPgo_facts, excaAction_facts, errShift_facts, yyGoto_facts, yyAction_facts,
        StackOK_cons, succ_lt_one, succ_lt_two, succ_lt_three, succ_lt_four, succ_lt_five,
        queryStringStringToken_wrapper, queryStringPhraseToken_wrapper, fieldname_wrapper,
        dateRangeGreater_wrapper, dateRangeLess_wrapper, logDebugGrammarf_wrapper,
        TokKind.code_nonneg, yyFlag, slots_above_cons, slots_below_cons, slotHead_cons,
        slotTail_cons, dollar, searchPartAction, yynewstate_unread_tok, yynewstate_unread_nil,
        hl, h9, hg, hlog, hk1]
      rw [halts_boundary]
      exact ready_ahead _ _ _ _ _ _ _ _ _ _ (h _ rfl) _ _ _
  | boost s bst hbst =>
    have e : queryStringSetBoost e9.q bst = .ok (.ok q1) := hq
    refine ready_tok mode lib _ o q 9 16 _ TokKind.tBOOST s rest rfl (by decide) ?_
    intro v above ne
    simp [yynewstate_look, yydefault_look, yynewstate_simple, yydefault_simple, yyact_reduce,
      yyreduce_mk, yyact_zero, halts_mid, haltsNext_next, haltsNext_ret, haltsNext_panic,
      haltsNext_ok, haltsNext_logged, haltsNext_setQuery, haltsNext_setQueryOrPanic,
      haltsNext_setBoost, haltsNext_boostedClause, yyPact_facts, yyDef_facts, yyR1_facts,
      yyR2_facts, yyPgo_facts, excaAction_facts, errShift_facts, yyGoto_facts, yyAction_facts,
      StackOK_cons, succ_lt_one, succ_lt_two, succ_lt_three, succ_lt_four, succ_lt_five,
      queryStringStringToken_wrapper, queryStringPhraseToken_wrapper, fieldname_wrapper,
      dateRangeGreater_wrapper, dateRangeLess_wrapper, logDebugGrammarf_wrapper,
      TokKind.code_nonneg, yyFlag, slots_above_cons, slots_below_cons, slotHead_cons,
      slotTail_cons, dollar, searchPartAction, yyShift_facts_m11, yyShift_facts_m3,
      yyShift_facts_m1, yyShift_facts_5, yyShift_facts_6, yyShift_facts_9, yyShift_facts_10,
      yyShift_facts_16, yyShift_facts_19, yyShift_facts_26, yyShift_facts_30, TokKind.code,
      TokKind.num, yynewstate_unread_tok, yynewstate_unread_nil, hl, h9, hg, hlog, hbst, e]
    rw [halts_boundary]
    exact ready_unread _ _ _ _ _ _ _ _ (h _ rfl) _ _ _ _ _

/-- The start of a search part, on a run that ends without an error on record: a prefix, or
none before a token that is not a prefix. -/
theorem lead_ready (mode : LexErrorMode) (lib : GoLib) (lf : lexerWrapper) (cf : Int)
    (o : QueryStringOptions) (q : BooleanQuery)
    (hlog : (newLexerWrapper [] o).logDebugGrammarf = .ok ())
    (eb : yySymType) (b : List yySymType) (hb : eb.yys = 0 ∨ eb.yys = 3)
    (ts : List LexItem) (n : Int) (rest : List LexItem) (hlead : SearchLead ts n)
    (hfirst : ∃ k t r, rest = LexItem.tok k t :: r ∧ k ≠ TokKind.tPLUS ∧ k ≠ TokKind.tMINUS ∧
      k ≠ TokKind.tQUESTION)
    (h : ∀ e4 : yySymType, e4.yys = 4 → e4.n = n →
      Ready mode lib (Run.ret lf cf) o q 4 (e4 :: eb :: b) rest) :
    Ready mode lib (Run.ret lf cf) o q eb.yys (eb :: b) (ts ++ rest) := by
  have hg := yyGoto_lead eb hb
  have hp := yyPact_lead eb hb
  cases hlead with
  | absent =>
    obtain ⟨k, t, r, rfl, h1, h2, h3⟩ := hfirst
    have hk := yyShift_m1_rest k h1 h2 h3
    have hx := excaAction_3_tok k
    refine ready_tok mode lib _ o q _ (-1) _ k t r hp (by decide) ?_
    intro v above ne
    rcases hb with hb | hb <;> rw [hb]
    · simp [yynewstate_look, yydefault_look, yynewstate_simple, yydefault_simple, yyact_reduce,
        yyreduce_mk, yyact_zero, halts_mid, haltsNext_next, haltsNext_ret, haltsNext_panic,
        haltsNext_ok, haltsNext_logged, haltsNext_setQuery, haltsNext_setQueryOrPanic,
        haltsNext_setBoost, haltsNext_boostedClause, yyPact_facts, yyDef_facts, yyR1_facts,
        yyR2_facts, yyPgo_facts, excaAction_facts, errShift_facts, yyGoto_facts, yyAction_facts,
        StackOK_cons, succ_lt_one, succ_lt_two, succ_lt_three, succ_lt_four, succ_lt_five,
        queryStringStringToken_wrapper, queryStringPhraseToken_wrapper, fieldname_wrapper,
        dateRangeGreater_wrapper, dateRangeLess_wrapper, logDebugGrammarf_wrapper,
        TokKind.code_nonneg, yyFlag, slots_above_cons, slots_below_cons, slotHead_cons,
        slotTail_cons, dollar, searchPartAction, yynewstate_unread_tok, yynewstate_unread_nil,
        hb, hg, hk, hlog]
      rw [halts_boundary]
      refine ready_ahead _ _ _ _ _ _ _ _ _ _ (h _ ?_ ?_) _ _ _ <;> rfl
    · simp [yynewstate_look, yydefault_look, yynewstate_simple, yydefault_simple, yyact_reduce,
        yyreduce_mk, yyact_zero, halts_mid, haltsNext_next, haltsNext_ret, haltsNext_panic,
        haltsNext_ok, haltsNext_logged, haltsNext_setQuery, haltsNext_setQueryOrPanic,
        haltsNext_setBoost, haltsNext_boostedClause, yyPact_facts, yyDef_facts, yyR1_facts,
        yyR2_facts, yyPgo_facts, excaAction_facts, errShift_facts, yyGoto_facts, yyAction_facts,
        StackOK_cons, succ_lt_one, succ_lt_two, succ_lt_three, succ_lt_four, succ_lt_five,
        queryStringStringToken_wrapper, queryStringPhraseToken_wrapper, fieldname_wrapper,
        dateRangeGreater_wrapper, dateRangeLess_wrapper, logDebugGrammarf_wrapper,
        TokKind.code_nonneg, yyFlag, slots_above_cons, slots_below_cons, slotHead_cons,
        slotTail_cons, dollar, searchPartAction, yynewstate_unread_tok, yynewstate_unread_nil,
        hb, hg, hk, hx, hlog]
      rw [halts_boundary]
      refine ready_ahead _ _ _ _ _ _ _ _ _ _ (h _ ?_ ?_) _ _ _ <;> rfl
  | question s =>
    refine ready_tok mode lib _ o q _ (-1) _ TokKind.tQUESTION s rest hp (by decide) ?_
    intro v above ne
    simp [yynewstate_look, yydefault_look, yynewstate_simple, yydefault_simple, yyact_reduce,
      yyreduce_mk, yyact_zero, halts_mid, haltsNext_next, haltsNext_ret, haltsNext_panic,
      haltsNext_ok, haltsNext_logged, haltsNext_setQuery, haltsNext_setQueryOrPanic,
      haltsNext_setBoost, haltsNext_boostedClause, yyPact_facts, yyDef_facts, yyR1_facts,
      yyR2_facts, yyPgo_facts, excaAction_facts, errShift_facts, yyGoto_facts, yyAction_facts,
      StackOK_cons, succ_lt_one, succ_lt_two, succ_lt_three, succ_lt_four, succ_lt_five,
      queryStringStringToken_wrapper, queryStringPhraseToken_wrapper, fieldname_wrapper,
      dateRangeGreater_wrapper, dateRangeLess_wrapper, logDebugGrammarf_wrapper,
      TokKind.code_nonneg, yyFlag, slots_above_cons, slots_below_cons, slotHead_cons,
      slotTail_cons, dollar, searchPartAction, yyShift_facts_m11, yyShift_facts_m3,
      yyShift_facts_m1, yyShift_facts_5, yyShift_facts_6, yyShift_facts_9, yyShift_facts_10,
      yyShift_facts_16, yyShift_facts_19, yyShift_facts_26, yyShift_facts_30, TokKind.code,
      TokKind.num, yynewstate_unread_tok, yynewstate_unread_nil, hp, hg, hlog]
    rw [halts_boundary]
    refine ready_unread _ _ _ _ _ _ _ _ (h _ ?_ ?_) _ _ _ _ _ <;> rfl
  | plus s =>
    refine ready_tok mode lib _ o q _ (-1) _ TokKind.tPLUS s rest hp (by decide) ?_
    intro v above ne
    simp [yynewstate_look, yydefault_look, yynewstate_simple, yydefault_simple, yyact_reduce,
      yyreduce_mk, yyact_zero, halts_mid, haltsNext_next, haltsNext_ret, haltsNext_panic,
      haltsNext_ok, haltsNext_logged, haltsNext_setQuery, haltsNext_setQueryOrPanic,
      haltsNext_setBoost, haltsNext_boostedClause, yyPact_facts, yyDef_facts, yyR1_facts,
      yyR2_facts, yyPgo_facts, excaAction_facts, errShift_facts, yyGoto_facts, yyAction_facts,
      StackOK_cons, succ_lt_one, succ_lt_two, succ_lt_three, succ_lt_four, succ_lt_five,
      queryStringStringToken_wrapper, queryStringPhraseToken_wrapper, fieldname_wrapper,
      dateRangeGreater_wrapper, dateRangeLess_wrapper, logDebugGrammarf_wrapper,
      TokKind.code_nonneg, yyFlag, slots_above_cons, slots_below_cons, slotHead_cons,
      slotTail_cons, dollar, searchPartAction, yyShift_facts_m11, yyShift_facts_m3,
      yyShift_facts_m1, yyShift_facts_5, yyShift_facts_6, yyShift_facts_9, yyShift_facts_10,
      yyShift_facts_16, yyShift_facts_19, yyShift_facts_26, yyShift_facts_30, TokKind.code,
      TokKind.num, yynewstate_unread_tok, yynewstate_unread_nil, hp, hg, hlog]
    rw [halts_boundary]
    refine ready_unread _ _ _ _ _ _ _ _ (h _ ?_ ?_) _ _ _ _ _ <;> rfl
  | minus s =>
    refine ready_tok mode lib _ o q _ (-1) _ TokKind.tMINUS s rest hp (by decide) ?_
    intro v above ne
    simp [yynewstate_look, yydefault_look, yynewstate_simple, yydefault_simple, yyact_reduce,
      yyreduce_mk, yyact_zero, halts_mid, haltsNext_next, haltsNext_ret, haltsNext_panic,
      haltsNext_ok, haltsNext_logged, haltsNext_setQuery, haltsNext_setQueryOrPanic,
      haltsNext_setBoost, haltsNext_boostedClause, yyPact_facts, yyDef_facts, yyR1_facts,
      yyR2_facts, yyPgo_facts, excaAction_facts, errShift_facts, yyGoto_facts, yyAction_facts,
      StackOK_cons, succ_lt_one, succ_lt_two, succ_lt_three, succ_lt_four, succ_lt_five,
      queryStringStringToken_wrapper, queryStringPhraseToken_wrapper, fieldname_wrapper,
      dateRangeGreater_wrapper, dateRangeLess_wrapper, logDebugGrammarf_wrapper,
      TokKind.code_nonneg, yyFlag, slots_above_cons, slots_below_cons, slotHead_cons,
      slotTail_cons, dollar, searchPartAction, yyShift_facts_m11, yyShift_facts_m3,
      yyShift_facts_m1, yyShift_facts_5, yyShift_facts_6, yyShift_facts_9, yyShift_facts_10,
      yyShift_facts_16, yyShift_facts_19, yyShift_facts_26, yyShift_facts_30, TokKind.code,
      TokKind.num, yynewstate_unread_tok, yynewstate_unread_nil, hp, hg, hlog]
    rw [halts_boundary]
    refine ready_unread _ _ _ _ _ _ _ _ (h _ ?_ ?_) _ _ _ _ _ <;> rfl

/-- The clause of a search part, on a run that ends without an error on record. -/
theorem base_ready (mode : LexErrorMode) (lib : GoLib) (lf : lexerWrapper) (cf : Int)
    (hl : lf.errs = []) (o : QueryStringOptions) (q : BooleanQuery)
    (hlog : (newLexerWrapper [] o).logDebugGrammarf = .ok ())
    (e4 eb : yySymType) (b : List yySymType) (h4 : e4.yys = 4)
    (ts : List LexItem) (q0 : Query) (rest : List LexItem) (hbase : SearchBase lib o ts q0)
    (hfollow : Follows [TokKind.tCOLON, TokKind.tTILDE] rest)
    (h : ∀ e9 : yySymType, e9.yys = 9 → e9.q = q0 →
      Ready mode lib (Run.ret lf cf) o q 9 (e9 :: e4 :: eb :: b) rest) :
    Ready mode lib (Run.ret lf cf) o q 4 (e4 :: eb :: b) (ts ++ rest) := by
  cases hbase with
  | string s q0 hq =>
    rcases hfollow with rfl | ⟨k, t, r, rfl, hk⟩
    · refine ready_tok mode lib _ o q 4 30 _ TokKind.tSTRING s [] rfl (by decide) ?_
      intro v above ne
      simp [yynewstate_look, yydefault_look, yynewstate_simple, yydefault_simple, yyact_reduce,
        yyreduce_mk, yyact_zero, halts_mid, haltsNext_next, haltsNext_ret, haltsNext_panic,
        haltsNext_ok, haltsNext_logged, haltsNext_setQuery, haltsNext_setQueryOrPanic,
        haltsNext_setBoost, haltsNext_boostedClause, yyPact_facts, yyDef_facts, yyR1_facts,
        yyR2_facts, yyPgo_facts, excaAction_facts, errShift_facts, yyGoto_facts, yyAction_facts,
        StackOK_cons, succ_lt_one, succ_lt_two, succ_lt_three, succ_lt_four, succ_lt_five,
        queryStringStringToken_wrapper, queryStringPhraseToken_wrapper, fieldname_wrapper,
        dateRangeGreater_wrapper, dateRangeLess_wrapper, logDebugGrammarf_wrapper,
        TokKind.code_nonneg, yyFlag, slots_above_cons, slots_below_cons, slotHead_cons,
        slotTail_cons, dollar, searchPartAction, yyShift_facts_m11, yyShift_facts_m3,
        yyShift_facts_m1, yyShift_facts_5, yyShift_facts_6, yyShift_facts_9, yyShift_facts_10,
        yyShift_facts_16, yyShift_facts_19, yyShift_facts_26, yyShift_facts_30, TokKind.code,
        TokKind.num, yynewstate_unread_tok, yynewstate_unread_nil, hl, h4, hlog, hq]
      rw [halts_boundary]
      refine ready_end _ _ _ _ _ _ _ (h _ ?_ ?_) _ _ _ _ <;> rfl
    · have hk1 := yyShift_9_rest k (by simp at hk; exact hk.1) (by simp at hk; exact hk.2)
      refine ready_tok mode lib _ o q 4 30 _ TokKind.tSTRING s _ rfl (by decide) ?_
      intro v above ne
      simp [yynewstate_look, yydefault_look, yynewstate_simple, yydefault_simple, yyact_reduce,
        yyreduce_mk, yyact_zero, halts_mid, haltsNext_next, haltsNext_ret, haltsNext_panic,
        haltsNext_ok, haltsNext_logged, haltsNext_setQuery, haltsNext_setQueryOrPanic,
        haltsNext_setBoost, haltsNext_boostedClause, yyPact_facts, yyDef_facts, yyR1_facts,
        yyR2_facts, yyPgo_facts, excaAction_facts, errShift_facts, yyGoto_facts, yyAction_facts,
        StackOK_cons, succ_lt_one, succ_lt_two, succ_lt_three, succ_lt_four, succ_lt_five,
        queryStringStringToken_wrapper, queryStringPhraseToken_wrapper, fieldname_wrapper,
        dateRangeGreater_wrapper, dateRangeLess_wrapper, logDebugGrammarf_wrapper,
        TokKind.code_nonneg, yyFlag, slots_above_cons, slots_below_cons, slotHead_cons,
        slotTail_cons, dollar, searchPartAction, yyShift_facts_m11, yyShift_facts_m3,
        yyShift_facts_m1, yyShift_facts_5, yyShift_facts_6, yyShift_facts_9, yyShift_facts_10,
        yyShift_facts_16, yyShift_facts_19, yyShift_facts_26, yyShift_facts_30,
        TokKind.code_facts, TokKind.num_facts, yynewstate_unread_tok, yynewstate_unread_nil, hl,
        h4, hlog, hq, hk1]
      rw [halts_boundary]
      refine ready_ahead _ _ _ _ _ _ _ _ _ _ (h _ ?_ ?_) _ _ _ <;> rfl
  | fuzzy s n q0 hq =>
    refine ready_tok mode lib _ o q 4 30 _ TokKind.tSTRING s _ rfl (by decide) ?_
    intro v above ne
    simp [yynewstate_look, yydefault_look, yynewstate_simple, yydefault_simple, yyact_reduce,
      yyreduce_mk, yyact_zero, halts_mid, haltsNext_next, haltsNext_ret, haltsNext_panic,
      haltsNext_ok, haltsNext_logged, haltsNext_setQuery, haltsNext_setQueryOrPanic,
      haltsNext_setBoost, haltsNext_boostedClause, yyPact_facts, yyDef_facts, yyR1_facts,
      yyR2_facts, yyPgo_facts, excaAction_facts, errShift_facts, yyGoto_facts, yyAction_facts,
      StackOK_cons, succ_lt_one, succ_lt_two, succ_lt_three, succ_lt_four, succ_lt_five,
      queryStringStringToken_wrapper, queryStringPhraseToken_wrapper, fieldname_wrapper,
      dateRangeGreater_wrapper, dateRangeLess_wrapper, logDebugGrammarf_wrapper,
      TokKind.code_nonneg, yyFlag, slots_above_cons, slots_below_cons, slotHead_cons,
      slotTail_cons, dollar, searchPartAction, yyShift_facts_m11, yyShift_facts_m3,
      yyShift_facts_m1, yyShift_facts_5, yyShift_facts_6, yyShift_facts_9, yyShift_facts_10,
      yyShift_facts_16, yyShift_facts_19, yyShift_facts_26, yyShift_facts_30, TokKind.code,
      TokKind.num, yynewstate_unread_tok, yynewstate_unread_nil, hl, h4, hlog, hq]
    rw [halts_boundary]
    refine ready_unread _ _ _ _ _ _ _ _ (h _ ?_ ?_) _ _ _ _ _ <;> rfl
  | number s q0 hq =>
    refine ready_tok mode lib _ o q 4 30 _ TokKind.tNUMBER s _ rfl (by decide) ?_
    intro v above ne
    simp [yynewstate_look, yydefault_look, yynewstate_simple, yydefault_simple, yyact_reduce,
      yyreduce_mk, yyact_zero, halts_mid, haltsNext_next, haltsNext_ret, haltsNext_panic,
      haltsNext_ok, haltsNext_logged, haltsNext_setQuery, haltsNext_setQueryOrPanic,
      haltsNext_setBoost, haltsNext_boostedClause, yyPact_facts, yyDef_facts, yyR1_facts,
      yyR2_facts, yyPgo_facts, excaAction_facts, errShift_facts, yyGoto_facts, yyAction_facts,
      StackOK_cons, succ_lt_one, succ_lt_two, succ_lt_three, succ_lt_four, succ_lt_five,
      queryStringStringToken_wrapper, queryStringPhraseToken_wrapper, fieldname_wrapper,
      dateRangeGreater_wrapper, dateRangeLess_wrapper, logDebugGrammarf_wrapper,
      TokKind.code_nonneg, yyFlag, slots_above_cons, slots_below_cons, slotHead_cons,
      slotTail_cons, dollar, searchPartAction, yyShift_facts_m11, yyShift_facts_m3,
      yyShift_facts_m1, yyShift_facts_5, yyShift_facts_6, yyShift_facts_9, yyShift_facts_10,
      yyShift_facts_16, yyShift_facts_19, yyShift_facts_26, yyShift_facts_30, TokKind.code,
      TokKind.num, yynewstate_unread_tok, yynewstate_unread_nil, hl, h4, hlog, hq]
    rw [halts_boundary]
    refine ready_unread _ _ _ _ _ _ _ _ (h _ ?_ ?_) _ _ _ _ _ <;> rfl
  | phrase s =>
    refine ready_tok mode lib _ o q 4 30 _ TokKind.tPHRASE s _ rfl (by decide) ?_
    intro v above ne
    simp [yynewstate_look, yydefault_look, yynewstate_simple, yydefault_simple, yyact_reduce,
      yyreduce_mk, yyact_zero, halts_mid, haltsNext_next, haltsNext_ret, haltsNext_panic,
      haltsNext_ok, haltsNext_logged, haltsNext_setQuery, haltsNext_setQueryOrPanic,
      haltsNext_setBoost, haltsNext_boostedClause, yyPact_facts, yyDef_facts, yyR1_facts,
      yyR2_facts, yyPgo_facts, excaAction_facts, errShift_facts, yyGoto_facts, yyAction_facts,
      StackOK_cons, succ_lt_one, succ_lt_two, succ_lt_three, succ_lt_four, succ_lt_five,
      queryStringStringToken_wrapper, queryStringPhraseToken_wrapper, fieldname_wrapper,
      dateRangeGreater_wrapper, dateRangeLess_wrapper, logDebugGrammarf_wrapper,
      TokKind.code_nonneg, yyFlag, slots_above_cons, slots_below_cons, slotHead_cons,
      slotTail_cons, dollar, searchPartAction, yyShift_facts_m11, yyShift_facts_m3,
      yyShift_facts_m1, yyShift_facts_5, yyShift_facts_6, yyShift_facts_9, yyShift_facts_10,
      yyShift_facts_16, yyShift_facts_19, yyShift_facts_26, yyShift_facts_30, TokKind.code,
      TokKind.num, yynewstate_unread_tok, yynewstate_unread_nil, hl, h4, hlog]
    rw [halts_boundary]
    refine ready_unread _ _ _ _ _ _ _ _ (h _ ?_ ?_) _ _ _ _ _ <;> rfl
  | fieldFuzzy f c s n q0 hq =>
    refine ready_tok mode lib _ o q 4 30 _ TokKind.tSTRING f _ rfl (by decide) ?_
    intro v above ne
    simp [yynewstate_look, yydefault_look, yynewstate_simple, yydefault_simple, yyact_reduce,
      yyreduce_mk, yyact_zero, halts_mid, haltsNext_next, haltsNext_ret, haltsNext_panic,
      haltsNext_ok, haltsNext_logged, haltsNext_setQuery, haltsNext_setQueryOrPanic,
      haltsNext_setBoost, haltsNext_boostedClause, yyPact_facts, yyDef_facts, yyR1_facts,
      yyR2_facts, yyPgo_facts, excaAction_facts, errShift_facts, yyGoto_facts, yyAction_facts,
      StackOK_cons, succ_lt_one, succ_lt_two, succ_lt_three, succ_lt_four, succ_lt_five,
      queryStringStringToken_wrapper, queryStringPhraseToken_wrapper, fieldname_wrapper,
      dateRangeGreater_wrapper, dateRangeLess_wrapper, logDebugGrammarf_wrapper,
      TokKind.code_nonneg, yyFlag, slots_above_cons, slots_below_cons, slotHead_cons,
      slotTail_cons, dollar, searchPartAction, yyShift_facts_m11, yyShift_facts_m3,
      yyShift_facts_m1, yyShift_facts_5, yyShift_facts_6, yyShift_facts_9, yyShift_facts_10,
      yyShift_facts_16, yyShift_facts_19, yyShift_facts_26, yyShift_facts_30, TokKind.code,
      TokKind.num, yynewstate_unread_tok, yynewstate_unread_nil, hl, h4, hlog, hq]
    rw [halts_boundary]
    refine ready_unread _ _ _ _ _ _ _ _ (h _ ?_ ?_) _ _ _ _ _ <;> rfl
  | fieldString f c s q0 hq =>
    rcases hfollow with rfl | ⟨k, t, r, rfl, hk⟩
    · refine ready_tok mode lib _ o q 4 30 _ TokKind.tSTRING f _ rfl (by decide) ?_
      intro v above ne
      simp [yynewstate_look, yydefault_look, yynewstate_simple, yydefault_simple, yyact_reduce,
        yyreduce_mk, yyact_zero, halts_mid, haltsNext_next, haltsNext_ret, haltsNext_panic,
        haltsNext_ok, haltsNext_logged, haltsNext_setQuery, haltsNext_setQueryOrPanic,
        haltsNext_setBoost, haltsNext_boostedClause, yyPact_facts, yyDef_facts, yyR1_facts,
        yyR2_facts, yyPgo_facts, excaAction_facts, errShift_facts, yyGoto_facts, yyAction_facts,
        StackOK_cons, succ_lt_one, succ_lt_two, succ_lt_three, succ_lt_four, succ_lt_five,
        queryStringStringToken_wrapper, queryStringPhraseToken_wrapper, fieldname_wrapper,
        dateRangeGreater_wrapper, dateRangeLess_wrapper, logDebugGrammarf_wrapper,
        TokKind.code_nonneg, yyFlag, slots_above_cons, slots_below_cons, slotHead_cons,
        slotTail_cons, dollar, searchPartAction, yyShift_facts_m11, yyShift_facts_m3,
        yyShift_facts_m1, yyShift_facts_5, yyShift_facts_6, yyShift_facts_9, yyShift_facts_10,
        yyShift_facts_16, yyShift_facts_19, yyShift_facts_26, yyShift_facts_30, TokKind.code,
        TokKind.num, yynewstate_unread_tok, yynewstate_unread_nil, hl, h4, hlog, hq]
      rw [halts_boundary]
      refine ready_end _ _ _ _ _ _ _ (h _ ?_ ?_) _ _ _ _ <;> rfl
    · have hk1 := yyShift_m11_rest k (by simp at hk; exact hk.2)
      refine ready_tok mode lib _ o q 4 30 _ TokKind.tSTRING f _ rfl (by decide) ?_
      intro v above ne
      simp [yynewstate_look, yydefault_look, yynewstate_simple, yydefault_simple, yyact_reduce,
        yyreduce_mk, yyact_zero, halts_mid, haltsNext_next, haltsNext_ret, haltsNext_panic,
        haltsNext_ok, haltsNext_logged, haltsNext_setQuery, haltsNext_setQueryOrPanic,
        haltsNext_setBoost, haltsNext_boostedClause, yyPact_facts, yyDef_facts, yyR1_facts,
        yyR2_facts, yyPgo_facts, excaAction_facts, errShift_facts, yyGoto_facts, yyAction_facts,
        StackOK_cons, succ_lt_one, succ_lt_two, succ_lt_three, succ_lt_four, succ_lt_five,
        queryStringStringToken_wrapper, queryStringPhraseToken_wrapper, fieldname_wrapper,
        dateRangeGreater_wrapper, dateRangeLess_wrapper, logDebugGrammarf_wrapper,
        TokKind.code_nonneg, yyFlag, slots_above_cons, slots_below_cons, slotHead_cons,
        slotTail_cons, dollar, searchPartAction, yyShift_facts_m11, yyShift_facts_m3,
        yyShift_facts_m1, yyShift_facts_5, yyShift_facts_6, yyShift_facts_9, yyShift_facts_10,
        yyShift_facts_16, yyShift_facts_19, yyShift_facts_26, yyShift_facts_30,
        TokKind.code_facts, TokKind.num_facts, yynewstate_unread_tok, yynewstate_unread_nil, hl,
        h4, hlog, hq, hk1]
      rw [halts_boundary]
      refine ready_ahead _ _ _ _ _ _ _ _ _ _ (h _ ?_ ?_) _ _ _ <;> rfl
  | fieldNumber f c ts s q0 hn hq =>
    cases hn with
    | number s =>
      refine ready_tok mode lib _ o q 4 30 _ TokKind.tSTRING f _ rfl (by decide) ?_
      intro v above ne
      simp [yynewstate_look, yydefault_look, yynewstate_simple, yydefault_simple, yyact_reduce,
        yyreduce_mk, yyact_zero, halts_mid, haltsNext_next, haltsNext_ret, haltsNext_panic,
        haltsNext_ok, haltsNext_logged, haltsNext_setQuery, haltsNext_setQueryOrPanic,
        haltsNext_setBoost, haltsNext_boostedClause, yyPact_facts, yyDef_facts, yyR1_facts,
        yyR2_facts, yyPgo_facts, excaAction_facts, errShift_facts, yyGoto_facts, yyAction_facts,
        StackOK_cons, succ_lt_one, succ_lt_two, succ_lt_three, succ_lt_four, succ_lt_five,
        queryStringStringToken_wrapper, queryStringPhraseToken_wrapper, fieldname_wrapper,
        dateRangeGreater_wrapper, dateRangeLess_wrapper, logDebugGrammarf_wrapper,
        TokKind.code_nonneg, yyFlag, slots_above_cons, slots_below_cons, slotHead_cons,
        slotTail_cons, dollar, searchPartAction, yyShift_facts_m11, yyShift_facts_m3,
        yyShift_facts_m1, yyShift_facts_5, yyShift_facts_6, yyShift_facts_9, yyShift_facts_10,
        yyShift_facts_16, yyShift_facts_19, yyShift_facts_26, yyShift_facts_30, TokKind.code,
        TokKind.num, yynewstate_unread_tok, yynewstate_unread_nil, hl, h4, hlog, hq]
      rw [halts_boundary]
      refine ready_unread _ _ _ _ _ _ _ _ (h _ ?_ ?_) _ _ _ _ _ <;> rfl
    | negative m s =>
      refine ready_tok mode lib _ o q 4 30 _ TokKind.tSTRING f _ rfl (by decide) ?_
      intro v above ne
      simp [yynewstate_look, yydefault_look, yynewstate_simple, yydefault_simple, yyact_reduce,
        yyreduce_mk, yyact_zero, halts_mid, haltsNext_next, haltsNext_ret, haltsNext_panic,
        haltsNext_ok, haltsNext_logged, haltsNext_setQuery, haltsNext_setQueryOrPanic,
        haltsNext_setBoost, haltsNext_boostedClause, yyPact_facts, yyDef_facts, yyR1_facts,
        yyR2_facts, yyPgo_facts, excaAction_facts, errShift_facts, yyGoto_facts, yyAction_facts,
        StackOK_cons, succ_lt_one, succ_lt_two, succ_lt_three, succ_lt_four, succ_lt_five,
        queryStringStringToken_wrapper, queryStringPhraseToken_wrapper, fieldname_wrapper,
        dateRangeGreater_wrapper, dateRangeLess_wrapper, logDebugGrammarf_wrapper,
        TokKind.code_nonneg, yyFlag, slots_above_cons, slots_below_cons, slotHead_cons,
        slotTail_cons, dollar, searchPartAction, yyShift_facts_m11, yyShift_facts_m3,
        yyShift_facts_m1, yyShift_facts_5, yyShift_facts_6, yyShift_facts_9, yyShift_facts_10,
        yyShift_facts_16, yyShift_facts_19, yyShift_facts_26, yyShift_facts_30, TokKind.code,
        TokKind.num, yynewstate_unread_tok, yynewstate_unread_nil, hl, h4, hlog, hq]
      rw [halts_boundary]
      refine ready_unread _ _ _ _ _ _ _ _ (h _ ?_ ?_) _ _ _ _ _ <;> rfl
  | fieldPhrase f c s =>
    refine ready_tok mode lib _ o q 4 30 _ TokKind.tSTRING f _ rfl (by decide) ?_
    intro v above ne
    simp [yynewstate_look, yydefault_look, yynewstate_simple, yydefault_simple, yyact_reduce,
      yyreduce_mk, yyact_zero, halts_mid, haltsNext_next, haltsNext_ret, haltsNext_panic,
      haltsNext_ok, haltsNext_logged, haltsNext_setQuery, haltsNext_setQueryOrPanic,
      haltsNext_setBoost, haltsNext_boostedClause, yyPact_facts, yyDef_facts, yyR1_facts,
      yyR2_facts, yyPgo_facts, excaAction_facts, errShift_facts, yyGoto_facts, yyAction_facts,
      StackOK_cons, succ_lt_one, succ_lt_two, succ_lt_three, succ_lt_four, succ_lt_five,
      queryStringStringToken_wrapper, queryStringPhraseToken_wrapper, fieldname_wrapper,
      dateRangeGreater_wrapper, dateRangeLess_wrapper, logDebugGrammarf_wrapper,
      TokKind.code_nonneg, yyFlag, slots_above_cons, slots_below_cons, slotHead_cons,
      slotTail_cons, dollar, searchPartAction, yyShift_facts_m11, yyShift_facts_m3,
      yyShift_facts_m1, yyShift_facts_5, yyShift_facts_6, yyShift_facts_9, yyShift_facts_10,
      yyShift_facts_16, yyShift_facts_19, yyShift_facts_26, yyShift_facts_30, TokKind.code,
      TokKind.num, yynewstate_unread_tok, yynewstate_unread_nil, hl, h4, hlog]
    rw [halts_boundary]
    refine ready_unread _ _ _ _ _ _ _ _ (h _ ?_ ?_) _ _ _ _ _ <;> rfl
  | greater f c g ts s q0 hn hq =>
    cases hn with
    | number s =>
      refine ready_tok mode lib _ o q 4 30 _ TokKind.tSTRING f _ rfl (by decide) ?_
      intro v above ne
      simp [yynewstate_look, yydefault_look, yynewstate_simple, yydefault_simple, yyact_reduce,
        yyreduce_mk, yyact_zero, halts_mid, haltsNext_next, haltsNext_ret, haltsNext_panic,
        haltsNext_ok, haltsNext_logged, haltsNext_setQuery, haltsNext_setQueryOrPanic,
        haltsNext_setBoost, haltsNext_boostedClause, yyPact_facts, yyDef_facts, yyR1_facts,
        yyR2_facts, yyPgo_facts, excaAction_facts, errShift_facts, yyGoto_facts, yyAction_facts,
        StackOK_cons, succ_lt_one, succ_lt_two, succ_lt_three, succ_lt_four, succ_lt_five,
        queryStringStringToken_wrapper, queryStringPhraseToken_wrapper, fieldname_wrapper,
        dateRangeGreater_wrapper, dateRangeLess_wrapper, logDebugGrammarf_wrapper,
        TokKind.code_nonneg, yyFlag, slots_above_cons, slots_below_cons, slotHead_cons,
        slotTail_cons, dollar, searchPartAction, yyShift_facts_m11, yyShift_facts_m3,
        yyShift_facts_m1, yyShift_facts_5, yyShift_facts_6, yyShift_facts_9, yyShift_facts_10,
        yyShift_facts_16, yyShift_facts_19, yyShift_facts_26, yyShift_facts_30, TokKind.code,
        TokKind.num, yynewstate_unread_tok, yynewstate_unread_nil, hl, h4, hlog, hq]
      rw [halts_boundary]
      refine ready_unread _ _ _ _ _ _ _ _ (h _ ?_ ?_) _ _ _ _ _ <;> rfl
    | negative m s =>
      refine ready_tok mode lib _ o q 4 30 _ TokKind.tSTRING f _ rfl (by decide) ?_
      intro v above ne
      simp [yynewstate_look, yydefault_look, yynewstate_simple, yydefault_simple, yyact_reduce,
        yyreduce_mk, yyact_zero, halts_mid, haltsNext_next, haltsNext_ret, haltsNext_panic,
        haltsNext_ok, haltsNext_logged, haltsNext_setQuery, haltsNext_setQueryOrPanic,
        haltsNext_setBoost, haltsNext_boostedClause, yyPact_facts, yyDef_facts, yyR1_facts,
        yyR2_facts, yyPgo_facts, excaAction_facts, errShift_facts, yyGoto_facts, yyAction_facts,
        StackOK_cons, succ_lt_one, succ_lt_two, succ_lt_three, succ_lt_four, succ_lt_five,
        queryStringStringToken_wrapper, queryStringPhraseToken_wrapper, fieldname_wrapper,
        dateRangeGreater_wrapper, dateRangeLess_wrapper, logDebugGrammarf_wrapper,
        TokKind.code_nonneg, yyFlag, slots_above_cons, slots_below_cons, slotHead_cons,
        slotTail_cons, dollar, searchPartAction, yyShift_facts_m11, yyShift_facts_m3,
        yyShift_facts_m1, yyShift_facts_5, yyShift_facts_6, yyShift_facts_9, yyShift_facts_10,
        yyShift_facts_16, yyShift_facts_19, yyShift_facts_26, yyShift_facts_30, TokKind.code,
        TokKind.num, yynewstate_unread_tok, yynewstate_unread_nil, hl, h4, hlog, hq]
      rw [halts_boundary]
      refine ready_unread _ _ _ _ _ _ _ _ (h _ ?_ ?_) _ _ _ _ _ <;> rfl
  | greaterEqual f c g e ts s q0 hn hq =>
    cases hn with
    | number s =>
      refine ready_tok mode lib _ o q 4 30 _ TokKind.tSTRING f _ rfl (by decide) ?_
      intro v above ne
      simp [yynewstate_look, yydefault_look, yynewstate_simple, yydefault_simple, yyact_reduce,
        yyreduce_mk, yyact_zero, halts_mid, haltsNext_next, haltsNext_ret, haltsNext_panic,
        haltsNext_ok, haltsNext_logged, haltsNext_setQuery, haltsNext_setQueryOrPanic,
        haltsNext_setBoost, haltsNext_boostedClause, yyPact_facts, yyDef_facts, yyR1_facts,
        yyR2_facts, yyPgo_facts, excaAction_facts, errShift_facts, yyGoto_facts, yyAction_facts,
        StackOK_cons, succ_lt_one, succ_lt_two, succ_lt_three, succ_lt_four, succ_lt_five,
        queryStringStringToken_wrapper, queryStringPhraseToken_wrapper, fieldname_wrapper,
        dateRangeGreater_wrapper, dateRangeLess_wrapper, logDebugGrammarf_wrapper,
        TokKind.code_nonneg, yyFlag, slots_above_cons, slots_below_cons, slotHead_cons,
        slotTail_cons, dollar, searchPartAction, yyShift_facts_m11, yyShift_facts_m3,
        yyShift_facts_m1, yyShift_facts_5, yyShift_facts_6, yyShift_facts_9, yyShift_facts_10,
        yyShift_facts_16, yyShift_facts_19, yyShift_facts_26, yyShift_facts_30, TokKind.code,
        TokKind.num, yynewstate_unread_tok, yynewstate_unread_nil, hl, h4, hlog, hq]
      rw [halts_boundary]
      refine ready_unread _ _ _ _ _ _ _ _ (h _ ?_ ?_) _ _ _ _ _ <;> rfl
    | negative m s =>
      refine ready_tok mode lib _ o q 4 30 _ TokKind.tSTRING f _ rfl (by decide) ?_
      intro v above ne
      simp [yynewstate_look, yydefault_look, yynewstate_simple, yydefault_simple, yyact_reduce,
        yyreduce_mk, yyact_zero, halts_mid, haltsNext_next, haltsNext_ret, haltsNext_panic,
        haltsNext_ok, haltsNext_logged, haltsNext_setQuery, haltsNext_setQueryOrPanic,
        haltsNext_setBoost, haltsNext_boostedClause, yyPact_facts, yyDef_facts, yyR1_facts,
        yyR2_facts, yyPgo_facts, excaAction_facts, errShift_facts, yyGoto_facts, yyAction_facts,
        StackOK_cons, succ_lt_one, succ_lt_two, succ_lt_three, succ_lt_four, succ_lt_five,
        queryStringStringToken_wrapper, queryStringPhraseToken_wrapper, fieldname_wrapper,
        dateRangeGreater_wrapper, dateRangeLess_wrapper, logDebugGrammarf_wrapper,
        TokKind.code_nonneg, yyFlag, slots_above_cons, slots_below_cons, slotHead_cons,
        slotTail_cons, dollar, searchPartAction, yyShift_facts_m11, yyShift_facts_m3,
        yyShift_facts_m1, yyShift_facts_5, yyShift_facts_6, yyShift_facts_9, yyShift_facts_10,
        yyShift_facts_16, yyShift_facts_19, yyShift_facts_26, yyShift_facts_30, TokKind.code,
        TokKind.num, yynewstate_unread_tok, yynewstate_unread_nil, hl, h4, hlog, hq]
      rw [halts_boundary]
      refine ready_unread _ _ _ _ _ _ _ _ (h _ ?_ ?_) _ _ _ _ _ <;> rfl
  | less f c g ts s q0 hn hq =>
    cases hn with
    | number s =>
      refine ready_tok mode lib _ o q 4 30 _ TokKind.tSTRING f _ rfl (by decide) ?_
      intro v above ne
      simp [yynewstate_look, yydefault_look, yynewstate_simple, yydefault_simple, yyact_reduce,
        yyreduce_mk, yyact_zero, halts_mid, haltsNext_next, haltsNext_ret, haltsNext_panic,
        haltsNext_ok, haltsNext_logged, haltsNext_setQuery, haltsNext_setQueryOrPanic,
        haltsNext_setBoost, haltsNext_boostedClause, yyPact_facts, yyDef_facts, yyR1_facts,
        yyR2_facts, yyPgo_facts, excaAction_facts, errShift_facts, yyGoto_facts, yyAction_facts,
        StackOK_cons, succ_lt_one, succ_lt_two, succ_lt_three, succ_lt_four, succ_lt_five,
        queryStringStringToken_wrapper, queryStringPhraseToken_wrapper, fieldname_wrapper,
        dateRangeGreater_wrapper, dateRangeLess_wrapper, logDebugGrammarf_wrapper,
        TokKind.code_nonneg, yyFlag, slots_above_cons, slots_below_cons, slotHead_cons,
        slotTail_cons, dollar, searchPartAction, yyShift_facts_m11, yyShift_facts_m3,
        yyShift_facts_m1, yyShift_facts_5, yyShift_facts_6, yyShift_facts_9, yyShift_facts_10,
        yyShift_facts_16, yyShift_facts_19, yyShift_facts_26, yyShift_facts_30, TokKind.code,
        TokKind.num, yynewstate_unread_tok, yynewstate_unread_nil, hl, h4, hlog, hq]
      rw [halts_boundary]
      refine ready_unread _ _ _ _ _ _ _ _ (h _ ?_ ?_) _ _ _ _ _ <;> rfl
    | negative m s =>
      refine ready_tok mode lib _ o q 4 30 _ TokKind.tSTRING f _ rfl (by decide) ?_
      intro v above ne
      simp [yynewstate_look, yydefault_look, yynewstate_simple, yydefault_simple, yyact_reduce,
        yyreduce_mk, yyact_zero, halts_mid, haltsNext_next, haltsNext_ret, haltsNext_panic,
        haltsNext_ok, haltsNext_logged, haltsNext_setQuery, haltsNext_setQueryOrPanic,
        haltsNext_setBoost, haltsNext_boostedClause, yyPact_facts, yyDef_facts, yyR1_facts,
        yyR2_facts, yyPgo_facts, excaAction_facts, errShift_facts, yyGoto_facts, yyAction_facts,
        StackOK_cons, succ_lt_one, succ_lt_two, succ_lt_three, succ_lt_four, succ_lt_five,
        queryStringStringToken_wrapper, queryStringPhraseToken_wrapper, fieldname_wrapper,
        dateRangeGreater_wrapper, dateRangeLess_wrapper, logDebugGrammarf_wrapper,
        TokKind.code_nonneg, yyFlag, slots_above_cons, slots_below_cons, slotHead_cons,
        slotTail_cons, dollar, searchPartAction, yyShift_facts_m11, yyShift_facts_m3,
        yyShift_facts_m1, yyShift_facts_5, yyShift_facts_6, yyShift_facts_9, yyShift_facts_10,
        yyShift_facts_16, yyShift_facts_19, yyShift_facts_26, yyShift_facts_30, TokKind.code,
        TokKind.num, yynewstate_unread_tok, yynewstate_unread_nil, hl, h4, hlog, hq]
      rw [halts_boundary]
      refine ready_unread _ _ _ _ _ _ _ _ (h _ ?_ ?_) _ _ _ _ _ <;> rfl
  | lessEqual f c g e ts s q0 hn hq =>
    cases hn with
    | number s =>
      refine ready_tok mode lib _ o q 4 30 _ TokKind.tSTRING f _ rfl (by decide) ?_
      intro v above ne
      simp [yynewstate_look, yydefault_look, yynewstate_simple, yydefault_simple, yyact_reduce,
        yyreduce_mk, yyact_zero, halts_mid, haltsNext_next, haltsNext_ret, haltsNext_panic,
        haltsNext_ok, haltsNext_logged, haltsNext_setQuery, haltsNext_setQueryOrPanic,
        haltsNext_setBoost, haltsNext_boostedClause, yyPact_facts, yyDef_facts, yyR1_facts,
        yyR2_facts, yyPgo_facts, excaAction_facts, errShift_facts, yyGoto_facts, yyAction_facts,
        StackOK_cons, succ_lt_one, succ_lt_two, succ_lt_three, succ_lt_four, succ_lt_five,
        queryStringStringToken_wrapper, queryStringPhraseToken_wrapper, fieldname_wrapper,
        dateRangeGreater_wrapper, dateRangeLess_wrapper, logDebugGrammarf_wrapper,
        TokKind.code_nonneg, yyFlag, slots_above_cons, slots_below_cons, slotHead_cons,
        slotTail_cons, dollar, searchPartAction, yyShift_facts_m11, yyShift_facts_m3,
        yyShift_facts_m1, yyShift_facts_5, yyShift_facts_6, yyShift_facts_9, yyShift_facts_10,
        yyShift_facts_16, yyShift_facts_19, yyShift_facts_26, yyShift_facts_30, TokKind.code,
        TokKind.num, yynewstate_unread_tok, yynewstate_unread_nil, hl, h4, hlog, hq]
      rw [halts_boundary]
      refine ready_unread _ _ _ _ _ _ _ _ (h _ ?_ ?_) _ _ _ _ _ <;> rfl
    | negative m s =>
      refine ready_tok mode lib _ o q 4 30 _ TokKind.tSTRING f _ rfl (by decide) ?_
      intro v above ne
      simp [yynewstate_look, yydefault_look, yynewstate_simple, yydefault_simple, yyact_reduce,
        yyreduce_mk, yyact_zero, halts_mid, haltsNext_next, haltsNext_ret, haltsNext_panic,
        haltsNext_ok, haltsNext_logged, haltsNext_setQuery, haltsNext_setQueryOrPanic,
        haltsNext_setBoost, haltsNext_boostedClause, yyPact_facts, yyDef_facts, yyR1_facts,
        yyR2_facts, yyPgo_facts, excaAction_facts, errShift_facts, yyGoto_facts, yyAction_facts,
        StackOK_cons, succ_lt_one, succ_lt_two, succ_lt_three, succ_lt_four, succ_lt_five,
        queryStringStringToken_wrapper, queryStringPhraseToken_wrapper, fieldname_wrapper,
        dateRangeGreater_wrapper, dateRangeLess_wrapper, logDebugGrammarf_wrapper,
        TokKind.code_nonneg, yyFlag, slots_above_cons, slots_below_cons, slotHead_cons,
        slotTail_cons, dollar, searchPartAction, yyShift_facts_m11, yyShift_facts_m3,
        yyShift_facts_m1, yyShift_facts_5, yyShift_facts_6, yyShift_facts_9, yyShift_facts_10,
        yyShift_facts_16, yyShift_facts_19, yyShift_facts_26, yyShift_facts_30, TokKind.code,
        TokKind.num, yynewstate_unread_tok, yynewstate_unread_nil, hl, h4, hlog, hq]
      rw [halts_boundary]
      refine ready_unread _ _ _ _ _ _ _ _ (h _ ?_ ?_) _ _ _ _ _ <;> rfl
  | greaterDate f c g p q0 hq =>
    refine ready_tok mode lib _ o q 4 30 _ TokKind.tSTRING f _ rfl (by decide) ?_
    intro v above ne
    simp [yynewstate_look, yydefault_look, yynewstate_simple, yydefault_simple, yyact_reduce,
      yyreduce_mk, yyact_zero, halts_mid, haltsNext_next, haltsNext_ret, haltsNext_panic,
      haltsNext_ok, haltsNext_logged, haltsNext_setQuery, haltsNext_setQueryOrPanic,
      haltsNext_setBoost, haltsNext_boostedClause, yyPact_facts, yyDef_facts, yyR1_facts,
      yyR2_facts, yyPgo_facts, excaAction_facts, errShift_facts, yyGoto_facts, yyAction_facts,
      StackOK_cons, succ_lt_one, succ_lt_two, succ_lt_three, succ_lt_four, succ_lt_five,
      queryStringStringToken_wrapper, queryStringPhraseToken_wrapper, fieldname_wrapper,
      dateRangeGreater_wrapper, dateRangeLess_wrapper, logDebugGrammarf_wrapper,
      TokKind.code_nonneg, yyFlag, slots_above_cons, slots_below_cons, slotHead_cons,
      slotTail_cons, dollar, searchPartAction, yyShift_facts_m11, yyShift_facts_m3,
      yyShift_facts_m1, yyShift_facts_5, yyShift_facts_6, yyShift_facts_9, yyShift_facts_10,
      yyShift_facts_16, yyShift_facts_19, yyShift_facts_26, yyShift_facts_30, TokKind.code,
      TokKind.num, yynewstate_unread_tok, yynewstate_unread_nil, hl, h4, hlog, hq]
    rw [halts_boundary]
    refine ready_unread _ _ _ _ _ _ _ _ (h _ ?_ ?_) _ _ _ _ _ <;> rfl
  | greaterEqualDate f c g e p q0 hq =>
    refine ready_tok mode lib _ o q 4 30 _ TokKind.tSTRING f _ rfl (by decide) ?_
    intro v above ne
    simp [yynewstate_look, yydefault_look, yynewstate_simple, yydefault_simple, yyact_reduce,
      yyreduce_mk, yyact_zero, halts_mid, haltsNext_next, haltsNext_ret, haltsNext_panic,
      haltsNext_ok, haltsNext_logged, haltsNext_setQuery, haltsNext_setQueryOrPanic,
      haltsNext_setBoost, haltsNext_boostedClause, yyPact_facts, yyDef_facts, yyR1_facts,
      yyR2_facts, yyPgo_facts, excaAction_facts, errShift_facts, yyGoto_facts, yyAction_facts,
      StackOK_cons, succ_lt_one, succ_lt_two, succ_lt_three, succ_lt_four, succ_lt_five,
      queryStringStringToken_wrapper, queryStringPhraseToken_wrapper, fieldname_wrapper,
      dateRangeGreater_wrapper, dateRangeLess_wrapper, logDebugGrammarf_wrapper,
      TokKind.code_nonneg, yyFlag, slots_above_cons, slots_below_cons, slotHead_cons,
      slotTail_cons, dollar, searchPartAction, yyShift_facts_m11, yyShift_facts_m3,
      yyShift_facts_m1, yyShift_facts_5, yyShift_facts_6, yyShift_facts_9, yyShift_facts_10,
      yyShift_facts_16, yyShift_facts_19, yyShift_facts_26, yyShift_facts_30, TokKind.code,
      TokKind.num, yynewstate_unread_tok, yynewstate_unread_nil, hl, h4, hlog, hq]
    rw [halts_boundary]
    refine ready_unread _ _ _ _ _ _ _ _ (h _ ?_ ?_) _ _ _ _ _ <;> rfl
  | lessDate f c g p q0 hq =>
    refine ready_tok mode lib _ o q 4 30 _ TokKind.tSTRING f _ rfl (by decide) ?_
    intro v above ne
    simp [yynewstate_look, yydefault_look, yynewstate_simple, yydefault_simple, yyact_reduce,
      yyreduce_mk, yyact_zero, halts_mid, haltsNext_next, haltsNext_ret, haltsNext_panic,
      haltsNext_ok, haltsNext_logged, haltsNext_setQuery, haltsNext_setQueryOrPanic,
      haltsNext_setBoost, haltsNext_boostedClause, yyPact_facts, yyDef_facts, yyR1_facts,
      yyR2_facts, yyPgo_facts, excaAction_facts, errShift_facts, yyGoto_facts, yyAction_facts,
      StackOK_cons, succ_lt_one, succ_lt_two, succ_lt_three, succ_lt_four, succ_lt_five,
      queryStringStringToken_wrapper, queryStringPhraseToken_wrapper, fieldname_wrapper,
      dateRangeGreater_wrapper, dateRangeLess_wrapper, logDebugGrammarf_wrapper,
      TokKind.code_nonneg, yyFlag, slots_above_cons, slots_below_cons, slotHead_cons,
      slotTail_cons, dollar, searchPartAction, yyShift_facts_m11, yyShift_facts_m3,
      yyShift_facts_m1, yyShift_facts_5, yyShift_facts_6, yyShift_facts_9, yyShift_facts_10,
      yyShift_facts_16, yyShift_facts_19, yyShift_facts_26, yyShift_facts_30, TokKind.code,
      TokKind.num, yynewstate_unread_tok, yynewstate_unread_nil, hl, h4, hlog, hq]
    rw [halts_boundary]
    refine ready_unread _ _ _ _ _ _ _ _ (h _ ?_ ?_) _ _ _ _ _ <;> rfl
  | lessEqualDate f c g e p q0 hq =>
    refine ready_tok mode lib _ o q 4 30 _ TokKind.tSTRING f _ rfl (by decide) ?_
    intro v above ne
    simp [yynewstate_look, yydefault_look, yynewstate_simple, yydefault_simple, yyact_reduce,
      yyreduce_mk, yyact_zero, halts_mid, haltsNext_next, haltsNext_ret, haltsNext_panic,
      haltsNext_ok, haltsNext_logged, haltsNext_setQuery, haltsNext_setQueryOrPanic,
      haltsNext_setBoost, haltsNext_boostedClause, yyPact_facts, yyDef_facts, yyR1_facts,
      yyR2_facts, yyPgo_facts, excaAction_facts, errShift_facts, yyGoto_facts, yyAction_facts,
      StackOK_cons, succ_lt_one, succ_lt_two, succ_lt_three, succ_lt_four, succ_lt_five,
      queryStringStringToken_wrapper, queryStringPhraseToken_wrapper, fieldname_wrapper,
      dateRangeGreater_wrapper, dateRangeLess_wrapper, logDebugGrammarf_wrapper,
      TokKind.code_nonneg, yyFlag, slots_above_cons, slots_below_cons, slotHead_cons,
      slotTail_cons, dollar, searchPartAction, yyShift_facts_m11, yyShift_facts_m3,
      yyShift_facts_m1, yyShift_facts_5, yyShift_facts_6, yyShift_facts_9, yyShift_facts_10,
      yyShift_facts_16, yyShift_facts_19, yyShift_facts_26, yyShift_facts_30, TokKind.code,
      TokKind.num, yynewstate_unread_tok, yynewstate_unread_nil, hl, h4, hlog, hq]
    rw [halts_boundary]
    refine ready_unread _ _ _ _ _ _ _ _ (h _ ?_ ?_) _ _ _ _ _ <;> rfl

theorem searchBase_first (lib : GoLib) (o : QueryStringOptions) (ts : List LexItem)
    (q : Query) (h : SearchBase lib o ts q) :
    ∃ k t r, ts = LexItem.tok k t :: r ∧
      (k = TokKind.tSTRING ∨ k = TokKind.tNUMBER ∨ k = TokKind.tPHRASE) := by
  cases h <;> exact ⟨_, _, _, rfl, by simp⟩

theorem searchPart_first (lib : GoLib) (o : QueryStringOptions) (ts : List LexItem)
    (n : Int) (q : Query) (h : SearchPart lib o ts n q) :
    ∃ k t r, ts = LexItem.tok k t :: r ∧
      (k = TokKind.tSTRING ∨ k = TokKind.tNUMBER ∨ k = TokKind.tPHRASE ∨ k = TokKind.tPLUS ∨
        k = TokKind.tMINUS ∨ k = TokKind.tQUESTION) := by
  cases h with
  | mk ts1 ts2 ts3 n q0 pf q1 h1 h2 h3 h4 =>
    cases h1 with
    | absent =>
      obtain ⟨k, t, r, rfl, hk⟩ := searchBase_first lib o ts2 q0 h2
      refine ⟨k, t, r ++ ts3, rfl, ?_⟩
      rcases hk with hk | hk | hk <;> simp [hk]
    | question s => exact ⟨_, _, _, rfl, by simp⟩
    | plus s => exact ⟨_, _, _, rfl, by simp⟩
    | minus s => exact ⟨_, _, _, rfl, by simp⟩

theorem searchParts_first (lib : GoLib) (o : QueryStringOptions) (ts : List LexItem)
    (cs : List (Int × Query)) (h : SearchParts lib o ts cs) :
    ∃ k t r, ts = LexItem.tok k t :: r ∧
      (k = TokKind.tSTRING ∨ k = TokKind.tNUMBER ∨ k = TokKind.tPHRASE ∨ k = TokKind.tPLUS ∨
        k = TokKind.tMINUS ∨ k = TokKind.tQUESTION) := by
  cases h with
  | one ts n q hp => exact searchPart_first lib o ts n q hp
  | cons ts rest n q cs hp hrest =>
    obtain ⟨k, t, r, rfl, hk⟩ := searchPart_first lib o ts n q hp
    exact ⟨k, t, r ++ rest, rfl, hk⟩

/-- A search part, on a run that ends without an error on record, before the end of the
input or a token with which no clause goes on. -/
theorem part_ready (mode : LexErrorMode) (lib : GoLib) (lf : lexerWrapper) (cf : Int)
    (hl : lf.errs = []) (o : QueryStringOptions) (q : BooleanQuery)
    (hlog : (newLexerWrapper [] o).logDebugGrammarf = .ok ())
    (eb : yySymType) (b : List yySymType) (hb : eb.yys = 0 ∨ eb.yys = 3)
    (ts : List LexItem) (n : Int) (q1 : Query) (rest : List LexItem)
    (hpart : SearchPart lib o ts n q1)
    (hfollow : Follows [TokKind.tBOOST, TokKind.tCOLON, TokKind.tTILDE] rest)
    (h : ∀ e3 : yySymType, e3.yys = 3 →
      Ready mode lib (Run.ret lf cf) o (addRole q n q1) 3 (e3 :: eb :: b) rest) :
    Ready mode lib (Run.ret lf cf) o q eb.yys (eb :: b) (ts ++ rest) := by
  cases hpart with
  | mk ts1 ts2 ts3 n q0 pf q1 h1 h2 h3 h4 =>
    have e : ts1 ++ (ts2 ++ ts3) ++ rest = ts1 ++ (ts2 ++ (ts3 ++ rest)) := by simp
    rw [e]
    have hf1 : Follows [TokKind.tBOOST] rest := by
      rcases hfollow with rfl | ⟨k, t, r, rfl, hk⟩
      · exact Or.inl rfl
      · exact Or.inr ⟨k, t, r, rfl, by simp at hk ⊢; exact hk.1⟩
    have hf2 : Follows [TokKind.tCOLON, TokKind.tTILDE] (ts3 ++ rest) := by
      cases h3 with
      | absent =>
        rcases hfollow with rfl | ⟨k, t, r, rfl, hk⟩
        · exact Or.inl rfl
        · exact Or.inr ⟨k, t, r, rfl, by simp at hk ⊢; exact hk.2⟩
      | boost s bst hbst => exact Or.inr ⟨_, _, _, rfl, by simp⟩
    have hfirst : ∃ k t r, ts2 ++ (ts3 ++ rest) = LexItem.tok k t :: r ∧ k ≠ TokKind.tPLUS ∧
        k ≠ TokKind.tMINUS ∧ k ≠ TokKind.tQUESTION := by
      obtain ⟨k, t, r, rfl, hk⟩ := searchBase_first lib o ts2 q0 h2
      refine ⟨k, t, r ++ (ts3 ++ rest), rfl, ?_⟩
      rcases hk with hk | hk | hk <;> simp [hk]
    refine lead_ready mode lib lf cf o q hlog eb b hb ts1 n _ h1 hfirst ?_
    intro e4 h4a hn
    refine base_ready mode lib lf cf hl o q hlog e4 eb b h4a ts2 q0 _ h2 hf2 ?_
    intro e9 h9 hq
    refine suffix_ready mode lib lf cf hl o q hlog e9 e4 eb b h9 hb ts3 pf q1 rest h3 ?_ hf1 ?_
    · rw [hq]
      exact h4
    · rw [hn]
      exact h

/-- At the end of the input the parser reduces the search parts on its stack and accepts with
the wrapper it has. -/
theorem finish_stack_ready (mode : LexErrorMode) (lib : GoLib) (o : QueryStringOptions)
    (q : BooleanQuery) (hlog : (newLexerWrapper [] o).logDebugGrammarf = .ok ())
    (b : List yySymType) :
    ∀ (e : yySymType), PStack (e :: b) → ∀ (s : Int), yyGoto 6 28 e.yys = .ok s →
      ∀ (lval v : yySymType) (above : List yySymType) (ne : Int),
        Halts mode lib Label.yystack
          ⟨⟨[], [], q, o, o.debugParser, o.dateFormat, o.logger⟩, lval, 0, 1, v, e :: b, above,
            ne, 0, s⟩ (Run.ret (acceptedWrapper o q) 0) := by
  induction b with
  | nil =>
    intro e he s hg lval v above ne
    have he0 : e.yys = 0 := he
    rw [he0] at hg
    have hs : s = 2 := by
      have := yyGoto_facts
      simp_all
    subst hs
    simp [yynewstate_look, yydefault_look, yynewstate_simple, yydefault_simple, yyact_reduce,
      yyreduce_mk, yyact_zero, halts_mid, haltsNext_next, haltsNext_ret, haltsNext_panic,
      haltsNext_ok, haltsNext_logged, haltsNext_setQuery, haltsNext_setQueryOrPanic,
      haltsNext_setBoost, haltsNext_boostedClause, yyPact_facts, yyDef_facts, yyR1_facts,
      yyR2_facts, yyPgo_facts, excaAction_facts, errShift_facts, yyGoto_facts, yyAction_facts,
      StackOK_cons, succ_lt_one, succ_lt_two, succ_lt_three, succ_lt_four, succ_lt_five,
      queryStringStringToken_wrapper, queryStringPhraseToken_wrapper, fieldname_wrapper,
      dateRangeGreater_wrapper, dateRangeLess_wrapper, logDebugGrammarf_wrapper,
      TokKind.code_nonneg, yyFlag, slots_above_cons, slots_below_cons, slotHead_cons,
      slotTail_cons, dollar, searchPartAction, yyShift_facts_m11, yyShift_facts_m3,
      yyShift_facts_m1, yyShift_facts_5, yyShift_facts_6, yyShift_facts_9, yyShift_facts_10,
      yyShift_facts_16, yyShift_facts_19, yyShift_facts_26, yyShift_facts_30, TokKind.code,
      TokKind.num, yynewstate_unread_tok, yynewstate_unread_nil, he0, hlog, acceptedWrapper]
  | cons e2 b2 ih =>
    intro e he s hg lval v above ne
    have he3 : e.yys = 3 := he.1
    rw [he3] at hg
    have hs : s = 8 := by
      have := yyGoto_facts
      simp_all
    subst hs
    have hg2 : ∃ s2, yyGoto 6 28 e2.yys = .ok s2 := by
      rcases PStack_head e2 b2 he.2 with h2 | h2 <;> rw [h2]
      · exact ⟨2, rfl⟩
      · exact ⟨8, rfl⟩
    obtain ⟨s2, hg2⟩ := hg2
    simp [yynewstate_look, yydefault_look, yynewstate_simple, yydefault_simple, yyact_reduce,
      yyreduce_mk, yyact_zero, halts_mid, haltsNext_next, haltsNext_ret, haltsNext_panic,
      haltsNext_ok, haltsNext_logged, haltsNext_setQuery, haltsNext_setQueryOrPanic,
      haltsNext_setBoost, haltsNext_boostedClause, yyPact_facts, yyDef_facts, yyR1_facts,
      yyR2_facts, yyPgo_facts, excaAction_facts, errShift_facts, yyGoto_facts, yyAction_facts,
      StackOK_cons, succ_lt_one, succ_lt_two, succ_lt_three, succ_lt_four, succ_lt_five,
      queryStringStringToken_wrapper, queryStringPhraseToken_wrapper, fieldname_wrapper,
      dateRangeGreater_wrapper, dateRangeLess_wrapper, logDebugGrammarf_wrapper,
      TokKind.code_nonneg, yyFlag, slots_above_cons, slots_below_cons, slotHead_cons,
      slotTail_cons, dollar, searchPartAction, yyShift_facts_m11, yyShift_facts_m3,
      yyShift_facts_m1, yyShift_facts_5, yyShift_facts_6, yyShift_facts_9, yyShift_facts_10,
      yyShift_facts_16, yyShift_facts_19, yyShift_facts_26, yyShift_facts_30, TokKind.code,
      TokKind.num, yynewstate_unread_tok, yynewstate_unread_nil, he3, hg2, hlog]
    exact ih e2 he.2 s2 hg2 _ _ _ _

/-- In state 3 at the end of the input the parser accepts with the wrapper it has. -/
theorem finish_ready (mode : LexErrorMode) (lib : GoLib) (o : QueryStringOptions)
    (q : BooleanQuery) (hlog : (newLexerWrapper [] o).logDebugGrammarf = .ok ())
    (eb : yySymType) (b : List yySymType) (hp : PStack (eb :: b)) (hb : eb.yys = 3) :
    Ready mode lib (Run.ret (acceptedWrapper o q) 0) o q 3 (eb :: b) [] := by
  cases b with
  | nil =>
    have h0 : eb.yys = 0 := hp
    omega
  | cons e2 b2 =>
    have hg2 : ∃ s2, yyGoto 6 28 e2.yys = .ok s2 := by
      rcases PStack_head e2 b2 hp.2 with h2 | h2 <;> rw [h2]
      · exact ⟨2, rfl⟩
      · exact ⟨8, rfl⟩
    obtain ⟨s2, hg2⟩ := hg2
    refine ready_nil mode lib _ o q 3 (-1) _ (by rfl) (by decide) ?_
    intro lval v above ne
    simp [yynewstate_look, yydefault_look, yynewstate_simple, yydefault_simple, yyact_reduce,
      yyreduce_mk, yyact_zero, halts_mid, haltsNext_next, haltsNext_ret, haltsNext_panic,
      haltsNext_ok, haltsNext_logged, haltsNext_setQuery, haltsNext_setQueryOrPanic,
      haltsNext_setBoost, haltsNext_boostedClause, yyPact_facts, yyDef_facts, yyR1_facts,
      yyR2_facts, yyPgo_facts, excaAction_facts, errShift_facts, yyGoto_facts, yyAction_facts,
      StackOK_cons, succ_lt_one, succ_lt_two, succ_lt_three, succ_lt_four, succ_lt_five,
      queryStringStringToken_wrapper, queryStringPhraseToken_wrapper, fieldname_wrapper,
      dateRangeGreater_wrapper, dateRangeLess_wrapper, logDebugGrammarf_wrapper,
      TokKind.code_nonneg, yyFlag, slots_above_cons, slots_below_cons, slotHead_cons,
      slotTail_cons, dollar, searchPartAction, yyShift_facts_m11, yyShift_facts_m3,
      yyShift_facts_m1, yyShift_facts_5, yyShift_facts_6, yyShift_facts_9, yyShift_facts_10,
      yyShift_facts_16, yyShift_facts_19, yyShift_facts_26, yyShift_facts_30, TokKind.code,
      TokKind.num, yynewstate_unread_tok, yynewstate_unread_nil, hb, hg2, hlog]
    exact finish_stack_ready mode lib o q hlog b2 e2 hp.2 s2 hg2 _ _ _ _

/-- A sequence of search parts is parsed to the end: the run returns 0 with the wrapper whose
root holds the clauses, added in order by their roles. -/
theorem parts_ready (mode : LexErrorMode) (lib : GoLib) (o : QueryStringOptions)
    (hlog : (newLexerWrapper [] o).logDebugGrammarf = .ok ())
    (items : List LexItem) (cs : List (Int × Query)) (h : SearchParts lib o items cs) :
    ∀ (q : BooleanQuery) (eb : yySymType) (b : List yySymType), PStack (eb :: b) →
      Ready mode lib
        (Run.ret (acceptedWrapper o (cs.foldl (fun r c => addRole r c.1 c.2) q)) 0) o q eb.yys
        (eb :: b) items := by
  induction h with
  | one ts n q1 hpart =>
    intro q eb b hp
    have e : ts = ts ++ [] := by simp
    rw [e]
    refine part_ready mode lib _ 0 rfl o q hlog eb b (PStack_head eb b hp) ts n q1 [] hpart
      (Or.inl rfl) ?_
    intro e3 h3
    exact finish_ready mode lib o _ hlog e3 (eb :: b) ⟨h3, hp⟩ h3
  | cons ts rest n q1 cs hpart hrest ih =>
    intro q eb b hp
    have hfollow : Follows [TokKind.tBOOST, TokKind.tCOLON, TokKind.tTILDE] rest := by
      obtain ⟨k, t, r, rfl, hk⟩ := searchParts_first lib o rest cs hrest
      refine Or.inr ⟨k, t, r, rfl, ?_⟩
      rcases hk with hk | hk | hk | hk | hk | hk <;> simp [hk]
    refine part_ready mode lib _ 0 rfl o q hlog eb b (PStack_head eb b hp) ts n q1 rest hpart
      hfollow ?_
    intro e3 h3
    have := ih (addRole q n q1) e3 (eb :: b) ⟨h3, hp⟩
    rw [h3] at this
    exact this

/-- More fuel does not change how a run ends. -/
theorem parseLoop_fuel (mode : LexErrorMode) (lib : GoLib) :
    ∀ (f g : Nat) (lbl : Label) (st : ParseState),
      parseLoop mode lib f lbl st ≠ Run.outOfFuel → parseLoop mode lib g lbl st ≠ Run.outOfFuel →
      parseLoop mode lib g lbl st = parseLoop mode lib f lbl st := by
  intro f
  induction f with
  | zero =>
    intro g lbl st hf
    exact absurd rfl hf
  | succ f ih =>
    intro g lbl st hf hg
    cases g with
    | zero => exact absurd rfl hg
    | succ g =>
      simp only [parseLoop] at hf hg ⊢
      cases hs : yyStep mode lib lbl st with
      | next lbl1 st1 =>
        rw [hs] at hf hg
        exact ih g lbl1 st1 hf hg
      | ret l c => rfl
      | panic l p => rfl

/-- The parse of a sequence of search parts: `doParse` returns the wrapper with no item left,
no error, and the root that holds the clauses, added in order by their roles. -/
theorem doParse_complete (mode : LexErrorMode) (lib : GoLib) (items : List LexItem)
    (o : QueryStringOptions) (cs : List (Int × Query))
    (hlog : (newLexerWrapper [] o).logDebugGrammarf = .ok ())
    (h : SearchParts lib o items cs) :
    doParse mode lib (parseFuel items) (newLexerWrapper items o) =
      some (acceptedWrapper o
        (cs.foldl (fun r c => addRole r c.1 c.2) (NewBooleanQuery.SetMinShould 1))) := by
  have hr := parts_ready mode lib o hlog items cs h (NewBooleanQuery.SetMinShould 1)
    { yySymType.zero with yys := 0 } [] rfl
  have h2 := ready_unread mode lib _ o _ _ _ _ hr yySymType.zero (-1) yySymType.zero
    (List.replicate 15 yySymType.zero) 0
  have hH : Halts mode lib Label.yystack (ParseState.init (newLexerWrapper items o))
      (Run.ret (acceptedWrapper o
        (cs.foldl (fun r c => addRole r c.1 c.2) (NewBooleanQuery.SetMinShould 1))) 0) :=
    (halts_iff mode lib _ _ _).mpr h2
  obtain ⟨f, hf, hne⟩ := hH
  have ht := parseLoop_total mode lib (parseFuel items)
    (ParseState.init (newLexerWrapper items o)) rfl
    (by
      have e : potential (ParseState.init (newLexerWrapper items o)) = 8 * items.length + 2 := by
        simp [potential, tokensLeft, ParseState.init, newLexerWrapper, rank, yyRank]
      rw [e, parseFuel]
      omega)
  have he := parseLoop_fuel mode lib f (parseFuel items) Label.yystack
    (ParseState.init (newLexerWrapper items o)) (by rw [hf]; exact hne) ht
  unfold doParse yyParse
  rw [he, hf]

/-! ## Two inputs, one after the other -/

/-- The reductions at the end of the input log: a run that accepts did not panic there. -/
theorem finish_logs (mode : LexErrorMode) (lib : GoLib) (lf : lexerWrapper) (cf : Int)
    (o : QueryStringOptions) (q : BooleanQuery) (eb : yySymType) (b : List yySymType)
    (hp : PStack (eb :: b)) (hb : eb.yys = 3) (lval v : yySymType) (above : List yySymType)
    (ne : Int)
    (h : haltsNext mode lib (Run.ret lf cf) (yynewstate mode lib
          ⟨⟨[], [], q, o, o.debugParser, o.dateFormat, o.logger⟩, lval, 0, 1, v, eb :: b,
            above, ne, 0, 3⟩)) : (newLexerWrapper [] o).logDebugGrammarf = .ok () := by
  cases b with
  | nil =>
    have h0 : eb.yys = 0 := hp
    omega
  | cons e2 b2 =>
    have hg2 : ∃ s2, yyGoto 6 28 e2.yys = .ok s2 := by
      rcases PStack_head e2 b2 hp.2 with h2 | h2 <;> rw [h2]
      · exact ⟨2, rfl⟩
      · exact ⟨8, rfl⟩
    obtain ⟨s2, hg2⟩ := hg2
    simp [yynewstate_look, yydefault_look, yynewstate_simple, yydefault_simple, yyact_reduce,
      yyreduce_mk, yyact_zero, halts_mid, haltsNext_next, haltsNext_ret, haltsNext_panic,
      haltsNext_ok, haltsNext_logged, haltsNext_setQuery, haltsNext_setQueryOrPanic,
      haltsNext_setBoost, haltsNext_boostedClause, yyPact_facts, yyDef_facts, yyR1_facts,
      yyR2_facts, yyPgo_facts, excaAction_facts, errShift_facts, yyGoto_facts, yyAction_facts,
      StackOK_cons, succ_lt_one, succ_lt_two, succ_lt_three, succ_lt_four, succ_lt_five,
      queryStringStringToken_wrapper, queryStringPhraseToken_wrapper, fieldname_wrapper,
      dateRangeGreater_wrapper, dateRangeLess_wrapper, logDebugGrammarf_wrapper,
      TokKind.code_nonneg, yyFlag, slots_above_cons, slots_below_cons, slotHead_cons,
      slotTail_cons, dollar, searchPartAction, yyShift_facts_m11, yyShift_facts_m3,
      yyShift_facts_m1, yyShift_facts_5, yyShift_facts_6, yyShift_facts_9, yyShift_facts_10,
      yyShift_facts_16, yyShift_facts_19, yyShift_facts_26, yyShift_facts_30, TokKind.code,
      TokKind.num, hb, hg2] at h
    exact h.1

/-- A parse without an error did not panic when it logged. -/
theorem parts_logs (mode : LexErrorMode) (lib : GoLib) (lf : lexerWrapper) (cf : Int)
    (hl : lf.errs = []) (o : QueryStringOptions) :
    ∀ (n : Nat) (pend : List LexItem), pend.length < n →
      ∀ (q : BooleanQuery) (eb : yySymType) (b : List yySymType), PStack (eb :: b) →
        Machine mode lib (Run.ret lf cf) o q eb.yys (eb :: b) pend →
        (newLexerWrapper [] o).logDebugGrammarf = .ok () := by
  intro n
  induction n with
  | zero =>
    intro pend hlen
    omega
  | succ n ih =>
    intro pend hlen q eb b hp h
    have hb := PStack_head eb b hp
    have hs : StackOK b := fun x hx => StackOK_of_PStack (eb :: b) hp x (List.mem_cons_of_mem _ hx)
    rcases part_phase mode lib lf cf hl o q eb b hb hs pend h with
      ⟨rfl, h3, lval, v, above, ne, h⟩ | ⟨ts, r, q1, rest, e3, rfl, hpart, hlt, h3, h⟩
    · exact finish_logs mode lib lf cf o q eb b hp h3 lval v above ne h
    · have hp3 : PStack (e3 :: eb :: b) := ⟨h3, hp⟩
      rw [← h3] at h
      exact ih rest (by omega) (addRole q r q1) e3 (eb :: b) hp3 h

theorem doParse_logs (mode : LexErrorMode) (lib : GoLib) (fuel : Nat) (items : List LexItem)
    (o : QueryStringOptions) (l : lexerWrapper)
    (h : doParse mode lib fuel (newLexerWrapper items o) = some l) (hl : l.errs = []) :
    (newLexerWrapper [] o).logDebugGrammarf = .ok () := by
  unfold doParse yyParse at h
  cases hrun : parseLoop mode lib fuel Label.yystack (ParseState.init (newLexerWrapper items o))
    with
  | outOfFuel =>
    rw [hrun] at h
    cases h
  | panic l1 p =>
    rw [hrun] at h
    simp only [Option.some.injEq] at h
    subst h
    simp at hl
  | ret l1 c =>
    rw [hrun] at h
    simp only [Option.some.injEq] at h
    subst h
    have hH : Halts mode lib Label.yystack (ParseState.init (newLexerWrapper items o))
        (Run.ret l1 c) := ⟨fuel, hrun, by simp⟩
    have h2 : haltsNext mode lib (Run.ret l1 c) (yynewstate mode lib
        ⟨⟨items, [], NewBooleanQuery.SetMinShould 1, o, o.debugParser, o.dateFormat, o.logger⟩,
          yySymType.zero, -1, -1, yySymType.zero, [{ yySymType.zero with yys := 0 }],
          List.replicate 15 yySymType.zero, 0, 0, 0⟩) :=
      (halts_iff mode lib _ _ _).mp hH
    have hm := machine_unread mode lib _ o _ _ _ _ _ _ _ _ _ h2
    exact parts_logs mode lib l1 c hl o (items.length + 1) items (by omega) _
      { yySymType.zero with yys := 0 } [] rfl hm

theorem searchParts_append (lib : GoLib) (o : QueryStringOptions) (ts1 ts2 : List LexItem)
    (cs1 cs2 : List (Int × Query)) (h1 : SearchParts lib o ts1 cs1)
    (h2 : SearchParts lib o ts2 cs2) : SearchParts lib o (ts1 ++ ts2) (cs1 ++ cs2) := by
  induction h1 with
  | one ts n q hp => exact SearchParts.cons ts ts2 n q cs2 hp h2
  | cons ts rest n q cs hp hrest ih =>
    rw [List.append_assoc]
    exact SearchParts.cons ts (rest ++ ts2) n q (cs ++ cs2) hp ih

theorem clausesOf_append (role : Int) (cs1 cs2 : List (Int × Query)) :
    clausesOf role (cs1 ++ cs2) = clausesOf role cs1 ++ clausesOf role cs2 := by
  simp [clausesOf]

/-- The lists of the root after a parse without an error, by the clauses of the input. -/
theorem doParse_lists (mode : LexErrorMode) (lib : GoLib) (fuel : Nat) (items : List LexItem)
    (o : QueryStringOptions) (l : lexerWrapper)
    (h : doParse mode lib fuel (newLexerWrapper items o) = some l) (hl : l.errs = []) :
    ∃ cs, SearchParts lib o items cs ∧ l.query.musts = clausesOf queryMust cs ∧
      l.query.shoulds = clausesOf queryShould cs ∧
      l.query.mustNots = clausesOf queryMustNot cs := by
  obtain ⟨cs, hcs, hroot⟩ := doParse_sound mode lib fuel items o l h hl
  obtain ⟨h1, h2, h3, _, _⟩ := foldl_addRole cs (NewBooleanQuery.SetMinShould 1)
  rw [← hroot] at h1 h2 h3
  exact ⟨cs, hcs, by simpa [NewBooleanQuery, BooleanQuery.SetMinShould] using h1,
    by simpa [NewBooleanQuery, BooleanQuery.SetMinShould] using h2,
    by simpa [NewBooleanQuery, BooleanQuery.SetMinShould] using h3⟩

/-- Claim C25. When two token sequences are each parsed without an error, so is the one
followed by the other: the Should list, the MustNot list and the Must list that the parse
leaves are those of the first parse followed by those of the second, and the query returned
has the Must list that the coalescing makes of the two Must lists, one after the other. -/
theorem doParse_append (mode : LexErrorMode) (lib : GoLib) (o : QueryStringOptions)
    (items1 items2 : List LexItem) (l1 l2 : lexerWrapper)
    (h1 : doParse mode lib (parseFuel items1) (newLexerWrapper items1 o) = some l1)
    (he1 : l1.errs = [])
    (h2 : doParse mode lib (parseFuel items2) (newLexerWrapper items2 o) = some l2)
    (he2 : l2.errs = []) :
    ∃ l, doParse mode lib (parseFuel (items1 ++ items2))
          (newLexerWrapper (items1 ++ items2) o) = some l ∧
      l.errs = [] ∧
      l.query.shoulds = l1.query.shoulds ++ l2.query.shoulds ∧
      l.query.mustNots = l1.query.mustNots ++ l2.query.mustNots ∧
      l.query.musts = l1.query.musts ++ l2.query.musts ∧
      ∀ (newQueryStringLex : QueryStringLex) (query : String), query ≠ "" →
        newQueryStringLex query o = items1 ++ items2 →
        ParseQueryString mode lib newQueryStringLex query o =
          .returns (.ok (Query.BooleanQuery (coalesceRef (l1.query.musts ++ l2.query.musts))
            (l1.query.shoulds ++ l2.query.shoulds) (l1.query.mustNots ++ l2.query.mustNots)
            none 1)) := by
  have hlog := doParse_logs mode lib _ items1 o l1 h1 he1
  obtain ⟨cs1, hcs1, hm1, hs1, hn1⟩ := doParse_lists mode lib _ items1 o l1 h1 he1
  obtain ⟨cs2, hcs2, hm2, hs2, hn2⟩ := doParse_lists mode lib _ items2 o l2 h2 he2
  have hcs := searchParts_append lib o items1 items2 cs1 cs2 hcs1 hcs2
  have hc := doParse_complete mode lib (items1 ++ items2) o (cs1 ++ cs2) hlog hcs
  obtain ⟨h1a, h2a, h3a, _, _⟩ := foldl_addRole (cs1 ++ cs2) (NewBooleanQuery.SetMinShould 1)
  have hm : (acceptedWrapper o ((cs1 ++ cs2).foldl (fun r c => addRole r c.1 c.2)
      (NewBooleanQuery.SetMinShould 1))).query.musts = l1.query.musts ++ l2.query.musts := by
    rw [hm1, hm2, ← clausesOf_append]
    simpa [acceptedWrapper, NewBooleanQuery, BooleanQuery.SetMinShould] using h1a
  have hs : (acceptedWrapper o ((cs1 ++ cs2).foldl (fun r c => addRole r c.1 c.2)
      (NewBooleanQuery.SetMinShould 1))).query.shoulds =
        l1.query.shoulds ++ l2.query.shoulds := by
    rw [hs1, hs2, ← clausesOf_append]
    simpa [acceptedWrapper, NewBooleanQuery, BooleanQuery.SetMinShould] using h2a
  have hn : (acceptedWrapper o ((cs1 ++ cs2).foldl (fun r c => addRole r c.1 c.2)
      (NewBooleanQuery.SetMinShould 1))).query.mustNots =
        l1.query.mustNots ++ l2.query.mustNots := by
    rw [hn1, hn2, ← clausesOf_append]
    simpa [acceptedWrapper, NewBooleanQuery, BooleanQuery.SetMinShould] using h3a
  refine ⟨_, hc, rfl, hs, hn, hm, ?_⟩
  intro newQueryStringLex query hq hlex
  have hp := ParseQueryString_parsed mode lib newQueryStringLex query o _ hq
    (by rw [hlex]; exact hc) rfl
  rw [hm, hs, hn] at hp
  exact hp

/-- Claim C25 on `a ?x` and `b -y`: the parse of `a ?x b -y` has the Must clauses `a` and `b`,
which the coalescing joins. -/
theorem doParse_append_witness :
    ∃ l, doParse LexErrorMode.records plainLib (parseFuel (leftItems ++ rightItems))
          (newLexerWrapper (leftItems ++ rightItems) DefaultOptions) = some l ∧
      l.errs = [] ∧
      l.query.shoulds = leftResult.query.shoulds ++ rightResult.query.shoulds ∧
      l.query.mustNots = leftResult.query.mustNots ++ rightResult.query.mustNots ∧
      l.query.musts = leftResult.query.musts ++ rightResult.query.musts ∧
      ∀ (newQueryStringLex : QueryStringLex) (query : String), query ≠ "" →
        newQueryStringLex query DefaultOptions = leftItems ++ rightItems →
        ParseQueryString LexErrorMode.records plainLib newQueryStringLex query DefaultOptions =
          .returns (.ok (Query.BooleanQuery
            (coalesceRef (leftResult.query.musts ++ rightResult.query.musts))
            (leftResult.query.shoulds ++ rightResult.query.shoulds)
            (leftResult.query.mustNots ++ rightResult.query.mustNots) none 1)) :=
  doParse_append LexErrorMode.records plainLib DefaultOptions leftItems rightItems leftResult
    rightResult rfl rfl rfl rfl

/-! ## The order of the clauses -/

/-- In state 9, with a lookahead that is read and is no BOOST, two rounds reduce the empty
suffix and the search part: the clause joins the root, and the lexer and the lookahead are
as they were. -/
theorem searchPart_round (mode : LexErrorMode) (lib : GoLib) (lx : lexerWrapper)
    (lval v e4 eb : yySymType) (b above : List yySymType) (ne : Int) (k : TokKind)
    (hk : k ≠ TokKind.tBOOST) (hb : eb.yys = 0 ∨ eb.yys = 3) :
    ∃ st1 st2,
      yyStep mode lib Label.yystack
          ⟨lx, lval, TokKind.code k, TokKind.num k, v, e4 :: eb :: b, above, ne, 0, 9⟩ =
        Step.next Label.yystack st1 ∧
      yyStep mode lib Label.yystack st1 = Step.next Label.yystack st2 ∧
      st2.yylex = { lx with query := addRole lx.query e4.n v.q } ∧
      st2.char = TokKind.code k ∧ st2.yytoken = TokKind.num k ∧ st2.lval = lval ∧
      st2.yystate = 3 ∧ st2.below = eb :: b := by
  have hg := yyGoto_part eb hb
  have hk1 := yyShift_16_rest k hk
  simp [yyStep, yystack_cons, yynewstate_look, yydefault_look, yynewstate_simple,
    yydefault_simple, yyact_reduce, yyreduce_mk, yyPact_facts, yyDef_facts, yyR1_facts,
    yyR2_facts, yyPgo_facts, excaAction_facts, yyGoto_facts, yyAction_facts,
    succ_lt_one, succ_lt_two, succ_lt_three, succ_lt_four, succ_lt_five,
    TokKind.code_nonneg, yyFlag, slots_above_cons, slots_below_cons, slotHead_cons,
    slotTail_cons, dollar, searchPartAction, hg, hk1, actionStep]

/-- A sequence of search parts as the list of its parts. -/
theorem searchParts_list (lib : GoLib) (o : QueryStringOptions) (items : List LexItem)
    (cs : List (Int × Query)) (h : SearchParts lib o items cs) :
    ∃ parts : List (List LexItem × Int × Query), parts ≠ [] ∧
      (∀ p ∈ parts, SearchPart lib o p.1 p.2.1 p.2.2) ∧
      items = (parts.map Prod.fst).flatten ∧ cs = parts.map Prod.snd := by
  induction h with
  | one ts n q hp =>
    refine ⟨[(ts, n, q)], by simp, ?_, by simp, by simp⟩
    intro p hpm
    simp only [List.mem_singleton] at hpm
    subst hpm
    exact hp
  | cons ts rest n q cs hp hrest ih =>
    obtain ⟨parts, _, hall, hitems, hcs⟩ := ih
    refine ⟨(ts, n, q) :: parts, by simp, ?_, by simp [hitems], by simp [hcs]⟩
    intro p hpm
    rcases List.mem_cons.mp hpm with rfl | hpm
    · exact hp
    · exact hall p hpm

/-- A list of search parts, one after the other, is a sequence of search parts. -/
theorem searchParts_of_list (lib : GoLib) (o : QueryStringOptions)
    (parts : List (List LexItem × Int × Query)) (hne : parts ≠ [])
    (hall : ∀ p ∈ parts, SearchPart lib o p.1 p.2.1 p.2.2) :
    SearchParts lib o (parts.map Prod.fst).flatten (parts.map Prod.snd) := by
  induction parts with
  | nil => exact absurd rfl hne
  | cons p rest ih =>
    have hp := hall p (List.mem_cons_self _ _)
    cases rest with
    | nil =>
      simp only [List.map_cons, List.map_nil, List.flatten_cons, List.flatten_nil,
        List.append_nil]
      exact SearchParts.one p.1 p.2.1 p.2.2 hp
    | cons p2 rest2 =>
      have hr := ih (by simp) (fun x hx => hall x (List.mem_cons_of_mem _ hx))
      simp only [List.map_cons, List.flatten_cons] at hr ⊢
      exact SearchParts.cons p.1 _ p.2.1 p.2.2 _ hp hr

theorem clausesOf_take (role : Int) (cs : List (Int × Query)) (k : Nat) :
    clausesOf role (cs.take k) <+: clausesOf role cs := by
  have e := clausesOf_append role (cs.take k) (cs.drop k)
  rw [List.take_append_drop] at e
  rw [e]
  exact List.prefix_append _ _

/-- Claim C22. When a token sequence is parsed without an error, it is a list of search parts,
one after the other, and each list of the root holds the clauses of the parts of its role in
the order of the parts in the input. The first `k` parts alone are parsed without an error
too, and each list of that parse is the start of the list of the whole parse: a later part
adds its clause behind those of the parts before it. The clause of a part joins the root in
the round that reduces the part, before the token that follows the part is shifted: that
token is still the lookahead after the round, and the lexer has delivered no other. -/
theorem doParse_ordered (mode : LexErrorMode) (lib : GoLib) (o : QueryStringOptions)
    (items : List LexItem) (l : lexerWrapper)
    (h : doParse mode lib (parseFuel items) (newLexerWrapper items o) = some l)
    (hl : l.errs = []) :
    (∃ parts : List (List LexItem × Int × Query), parts ≠ [] ∧
      (∀ p ∈ parts, SearchPart lib o p.1 p.2.1 p.2.2) ∧
      items = (parts.map Prod.fst).flatten ∧
      l.query.musts = clausesOf queryMust (parts.map Prod.snd) ∧
      l.query.shoulds = clausesOf queryShould (parts.map Prod.snd) ∧
      l.query.mustNots = clausesOf queryMustNot (parts.map Prod.snd) ∧
      ∀ k, 0 < k → ∃ lk,
        doParse mode lib (parseFuel ((parts.take k).map Prod.fst).flatten)
          (newLexerWrapper ((parts.take k).map Prod.fst).flatten o) = some lk ∧
        lk.errs = [] ∧
        lk.query.musts = clausesOf queryMust ((parts.take k).map Prod.snd) ∧
        lk.query.shoulds = clausesOf queryShould ((parts.take k).map Prod.snd) ∧
        lk.query.mustNots = clausesOf queryMustNot ((parts.take k).map Prod.snd) ∧
        lk.query.musts <+: l.query.musts ∧ lk.query.shoulds <+: l.query.shoulds ∧
        lk.query.mustNots <+: l.query.mustNots) ∧
      ∀ (lx : lexerWrapper) (lval v e4 eb : yySymType) (b above : List yySymType) (ne : Int)
        (k : TokKind), k ≠ TokKind.tBOOST → (eb.yys = 0 ∨ eb.yys = 3) →
        ∃ st1 st2,
          yyStep mode lib Label.yystack
              ⟨lx, lval, TokKind.code k, TokKind.num k, v, e4 :: eb :: b, above, ne, 0, 9⟩ =
            Step.next Label.yystack st1 ∧
          yyStep mode lib Label.yystack st1 = Step.next Label.yystack st2 ∧
          st2.yylex = { lx with query := addRole lx.query e4.n v.q } ∧
          st2.char = TokKind.code k ∧ st2.yytoken = TokKind.num k ∧ st2.lval = lval ∧
          st2.yystate = 3 ∧ st2.below = eb :: b := by
  refine ⟨?_, fun lx lval v e4 eb b above ne k hk hb =>
    searchPart_round mode lib lx lval v e4 eb b above ne k hk hb⟩
  have hlog := doParse_logs mode lib _ items o l h hl
  obtain ⟨cs, hcs, hm, hs, hn⟩ := doParse_lists mode lib _ items o l h hl
  obtain ⟨parts, hne, hall, hitems, rfl⟩ := searchParts_list lib o items cs hcs
  refine ⟨parts, hne, hall, hitems, hm, hs, hn, ?_⟩
  intro k hk
  have hne1 : parts.take k ≠ [] := by
    cases parts with
    | nil => exact absurd rfl hne
    | cons p rest =>
      cases k with
      | zero => omega
      | succ k => simp
  have hsp := searchParts_of_list lib o (parts.take k) hne1
    (fun p hp => hall p (List.mem_of_mem_take hp))
  have hc := doParse_complete mode lib _ o _ hlog hsp
  obtain ⟨h1a, h2a, h3a, _, _⟩ :=
    foldl_addRole ((parts.take k).map Prod.snd) (NewBooleanQuery.SetMinShould 1)
  have hmk : (acceptedWrapper o (((parts.take k).map Prod.snd).foldl
      (fun r c => addRole r c.1 c.2) (NewBooleanQuery.SetMinShould 1))).query.musts =
        clausesOf queryMust ((parts.take k).map Prod.snd) := by
    simpa [acceptedWrapper, NewBooleanQuery, BooleanQuery.SetMinShould] using h1a
  have hsk : (acceptedWrapper o (((parts.take k).map Prod.snd).foldl
      (fun r c => addRole r c.1 c.2) (NewBooleanQuery.SetMinShould 1))).query.shoulds =
        clausesOf queryShould ((parts.take k).map Prod.snd) := by
    simpa [acceptedWrapper, NewBooleanQuery, BooleanQuery.SetMinShould] using h2a
  have hnk : (acceptedWrapper o (((parts.take k).map Prod.snd).foldl
      (fun r c => addRole r c.1 c.2) (NewBooleanQuery.SetMinShould 1))).query.mustNots =
        clausesOf queryMustNot ((parts.take k).map Prod.snd) := by
    simpa [acceptedWrapper, NewBooleanQuery, BooleanQuery.SetMinShould] using h3a
  refine ⟨_, hc, rfl, hmk, hsk, hnk, ?_, ?_, ?_⟩
  · rw [hmk, hm, List.map_take]
    exact clausesOf_take _ _ _
  · rw [hsk, hs, List.map_take]
    exact clausesOf_take _ _ _
  · rw [hnk, hn, List.map_take]
    exact clausesOf_take _ _ _

/-- Claim C22 on `a:b -c ?d e:f`, whose Must list holds the clause of `a:b` before that of
`e:f`. -/
theorem doParse_ordered_witness :
    (∃ parts : List (List LexItem × Int × Query), parts ≠ [] ∧
      (∀ p ∈ parts, SearchPart plainLib DefaultOptions p.1 p.2.1 p.2.2) ∧
      orderItems = (parts.map Prod.fst).flatten ∧
      orderResult.query.musts = clausesOf queryMust (parts.map Prod.snd) ∧
      orderResult.query.shoulds = clausesOf queryShould (parts.map Prod.snd) ∧
      orderResult.query.mustNots = clausesOf queryMustNot (parts.map Prod.snd) ∧
      ∀ k, 0 < k → ∃ lk,
        doParse LexErrorMode.records plainLib
          (parseFuel ((parts.take k).map Prod.fst).flatten)
          (newLexerWrapper ((parts.take k).map Prod.fst).flatten DefaultOptions) = some lk ∧
        lk.errs = [] ∧
        lk.query.musts = clausesOf queryMust ((parts.take k).map Prod.snd) ∧
        lk.query.shoulds = clausesOf queryShould ((parts.take k).map Prod.snd) ∧
        lk.query.mustNots = clausesOf queryMustNot ((parts.take k).map Prod.snd) ∧
        lk.query.musts <+: orderResult.query.musts ∧
        lk.query.shoulds <+: orderResult.query.shoulds ∧
        lk.query.mustNots <+: orderResult.query.mustNots) ∧
      ∀ (lx : lexerWrapper) (lval v e4 eb : yySymType) (b above : List yySymType) (ne : Int)
        (k : TokKind), k ≠ TokKind.tBOOST → (eb.yys = 0 ∨ eb.yys = 3) →
        ∃ st1 st2,
          yyStep LexErrorMode.records plainLib Label.yystack
              ⟨lx, lval, TokKind.code k, TokKind.num k, v, e4 :: eb :: b, above, ne, 0, 9⟩ =
            Step.next Label.yystack st1 ∧
          yyStep LexErrorMode.records plainLib Label.yystack st1 =
            Step.next Label.yystack st2 ∧
          st2.yylex = { lx with query := addRole lx.query e4.n v.q } ∧
          st2.char = TokKind.code k ∧ st2.yytoken = TokKind.num k ∧ st2.lval = lval ∧
          st2.yystate = 3 ∧ st2.below = eb :: b :=
  doParse_ordered LexErrorMode.records plainLib DefaultOptions orderItems orderResult rfl rfl

/-! ## The grammar of the spec and the parser -/

theorem noColonMinus_append (a b : List LexItem) (ha : noColonMinus a = true)
    (hb : noColonMinus b = true) : noColonMinus (a ++ b) = true := by
  induction a with
  | nil => exact hb
  | cons x rest ih =>
    cases rest with
    | nil =>
      cases b with
      | nil => exact ha
      | cons y r =>
        simp only [noColonMinus, Bool.not_eq_true'] at ha
        simp [noColonMinus, ha, hb]
    | cons y r =>
      simp only [noColonMinus, Bool.and_eq_true] at ha
      have := ih ha.2
      simp only [List.cons_append] at this ⊢
      simp [noColonMinus, ha.1, this]

theorem specClause_noColonMinus (ts : List LexItem) (h : SpecClause ts) :
    noColonMinus ts = true := by
  cases h with
  | greater f c g ts h => cases h <;> rfl
  | greaterEqual f c g e ts h => cases h <;> rfl
  | less f c g ts h => cases h <;> rfl
  | lessEqual f c g e ts h => cases h <;> rfl
  | _ => rfl

theorem specInput_noColonMinus (items : List LexItem) (h : SpecInput items) :
    noColonMinus items = true := by
  induction h with
  | more ps p _ hp ih =>
    refine noColonMinus_append ps p ih ?_
    cases hp with
    | mk pre c b hpre hc hb =>
      refine noColonMinus_append _ _ (noColonMinus_append _ _ ?_ ?_) ?_
      · cases hpre <;> rfl
      · exact specClause_noColonMinus c hc
      · cases hb <;> rfl
  | one p hp =>
    cases hp with
    | mk pre c b hpre hc hb =>
      refine noColonMinus_append _ _ (noColonMinus_append _ _ ?_ ?_) ?_
      · cases hpre <;> rfl
      · exact specClause_noColonMinus c hc
      · cases hb <;> rfl

theorem searchBase_amended (lib : GoLib) (o : QueryStringOptions) (ts : List LexItem)
    (q : Query) (h : SearchBase lib o ts q) : AmendedClause ts := by
  cases h with
  | string s q h => exact Or.inl (SpecClause.string s)
  | fuzzy s n q h => exact Or.inl (SpecClause.fuzzy s n)
  | fieldFuzzy f c s n q h => exact Or.inl (SpecClause.fieldFuzzy f c s n)
  | number s q h => exact Or.inl (SpecClause.number s)
  | phrase s => exact Or.inl (SpecClause.phrase s)
  | fieldString f c s q h => exact Or.inl (SpecClause.fieldString f c s)
  | fieldNumber f c ts s q hn h =>
    cases hn with
    | number s => exact Or.inl (SpecClause.fieldNumber f c s)
    | negative m s => exact Or.inr ⟨f, c, m, s, rfl⟩
  | fieldPhrase f c s => exact Or.inl (SpecClause.fieldPhrase f c s)
  | greater f c g ts s q hn h =>
    refine Or.inl (SpecClause.greater f c g ts ?_)
    cases hn
    · exact SpecNumOrNeg.number _
    · exact SpecNumOrNeg.negative _ _
  | greaterEqual f c g e ts s q hn h =>
    refine Or.inl (SpecClause.greaterEqual f c g e ts ?_)
    cases hn
    · exact SpecNumOrNeg.number _
    · exact SpecNumOrNeg.negative _ _
  | less f c g ts s q hn h =>
    refine Or.inl (SpecClause.less f c g ts ?_)
    cases hn
    · exact SpecNumOrNeg.number _
    · exact SpecNumOrNeg.negative _ _
  | lessEqual f c g e ts s q hn h =>
    refine Or.inl (SpecClause.lessEqual f c g e ts ?_)
    cases hn
    · exact SpecNumOrNeg.number _
    · exact SpecNumOrNeg.negative _ _
  | greaterDate f c g p q h => exact Or.inl (SpecClause.greaterDate f c g p)
  | greaterEqualDate f c g e p q h => exact Or.inl (SpecClause.greaterEqualDate f c g e p)
  | lessDate f c g p q h => exact Or.inl (SpecClause.lessDate f c g p)
  | lessEqualDate f c g e p q h => exact Or.inl (SpecClause.lessEqualDate f c g e p)

theorem searchPart_amended (lib : GoLib) (o : QueryStringOptions) (ts : List LexItem)
    (n : Int) (q : Query) (h : SearchPart lib o ts n q) : SpecPart AmendedClause ts := by
  cases h with
  | mk ts1 ts2 ts3 n q0 pf q1 h1 h2 h3 h4 =>
    rw [← List.append_assoc]
    refine SpecPart.mk ts1 ts2 ts3 ?_ (searchBase_amended lib o ts2 q0 h2) ?_
    · cases h1
      · exact SpecPrefix.absent
      · exact SpecPrefix.question _
      · exact SpecPrefix.plus _
      · exact SpecPrefix.minus _
    · cases h3
      · exact SpecBoost.absent
      · exact SpecBoost.boost _

theorem specParts_cons (clause : List LexItem → Prop) (p ps : List LexItem)
    (hp : SpecPart clause p) (h : SpecParts clause ps) : SpecParts clause (p ++ ps) := by
  induction h with
  | more ps1 p1 _ hp1 ih =>
    rw [← List.append_assoc]
    exact SpecParts.more _ _ ih hp1
  | one p1 hp1 => exact SpecParts.more _ _ (SpecParts.one p hp) hp1

theorem searchParts_amended (lib : GoLib) (o : QueryStringOptions) (items : List LexItem)
    (cs : List (Int × Query)) (h : SearchParts lib o items cs) : AmendedInput items := by
  induction h with
  | one ts n q hp => exact SpecParts.one ts (searchPart_amended lib o ts n q hp)
  | cons ts rest n q cs hp _ ih =>
    exact specParts_cons _ ts rest (searchPart_amended lib o ts n q hp) ih

theorem Benign.left (lib : GoLib) (o : QueryStringOptions) (a b : List LexItem)
    (h : Benign lib o (a ++ b)) : Benign lib o a := by
  obtain ⟨h1, h2, h3, h4, h5⟩ := h
  refine ⟨fun s hs => h1 s (List.mem_append_left _ hs),
    fun s hs => h2 s (List.mem_append_left _ hs),
    fun s hs => h3 s (List.mem_append_left _ hs), ?_,
    fun s hs => h5 s (List.mem_append_left _ hs)⟩
  intro k g s pre post e hk
  exact h4 k g s pre (post ++ b) (by rw [e]; simp) hk

theorem Benign.right (lib : GoLib) (o : QueryStringOptions) (a b : List LexItem)
    (h : Benign lib o (a ++ b)) : Benign lib o b := by
  obtain ⟨h1, h2, h3, h4, h5⟩ := h
  refine ⟨fun s hs => h1 s (List.mem_append_right _ hs),
    fun s hs => h2 s (List.mem_append_right _ hs),
    fun s hs => h3 s (List.mem_append_right _ hs), ?_,
    fun s hs => h5 s (List.mem_append_right _ hs)⟩
  intro k g s pre post e hk
  exact h4 k g s (a ++ pre) post (by rw [e]; simp) hk

theorem queryStringStringToken_succeeds (w : lexerWrapper) (field s : String) (h : s ≠ "/") :
    ∃ q, queryStringStringToken w field s = .ok q := by
  unfold queryStringStringToken
  split_ifs with h1
  · unfold sliceInner
    split_ifs with h2
    · exfalso
      apply h
      obtain ⟨d⟩ := s
      simp only at h1 h2
      cases d with
      | nil => simp at h1
      | cons x r =>
        cases r with
        | nil =>
          simp only [List.head?_cons, Option.some.injEq] at h1
          rw [h1.1]
        | cons y r2 =>
          simp only [List.length_cons] at h2
          omega
    · exact ⟨_, rfl⟩
  all_goals exact ⟨_, rfl⟩

theorem queryStringStringToken_boosts (w : lexerWrapper) (field s : String) (q : Query)
    (h : queryStringStringToken w field s = .ok q)
    (ht : isTermField w.options.termFields field = false) (b : Float64) :
    ∃ q1, queryStringSetBoost q b = .ok (.ok q1) := by
  unfold queryStringStringToken at h
  simp only [ht, Bool.false_eq_true, if_false] at h
  split_ifs at h with h1 h2 h3 h4
  · cases hs : sliceInner s with
    | error p =>
      rw [hs] at h
      cases h
    | ok inner =>
      rw [hs] at h
      cases h
      exact ⟨_, rfl⟩
  all_goals
    cases h
    exact ⟨_, rfl⟩

theorem queryStringPhraseToken_boosts (w : lexerWrapper) (field s : String)
    (ht : isTermField w.options.termFields field = false) (b : Float64) :
    ∃ q1, queryStringSetBoost (queryStringPhraseToken w field s) b = .ok (.ok q1) := by
  unfold queryStringPhraseToken
  simp only [ht, Bool.false_eq_true, if_false]
  split_ifs
  all_goals exact ⟨_, rfl⟩

theorem searchBase_boosts (lib : GoLib) (o : QueryStringOptions) (ts : List LexItem)
    (q : Query) (h : SearchBase lib o ts q) (ht : ∀ f, isTermField o.termFields f = false)
    (b : Float64) : ∃ q1, queryStringSetBoost q b = .ok (.ok q1) := by
  cases h with
  | string s q h => exact queryStringStringToken_boosts _ _ _ _ h (ht _) b
  | fieldString f c s q h => exact queryStringStringToken_boosts _ _ _ _ h (ht _) b
  | phrase s => exact queryStringPhraseToken_boosts _ _ _ (ht _) b
  | fieldPhrase f c s => exact queryStringPhraseToken_boosts _ _ _ (ht _) b
  | fuzzy s n q h =>
    unfold queryStringStringTokenFuzzy at h
    split at h
    · cases h
    · cases h
      exact ⟨_, rfl⟩
  | fieldFuzzy f c s n q h =>
    unfold queryStringStringTokenFuzzy at h
    split at h
    · cases h
    · cases h
      exact ⟨_, rfl⟩
  | number s q h =>
    unfold queryStringNumberToken at h
    simp only at h
    split at h
    · cases h
    · cases h
      exact ⟨_, rfl⟩
  | fieldNumber f c ts s q hn h =>
    unfold queryStringNumberToken at h
    simp only at h
    split at h
    · cases h
    · cases h
      exact ⟨_, rfl⟩
  | greater f c g ts s q hn h =>
    unfold queryStringNumericRangeGreaterThanOrEqual at h
    split at h
    · cases h
    · cases h
      exact ⟨_, rfl⟩
  | greaterEqual f c g e ts s q hn h =>
    unfold queryStringNumericRangeGreaterThanOrEqual at h
    split at h
    · cases h
    · cases h
      exact ⟨_, rfl⟩
  | less f c g ts s q hn h =>
    unfold queryStringNumericRangeLessThanOrEqual at h
    split at h
    · cases h
    · cases h
      exact ⟨_, rfl⟩
  | lessEqual f c g e ts s q hn h =>
    unfold queryStringNumericRangeLessThanOrEqual at h
    split at h
    · cases h
    · cases h
      exact ⟨_, rfl⟩
  | greaterDate f c g p q h =>
    unfold queryStringDateRangeGreaterThanOrEqual at h
    split at h
    · cases h
    · cases h
      exact ⟨_, rfl⟩
  | greaterEqualDate f c g e p q h =>
    unfold queryStringDateRangeGreaterThanOrEqual at h
    split at h
    · cases h
    · cases h
      exact ⟨_, rfl⟩
  | lessDate f c g p q h =>
    unfold queryStringDateRangeLessThanOrEqual at h
    split at h
    · cases h
    · cases h
      exact ⟨_, rfl⟩
  | lessEqualDate f c g e p q h =>
    unfold queryStringDateRangeLessThanOrEqual at h
    split at h
    · cases h
    · cases h
      exact ⟨_, rfl⟩

theorem queryStringStringTokenFuzzy_succeeds (lib : GoLib) (field s n : String) (v : Float64)
    (hv : ParseFloat lib n = .ok v) : ∃ q, queryStringStringTokenFuzzy lib field s n = .ok q := by
  unfold queryStringStringTokenFuzzy
  rw [hv]
  exact ⟨_, rfl⟩

theorem queryStringNumberToken_succeeds (lib : GoLib) (field s : String) (v : Float64)
    (hv : ParseFloat lib s = .ok v) : ∃ q, queryStringNumberToken lib field s = .ok q := by
  unfold queryStringNumberToken
  simp only [hv]
  exact ⟨_, rfl⟩

theorem numericRangeGreater_succeeds (lib : GoLib) (field s : String) (e : Bool) (v : Float64)
    (hv : ParseFloat lib s = .ok v) :
    ∃ q, queryStringNumericRangeGreaterThanOrEqual lib field s e = .ok q := by
  unfold queryStringNumericRangeGreaterThanOrEqual
  rw [hv]
  exact ⟨_, rfl⟩

theorem numericRangeLess_succeeds (lib : GoLib) (field s : String) (e : Bool) (v : Float64)
    (hv : ParseFloat lib s = .ok v) :
    ∃ q, queryStringNumericRangeLessThanOrEqual lib field s e = .ok q := by
  unfold queryStringNumericRangeLessThanOrEqual
  rw [hv]
  exact ⟨_, rfl⟩

theorem dateRangeGreater_succeeds (lib : GoLib) (w : lexerWrapper) (field p : String)
    (e : Bool) (t : Time) (ht : lib.timeParse w.dateFormat p = .ok t) :
    ∃ q, queryStringDateRangeGreaterThanOrEqual lib w field p e = .ok q := by
  unfold queryStringDateRangeGreaterThanOrEqual queryTimeFromString
  rw [ht]
  exact ⟨_, rfl⟩

theorem dateRangeLess_succeeds (lib : GoLib) (w : lexerWrapper) (field p : String)
    (e : Bool) (t : Time) (ht : lib.timeParse w.dateFormat p = .ok t) :
    ∃ q, queryStringDateRangeLessThanOrEqual lib w field p e = .ok q := by
  unfold queryStringDateRangeLessThanOrEqual queryTimeFromString
  rw [ht]
  exact ⟨_, rfl⟩

theorem queryStringParseBoost_succeeds (lib : GoLib) (s : String) (v : Float64)
    (hv : ParseFloat lib s = .ok v) : queryStringParseBoost lib s = .ok v := by
  unfold queryStringParseBoost
  rw [hv]

theorem posOrNegNumber_succeeds (lib : GoLib) (ts : List LexItem) (h : SpecNumOrNeg ts)
    (hn : ∀ s, LexItem.tok TokKind.tNUMBER s ∈ ts →
      (∃ v, ParseFloat lib s = .ok v) ∧ ∃ v, ParseFloat lib ("-" ++ s) = .ok v) :
    ∃ s v, PosOrNegNumber ts s ∧ ParseFloat lib s = .ok v := by
  cases h with
  | number s =>
    obtain ⟨⟨v, hv⟩, _⟩ := hn s (by simp)
    exact ⟨s, v, PosOrNegNumber.number s, hv⟩
  | negative m s =>
    obtain ⟨_, v, hv⟩ := hn s (by simp)
    exact ⟨"-" ++ s, v, PosOrNegNumber.negative m s, hv⟩

theorem amendedClause_succeeds (lib : GoLib) (o : QueryStringOptions) (ts : List LexItem)
    (h : AmendedClause ts) (hb : Benign lib o ts) : ∃ q, SearchBase lib o ts q := by
  obtain ⟨h1, h2, h3, h4, _⟩ := hb
  rcases h with h | ⟨f, c, m, s, rfl⟩
  · cases h with
    | string s =>
      obtain ⟨q, hq⟩ := queryStringStringToken_succeeds (newLexerWrapper [] o) "" s
        (h1 s (by simp))
      exact ⟨q, SearchBase.string s q hq⟩
    | fuzzy s n =>
      obtain ⟨v, hv⟩ := h2 n (by simp)
      obtain ⟨q, hq⟩ := queryStringStringTokenFuzzy_succeeds lib "" s n v hv
      exact ⟨q, SearchBase.fuzzy s n q hq⟩
    | fieldFuzzy f c s n =>
      obtain ⟨v, hv⟩ := h2 n (by simp)
      obtain ⟨q, hq⟩ := queryStringStringTokenFuzzy_succeeds lib
        ((newLexerWrapper [] o).fieldname lib f) s n v hv
      exact ⟨q, SearchBase.fieldFuzzy f c s n q hq⟩
    | number s =>
      obtain ⟨⟨v, hv⟩, _⟩ := h3 s (by simp)
      obtain ⟨q, hq⟩ := queryStringNumberToken_succeeds lib "" s v hv
      exact ⟨q, SearchBase.number s q hq⟩
    | phrase s => exact ⟨_, SearchBase.phrase s⟩
    | fieldString f c s =>
      obtain ⟨q, hq⟩ := queryStringStringToken_succeeds (newLexerWrapper [] o)
        ((newLexerWrapper [] o).fieldname lib f) s (h1 s (by simp))
      exact ⟨q, SearchBase.fieldString f c s q hq⟩
    | fieldNumber f c s =>
      obtain ⟨⟨v, hv⟩, _⟩ := h3 s (by simp)
      obtain ⟨q, hq⟩ := queryStringNumberToken_succeeds lib
        ((newLexerWrapper [] o).fieldname lib f) s v hv
      exact ⟨q, SearchBase.fieldNumber f c _ s q (PosOrNegNumber.number s) hq⟩
    | fieldPhrase f c s => exact ⟨_, SearchBase.fieldPhrase f c s⟩
    | greater f c g ts hn =>
      obtain ⟨s, v, hp, hv⟩ := posOrNegNumber_succeeds lib ts hn
        (fun s hs => h3 s (by simp [hs]))
      obtain ⟨q, hq⟩ := numericRangeGreater_succeeds lib
        ((newLexerWrapper [] o).fieldname lib f) s false v hv
      exact ⟨q, SearchBase.greater f c g ts s q hp hq⟩
    | greaterEqual f c g e ts hn =>
      obtain ⟨s, v, hp, hv⟩ := posOrNegNumber_succeeds lib ts hn
        (fun s hs => h3 s (by simp [hs]))
      obtain ⟨q, hq⟩ := numericRangeGreater_succeeds lib
        ((newLexerWrapper [] o).fieldname lib f) s true v hv
      exact ⟨q, SearchBase.greaterEqual f c g e ts s q hp hq⟩
    | less f c g ts hn =>
      obtain ⟨s, v, hp, hv⟩ := posOrNegNumber_succeeds lib ts hn
        (fun s hs => h3 s (by simp [hs]))
      obtain ⟨q, hq⟩ := numericRangeLess_succeeds lib
        ((newLexerWrapper [] o).fieldname lib f) s false v hv
      exact ⟨q, SearchBase.less f c g ts s q hp hq⟩
    | lessEqual f c g e ts hn =>
      obtain ⟨s, v, hp, hv⟩ := posOrNegNumber_succeeds lib ts hn
        (fun s hs => h3 s (by simp [hs]))
      obtain ⟨q, hq⟩ := numericRangeLess_succeeds lib
        ((newLexerWrapper [] o).fieldname lib f) s true v hv
      exact ⟨q, SearchBase.lessEqual f c g e ts s q hp hq⟩
    | greaterDate f c g p =>
      obtain ⟨t, ht⟩ := h4 TokKind.tGREATER g p
        [LexItem.tok TokKind.tSTRING f, LexItem.tok TokKind.tCOLON c] [] rfl (by simp)
      obtain ⟨q, hq⟩ := dateRangeGreater_succeeds lib (newLexerWrapper [] o)
        ((newLexerWrapper [] o).fieldname lib f) p false t ht
      exact ⟨q, SearchBase.greaterDate f c g p q hq⟩
    | greaterEqualDate f c g e p =>
      obtain ⟨t, ht⟩ := h4 TokKind.tEQUAL e p
        [LexItem.tok TokKind.tSTRING f, LexItem.tok TokKind.tCOLON c,
          LexItem.tok TokKind.tGREATER g] [] rfl (by simp)
      obtain ⟨q, hq⟩ := dateRangeGreater_succeeds lib (newLexerWrapper [] o)
        ((newLexerWrapper [] o).fieldname lib f) p true t ht
      exact ⟨q, SearchBase.greaterEqualDate f c g e p q hq⟩
    | lessDate f c g p =>
      obtain ⟨t, ht⟩ := h4 TokKind.tLESS g p
        [LexItem.tok TokKind.tSTRING f, LexItem.tok TokKind.tCOLON c] [] rfl (by simp)
      obtain ⟨q, hq⟩ := dateRangeLess_succeeds lib (newLexerWrapper [] o)
        ((newLexerWrapper [] o).fieldname lib f) p false t ht
      exact ⟨q, SearchBase.lessDate f c g p q hq⟩
    | lessEqualDate f c g e p =>
      obtain ⟨t, ht⟩ := h4 TokKind.tEQUAL e p
        [LexItem.tok TokKind.tSTRING f, LexItem.tok TokKind.tCOLON c,
          LexItem.tok TokKind.tLESS g] [] rfl (by simp)
      obtain ⟨q, hq⟩ := dateRangeLess_succeeds lib (newLexerWrapper [] o)
        ((newLexerWrapper [] o).fieldname lib f) p true t ht
      exact ⟨q, SearchBase.lessEqualDate f c g e p q hq⟩
  · obtain ⟨_, v, hv⟩ := h3 s (by simp)
    obtain ⟨q, hq⟩ := queryStringNumberToken_succeeds lib
      ((newLexerWrapper [] o).fieldname lib f) ("-" ++ s) v hv
    exact ⟨q, SearchBase.fieldNumber f c _ ("-" ++ s) q (PosOrNegNumber.negative m s) hq⟩

theorem amendedPart_succeeds (lib : GoLib) (o : QueryStringOptions) (ts : List LexItem)
    (h : SpecPart AmendedClause ts) (hb : Benign lib o ts) :
    ∃ n q, SearchPart lib o ts n q := by
  cases h with
  | mk p c b hp hc hbo =>
    have hbc : Benign lib o c := Benign.right lib o p c (Benign.left lib o (p ++ c) b hb)
    obtain ⟨q0, hq0⟩ := amendedClause_succeeds lib o c hc hbc
    have hlead : ∃ n, SearchLead p n := by
      cases hp
      · exact ⟨_, SearchLead.absent⟩
      · exact ⟨_, SearchLead.question _⟩
      · exact ⟨_, SearchLead.plus _⟩
      · exact ⟨_, SearchLead.minus _⟩
    obtain ⟨n, hn⟩ := hlead
    rw [List.append_assoc]
    cases hbo with
    | absent => exact ⟨n, q0, SearchPart.mk p c [] n q0 none q0 hn hq0 SearchSuffix.absent rfl⟩
    | boost s =>
      obtain ⟨⟨v, hv⟩, ht⟩ := hb.2.2.2.2 s (by simp)
      obtain ⟨q1, hq1⟩ := searchBase_boosts lib o c q0 hq0 ht v
      exact ⟨n, q1, SearchPart.mk p c _ n q0 (some v) q1 hn hq0
        (SearchSuffix.boost s v (queryStringParseBoost_succeeds lib s v hv)) hq1⟩

theorem amendedInput_succeeds (lib : GoLib) (o : QueryStringOptions) (items : List LexItem)
    (h : AmendedInput items) (hb : Benign lib o items) :
    ∃ cs, SearchParts lib o items cs := by
  induction h with
  | more ps p _ hp ih =>
    obtain ⟨cs, hcs⟩ := ih (Benign.left lib o ps p hb)
    obtain ⟨n, q, hq⟩ := amendedPart_succeeds lib o p hp (Benign.right lib o ps p hb)
    exact ⟨cs ++ [(n, q)], searchParts_append lib o ps p cs _ hcs (SearchParts.one p n q hq)⟩
  | one p hp =>
    obtain ⟨n, q, hq⟩ := amendedPart_succeeds lib o p hp hb
    exact ⟨_, SearchParts.one p n q hq⟩

theorem negativeClause_built :
    queryStringNumberToken plainLib ((newLexerWrapper [] DefaultOptions).fieldname plainLib "field")
      "-5" = .ok negativeClause := by
  have h := ParseFloat_neg plainLib "5" (Float64.ofNat 5) (by decide) rfl
  have e : (newLexerWrapper [] DefaultOptions).fieldname plainLib "field" = "field" := rfl
  rw [e]
  unfold queryStringNumberToken
  simp only [h]
  rfl

theorem negativeItems_parts :
    SearchParts plainLib DefaultOptions negativeItems [(queryMust, negativeClause)] :=
  SearchParts.one _ queryMust negativeClause
    (SearchPart.mk [] negativeItems [] queryMust negativeClause none negativeClause
      SearchLead.absent
      (SearchBase.fieldNumber "field" ":" _ "-5" negativeClause
        (PosOrNegNumber.negative "-" "5") negativeClause_built)
      SearchSuffix.absent rfl)

theorem negativeItems_benign : Benign plainLib DefaultOptions negativeItems := by
  refine ⟨?_, ?_, ?_, ?_, ?_⟩
  · intro s hs
    simp [negativeItems] at hs
    subst hs
    decide
  · intro s hs
    simp [negativeItems] at hs
  · intro s hs
    simp [negativeItems] at hs
    subst hs
    exact ⟨⟨_, rfl⟩, ⟨_, ParseFloat_neg plainLib "5" (Float64.ofNat 5) (by decide) rfl⟩⟩
  · intro k g s pre post e _
    have hm : LexItem.tok TokKind.tPHRASE s ∈ negativeItems := by
      rw [e]
      simp
    simp [negativeItems] at hm
  · intro s hs
    simp [negativeItems] at hs

/-- Claim C21 as stated fails: the tokens of `field:-5`, STRING COLON MINUS NUMBER, are
parsed without an error, and the clause is the one that the test of `field:-5` expects; the
grammar of the spec does not derive them, since its field + number is STRING COLON NUMBER. -/
theorem specInput_counterexample :
    doParse LexErrorMode.records plainLib (parseFuel negativeItems)
        (newLexerWrapper negativeItems DefaultOptions) = some negativeResult ∧
      negativeResult.errs = [] ∧
      ParseQueryString LexErrorMode.records plainLib (itemsLex negativeItems) "field:-5"
        DefaultOptions = .returns (.ok (Query.BooleanQuery [negativeClause] [] [] none 1)) ∧
      ¬ SpecInput negativeItems := by
  have hd := doParse_complete LexErrorMode.records plainLib negativeItems DefaultOptions _ rfl
    negativeItems_parts
  have hr : doParse LexErrorMode.records plainLib (parseFuel negativeItems)
      (newLexerWrapper negativeItems DefaultOptions) = some negativeResult := hd
  refine ⟨hr, rfl, ?_, ?_⟩
  · have hp := ParseQueryString_parsed LexErrorMode.records plainLib (itemsLex negativeItems)
      "field:-5" DefaultOptions negativeResult (by decide) hr rfl
    rw [hp]
    have e : coalesceRef negativeResult.query.musts = [negativeClause] := by
      have h1 : negativeResult.query.musts = [negativeClause] := rfl
      rw [h1, coalesceRef_other negativeClause [] rfl, coalesceRef_nil]
    rw [e]
    rfl
  · intro h
    have := specInput_noColonMinus negativeItems h
    revert this
    decide

/-- Claim C21, amended. With payloads that no builder refuses, and logging that does not
panic, a token sequence is parsed without an error if and only if the grammar of the spec
derives it once field + number is `STRING COLON num_or_neg`: a sequence of one or more search
parts, each an optional prefix, one of the sixteen forms of the spec or
`STRING COLON MINUS NUMBER`, and an optional BOOST. That a sequence parsed without an error
is so derived needs nothing of the payloads. -/
theorem doParse_accepts (mode : LexErrorMode) (lib : GoLib) (o : QueryStringOptions)
    (items : List LexItem) (hlog : (newLexerWrapper [] o).logDebugGrammarf = .ok ())
    (hb : Benign lib o items) :
    ((∃ l, doParse mode lib (parseFuel items) (newLexerWrapper items o) = some l ∧
        l.errs = []) ↔ AmendedInput items) ∧
      (SpecInput items → AmendedInput items) := by
  refine ⟨⟨?_, ?_⟩, ?_⟩
  · rintro ⟨l, h, hl⟩
    obtain ⟨cs, hcs, _⟩ := doParse_sound mode lib _ items o l h hl
    exact searchParts_amended lib o items cs hcs
  · intro h
    obtain ⟨cs, hcs⟩ := amendedInput_succeeds lib o items h hb
    exact ⟨_, doParse_complete mode lib items o cs hlog hcs, rfl⟩
  · intro h
    induction h with
    | more ps p _ hp ih =>
      refine SpecParts.more ps p (ih (Benign.left lib o ps p hb)) ?_
      cases hp with
      | mk pre c b hpre hc hbo => exact SpecPart.mk pre c b hpre (Or.inl hc) hbo
    | one p hp =>
      cases hp with
      | mk pre c b hpre hc hbo => exact SpecParts.one _ (SpecPart.mk pre c b hpre (Or.inl hc) hbo)

/-- Claim C21, amended, on `field:-5`. -/
theorem doParse_accepts_witness :
    ((∃ l, doParse LexErrorMode.records plainLib (parseFuel negativeItems)
          (newLexerWrapper negativeItems DefaultOptions) = some l ∧ l.errs = []) ↔
        AmendedInput negativeItems) ∧
      (SpecInput negativeItems → AmendedInput negativeItems) :=
  doParse_accepts LexErrorMode.records plainLib DefaultOptions negativeItems rfl
    negativeItems_benign

/-! ## Every index is in range -/

theorem index_some {α : Type} (tbl : List α) (i : Int) (v : α) (h : index tbl i = .ok v) :
    0 ≤ i ∧ tbl[i.toNat]? = some v := by
  unfold index at h
  split_ifs at h with h0
  cases hg : tbl[i.toNat]? with
  | none => simp [hg] at h
  | some w =>
    simp only [hg, Except.ok.injEq] at h
    exact ⟨h0, by rw [h]⟩

theorem index_of_lt {α : Type} (tbl : List α) (i : Int) (h0 : 0 ≤ i) (h1 : i < tbl.length) :
    ∃ v, index tbl i = .ok v := by
  unfold index
  have h2 : i.toNat < tbl.length := by omega
  simp [h0, List.getElem?_eq_getElem h2]

theorem yyEdge_range (p s : Int) (h : yyEdge p s = true) :
    (0 ≤ p ∧ p < 36) ∧ 0 ≤ s ∧ s < 36 := by
  unfold yyEdge at h
  simp only [Bool.and_eq_true, decide_eq_true_eq] at h
  obtain ⟨h0, h1⟩ := h
  by_cases hp : p.toNat < 36
  · have e : p = (p.toNat : Int) := by omega
    generalize p.toNat = n at hp h1 e
    subst e
    interval_cases n <;> simp [yySucc] at h1 <;> omega
  · rw [List.getD_eq_default] at h1
    · simp at h1
    · simp only [yySucc, List.length_cons, List.length_nil]
      omega

theorem viable_range (s : Int) (rest : List Int) (h : viable (s :: rest) = true) :
    ∀ x ∈ s :: rest, 0 ≤ x ∧ x < 36 := by
  induction rest generalizing s with
  | nil =>
    simp only [viable, beq_iff_eq] at h
    subst h
    simp
  | cons p rest ih =>
    simp only [viable, Bool.and_eq_true] at h
    intro x hx
    rcases List.mem_cons.mp hx with rfl | hx
    · exact (yyEdge_range p x h.1).2
    · exact ih p h.2 x hx

/-- Every entry of `yyAct` is a state. -/
theorem yyAct_range (i ys : Int) (h : index yyAct i = .ok ys) : 0 ≤ ys ∧ ys < 36 := by
  obtain ⟨_, h1⟩ := index_some yyAct i ys h
  have key : ∀ y ∈ yyAct, 0 ≤ y ∧ y < 36 := by decide
  exact key ys (List.getElem?_mem h1)

/-- The test for a shift reads `yyAct` and `yyChk` in range, whatever the token. -/
theorem yyShift_ok (pact tk : Int) : ∃ r, yyShift pact tk = .ok r := by
  unfold yyShift
  simp only
  split_ifs with h
  · exact ⟨_, rfl⟩
  · have h0 : 0 ≤ pact + tk := by omega
    have h1 : pact + tk < (yyAct.length : Int) := by
      have : ¬ yyLast ≤ pact + tk := fun hh => h (Or.inr hh)
      simp only [yyLast, not_le] at this
      exact this
    obtain ⟨ys, ha⟩ := index_of_lt yyAct _ h0 h1
    obtain ⟨hy0, hy1⟩ := yyAct_range _ ys ha
    obtain ⟨c, hc⟩ := index_of_lt yyChk ys hy0 hy1
    rw [ha]
    simp only [hc]
    split_ifs <;> exact ⟨_, rfl⟩

set_option maxRecDepth 100000 in
theorem yyShift_edge_key : ∀ s ∈ List.range 36, ∀ y ∈ List.range 36,
    (match yyPact[s]?, yyChk[y]? with
      | some pact1, some c1 =>
        decide (0 ≤ pact1 + c1 → yyAct[(pact1 + c1).toNat]? = some (y : Int) →
          yyEdge (s : Int) (y : Int) = true)
      | _, _ => true) = true := by
  decide

/-- A shift leads to a state that follows the state in which it is made. -/
theorem yyShift_edge (s pact tk ys : Int) (hp : index yyPact s = .ok pact)
    (h : yyShift pact tk = .ok (some ys)) : yyEdge s ys = true := by
  obtain ⟨hs0, hs1⟩ := index_ok yyPact s pact hp
  have hs2 : s < 36 := hs1
  unfold yyShift at h
  simp only at h
  split_ifs at h with hr
  · cases h
  · cases ha : index yyAct (pact + tk) with
    | error p => simp [ha] at h
    | ok y =>
      rw [ha] at h
      simp only at h
      cases hc : index yyChk y with
      | error p => simp [hc] at h
      | ok c =>
        rw [hc] at h
        simp only at h
        by_cases hct : c = tk
        swap
        · simp [hct] at h
        simp only [hct, if_true, Except.ok.injEq, Option.some.injEq] at h
        subst h hct
        obtain ⟨hy0, hy1⟩ := index_ok yyChk y c hc
        have hy2 : y < 36 := hy1
        obtain ⟨_, hc1⟩ := index_some yyChk y c hc
        obtain ⟨_, hp1⟩ := index_some yyPact s pact hp
        obtain ⟨ha0, ha1⟩ := index_some yyAct (pact + c) y ha
        have key := yyShift_edge_key s.toNat (List.mem_range.mpr (by omega)) y.toNat
          (List.mem_range.mpr (by omega))
        rw [hp1, hc1, Int.toNat_of_nonneg hs0, Int.toNat_of_nonneg hy0] at key
        simp only [decide_eq_true_eq] at key
        exact key ha0 ha1

theorem yyPreds_mem (p s : Int) (h : yyEdge p s = true) : p ∈ yyPreds s := by
  obtain ⟨⟨h0, h1⟩, _⟩ := yyEdge_range p s h
  unfold yyPreds
  rw [List.mem_filter]
  refine ⟨?_, h⟩
  rw [List.mem_map]
  exact ⟨p.toNat, List.mem_range.mpr (by omega), by simp [Int.toNat_of_nonneg h0]⟩

/-- What `canReduce` tests: on a stack whose states are a path, the symbols can be popped, and
the goto leads to a state with which the states are a path again. -/
theorem canReduce_sound (nt yyg : Int) (hg : index yyPgo nt = .ok yyg) :
    ∀ (k : Nat) (stack : List yySymType),
      viable (stack.map (fun e => e.yys)) = true →
      (∀ s, (stack.map (fun e => e.yys)).head? = some s → canReduce nt k s = true) →
      k < stack.length ∧
        ∃ top below1 g, stack.drop k = top :: below1 ∧ yyGoto nt yyg top.yys = .ok g ∧
          viable (g :: (top :: below1).map (fun e => e.yys)) = true := by
  intro k
  induction k with
  | zero =>
    intro stack hv hc
    cases stack with
    | nil => simp [viable] at hv
    | cons top below1 =>
      have h := hc top.yys rfl
      simp only [canReduce, hg] at h
      cases hgo : yyGoto nt yyg top.yys with
      | error p => simp [hgo] at h
      | ok g =>
        simp only [hgo] at h
        refine ⟨by simp, top, below1, g, rfl, hgo, ?_⟩
        simp only [List.map_cons, viable, Bool.and_eq_true] at hv ⊢
        exact ⟨h, hv⟩
  | succ k ih =>
    intro stack hv hc
    cases stack with
    | nil => simp [viable] at hv
    | cons e rest =>
      have h := hc e.yys rfl
      simp only [canReduce, Bool.and_eq_true, bne_iff_ne, ne_eq, List.all_eq_true] at h
      cases rest with
      | nil =>
        simp only [List.map_cons, List.map_nil, viable, beq_iff_eq] at hv
        exact absurd hv h.1
      | cons e2 rest2 =>
        simp only [List.map_cons, viable, Bool.and_eq_true] at hv
        have hc2 := h.2 e2.yys (yyPreds_mem _ _ hv.1)
        obtain ⟨hlen, top, below1, g, hd, hgo, hv2⟩ := ih (e2 :: rest2)
          (by simpa [viable] using hv.2)
          (fun s hs => by
            simp only [List.map_cons, List.head?_cons, Option.some.injEq] at hs
            rw [← hs]
            exact hc2)
        refine ⟨by simp only [List.length_cons] at hlen ⊢; omega, top, below1, g, ?_, hgo, hv2⟩
        simpa using hd

set_option maxRecDepth 100000 in
theorem canReduce_key : ∀ s ∈ List.range 36,
    (match yyDef[s]? with
      | some n =>
        if 0 < n then
          match yyR2[n.toNat]?, yyR1[n.toNat]? with
          | some k, some nt => canReduce nt k (s : Int) && decide (0 ≤ nt) && decide (nt < 8)
          | _, _ => false
        else true
      | none => true) = true := by
  decide

/-- The production by which a state reduces can be reduced on every stack with that state on
top. -/
theorem canReduce_def (s n : Int) (hd : index yyDef s = .ok n) (hn : 0 < n) :
    ∃ k nt yyg, index yyR2 n = .ok k ∧ index yyR1 n = .ok nt ∧ index yyPgo nt = .ok yyg ∧
      canReduce nt k s = true := by
  obtain ⟨hs0, hd1⟩ := index_some yyDef s n hd
  obtain ⟨_, hs1⟩ := index_ok yyDef s n hd
  have hs2 : s < 36 := hs1
  have key := canReduce_key s.toNat (List.mem_range.mpr (by omega))
  rw [hd1, Int.toNat_of_nonneg hs0] at key
  simp only [hn, if_true] at key
  cases h2 : yyR2[n.toNat]? with
  | none => simp [h2] at key
  | some k =>
    cases h1 : yyR1[n.toNat]? with
    | none => simp [h2, h1] at key
    | some nt =>
      simp only [h2, h1, Bool.and_eq_true, decide_eq_true_eq] at key
      obtain ⟨⟨hc, hnt0⟩, hnt1⟩ := key
      obtain ⟨yyg, hg⟩ := index_of_lt yyPgo nt hnt0 (by simpa [yyPgo] using hnt1)
      refine ⟨k, nt, yyg, ?_, ?_, hg, hc⟩
      · unfold index
        simp [Int.le_of_lt hn, h2]
      · unfold index
        simp [Int.le_of_lt hn, h1]

/-- The productions that the exception table gives state 3 can be reduced on every stack with
state 3 on top. -/
theorem canReduce_exca :
    canReduce 6 1 3 = true ∧ canReduce 4 0 3 = true := by
  constructor <;> rfl

/-- Every entry of `yyDef` is a production, 0 for the error, or -2 for the exception table. -/
theorem yyDef_range (s n : Int) (h : index yyDef s = .ok n) : n = -2 ∨ 0 ≤ n := by
  obtain ⟨_, h1⟩ := index_some yyDef s n h
  have key : ∀ y ∈ yyDef, y = -2 ∨ 0 ≤ y := by decide
  exact key n (List.getElem?_mem h1)

/-- The states that the exception table serves are 1 and 3. -/
theorem yyDef_exca (s : Int) (h : index yyDef s = .ok (-2)) : s = 1 ∨ s = 3 := by
  obtain ⟨h0, h1⟩ := index_ok yyDef s _ h
  have h2 : s < 36 := h1
  have key : (match index yyDef s with
      | .ok n1 => decide (n1 = -2 → s = 1 ∨ s = 3)
      | .error _ => true) = true := by
    interval_cases s <;> rfl
  rw [h] at key
  simpa using key

/-- The exception table is read in range, whatever the token. -/
theorem excaAction_ok (s tk : Int) (h : index yyDef s = .ok (-2)) :
    ∃ n, excaAction s tk = .ok n := by
  rcases yyDef_exca s h with rfl | rfl
  · by_cases ht : tk = 1
    · subst ht
      exact ⟨_, rfl⟩
    · exact ⟨0, by simp [excaAction, excaFind, excaScan, yyExca, ht, Ne.symm ht]⟩
  · by_cases ht : tk = 1
    · subst ht
      exact ⟨_, rfl⟩
    · exact ⟨5, by simp [excaAction, excaFind, excaScan, yyExca, ht, Ne.symm ht]⟩

/-- The message of a syntax error is made with every index in range, whatever the token. -/
theorem yyErrorMessage_ok (s tk : Int) (h0 : 0 ≤ s) (h1 : s < 36) :
    ∃ msg, yyErrorMessage s tk = .ok msg := by
  interval_cases s <;> exact ⟨_, rfl⟩

/-- The code that the lexer returns is translated with every index in range. -/
theorem yylex1_ok (mode : LexErrorMode) (lx : lexerWrapper) (lval : yySymType)
    (l : lexerWrapper) (p : Panic) (h : yylex1 mode lx lval = Act.panic l p) :
    lx.Lex mode lval = Act.panic l p := by
  unfold yylex1 at h
  cases hr : lx.Lex mode lval with
  | panic l2 p2 =>
    rw [hr] at h
    simpa using h
  | ok l2 a =>
    obtain ⟨lval2, ch2⟩ := a
    rw [hr] at h
    simp only at h
    have hs := lexItems_spec mode lx lval lx.lex lx.errs l2 lval2 ch2 hr
    have ht : ∃ tk, yylex1Token ch2 = .ok tk := by
      rcases hs with ⟨_, k, rfl⟩ | ⟨_, rfl⟩
      · exact ⟨_, yylex1Token_code k⟩
      · exact ⟨_, rfl⟩
    obtain ⟨tk, ht⟩ := ht
    simp [ht] at h

theorem slots_ne_nil (b a : List yySymType) (h : b ≠ [] ∨ a ≠ []) : slots b a ≠ [] := by
  unfold slots grown
  cases a with
  | nil =>
    cases b with
    | nil => simp at h
    | cons x r => simp [List.replicate_succ]
  | cons y r => simp

/-- The test that doubles the stack: a new part as long as the stack when there is no
element above `yyp`, and else the part above `yyp` as it is. -/
theorem slots_cases (b a : List yySymType) :
    (a = [] ∧ slots b a = List.replicate b.length yySymType.zero) ∨
      (a ≠ [] ∧ slots b a = a) := by
  unfold slots grown
  cases a with
  | nil => exact Or.inl ⟨rfl, rfl⟩
  | cons y r => exact Or.inr ⟨by simp, rfl⟩

theorem errorPop_ret (st : ParseState) (b a : List yySymType)
    (hb : ∀ e ∈ b, 0 ≤ e.yys ∧ e.yys < 36) : errorPop st b a = Step.ret st.yylex 1 :=
  errorPop_ok st b a (fun e he => errShift_range e.yys (hb e he).1 (hb e he).2)

/-- A reduction that `canReduce` allows reads the tables and the stack in range. -/
theorem yyreduce_safe (mode : LexErrorMode) (lib : GoLib) (lx0 : lexerWrapper)
    (lval0 : yySymType) (ch0 : Int) (len : Nat) (st : ParseState) (n : Int) (k : Nat)
    (nt yyg : Int)
    (hef : st.Errflag = 0) (hv : viable (st.below.map (fun e => e.yys)) = true)
    (hcap : ∃ j, st.below.length + st.above.length = yyInitialStackSize * 2 ^ j)
    (hlen : st.below.length + st.above.length = len ∨
      (st.below.length + st.above.length = 2 * len ∧ st.above ≠ []))
    (hk : index yyR2 n = .ok k) (hnt : index yyR1 n = .ok nt) (hg : index yyPgo nt = .ok yyg)
    (hc : ∀ s, (st.below.map (fun e => e.yys)).head? = some s → canReduce nt k s = true) :
    (yyreduce mode lib st n).Keeps len ∧
      (yyreduce mode lib st n).InRange mode lib lx0 lval0 ch0 st.below := by
  obtain ⟨hlt, top, below1, g, hd, hgo, hv2⟩ := canReduce_sound nt yyg hg k st.below hv hc
  obtain ⟨j, hj⟩ := hcap
  have hdl : (top :: below1).length = st.below.length - k := by
    rw [← hd, List.length_drop]
  have hnew : ∃ yyVAL above1,
      slots (st.below.drop k) ((st.below.take k).reverse ++ st.above) = yyVAL :: above1 ∧
      (∃ j1, (top :: below1).length + (yyVAL :: above1).length =
        yyInitialStackSize * 2 ^ j1) ∧
      ((top :: below1).length + (yyVAL :: above1).length = len ∨
        (top :: below1).length + (yyVAL :: above1).length = 2 * len) := by
    rcases slots_cases (st.below.drop k) ((st.below.take k).reverse ++ st.above) with
      ⟨ha, hs⟩ | ⟨ha, hs⟩
    · simp only [List.append_eq_nil, List.reverse_eq_nil_iff, List.take_eq_nil_iff] at ha
      obtain ⟨hk0, ha0⟩ := ha
      have hk1 : k = 0 := by
        rcases hk0 with h | h
        · exact h
        · rw [h] at hlt
          simp at hlt
      subst hk1
      rw [ha0] at hj hlen
      simp only [List.length_nil, Nat.add_zero, ne_eq, not_true_eq_false, and_false,
        or_false] at hj hlen
      rw [hs, hd]
      simp only [List.drop_zero] at hd
      rw [← hd]
      cases hb : st.below with
      | nil => rw [hb] at hlt; simp at hlt
      | cons x r =>
        refine ⟨yySymType.zero, List.replicate r.length yySymType.zero, ?_, ⟨j + 1, ?_⟩, ?_⟩
        · simp [List.replicate_succ]
        · rw [hb] at hj
          simp only [List.length_cons, List.length_replicate] at hj ⊢
          have e : yyInitialStackSize * 2 ^ (j + 1) = 2 * (yyInitialStackSize * 2 ^ j) := by
            rw [pow_succ]
            ring
          rw [e, ← hj]
          omega
        · right
          rw [hb] at hlen
          simp only [List.length_cons, List.length_replicate] at hlen ⊢
          omega
    · rw [hs]
      cases hl : (st.below.take k).reverse ++ st.above with
      | nil => exact absurd hl ha
      | cons y r =>
        have hsum : (top :: below1).length + (y :: r).length =
            st.below.length + st.above.length := by
          rw [hdl, ← hl]
          simp only [List.length_append, List.length_reverse, List.length_take]
          omega
        refine ⟨y, r, rfl, ⟨j, by rw [hsum]; exact hj⟩, ?_⟩
        rw [hsum]
        rcases hlen with h | h
        · exact Or.inl h
        · exact Or.inr h.1
  obtain ⟨yyVAL, above1, hs, hj1, hl1⟩ := hnew
  unfold yyreduce
  simp only [hk, hnt, hg]
  rw [if_neg (by omega)]
  simp only [hs]
  simp only [hd, hgo]
  cases ha : yyAction mode lib st.yylex n ((st.below.take (k + 1)).reverse) yyVAL with
  | panic l p =>
    exact ⟨trivial, Or.inr ⟨st.yylex, n, k, yyVAL, hk, hlt, ha⟩⟩
  | ok l v =>
    refine ⟨⟨rfl, ⟨hef, hv2, hj1⟩, ?_⟩, trivial⟩
    simp only [ParseState.yyS, List.length_append, List.length_reverse]
    exact hl1

theorem viable_states (stack : List yySymType)
    (hv : viable (stack.map (fun e => e.yys)) = true) :
    ∀ e ∈ stack, 0 ≤ e.yys ∧ e.yys < 36 := by
  intro e he
  cases stack with
  | nil => cases he
  | cons x r =>
    simp only [List.map_cons] at hv
    exact viable_range x.yys (r.map (fun e => e.yys)) hv e.yys
      (List.mem_map_of_mem (fun e => e.yys) he)

theorem viable_top (stack : List yySymType) (s : Int)
    (hv : viable (stack.map (fun e => e.yys)) = true)
    (htop : (stack.map (fun e => e.yys)).head? = some s) : 0 ≤ s ∧ s < 36 := by
  cases stack with
  | nil => cases htop
  | cons x r =>
    simp only [List.map_cons, List.head?_cons, Option.some.injEq] at htop
    rw [← htop]
    exact viable_states (x :: r) hv x (List.mem_cons_self _ _)

/-- The error recovery and the reductions that `canReduce` allows read the tables and the
stack in range. -/
theorem yyact_safe (mode : LexErrorMode) (lib : GoLib) (lx0 : lexerWrapper)
    (lval0 : yySymType) (ch0 : Int) (len : Nat) (st : ParseState) (n : Int)
    (hef : st.Errflag = 0) (hv : viable (st.below.map (fun e => e.yys)) = true)
    (hs : 0 ≤ st.yystate ∧ st.yystate < 36)
    (hcap : ∃ j, st.below.length + st.above.length = yyInitialStackSize * 2 ^ j)
    (hlen : st.below.length + st.above.length = len ∨
      (st.below.length + st.above.length = 2 * len ∧ st.above ≠ []))
    (hn : n ≠ 0 → ∃ k nt yyg, index yyR2 n = .ok k ∧ index yyR1 n = .ok nt ∧
      index yyPgo nt = .ok yyg ∧
      ∀ s, (st.below.map (fun e => e.yys)).head? = some s → canReduce nt k s = true) :
    (yyact mode lib st n).Keeps len ∧
      (yyact mode lib st n).InRange mode lib lx0 lval0 ch0 st.below := by
  unfold yyact
  by_cases h0 : n = 0
  · obtain ⟨msg, hm⟩ := yyErrorMessage_ok st.yystate st.yytoken hs.1 hs.2
    have hb := viable_states st.below hv
    simp only [h0, if_true, hef, hm]
    rw [errorPop_ret _ _ _ hb]
    exact ⟨trivial, trivial⟩
  · obtain ⟨k, nt, yyg, hk, hnt, hg, hc⟩ := hn h0
    simp only [h0, if_false]
    exact yyreduce_safe mode lib lx0 lval0 ch0 len st n k nt yyg hef hv hcap hlen hk hnt hg hc

/-- The read of the lookahead: its panic is that of the lexer. -/
theorem withLookahead_safe (mode : LexErrorMode) (lib : GoLib) (lx0 : lexerWrapper)
    (lval0 : yySymType) (ch0 : Int) (len : Nat) (stack : List yySymType) (st : ParseState)
    (k : ParseState → Step)
    (hsrc : st.char < 0 → st.yylex = lx0 ∧ st.lval = lval0 ∧ ch0 < 0)
    (hk : ∀ st1 : ParseState, st1.below = st.below → st1.above = st.above →
      st1.yystate = st.yystate → st1.Errflag = st.Errflag → 0 ≤ st1.char →
      (k st1).Keeps len ∧ (k st1).InRange mode lib lx0 lval0 ch0 stack) :
    (withLookahead mode st k).Keeps len ∧
      (withLookahead mode st k).InRange mode lib lx0 lval0 ch0 stack := by
  unfold withLookahead
  split_ifs with hc
  · obtain ⟨e1, e2, e3⟩ := hsrc hc
    cases hr : yylex1 mode st.yylex st.lval with
    | panic l p =>
      have := yylex1_ok mode st.yylex st.lval l p hr
      rw [e1, e2] at this
      exact ⟨trivial, Or.inl ⟨e3, this⟩⟩
    | ok l a =>
      obtain ⟨lval, ch, tk⟩ := a
      obtain ⟨h1, _⟩ := yylex1_spec mode st.yylex st.lval l lval ch tk hr
      exact hk _ rfl rfl rfl rfl h1
  · exact hk st rfl rfl rfl rfl (by omega)

/-- The label `yydefault` with the state on the stack. -/
theorem yydefault_safe (mode : LexErrorMode) (lib : GoLib) (lx0 : lexerWrapper)
    (lval0 : yySymType) (ch0 : Int) (len : Nat) (st : ParseState)
    (hsrc : st.char < 0 → st.yylex = lx0 ∧ st.lval = lval0 ∧ ch0 < 0)
    (hef : st.Errflag = 0) (hv : viable (st.below.map (fun e => e.yys)) = true)
    (htop : (st.below.map (fun e => e.yys)).head? = some st.yystate)
    (hcap : ∃ j, st.below.length + st.above.length = yyInitialStackSize * 2 ^ j)
    (hlen : st.below.length + st.above.length = len ∨
      (st.below.length + st.above.length = 2 * len ∧ st.above ≠ [])) :
    (yydefault mode lib st).Keeps len ∧
      (yydefault mode lib st).InRange mode lib lx0 lval0 ch0 st.below := by
  have hs := viable_top st.below st.yystate hv htop
  obtain ⟨n, hd⟩ := index_of_lt yyDef st.yystate hs.1 (by simpa [yyDef] using hs.2)
  unfold yydefault
  simp only [hd]
  split_ifs with h2
  · subst h2
    refine withLookahead_safe mode lib lx0 lval0 ch0 len st.below st _ hsrc ?_
    intro st1 hb ha hy he _
    obtain ⟨n1, hx⟩ := excaAction_ok st1.yystate st1.yytoken (by rw [hy]; exact hd)
    simp only [hx]
    split_ifs with hneg
    · exact ⟨trivial, trivial⟩
    · rw [← hb]
      refine yyact_safe mode lib lx0 lval0 ch0 len st1 n1 (by rw [he]; exact hef)
        (by rw [hb]; exact hv) (by rw [hy]; exact hs) (by rw [hb, ha]; exact hcap)
        (by rw [hb, ha]; exact hlen) ?_
      intro hn0
      rcases excaAction_cases st1.yystate st1.yytoken n1 (by rw [hy]; exact hd) hx with
        h | h | ⟨h3, h | h⟩
      · exact absurd h hneg
      · exact absurd h hn0
      · subst h
        refine ⟨1, 6, 28, rfl, rfl, rfl, ?_⟩
        intro s hs1
        rw [hb, htop, ← hy, h3] at hs1
        cases hs1
        exact canReduce_exca.1
      · subst h
        refine ⟨0, 4, 39, rfl, rfl, rfl, ?_⟩
        intro s hs1
        rw [hb, htop, ← hy, h3] at hs1
        cases hs1
        exact canReduce_exca.2
  · refine yyact_safe mode lib lx0 lval0 ch0 len st n hef hv hs hcap hlen ?_
    intro hn0
    have hpos : 0 < n := by
      rcases yyDef_range st.yystate n hd with h | h
      · exact absurd h h2
      · omega
    obtain ⟨k, nt, yyg, hk, hnt, hg, hc⟩ := canReduce_def st.yystate n hd hpos
    refine ⟨k, nt, yyg, hk, hnt, hg, ?_⟩
    intro s hs1
    rw [htop] at hs1
    cases hs1
    exact hc

/-- The label `yynewstate` with the state on the stack. -/
theorem yynewstate_safe (mode : LexErrorMode) (lib : GoLib) (len : Nat) (st : ParseState)
    (hef : st.Errflag = 0) (hv : viable (st.below.map (fun e => e.yys)) = true)
    (htop : (st.below.map (fun e => e.yys)).head? = some st.yystate)
    (hcap : ∃ j, st.below.length + st.above.length = yyInitialStackSize * 2 ^ j)
    (hlen : st.below.length + st.above.length = len ∨
      (st.below.length + st.above.length = 2 * len ∧ st.above ≠ [])) :
    (yynewstate mode lib st).Keeps len ∧
      (yynewstate mode lib st).InRange mode lib st.yylex st.lval st.char st.below := by
  have hs := viable_top st.below st.yystate hv htop
  obtain ⟨pact, hp⟩ := index_of_lt yyPact st.yystate hs.1 (by simpa [yyPact] using hs.2)
  unfold yynewstate
  simp only [hp]
  split_ifs with hf
  · exact yydefault_safe mode lib st.yylex st.lval st.char len st (fun h => ⟨rfl, rfl, h⟩) hef
      hv htop hcap hlen
  · refine withLookahead_safe mode lib st.yylex st.lval st.char len st.below st _
      (fun h => ⟨rfl, rfl, h⟩) ?_
    intro st1 hb ha hy he hch
    obtain ⟨r, hr⟩ := yyShift_ok pact st1.yytoken
    simp only [hr]
    cases r with
    | some ys =>
      simp only
      refine ⟨⟨rfl, ⟨?_, ?_, ?_⟩, ?_⟩, trivial⟩
      · simp [he, hef]
      · have hedge := yyShift_edge st.yystate pact st1.yytoken ys hp hr
        cases hbl : st.below with
        | nil => rw [hbl] at htop; cases htop
        | cons x r2 =>
          rw [hbl] at hv htop
          simp only [List.map_cons, List.head?_cons, Option.some.injEq] at htop
          simp only [hb, hbl, List.map_cons, viable, Bool.and_eq_true]
          rw [← htop] at hedge
          exact ⟨hedge, by simpa [viable] using hv⟩
      · simp only [hb, ha]
        exact hcap
      · simp only [ParseState.yyS, List.length_append, List.length_reverse, hb, ha]
        rcases hlen with h | h
        · exact Or.inl h
        · exact Or.inr h.1
    | none =>
      simp only
      rw [← hb]
      exact yydefault_safe mode lib st.yylex st.lval st.char len st1
        (fun h => absurd h (by omega)) (by rw [he]; exact hef) (by rw [hb]; exact hv)
        (by rw [hb, hy]; exact htop) (by rw [hb, ha]; exact hcap) (by rw [hb, ha]; exact hlen)

/-- A round from `yystack`: no index is out of range, and the round that follows starts at
`yystack` in a state of which `Inv` holds. -/
theorem yystack_safe (mode : LexErrorMode) (lib : GoLib) (st : ParseState) (h : st.Inv) :
    (yystack mode lib st).Keeps st.yyS.length ∧
      (yystack mode lib st).InRange mode lib st.yylex st.lval st.char
        ({ st.yyVAL with yys := st.yystate } :: st.below) := by
  obtain ⟨hef, hv, j, hj⟩ := h
  have hyyS : st.yyS.length = st.below.length + st.above.length := by
    simp only [ParseState.yyS, List.length_append, List.length_reverse]
  have hpos : 16 ≤ st.below.length + st.above.length := by
    rw [hj]
    have := Nat.one_le_two_pow (n := j)
    simp only [yyInitialStackSize]
    omega
  have hnew : ∃ x above2, slots st.below st.above = x :: above2 ∧
      (∃ j1, (st.below.length + 1) + above2.length = yyInitialStackSize * 2 ^ j1) ∧
      ((st.below.length + 1) + above2.length = st.yyS.length ∨
        ((st.below.length + 1) + above2.length = 2 * st.yyS.length ∧ above2 ≠ [])) := by
    rcases slots_cases st.below st.above with ⟨ha, hs⟩ | ⟨ha, hs⟩
    · rw [ha] at hj hpos hyyS
      simp only [List.length_nil, Nat.add_zero] at hj hpos hyyS
      rw [hs]
      obtain ⟨m, hm⟩ : ∃ m, st.below.length = m + 2 := ⟨st.below.length - 2, by omega⟩
      rw [hm, List.replicate_succ, List.replicate_succ]
      refine ⟨_, _, rfl, ⟨j + 1, ?_⟩, Or.inr ⟨?_, by simp⟩⟩
      · simp only [List.length_cons, List.length_replicate]
        have e : yyInitialStackSize * 2 ^ (j + 1) = 2 * (yyInitialStackSize * 2 ^ j) := by
          rw [pow_succ]
          ring
        rw [e, ← hj]
        omega
      · simp only [List.length_cons, List.length_replicate]
        omega
    · rw [hs]
      cases hl : st.above with
      | nil => exact absurd hl ha
      | cons x r =>
        rw [hl] at hj hyyS
        simp only [List.length_cons] at hj hyyS
        exact ⟨x, r, rfl, ⟨j, by omega⟩, Or.inl (by omega)⟩
  obtain ⟨x, above2, hs, hj1, hl1⟩ := hnew
  unfold yystack
  simp only [hs]
  exact yynewstate_safe mode lib st.yyS.length
    { st with below := { st.yyVAL with yys := st.yystate } :: st.below, above := above2 }
    hef hv rfl hj1 hl1

theorem init_inv (lx : lexerWrapper) : (ParseState.init lx).Inv :=
  ⟨rfl, rfl, 0, rfl⟩

/-- The rounds of a run from `yystack`: each starts at `yystack` in a state of which `Inv`
holds, with a potential that is lower by one at least for each round made. -/
theorem roundsFrom_inv (mode : LexErrorMode) (lib : GoLib) :
    ∀ (n : Nat) (st : ParseState) (lbl : Label) (st1 : ParseState), st.Inv →
      roundsFrom mode lib n Label.yystack st = some (lbl, st1) →
      lbl = Label.yystack ∧ st1.Inv ∧ n + potential st1 ≤ potential st := by
  intro n
  induction n with
  | zero =>
    intro st lbl st1 hi h
    simp only [roundsFrom, Option.some.injEq, Prod.mk.injEq] at h
    obtain ⟨rfl, rfl⟩ := h
    exact ⟨rfl, hi, by omega⟩
  | succ n ih =>
    intro st lbl st1 hi h
    have hk := (yystack_safe mode lib st hi).1
    have hd := yystack_decr mode lib st hi.1
    simp only [roundsFrom, yyStep] at h
    cases hs : yystack mode lib st with
    | ret l c => simp [hs] at h
    | panic l p => simp [hs] at h
    | next lbl2 st2 =>
      rw [hs] at h hk hd
      obtain ⟨rfl, hi2, _⟩ := hk
      obtain ⟨_, _, hp⟩ := hd
      obtain ⟨h1, h2, h3⟩ := ih st2 lbl st1 hi2 h
      exact ⟨h1, h2, by omega⟩

/-- A run of `n + m` rounds is the run of `m` rounds from where it is after `n` rounds. -/
theorem parseLoop_rounds (mode : LexErrorMode) (lib : GoLib) :
    ∀ (n m : Nat) (lbl : Label) (st : ParseState) (lbl1 : Label) (st1 : ParseState),
      roundsFrom mode lib n lbl st = some (lbl1, st1) →
      parseLoop mode lib (n + m) lbl st = parseLoop mode lib m lbl1 st1 := by
  intro n
  induction n with
  | zero =>
    intro m lbl st lbl1 st1 h
    simp only [roundsFrom, Option.some.injEq, Prod.mk.injEq] at h
    obtain ⟨rfl, rfl⟩ := h
    rw [Nat.zero_add]
  | succ n ih =>
    intro m lbl st lbl1 st1 h
    simp only [roundsFrom] at h
    have e : n + 1 + m = (n + m) + 1 := by omega
    rw [e]
    simp only [parseLoop]
    cases hs : yyStep mode lib lbl st with
    | ret l c => simp [hs] at h
    | panic l p => simp [hs] at h
    | next lbl2 st2 =>
      rw [hs] at h
      exact ih m lbl2 st2 lbl1 st1 h

theorem dollar_take (ds ds1 : List yySymType) (k i : Nat)
    (h : ds.take (k + 1) = ds1.take (k + 1)) (hi : i ≤ k) : dollar ds i = dollar ds1 i := by
  have e : ∀ l : List yySymType, dollar l i = dollar (l.take (k + 1)) i := by
    intro l
    unfold dollar
    rw [List.getD_eq_getElem?_getD, List.getD_eq_getElem?_getD, List.getElem?_take]
    simp [Nat.lt_succ_of_le hi]
  rw [e ds, e ds1, h]

/-- A semantic action reads no element of `yyDollar` behind the symbols of its production. -/
theorem yyAction_reads (mode : LexErrorMode) (lib : GoLib) (lx : lexerWrapper) (n : Int)
    (k : Nat) (ds ds1 : List yySymType) (v : yySymType) (hk : index yyR2 n = .ok k)
    (h : ds.take (k + 1) = ds1.take (k + 1)) :
    yyAction mode lib lx n ds v = yyAction mode lib lx n ds1 v := by
  obtain ⟨h0, h1⟩ := index_ok yyR2 n k hk
  have h2 : n < 29 := h1
  have hd := dollar_take ds ds1 k
  interval_cases n <;> simp [index, yyR2] at hk <;> subst hk <;>
    solve
    | simp [yyAction]
    | simp [yyAction, searchPartAction, hd 1 h (by omega)]
    | simp [yyAction, searchPartAction, hd 1 h (by omega), hd 2 h (by omega)]
    | simp [yyAction, searchPartAction, hd 1 h (by omega), hd 2 h (by omega),
        hd 3 h (by omega)]
    | simp [yyAction, searchPartAction, hd 1 h (by omega), hd 2 h (by omega),
        hd 3 h (by omega), hd 4 h (by omega)]
    | simp [yyAction, searchPartAction, hd 1 h (by omega), hd 2 h (by omega),
        hd 3 h (by omega), hd 4 h (by omega), hd 5 h (by omega)]

/-- The goto of an empty production, from whatever state. -/
theorem yyGoto_empty (top : Int) (h : 0 ≤ top) :
    yyGoto 4 39 top = .ok 4 ∧ yyGoto 3 41 top = .ok 13 := by
  by_cases h3 : top < 3
  · interval_cases top <;> exact ⟨rfl, rfl⟩
  · unfold yyGoto
    simp only [yyLast]
    rw [if_pos (by omega), if_pos (by omega)]
    exact ⟨rfl, rfl⟩

/-- Claim C31. `yyParse` ends on every list of items: the rounds that `ParseQueryString`
allows suffice, more rounds change nothing, and each round lowers a potential that starts at
`8 * items.length + 2`, so that no sequence of reductions goes on for ever; an empty
production (5 or 25) leads to state 4, which shifts or reports the error, or to state 13,
which reduces production 4 with its three symbols. The slice `yyS` has 16 elements at the
start. At the start of every round of the run the state and the states on the stack are
indices of the tables, the length of `yyS` is 16 doubled some number of times, and after the
test that doubles a full stack there is an element for the write `yyS[yyp]`; a production
that the state reduces has no more symbols than the stack has elements below that write, so
that `yyDollar` and `$0` lie in the stack; the round leaves
`yyS` as long as it was or twice as long, and it reads the tables and the stack in range: if
it panics, the panic is that of the lexer or that of the semantic action, whose `yyDollar` has
one element more than the production has symbols, and no action reads behind them. On
seventeen search parts the stack holds 19 elements after 84 rounds, in a slice of length
32. -/
theorem yyParse_in_range (mode : LexErrorMode) (lib : GoLib) (items : List LexItem)
    (o : QueryStringOptions) :
    (yyParse mode lib (parseFuel items) (newLexerWrapper items o) ≠ Run.outOfFuel ∧
      ∀ fuel, parseFuel items ≤ fuel →
        yyParse mode lib fuel (newLexerWrapper items o) =
          yyParse mode lib (parseFuel items) (newLexerWrapper items o)) ∧
      (ParseState.init (newLexerWrapper items o)).yyS.length = 16 ∧
      (∀ (n : Nat) (lbl : Label) (st : ParseState),
        roundsFrom mode lib n Label.yystack (ParseState.init (newLexerWrapper items o)) =
          some (lbl, st) →
        lbl = Label.yystack ∧ st.Errflag = 0 ∧ n + potential st ≤ 8 * items.length + 2 ∧
          (∀ m, yyParse mode lib (n + m) (newLexerWrapper items o) =
            parseLoop mode lib m lbl st) ∧
          (0 ≤ st.yystate ∧ st.yystate < 36) ∧ (∀ e ∈ st.below, 0 ≤ e.yys ∧ e.yys < 36) ∧
          (∃ j, st.yyS.length = yyInitialStackSize * 2 ^ j) ∧
          slots st.below st.above ≠ [] ∧
          (∀ (p : Int) (k : Nat),
            (index yyDef st.yystate = .ok p ∧ 0 < p) ∨ (st.yystate = 3 ∧ (p = 3 ∨ p = 5)) →
            index yyR2 p = .ok k → k ≤ st.below.length) ∧
          (∀ lbl1 st1, yyStep mode lib lbl st = Step.next lbl1 st1 →
            st1.yyS.length = st.yyS.length ∨ st1.yyS.length = 2 * st.yyS.length) ∧
          (yyStep mode lib lbl st).InRange mode lib st.yylex st.lval st.char
            ({ st.yyVAL with yys := st.yystate } :: st.below)) ∧
      (∀ (lx : lexerWrapper) (n : Int) (k : Nat) (ds ds1 : List yySymType) (v : yySymType),
        index yyR2 n = .ok k → ds.take (k + 1) = ds1.take (k + 1) →
        yyAction mode lib lx n ds v = yyAction mode lib lx n ds1 v) ∧
      ((∀ (n : Int) (nt : Int), 0 < n → index yyR2 n = .ok 0 → index yyR1 n = .ok nt →
          (n = 5 ∧ nt = 4) ∨ (n = 25 ∧ nt = 3)) ∧
        index yyPgo 4 = .ok 39 ∧ index yyPgo 3 = .ok 41 ∧
        (∀ top : Int, 0 ≤ top → yyGoto 4 39 top = .ok 4 ∧ yyGoto 3 41 top = .ok 13) ∧
        index yyPact 4 = .ok 30 ∧ index yyDef 4 = .ok 0 ∧
        index yyPact 13 = .ok (-1000) ∧ index yyDef 13 = .ok 4 ∧ index yyR2 4 = .ok 3) ∧
      ∃ st, roundsFrom LexErrorMode.records plainLib 84 Label.yystack
          (ParseState.init (newLexerWrapper manyItems DefaultOptions)) =
            some (Label.yystack, st) ∧
        st.below.length = 19 ∧ st.yyS.length = 32 := by
  have hpot : potential (ParseState.init (newLexerWrapper items o)) = 8 * items.length + 2 := by
    simp [potential, tokensLeft, ParseState.init, newLexerWrapper, rank, yyRank]
  have hfuel : ∀ fuel, parseFuel items ≤ fuel →
      parseLoop mode lib fuel Label.yystack (ParseState.init (newLexerWrapper items o)) ≠
        Run.outOfFuel := by
    intro fuel hf
    refine parseLoop_total mode lib fuel _ rfl ?_
    rw [hpot]
    unfold parseFuel at hf
    omega
  refine ⟨⟨hfuel _ (Nat.le_refl _), ?_⟩, rfl, ?_, ?_, ?_, ?_⟩
  · intro fuel hf
    exact parseLoop_fuel mode lib (parseFuel items) fuel Label.yystack _
      (hfuel _ (Nat.le_refl _)) (hfuel fuel hf)
  · intro n lbl st h
    obtain ⟨rfl, hi, hp⟩ := roundsFrom_inv mode lib n _ lbl st (init_inv _) h
    rw [hpot] at hp
    obtain ⟨hef, hv, j, hj⟩ := hi
    have hr := viable_range st.yystate (st.below.map (fun e => e.yys)) hv
    refine ⟨rfl, hef, hp, ?_, hr _ (List.mem_cons_self _ _), ?_, ⟨j, ?_⟩, ?_, ?_, ?_, ?_⟩
    · intro m
      exact parseLoop_rounds mode lib n m _ _ _ _ h
    · intro e he
      exact hr e.yys (List.mem_cons_of_mem _ (List.mem_map_of_mem (fun e => e.yys) he))
    · simp only [ParseState.yyS, List.length_append, List.length_reverse]
      exact hj
    · refine slots_ne_nil _ _ ?_
      by_contra hcon
      simp only [not_or, not_not] at hcon
      rw [hcon.1, hcon.2] at hj
      simp [yyInitialStackSize] at hj
    · intro p k hp1 hk
      have hc : ∃ nt yyg, index yyPgo nt = .ok yyg ∧ canReduce nt k st.yystate = true := by
        rcases hp1 with ⟨hd, hpos⟩ | ⟨h3, rfl | rfl⟩
        · obtain ⟨k1, nt, yyg, hk1, _, hg, hc⟩ := canReduce_def st.yystate p hd hpos
          rw [hk] at hk1
          cases hk1
          exact ⟨nt, yyg, hg, hc⟩
        · cases hk
          exact ⟨6, 28, rfl, by rw [h3]; exact canReduce_exca.1⟩
        · cases hk
          exact ⟨4, 39, rfl, by rw [h3]; exact canReduce_exca.2⟩
      obtain ⟨nt, yyg, hg, hc⟩ := hc
      have := (canReduce_sound nt yyg hg k ({ st.yyVAL with yys := st.yystate } :: st.below)
        hv (fun s hs => by
          simp only [List.map_cons, List.head?_cons, Option.some.injEq] at hs
          rw [← hs]
          exact hc)).1
      simp only [List.length_cons] at this
      omega
    · intro lbl1 st1 hs
      have hk := (yystack_safe mode lib st ⟨hef, hv, j, hj⟩).1
      simp only [yyStep] at hs
      rw [hs] at hk
      exact hk.2.2
    · exact (yystack_safe mode lib st ⟨hef, hv, j, hj⟩).2
  · intro lx n k ds ds1 v hk h
    exact yyAction_reads mode lib lx n k ds ds1 v hk h
  · refine ⟨?_, rfl, rfl, yyGoto_empty, rfl, rfl, rfl, rfl, rfl⟩
    intro n nt hn hk hnt
    obtain ⟨_, h1⟩ := index_ok yyR2 n 0 hk
    have h2 : n < 29 := h1
    interval_cases n <;> simp [index, yyR2, yyR1] at hk hnt ⊢ <;> omega
  · exact ⟨_, rfl, rfl, rfl⟩

/-! ## The search parts of the plain terms -/

theorem queryStringStringToken_plain (l : lexerWrapper) (field s : String) (q : Query)
    (h : queryStringStringToken l field s = .ok q) (hq : isBareMatch q = true) :
    field = "" ∧ q = Query.MatchQuery s "" none 0 MatchQueryOperator.MatchQueryOperatorAnd := by
  unfold queryStringStringToken at h
  split_ifs at h
  · cases hs : sliceInner s with
    | error p => simp [hs] at h
    | ok inner =>
      simp [hs, Query.SetField] at h
      subst h
      cases hq
  all_goals
    simp [Query.SetField, NewNumericRangeInclusiveQuery, NewMatchQuery, Query.SetOperator] at h
    subst h
    first
      | cases hq
      | (simp [isBareMatch] at hq; subst hq; exact ⟨rfl, rfl⟩)

theorem queryStringStringTokenFuzzy_plain (lib : GoLib) (field s z : String) (q : Query)
    (h : queryStringStringTokenFuzzy lib field s z = .ok q) (hq : isBareMatch q = true) :
    field = "" ∧ (∃ v, ParseFloat lib z = .ok v ∧ v.toInt lib = 0) ∧
      q = Query.MatchQuery s "" none 0 MatchQueryOperator.MatchQueryOperatorOr := by
  unfold queryStringStringTokenFuzzy at h
  cases hp : ParseFloat lib z with
  | error e => simp [hp] at h
  | ok v =>
    simp [hp, NewMatchQuery, Query.SetFuzziness, Query.SetField] at h
    subst h
    simp [isBareMatch] at hq
    obtain ⟨hf, h0⟩ := hq
    subst hf
    exact ⟨rfl, ⟨v, rfl, h0⟩, by rw [h0]⟩

/-- The clauses that give a match query with the empty field and fuzziness 0, with that
query. -/
theorem searchBase_termClause (lib : GoLib) (o : QueryStringOptions) (ts : List LexItem)
    (q : Query) (h : SearchBase lib o ts q) (hq : isBareMatch q = true) :
    TermClause lib o ts q := by
  cases h with
  | string s q h =>
    obtain ⟨_, rfl⟩ := queryStringStringToken_plain _ _ s q h hq
    exact TermClause.bare s
  | fuzzy s n q h =>
    obtain ⟨_, ⟨v, hv, h0⟩, rfl⟩ := queryStringStringTokenFuzzy_plain lib _ s n q h hq
    exact TermClause.fuzzyZero s n v hv h0
  | fieldFuzzy f c s n q h =>
    obtain ⟨hf, ⟨v, hv, h0⟩, rfl⟩ := queryStringStringTokenFuzzy_plain lib _ s n q h hq
    exact TermClause.emptyFieldFuzzyZero f c s n v hf hv h0
  | number s q h =>
    rw [queryStringNumberToken_not_bareMatch lib _ s q h] at hq
    cases hq
  | phrase s =>
    rw [queryStringPhraseToken_not_bareMatch] at hq
    cases hq
  | fieldString f c s q h =>
    obtain ⟨hf, rfl⟩ := queryStringStringToken_plain _ _ s q h hq
    exact TermClause.emptyField f c s hf
  | fieldNumber f c ts s q hn h =>
    rw [queryStringNumberToken_not_bareMatch lib _ s q h] at hq
    cases hq
  | fieldPhrase f c s =>
    rw [queryStringPhraseToken_not_bareMatch] at hq
    cases hq
  | greater f c g ts s q hn h =>
    rw [numericRangeGreater_not_bareMatch lib _ s _ q h] at hq
    cases hq
  | greaterEqual f c g e ts s q hn h =>
    rw [numericRangeGreater_not_bareMatch lib _ s _ q h] at hq
    cases hq
  | less f c g ts s q hn h =>
    rw [numericRangeLess_not_bareMatch lib _ s _ q h] at hq
    cases hq
  | lessEqual f c g e ts s q hn h =>
    rw [numericRangeLess_not_bareMatch lib _ s _ q h] at hq
    cases hq
  | greaterDate f c g p q h =>
    rw [dateRangeGreater_not_bareMatch lib _ _ p _ q h] at hq
    cases hq
  | greaterEqualDate f c g e p q h =>
    rw [dateRangeGreater_not_bareMatch lib _ _ p _ q h] at hq
    cases hq
  | lessDate f c g p q h =>
    rw [dateRangeLess_not_bareMatch lib _ _ p _ q h] at hq
    cases hq
  | lessEqualDate f c g e p q h =>
    rw [dateRangeLess_not_bareMatch lib _ _ p _ q h] at hq
    cases hq

/-- The tokens of a clause of `TermClause` are STRING, COLON and TILDE tokens. -/
theorem termClause_tokens (lib : GoLib) (o : QueryStringOptions) (ts : List LexItem)
    (q : Query) (h : TermClause lib o ts q) (k : TokKind) (s : String)
    (hm : LexItem.tok k s ∈ ts) :
    k = TokKind.tSTRING ∨ k = TokKind.tCOLON ∨ k = TokKind.tTILDE := by
  cases h <;> simp at hm <;> tauto

/-- The tokens of a prefix are QUESTION, PLUS and MINUS tokens. -/
theorem searchLead_tokens (ts : List LexItem) (n : Int) (h : SearchLead ts n) (k : TokKind)
    (s : String) (hm : LexItem.tok k s ∈ ts) :
    k = TokKind.tQUESTION ∨ k = TokKind.tPLUS ∨ k = TokKind.tMINUS := by
  cases h <;> simp at hm <;> simp [hm.1]

/-- The token of a suffix is a BOOST. -/
theorem searchSuffix_tokens (lib : GoLib) (ts : List LexItem) (pf : Option Float64)
    (h : SearchSuffix lib ts pf) (k : TokKind) (s : String) (hm : LexItem.tok k s ∈ ts) :
    k = TokKind.tBOOST := by
  cases h with
  | absent => simp at hm
  | boost t b hb =>
    simp at hm
    exact hm.1

/-- A search part whose clause passes the plain-term test, by its pieces. -/
theorem searchPart_plain (lib : GoLib) (o : QueryStringOptions) (ts : List LexItem) (n : Int)
    (q : Query) (h : SearchPart lib o ts n q) (hp : isPlainTerm q = true) :
    ∃ (ts1 ts2 ts3 : List LexItem) (text : String) (op : MatchQueryOperator)
        (pf : Option Float64),
      ts = ts1 ++ (ts2 ++ ts3) ∧ SearchLead ts1 n ∧
      SearchBase lib o ts2 (Query.MatchQuery text "" none 0 op) ∧
      TermClause lib o ts2 (Query.MatchQuery text "" none 0 op) ∧
      SearchSuffix lib ts3 pf ∧ boostValue pf = Float64.ofNat 1 ∧
      q = Query.MatchQuery text "" pf 0 op := by
  cases h with
  | mk ts1 ts2 ts3 n q0 pf q1 hlead hbase hsuf hboost =>
    obtain ⟨hb, hv⟩ := boosted_plain q0 q pf hboost hp
    have htc := searchBase_termClause lib o ts2 q0 hbase hb
    have hq0 : ∃ text op, q0 = Query.MatchQuery text "" none 0 op := by
      cases htc <;> exact ⟨_, _, rfl⟩
    obtain ⟨text, op, rfl⟩ := hq0
    refine ⟨ts1, ts2, ts3, text, op, pf, rfl, hlead, hbase, htc, hsuf, hv, ?_⟩
    cases pf with
    | none => exact hboost
    | some b =>
      have e : queryStringSetBoost (Query.MatchQuery text "" none 0 op) b = .ok (.ok q) :=
        hboost
      simp [queryStringSetBoost] at e
      exact e.symm

/-- The clause at a place of the list of a role is the clause of a part of that role, and the
parts before it give the clauses before it. -/
theorem clausesOf_index (role : Int) (parts : List (List LexItem × Int × Query)) :
    ∀ (i : Nat) (q : Query), (clausesOf role (parts.map Prod.snd))[i]? = some q →
      ∃ pre p post, parts = pre ++ p :: post ∧
        (clausesOf role (pre.map Prod.snd)).length = i ∧ p.2.1 = role ∧ p.2.2 = q := by
  induction parts with
  | nil =>
    intro i q h
    simp [clausesOf] at h
  | cons a rest ih =>
    intro i q h
    by_cases ha : a.2.1 = role
    · have e : clausesOf role ((a :: rest).map Prod.snd) =
          a.2.2 :: clausesOf role (rest.map Prod.snd) := by
        simp [clausesOf, ha]
      rw [e] at h
      cases i with
      | zero =>
        simp at h
        exact ⟨[], a, rest, rfl, by simp [clausesOf], ha, h⟩
      | succ i =>
        simp at h
        obtain ⟨pre, p, post, he, hlen, hr, hq⟩ := ih i q h
        refine ⟨a :: pre, p, post, by simp [he], ?_, hr, hq⟩
        have e1 : clausesOf role ((a :: pre).map Prod.snd) =
            a.2.2 :: clausesOf role (pre.map Prod.snd) := by
          simp [clausesOf, ha]
        rw [e1, List.length_cons, hlen]
    · have e : clausesOf role ((a :: rest).map Prod.snd) =
          clausesOf role (rest.map Prod.snd) := by
        simp [clausesOf, ha]
      rw [e] at h
      obtain ⟨pre, p, post, he, hlen, hr, hq⟩ := ih i q h
      refine ⟨a :: pre, p, post, by simp [he], ?_, hr, hq⟩
      have e1 : clausesOf role ((a :: pre).map Prod.snd) =
          clausesOf role (pre.map Prod.snd) := by
        simp [clausesOf, ha]
      rw [e1, hlen]

/-- Claim C29, amended. A parse without an error has read a list of search parts, whose
clauses of the role Must are the Must list in order, and every clause of the Must list that
the coalescer treats as a plain term is the clause of one of these parts, at its place, which
is as `PlainOrigin` says: the part has no prefix or the prefix PLUS; its clause is a STRING
alone, a STRING with a TILDE whose payload gives the fuzziness 0 (as in `text~0`), or one of
these behind a field whose name resolves to the empty name; and it has no BOOST or a BOOST
whose payload parses to 1.0. No search part that holds a NUMBER, a PHRASE or a comparison
gives a clause that passes the plain-term test, whatever its role and its boost, while the
fuzzy production with a payload that gives the fuzziness 0 always does. -/
theorem plain_term_origin (mode : LexErrorMode) (lib : GoLib) (fuel : Nat)
    (items : List LexItem) (o : QueryStringOptions) (lex : lexerWrapper)
    (h : doParse mode lib fuel (newLexerWrapper items o) = some lex) (hl : lex.errs = []) :
    (∃ parts : List (List LexItem × Int × Query), parts ≠ [] ∧
      (∀ p ∈ parts, SearchPart lib o p.1 p.2.1 p.2.2) ∧
      items = (parts.map Prod.fst).flatten ∧
      lex.query.musts = clausesOf queryMust (parts.map Prod.snd) ∧
      ∀ (i : Nat) (q : Query), lex.query.musts[i]? = some q → isPlainTerm q = true →
        ∃ pre p post, parts = pre ++ p :: post ∧
          (clausesOf queryMust (pre.map Prod.snd)).length = i ∧
          p.2.1 = queryMust ∧ p.2.2 = q ∧ PlainOrigin lib o p.1 q) ∧
      (∀ (ts : List LexItem) (n : Int) (q : Query), SearchPart lib o ts n q →
        ∀ (k : TokKind) (s : String), LexItem.tok k s ∈ ts →
          k = TokKind.tNUMBER ∨ k = TokKind.tPHRASE ∨ k = TokKind.tGREATER ∨
            k = TokKind.tLESS →
          isPlainTerm q = false) ∧
      ∀ (s z : String) (v : Float64), ParseFloat lib z = .ok v → v.toInt lib = 0 →
        SearchPart lib o [LexItem.tok TokKind.tSTRING s, LexItem.tok TokKind.tTILDE z]
            queryMust
            (Query.MatchQuery s "" none 0 MatchQueryOperator.MatchQueryOperatorOr) ∧
          isPlainTerm (Query.MatchQuery s "" none 0 MatchQueryOperator.MatchQueryOperatorOr) =
            true := by
  refine ⟨?_, ?_, ?_⟩
  · obtain ⟨cs, hcs, hm, _, _⟩ := doParse_lists mode lib fuel items o lex h hl
    obtain ⟨parts, hne, hall, hitems, rfl⟩ := searchParts_list lib o items cs hcs
    refine ⟨parts, hne, hall, hitems, hm, ?_⟩
    intro i q hi hp
    rw [hm] at hi
    obtain ⟨pre, p, post, he, hlen, hr, hq⟩ := clausesOf_index queryMust parts i q hi
    refine ⟨pre, p, post, he, hlen, hr, hq, ?_⟩
    have hpart := hall p (by rw [he]; simp)
    rw [hr, hq] at hpart
    obtain ⟨ts1, ts2, ts3, text, op, pf, e, hlead, hbase, htc, hsuf, hv, hqe⟩ :=
      searchPart_plain lib o p.1 queryMust q hpart hp
    refine ⟨ts1, ts2, ts3, text, op, pf, e, ?_, hbase, htc, ?_, hqe⟩
    · generalize hn : queryMust = n at hlead
      cases hlead with
      | absent => exact Or.inl rfl
      | question s => exact absurd hn (by decide)
      | plus s => exact Or.inr ⟨s, rfl⟩
      | minus s => exact absurd hn (by decide)
    · cases hsuf with
      | absent => exact Or.inl ⟨rfl, rfl⟩
      | boost s b hb =>
        have hb1 : b = Float64.ofNat 1 := hv
        subst hb1
        exact Or.inr ⟨s, rfl, hb, rfl⟩
  · intro ts n q hpart k s hmem hk
    cases hq : isPlainTerm q with
    | false => rfl
    | true =>
      exfalso
      obtain ⟨ts1, ts2, ts3, text, op, pf, e, hlead, hbase, htc, hsuf, hv, hqe⟩ :=
        searchPart_plain lib o ts n q hpart hq
      rw [e, List.mem_append, List.mem_append] at hmem
      rcases hmem with hmem | hmem | hmem
      · have := searchLead_tokens ts1 n hlead k s hmem
        rcases hk with rfl | rfl | rfl | rfl <;> simp at this
      · have := termClause_tokens lib o ts2 _ htc k s hmem
        rcases hk with rfl | rfl | rfl | rfl <;> simp at this
      · have := searchSuffix_tokens lib ts3 pf hsuf k s hmem
        rcases hk with rfl | rfl | rfl | rfl <;> simp at this
  · intro s z v hv h0
    refine ⟨?_, by simp [isPlainTerm, boostValue]⟩
    have hb : SearchBase lib o [LexItem.tok TokKind.tSTRING s, LexItem.tok TokKind.tTILDE z]
        (Query.MatchQuery s "" none 0 MatchQueryOperator.MatchQueryOperatorOr) :=
      SearchBase.fuzzy s z _ (by
        simp [queryStringStringTokenFuzzy, hv, h0, NewMatchQuery, Query.SetFuzziness,
          Query.SetField])
    exact SearchPart.mk [] _ [] queryMust _ none _ SearchLead.absent hb SearchSuffix.absent rfl

/-- Claim C29, amended, on `a~0 b`, whose two clauses are plain terms: the first comes from
the fuzzy production with the payload 0. -/
theorem plain_term_origin_witness :
    doParse LexErrorMode.records plainLib (parseFuel fuzzyZeroItems)
        (newLexerWrapper fuzzyZeroItems DefaultOptions) = some fuzzyZeroResult ∧
      fuzzyZeroResult.errs = [] ∧
      (∃ parts : List (List LexItem × Int × Query), parts ≠ [] ∧
        (∀ p ∈ parts, SearchPart plainLib DefaultOptions p.1 p.2.1 p.2.2) ∧
        fuzzyZeroItems = (parts.map Prod.fst).flatten ∧
        fuzzyZeroResult.query.musts = clausesOf queryMust (parts.map Prod.snd) ∧
        ∀ (i : Nat) (q : Query), fuzzyZeroResult.query.musts[i]? = some q →
          isPlainTerm q = true →
          ∃ pre p post, parts = pre ++ p :: post ∧
            (clausesOf queryMust (pre.map Prod.snd)).length = i ∧
            p.2.1 = queryMust ∧ p.2.2 = q ∧ PlainOrigin plainLib DefaultOptions p.1 q) ∧
      (∀ (ts : List LexItem) (n : Int) (q : Query), SearchPart plainLib DefaultOptions ts n q →
        ∀ (k : TokKind) (s : String), LexItem.tok k s ∈ ts →
          k = TokKind.tNUMBER ∨ k = TokKind.tPHRASE ∨ k = TokKind.tGREATER ∨
            k = TokKind.tLESS →
          isPlainTerm q = false) ∧
      ∀ (s z : String) (v : Float64), ParseFloat plainLib z = .ok v → v.toInt plainLib = 0 →
        SearchPart plainLib DefaultOptions
            [LexItem.tok TokKind.tSTRING s, LexItem.tok TokKind.tTILDE z] queryMust
            (Query.MatchQuery s "" none 0 MatchQueryOperator.MatchQueryOperatorOr) ∧
          isPlainTerm (Query.MatchQuery s "" none 0 MatchQueryOperator.MatchQueryOperatorOr) =
            true :=
  ⟨rfl, rfl,
    plain_term_origin LexErrorMode.records plainLib (parseFuel fuzzyZeroItems) fuzzyZeroItems
      DefaultOptions fuzzyZeroResult rfl rfl⟩

end QueryString
